import Mathlib

/-!
# dfplayer: TCL renderer

A shallow embedding of `dfplayer/tcl_renderer.cc` (the LED layout map, the
image to strand pipeline, the wire frame encoder, the auto-reset watchdog and
the work queue of the renderer) together with the properties proved about it.

Conventions of the embedding:

* `STRAND_COUNT` and `STRAND_LENGTH` are compile-time constants declared in
  `tcl_renderer.h`; the definitions take them as explicit arguments.
* a fixed-size C array (`colors[s][i]`, `x_[s][k]`, `usage[pos]`, ...) is a
  total function from its index to its element; a `std::vector` is a `List`.
* `uint8_t` / `uint32_t` / `uint64_t` values are natural numbers, reduced
  modulo `2^8` / `2^32` / `2^64` at the places where the C code can wrap;
  `int` pixel coordinates are integers.
* a counted `for (int i = 0; i < n; ++i)` loop is `forLoop n body`.
-/

set_option autoImplicit false

namespace DfPlayer

/-! ## Loops -/

/-- Counted loop: runs `body 0`, `body 1`, ..., `body (n-1)` on the state. -/
def forLoop {σ : Type} (n : Nat) (body : Nat → σ → σ) (init : σ) : σ :=
  (List.range n).foldl (fun st i => body i st) init

/-! ## Images and strands -/

/-- Modelled from the spec: `RgbaImage` (declared in a header that is not part
of the sources): width, height and row-major 8-bit RGBA data, 4 bytes per
pixel. The empty image has no data. -/
structure RgbaImage where
  data : List Nat
  width : Int
  height : Int
deriving DecidableEq, Repr

/-- The empty image, as built by the default constructor and by `Clear`. -/
def RgbaImage.empty : RgbaImage := ⟨[], 0, 0⟩

/-- The method `IsEmpty` of the image. -/
def RgbaImage.IsEmpty (img : RgbaImage) : Bool := img.data.isEmpty

/-- The struct `Strands`: `colors[s]` is a buffer of `STRAND_LENGTH * 4`
bytes (one RGBA or HLSA record per LED) and `lengths[s]` the number of LEDs
of strand `s`. -/
structure Strands where
  colors : Nat → Nat → Nat
  lengths : Nat → Nat
  led_image : RgbaImage

/-- The constructor `Strands()`: all lengths are zero. The colour buffers are
not initialised by the source; the model starts them at zero. -/
def Strands.new : Strands :=
  { colors := fun _ _ => 0, lengths := fun _ => 0, led_image := RgbaImage.empty }

/-! ## Strand to wire encoding -/

/-- One pass of the `for` over strands inside `BuildFrameColorSeq`: strand
`strand_id` contributes bit `strand_id` of `dst_byte` (a `uint8_t`, hence the
reduction modulo 256) when it has the LED and the colour byte has the masked
bit set. The shift `1 << strand_id` is an `int` shift in the source, which the
model shares for strand ids below 31. -/
def BuildFrameColorSeq.strandStep (strands : Strands)
    (led_id color_component color_bit_mask strand_id dst_byte : Nat) : Nat :=
  if led_id ≥ strands.lengths strand_id then dst_byte
  else
    let color := strands.colors strand_id (led_id * 4 + color_component)
    if color &&& color_bit_mask ≠ 0 then (dst_byte ||| (1 <<< strand_id)) % 256
    else dst_byte

/-- The `while (color_bit_mask > 0)` loop of `BuildFrameColorSeq`; `dst` holds
the bytes written so far (`dst[0 .. pos)`). -/
def BuildFrameColorSeq.loop (STRAND_COUNT : Nat) (strands : Strands)
    (led_id color_component : Nat) (color_bit_mask : Nat) (dst : List Nat) : List Nat :=
  if h : color_bit_mask > 0 then
    let dst_byte :=
      forLoop STRAND_COUNT
        (BuildFrameColorSeq.strandStep strands led_id color_component color_bit_mask) 0
    BuildFrameColorSeq.loop STRAND_COUNT strands led_id color_component
      (color_bit_mask >>> 1) (dst ++ [dst_byte])
  else dst
termination_by color_bit_mask
decreasing_by
  simp only [Nat.shiftRight_eq_div_pow]
  exact Nat.div_lt_self h (by norm_num)

/-- `TclController::BuildFrameColorSeq`: the bytes written to `dst`; the
returned `pos` is the length of this list (see `BuildFrameColorSeq_length`
for the `CHECK(pos == 8)`). -/
def BuildFrameColorSeq (STRAND_COUNT : Nat) (strands : Strands)
    (led_id color_component : Nat) : List Nat :=
  BuildFrameColorSeq.loop STRAND_COUNT strands led_id color_component 0x80 []

/-- First loop of `ConvertStrandsToFrame`: the frame before the `0x2C`
offset is added. -/
def ConvertStrandsToFrame.raw (STRAND_COUNT STRAND_LENGTH : Nat) (strands : Strands) :
    List Nat :=
  forLoop STRAND_LENGTH
    (fun led_id result =>
      result ++ BuildFrameColorSeq STRAND_COUNT strands led_id 2
        ++ BuildFrameColorSeq STRAND_COUNT strands led_id 1
        ++ BuildFrameColorSeq STRAND_COUNT strands led_id 0)
    []

/-- The macro `FRAME_DATA_LEN`. -/
def FRAME_DATA_LEN (STRAND_LENGTH : Nat) : Nat := STRAND_LENGTH * 8 * 3

/-- `TclController::ConvertStrandsToFrame`: the raw frame, then
`result[i] = (result[i] + 0x2C) & 0xFF` for every `i < FRAME_DATA_LEN`. -/
def ConvertStrandsToFrame (STRAND_COUNT STRAND_LENGTH : Nat) (strands : Strands) :
    List Nat :=
  forLoop (FRAME_DATA_LEN STRAND_LENGTH)
    (fun i result => result.set i ((result.getD i 0 + 0x2C) &&& 0xFF))
    (ConvertStrandsToFrame.raw STRAND_COUNT STRAND_LENGTH strands)

/-! ## Specification-level quantities of the wire encoder -/

/-- The weight that strand `s` adds to the bit plane `b` of component `c` of
LED `k`. -/
def planeTerm (strands : Strands) (k c b s : Nat) : Nat :=
  if k < strands.lengths s ∧ (strands.colors s (k * 4 + c)).testBit b = true then 2 ^ s else 0

/-- The sum of the strand weights of one bit plane. -/
def planeSum (STRAND_COUNT : Nat) (strands : Strands) (k c b : Nat) : Nat :=
  ∑ s in Finset.range STRAND_COUNT, planeTerm strands k c b s


/-- The strand set of the single-strand scenario: strand 0 has one LED whose
R byte is 0x80 (alpha 255); every other byte is zero. -/
def scenarioStrands : Strands :=
  { colors := fun s i => if s = 0 ∧ i = 0 then 0x80 else if s = 0 ∧ i = 3 then 255 else 0,
    lengths := fun s => if s = 0 then 1 else 0,
    led_image := RgbaImage.empty }


/-! ## Layout and layout map -/

/-- The struct `Coord`: a pixel coordinate. -/
structure Coord where
  x_ : Int
  y_ : Int
deriving DecidableEq, Repr

/-- The class `Layout`: the configured coordinates `x_[s][k]`, `y_[s][k]` of
the LEDs of every strand and the strand lengths. -/
structure Layout where
  x_ : Nat → Nat → Int
  y_ : Nat → Nat → Int
  lengths_ : Nat → Nat

/-- The struct `LayoutMap::HdrSibling`. -/
structure HdrSibling where
  strand_id_ : Nat
  led_id_ : Nat
deriving DecidableEq, Repr

/-- The struct `LayoutMap`: per LED the sampled pixel coordinates and the HDR
siblings, and the strand lengths. -/
structure LayoutMap where
  coords_ : Nat → Nat → List Coord
  hdr_siblings_ : Nat → Nat → List HdrSibling
  lengths_ : Nat → Nat

/-- The constructor `LayoutMap()`: empty vectors, zero lengths. -/
def LayoutMap.new : LayoutMap :=
  { coords_ := fun _ _ => [], hdr_siblings_ := fun _ _ => [], lengths_ := fun _ => 0 }

/-- `LayoutMap::AddCoord`: `coords_[strand_id][led_id].push_back(Coord(x, y))`. -/
def LayoutMap.AddCoord (m : LayoutMap) (strand_id led_id : Nat) (x y : Int) : LayoutMap :=
  { m with coords_ := fun s k =>
      if s = strand_id ∧ k = led_id then m.coords_ s k ++ [⟨x, y⟩] else m.coords_ s k }

/-- `LayoutMap::AddHdrSibling`:
`hdr_siblings_[strand_id][led_id].push_back(HdrSibling(strand_id2, led_id2))`. -/
def LayoutMap.AddHdrSibling (m : LayoutMap) (strand_id led_id strand_id2 led_id2 : Nat) :
    LayoutMap :=
  { m with hdr_siblings_ := fun s k =>
      if s = strand_id ∧ k = led_id then m.hdr_siblings_ s k ++ [⟨strand_id2, led_id2⟩]
      else m.hdr_siblings_ s k }

/-- The struct `PixelUsage`. -/
structure PixelUsage where
  in_use : Bool
  is_primary : Bool
  strand_id : Nat
  led_id : Nat
deriving DecidableEq, Repr

/-- The state that the layout loops work on: the layout map under
construction and the `usage` array (indexed by `y * w + x`). -/
abbrev LayoutState := LayoutMap × (Int → PixelUsage)

/-- The static function `AddCoord`: claims pixel `(x, y)` for the LED unless
it is outside the image or already in use. -/
def AddCoord (st : LayoutState) (strand_id led_id : Nat) (x y w h : Int) : LayoutState :=
  if x < 0 ∨ x ≥ w ∨ y < 0 ∨ y ≥ h ∨ (st.2 (y * w + x)).in_use = true then st
  else
    let layout := st.1.AddCoord strand_id led_id x y
    let pos := y * w + x
    let usage : Int → PixelUsage := fun p =>
      if p = pos then
        { strand_id := strand_id, led_id := led_id, in_use := true, is_primary := true }
      else st.2 p
    (layout, usage)

/-- The static function `CopyCoord`: its body after the guard is commented
out in the source, so both branches leave the state as it is. -/
def CopyCoord (st : LayoutState) (x y w h x_src y_src : Int) : LayoutState :=
  let pos_dst := y * w + x
  if x_src < 0 ∨ x_src ≥ w ∨ y_src < 0 ∨ y_src ≥ h ∨
      (st.2 (y_src * w + x_src)).is_primary = false ∨ (st.2 pos_dst).in_use = true then st
  else st

/-- Body of the LED loop of `PopulateLayoutMap`: the nine `AddCoord` calls. -/
def PopulateLayoutMap.ledBody (layout : Layout) (width_ height_ : Int)
    (strand_id led_id : Nat) (st : LayoutState) : LayoutState :=
  let x := layout.x_ strand_id led_id
  let y := layout.y_ strand_id led_id
  let st := AddCoord st strand_id led_id x y width_ height_
  let st := AddCoord st strand_id led_id (x - 1) (y - 1) width_ height_
  let st := AddCoord st strand_id led_id (x - 1) y width_ height_
  let st := AddCoord st strand_id led_id (x - 1) (y + 1) width_ height_
  let st := AddCoord st strand_id led_id (x + 1) (y - 1) width_ height_
  let st := AddCoord st strand_id led_id (x + 1) y width_ height_
  let st := AddCoord st strand_id led_id (x + 1) (y + 1) width_ height_
  let st := AddCoord st strand_id led_id x (y - 1) width_ height_
  let st := AddCoord st strand_id led_id x (y + 1) width_ height_
  st

/-- Body of the strand loop of `PopulateLayoutMap`. -/
def PopulateLayoutMap.strandBody (layout : Layout) (width_ height_ : Int)
    (strand_id : Nat) (st : LayoutState) : LayoutState :=
  let len := layout.lengths_ strand_id
  let st : LayoutState :=
    ({ st.1 with lengths_ := fun s => if s = strand_id then len else st.1.lengths_ s }, st.2)
  forLoop len (fun led_id st => PopulateLayoutMap.ledBody layout width_ height_ strand_id led_id st) st

/-- Body of the pixel loop of `PopulateLayoutMap`: the eight `CopyCoord`
calls for pixel `(x, y)`. -/
def PopulateLayoutMap.copyBody (width_ height_ : Int) (x y : Int) (st : LayoutState) :
    LayoutState :=
  let st := CopyCoord st x y width_ height_ (x - 1) (y - 1)
  let st := CopyCoord st x y width_ height_ (x - 1) y
  let st := CopyCoord st x y width_ height_ (x - 1) (y + 1)
  let st := CopyCoord st x y width_ height_ (x + 1) (y - 1)
  let st := CopyCoord st x y width_ height_ (x + 1) y
  let st := CopyCoord st x y width_ height_ (x + 1) (y + 1)
  let st := CopyCoord st x y width_ height_ x (y - 1)
  let st := CopyCoord st x y width_ height_ x (y + 1)
  st

/-- The value that a C `int` holds after an arithmetic operation whose exact
result is `z`: the result modulo 2^32, taken in the range -2^31 .. 2^31 - 1
(two's complement, which is how the compiled code behaves on overflow). -/
def wrap32 (z : Int) : Int := (z + 2147483648) % 4294967296 - 2147483648

/-- The constant `kHdrSiblingsDistance`. -/
def kHdrSiblingsDistance : Int := 13

/-- The HDR sibling loops of `PopulateLayoutMap`. The differences, their
squares and the sum `distance2` are C `int` values, so each operation wraps
to 32 bits. -/
def PopulateLayoutMap.hdrLoop (STRAND_COUNT : Nat) (layout : Layout) (layout_ : LayoutMap) :
    LayoutMap :=
  let max_distance2 := kHdrSiblingsDistance * kHdrSiblingsDistance
  forLoop STRAND_COUNT (fun strand_id1 m =>
    forLoop (layout.lengths_ strand_id1) (fun led_id1 m =>
      let x1 := layout.x_ strand_id1 led_id1
      let y1 := layout.y_ strand_id1 led_id1
      forLoop STRAND_COUNT (fun strand_id2 m =>
        forLoop (layout.lengths_ strand_id2) (fun led_id2 m =>
          let x_d := wrap32 (layout.x_ strand_id2 led_id2 - x1)
          let y_d := wrap32 (layout.y_ strand_id2 led_id2 - y1)
          let distance2 := wrap32 (wrap32 (x_d * x_d) + wrap32 (y_d * y_d))
          if distance2 < max_distance2 then
            m.AddHdrSibling strand_id1 led_id1 strand_id2 led_id2
          else m) m) m) m) layout_

/-- `TclController::PopulateLayoutMap`, run on the controller fields
`width_`, `height_` and `layout_`: claims the pixels of every LED, runs the
(effect-free) `CopyCoord` pass over all pixels, then collects the HDR
siblings. The `usage` array starts zeroed by `memset`. -/
def PopulateLayoutMap (STRAND_COUNT : Nat) (width_ height_ : Int) (layout_ : LayoutMap)
    (layout : Layout) : LayoutMap :=
  let usage : Int → PixelUsage := fun _ =>
    { in_use := false, is_primary := false, strand_id := 0, led_id := 0 }
  let st : LayoutState :=
    forLoop STRAND_COUNT (PopulateLayoutMap.strandBody layout width_ height_) (layout_, usage)
  let st : LayoutState :=
    forLoop width_.toNat (fun x st =>
      forLoop height_.toNat (fun y st =>
        PopulateLayoutMap.copyBody width_ height_ (x : Int) (y : Int) st) st) st
  PopulateLayoutMap.hdrLoop STRAND_COUNT layout st.1

/-- The nine pixels that `PopulateLayoutMap` tries for an LED at `(x, y)`, in
the order of the nine `AddCoord` calls. -/
def neighbourhood (x y : Int) : List Coord :=
  [⟨x, y⟩, ⟨x - 1, y - 1⟩, ⟨x - 1, y⟩, ⟨x - 1, y + 1⟩, ⟨x + 1, y - 1⟩, ⟨x + 1, y⟩,
   ⟨x + 1, y + 1⟩, ⟨x, y - 1⟩, ⟨x, y + 1⟩]

/-- Pixel `p` lies inside the `w` x `h` image. -/
def inImage (w h : Int) (p : Coord) : Prop :=
  0 ≤ p.x_ ∧ p.x_ < w ∧ 0 ≤ p.y_ ∧ p.y_ < h

instance (w h : Int) (p : Coord) : Decidable (inImage w h p) := by
  unfold inImage; infer_instance

/-- LED `(s2, k2)` is processed before LED `(s1, k1)` by the strand and LED
loops: lower strand id, or same strand and lower LED index. -/
def earlier (s2 k2 s1 k1 : Nat) : Prop := s2 < s1 ∨ (s2 = s1 ∧ k2 < k1)

instance (s2 k2 s1 k1 : Nat) : Decidable (earlier s2 k2 s1 k1) := by
  unfold earlier; infer_instance

/-- Index of pixel `p` in the `usage` array of an image of width `w`. -/
def pixelPos (w : Int) (p : Coord) : Int := p.y_ * w + p.x_

/-- A run of `AddCoord` calls for one LED over a list of pixels. -/
def addAll (w h : Int) (s k : Nat) (ps : List Coord) (st : LayoutState) : LayoutState :=
  ps.foldl (fun st p => AddCoord st s k p.x_ p.y_ w h) st

/-- The LEDs already handled when the strand loop is at strand `i` and the
LED loop at LED `j`. -/
def processed (layout : Layout) (i j : Nat) (s k : Nat) : Prop :=
  (s < i ∧ k < layout.lengths_ s) ∨ (s = i ∧ k < j)

/-- Invariant of the claiming loops of `PopulateLayoutMap`, for the set `P`
of LEDs handled so far: an LED not yet handled has no pixels; the pixels of a
handled LED are the pixels of its neighbourhood, in order, that are inside
the image and belong to no earlier LED; a pixel is in use exactly when some
LED has it. -/
structure LayoutInv (layout : Layout) (w h : Int) (P : Nat → Nat → Prop)
    (st : LayoutState) : Prop where
  unproc : ∀ s k, ¬ P s k → st.1.coords_ s k = []
  sub : ∀ s k, P s k →
    List.Sublist (st.1.coords_ s k) (neighbourhood (layout.x_ s k) (layout.y_ s k))
  mem : ∀ s k, P s k → ∀ p, p ∈ st.1.coords_ s k ↔
    (p ∈ neighbourhood (layout.x_ s k) (layout.y_ s k) ∧ inImage w h p ∧
      ∀ s2 k2, earlier s2 k2 s k → p ∉ st.1.coords_ s2 k2)
  use : ∀ q, (st.2 q).in_use = true ↔ ∃ s k p, p ∈ st.1.coords_ s k ∧ q = pixelPos w p

/-- State of the claiming loops after the strands below `i`. -/
structure StrandLoopInv (layout : Layout) (w h : Int) (init : LayoutMap) (i : Nat)
    (st : LayoutState) : Prop where
  inv : LayoutInv layout w h (processed layout i 0) st
  hdr : st.1.hdr_siblings_ = init.hdr_siblings_
  len : ∀ s, st.1.lengths_ s = if s < i then layout.lengths_ s else init.lengths_ s

/-- The value `distance2` that the HDR sibling loops compute for LED
`(s2, k2)` seen from LED `(s1, k1)`: the squared distance of the configured
coordinates in 32-bit `int` arithmetic. -/
def distance2 (layout : Layout) (s1 k1 s2 k2 : Nat) : Int :=
  wrap32
    (wrap32 (wrap32 (layout.x_ s2 k2 - layout.x_ s1 k1)
        * wrap32 (layout.x_ s2 k2 - layout.x_ s1 k1))
      + wrap32 (wrap32 (layout.y_ s2 k2 - layout.y_ s1 k1)
        * wrap32 (layout.y_ s2 k2 - layout.y_ s1 k1)))

/-- The siblings that the two inner HDR loops find for LED `(s1, k1)` among
the first `n` LEDs of strand `s2`. -/
def strandSiblings (layout : Layout) (s1 k1 s2 n : Nat) : List HdrSibling :=
  ((List.range n).filter (fun k2 =>
    decide (distance2 layout s1 k1 s2 k2 < kHdrSiblingsDistance * kHdrSiblingsDistance))).map
    (fun k2 => ⟨s2, k2⟩)

/-- The siblings that the two inner HDR loops find for LED `(s1, k1)` in the
strands below `n2`. -/
def siblingList (layout : Layout) (s1 k1 n2 : Nat) : List HdrSibling :=
  (List.range n2).flatMap (fun s2 => strandSiblings layout s1 k1 s2 (layout.lengths_ s2))

/-- Appending a list to the sibling vector of one LED. -/
def appendSiblings (m : LayoutMap) (s k : Nat) (l : List HdrSibling) : LayoutMap :=
  { m with hdr_siblings_ := fun s2 k2 =>
      if s2 = s ∧ k2 = k then m.hdr_siblings_ s2 k2 ++ l else m.hdr_siblings_ s2 k2 }

/-- A layout with two LEDs on strand 0, both configured at pixel `(0, 0)`. -/
def twoLedLayout : Layout :=
  { x_ := fun _ _ => 0, y_ := fun _ _ => 0, lengths_ := fun s => if s = 0 then 2 else 0 }

/-- A layout with three LEDs on strand 0, at `(0, 0)`, `(65536, 0)` and
`(0, 46341)`. -/
def farLedLayout : Layout :=
  { x_ := fun _ k => if k = 1 then 65536 else 0,
    y_ := fun _ k => if k = 2 then 46341 else 0,
    lengths_ := fun s => if s = 0 then 3 else 0 }

/-! ## Controller state -/

/-- The enum `HdrMode` (declared in `tcl_renderer.h`). -/
inductive HdrMode where
  | HDR_NONE
  | HDR_LUMINANCE
  | HDR_SATURATION
  | HDR_LSAT
deriving DecidableEq, Repr

/-- Modelled from the spec: the class `RgbGamma` (not part of the sources):
three independent per-channel mappings; applying it to an RGBA word leaves
the alpha byte untouched. -/
structure RgbGamma where
  r : Nat → Nat
  g : Nat → Nat
  b : Nat → Nat

/-- Functions that the renderer calls and that are defined outside the
sources: the OpenCV colour conversion of one pixel (`cv::cvtColor` with
`CV_RGB2HLS` and `CV_HLS2RGB`) and the image utilities. They are parameters of
the embedding. -/
structure External where
  rgb2hls : Nat → Nat → Nat → Nat × Nat × Nat
  hls2rgb : Nat → Nat → Nat → Nat × Nat × Nat
  PasteSubImage : List Nat → Int → Int → List Nat → Int → Int → Int → Int → Bool → List Nat
  ResizeImage : List Nat → Int → Int → Int → Int → List Nat
  FlipImage : List Nat → Int → Int → Bool → List Nat

/-- The fields of the class `TclController`. -/
structure TclController where
  id_ : Int
  width_ : Int
  height_ : Int
  init_sent_ : Bool
  gamma_ : RgbGamma
  layout_ : LayoutMap
  socket_ : Int
  require_reset_ : Bool
  last_reply_time_ : Nat
  last_image_ : RgbaImage
  last_led_image_ : RgbaImage
  last_image_id_ : Int
  effect_image_ : RgbaImage
  frames_sent_after_reply_ : Int
  hdr_mode_ : HdrMode

/-- The constructor of `TclController`; `gamma` stands for the table that
`SetGammaRanges(0, 255, gamma, ...)` builds. -/
def TclController.new (STRAND_COUNT : Nat) (id width height : Int) (layout : Layout)
    (gamma : RgbGamma) : TclController :=
  { id_ := id, width_ := width, height_ := height, init_sent_ := false,
    gamma_ := gamma,
    layout_ := PopulateLayoutMap STRAND_COUNT width height LayoutMap.new layout,
    socket_ := -1, require_reset_ := true, last_reply_time_ := 0,
    last_image_ := RgbaImage.empty, last_led_image_ := RgbaImage.empty,
    last_image_id_ := 0, effect_image_ := RgbaImage.empty,
    frames_sent_after_reply_ := 0, hdr_mode_ := HdrMode.HDR_NONE }

/-- Subtraction of `uint64_t` values. -/
def sub64 (a b : Nat) : Nat := (a + 2 ^ 64 - b % 2 ^ 64) % 2 ^ 64

/-- `TclController::UpdateAutoReset`; `now` is the value that
`GetCurrentMillis()` returns. -/
def TclController.UpdateAutoReset (c : TclController) (auto_reset_after_no_data_ms now : Nat) :
    TclController :=
  if auto_reset_after_no_data_ms ≤ 0 ∨ c.require_reset_ = true ∨
      c.frames_sent_after_reply_ ≤ 2 then c
  else
    let reply_delay := sub64 now c.last_reply_time_
    if reply_delay > auto_reset_after_no_data_ms then { c with require_reset_ := true }
    else c

/-- `TclController::ScheduleReset`. -/
def TclController.ScheduleReset (c : TclController) : TclController :=
  { c with require_reset_ := true }

/-- `TclController::SetHdrMode`. -/
def TclController.SetHdrMode (c : TclController) (mode : HdrMode) : TclController :=
  { c with hdr_mode_ := mode }

/-- `TclController::SetLastReplyTime`; `now` is the value that
`GetCurrentMillis()` returns. -/
def TclController.SetLastReplyTime (c : TclController) (now : Nat) : TclController :=
  { c with last_reply_time_ := now, frames_sent_after_reply_ := 0 }

/-! ## HDR -/

/-- Writing the bytes `bytes` into a buffer at offset `off`. -/
def writeBytes (buf : Nat → Nat) (off : Nat) (bytes : List Nat) : Nat → Nat :=
  fun i => if off ≤ i ∧ i < off + bytes.length then bytes.getD (i - off) 0 else buf i

/-- Writing bytes into the buffer of strand `s` of an array of buffers. -/
def writeStrand (bufs : Nat → Nat → Nat) (s off : Nat) (bytes : List Nat) : Nat → Nat → Nat :=
  fun s2 => if s2 = s then writeBytes (bufs s) off bytes else bufs s2

/-- The macro `EXTEND256(value, min, max)` at its uses in `PerformHdr`, where
`value` is a `uint8_t` and `min`, `max` are `uint32_t`: the subtractions and
the product are `uint32_t` operations. -/
def EXTEND256 (value min max : Nat) : Nat :=
  if max = min then max
  else ((255 * ((value + 2 ^ 32 - min) % 2 ^ 32)) % 2 ^ 32 / ((max + 2 ^ 32 - min) % 2 ^ 32))
    &&& 0xFF

/-- The running `l_min`, `l_max`, `s_min`, `s_max` of `PerformHdr`. -/
structure HdrRange where
  l_min : Nat
  l_max : Nat
  s_min : Nat
  s_max : Nat
deriving DecidableEq, Repr

/-- One pass of the sibling loop of `PerformHdr`. -/
def PerformHdr.siblingStep (strands : Strands) (r : HdrRange) (sib : HdrSibling) : HdrRange :=
  let l := strands.colors sib.strand_id_ (sib.led_id_ * 4 + 1)
  let s := strands.colors sib.strand_id_ (sib.led_id_ * 4 + 2)
  let r := if l < r.l_min then { r with l_min := l } else r
  let r := if l > r.l_max then { r with l_max := l } else r
  let r := if s < r.s_min then { r with s_min := s } else r
  let r := if s > r.s_max then { r with s_max := s } else r
  r

/-- The sibling loop of `PerformHdr` for one LED. -/
def PerformHdr.range (layout_ : LayoutMap) (strands : Strands) (strand_id led_id : Nat) :
    HdrRange :=
  (layout_.hdr_siblings_ strand_id led_id).foldl (PerformHdr.siblingStep strands)
    { l_min := 255, l_max := 0, s_min := 255, s_max := 0 }

/-- The four bytes `res_color[0 .. 3]` that the LED loop of `PerformHdr`
computes for one LED; the stored values are `uint8_t`. -/
def PerformHdr.record (hdr_mode_ : HdrMode) (layout_ : LayoutMap) (strands : Strands)
    (strand_id led_id : Nat) : List Nat :=
  let r := PerformHdr.range layout_ strands strand_id led_id
  let src_color := fun i => strands.colors strand_id (led_id * 4 + i)
  let b0 := src_color 0
  let b1 :=
    if hdr_mode_ = HdrMode.HDR_LSAT ∨ hdr_mode_ = HdrMode.HDR_LUMINANCE then
      EXTEND256 (src_color 1) r.l_min r.l_max % 256
    else src_color 1
  let b2 :=
    if hdr_mode_ = HdrMode.HDR_LSAT ∨ hdr_mode_ = HdrMode.HDR_SATURATION then
      EXTEND256 (src_color 2) r.s_min r.s_max % 256
    else src_color 2
  let b3 := src_color 3
  [b0, b1, b2, b3]

/-- Body of the LED loop of `PerformHdr`: fills `res_colors[strand_id]` at
the record of LED `led_id`. -/
def PerformHdr.ledBody (hdr_mode_ : HdrMode) (layout_ : LayoutMap) (strands : Strands)
    (strand_id led_id : Nat) (res_colors : Nat → Nat → Nat) : Nat → Nat → Nat :=
  writeStrand res_colors strand_id (led_id * 4)
    (PerformHdr.record hdr_mode_ layout_ strands strand_id led_id)

/-- `TclController::PerformHdr`. The buffers `res_colors` are not initialised
by the source; the model starts them at zero. The final loop is the `memcpy`
of `strand_len * 4` bytes per strand. -/
def TclController.PerformHdr (STRAND_COUNT : Nat) (c : TclController) (strands : Strands) :
    Strands :=
  if c.hdr_mode_ = HdrMode.HDR_NONE then strands
  else
    let res_colors : Nat → Nat → Nat :=
      forLoop STRAND_COUNT (fun strand_id res =>
        forLoop (c.layout_.lengths_ strand_id) (fun led_id res =>
          PerformHdr.ledBody c.hdr_mode_ c.layout_ strands strand_id led_id res) res)
        (fun _ _ => 0)
    forLoop STRAND_COUNT (fun strand_id (strands : Strands) =>
      let strand_len := c.layout_.lengths_ strand_id
      { strands with colors := fun s i =>
          if s = strand_id ∧ i < strand_len * 4 then res_colors strand_id i
          else strands.colors s i }) strands

/-- The function `extend256` in the words of the spec:
`hi == lo ? hi : ((255 * (v - lo)) / (hi - lo)) & 0xFF`. -/
def extend256 (v lo hi : Nat) : Nat :=
  if hi = lo then hi else ((255 * (v - lo)) / (hi - lo)) &&& 0xFF

/-- The L byte (record byte 1) of a sibling in a strand buffer. -/
def siblingL (strands : Strands) (sib : HdrSibling) : Nat :=
  strands.colors sib.strand_id_ (sib.led_id_ * 4 + 1)

/-- The S byte (record byte 2) of a sibling in a strand buffer. -/
def siblingS (strands : Strands) (sib : HdrSibling) : Nat :=
  strands.colors sib.strand_id_ (sib.led_id_ * 4 + 2)

/-- The value `lo` is the minimum of `f` over the list `l`. -/
def IsMinOver (f : HdrSibling → Nat) (l : List HdrSibling) (lo : Nat) : Prop :=
  (∃ a ∈ l, f a = lo) ∧ ∀ a ∈ l, lo ≤ f a

/-- The value `hi` is the maximum of `f` over the list `l`. -/
def IsMaxOver (f : HdrSibling → Nat) (l : List HdrSibling) (hi : Nat) : Prop :=
  (∃ a ∈ l, f a = hi) ∧ ∀ a ∈ l, f a ≤ hi

/-- A layout with two LEDs on strand 0, at pixels `(0, 0)` and `(1, 0)`; they
are HDR siblings of each other. -/
def hdrLayout : Layout :=
  { x_ := fun _ k => k, y_ := fun _ _ => 0, lengths_ := fun s => if s = 0 then 2 else 0 }

/-- A controller for `hdrLayout` on a 4 x 4 image with the given HDR mode. -/
def hdrController (mode : HdrMode) : TclController :=
  (TclController.new 8 0 4 4 hdrLayout ⟨id, id, id⟩).SetHdrMode mode

/-- A strand buffer in HLS form: LED 0 is `(H, L, S) = (0, 100, 100)` and
LED 1 is `(0, 200, 200)`, both with alpha 255. -/
def hdrStrands : Strands :=
  { colors := fun s i => if s = 0 then [0, 100, 100, 255, 0, 200, 200, 255].getD i 0 else 0,
    lengths := fun s => if s = 0 then 2 else 0,
    led_image := RgbaImage.empty }

/-! ## Image to strands -/

/-- How a call that can fail ends: with a value, by returning `false` or
`NULL`, or by a fault of the C code (integer division by zero, a failed
`CHECK`). -/
inductive Outcome (α : Type) where
  | ok : α → Outcome α
  | null : Outcome α
  | fault : Outcome α

/-- Modelled from the spec: the macro `RGBA_LEN(w, h)` (not part of the
sources): 4 bytes per pixel. -/
def RGBA_LEN (w h : Int) : Int := w * h * 4

/-- One pass of the coordinate loop of `PopulateStrandsColors`: adds the
pixel at `p` to the `uint32_t` sums `r`, `g`, `b`; `none` is the early
`return false` of the bounds check. A read outside the image buffer is not
defined by the source; the model reads 0 there. -/
def PopulateStrandsColors.coordStep (width_ : Int) (image_data : List Nat) (image_len : Int)
    (acc : Option (Nat × Nat × Nat)) (p : Coord) : Option (Nat × Nat × Nat) :=
  match acc with
  | none => none
  | some (r, g, b) =>
    let color_idx := (p.y_ * width_ + p.x_) * 4
    if color_idx < 0 ∨ color_idx + 4 > image_len then none
    else
      some ((r + image_data.getD color_idx.toNat 0) % 2 ^ 32,
            (g + image_data.getD (color_idx.toNat + 1) 0) % 2 ^ 32,
            (b + image_data.getD (color_idx.toNat + 2) 0) % 2 ^ 32)

/-- Body of the LED loop of `PopulateStrandsColors`. Modelled from the spec:
`PACK_COLOR32(r, g, b, 255)` stored as a 32-bit word puts R, G, B, A into
record bytes 0, 1, 2, 3. The division by `coord_count` faults when the LED
has no coordinates. -/
def PopulateStrandsColors.ledBody (c : TclController) (image : RgbaImage)
    (strand_id led_id : Nat) (st : Outcome Strands) : Outcome Strands :=
  match st with
  | Outcome.ok strands =>
    let coords := c.layout_.coords_ strand_id led_id
    let coord_count := coords.length
    match coords.foldl
        (PopulateStrandsColors.coordStep c.width_ image.data (RGBA_LEN c.width_ c.height_))
        (some (0, 0, 0)) with
    | none => Outcome.null
    | some (r, g, b) =>
      if coord_count = 0 then Outcome.fault
      else
        let r := (r / coord_count) &&& 0xFF
        let g := (g / coord_count) &&& 0xFF
        let b := (b / coord_count) &&& 0xFF
        let record := [r, g, b, 255]
        Outcome.ok { strands with
          colors := writeStrand strands.colors strand_id (led_id * 4) record }
  | Outcome.null => Outcome.null
  | Outcome.fault => Outcome.fault

/-- Body of the strand loop of `PopulateStrandsColors`. -/
def PopulateStrandsColors.strandBody (c : TclController) (image : RgbaImage)
    (strand_id : Nat) (st : Outcome Strands) : Outcome Strands :=
  let strand_len := c.layout_.lengths_ strand_id
  match forLoop strand_len (PopulateStrandsColors.ledBody c image strand_id) st with
  | Outcome.ok strands =>
    Outcome.ok { strands with
      lengths := fun s => if s = strand_id then strand_len else strands.lengths s }
  | Outcome.null => Outcome.null
  | Outcome.fault => Outcome.fault

/-- `TclController::PopulateStrandsColors`: `ok` is `return true`, `null` is
`return false`. -/
def TclController.PopulateStrandsColors (STRAND_COUNT : Nat) (c : TclController)
    (strands : Strands) (image : RgbaImage) : Outcome Strands :=
  forLoop STRAND_COUNT (PopulateStrandsColors.strandBody c image) (Outcome.ok strands)

/-- `TclController::ApplyStrandsGamma`. -/
def TclController.ApplyStrandsGamma (STRAND_COUNT : Nat) (c : TclController)
    (strands : Strands) : Strands :=
  forLoop STRAND_COUNT (fun strand_id (strands : Strands) =>
    forLoop (c.layout_.lengths_ strand_id) (fun led_id (strands : Strands) =>
      let color := fun i => strands.colors strand_id (led_id * 4 + i)
      let record := [c.gamma_.r (color 0), c.gamma_.g (color 1), c.gamma_.b (color 2), color 3]
      { strands with colors := writeStrand strands.colors strand_id (led_id * 4) record })
      strands) strands

/-- Writing a 4-byte colour into an image buffer at byte index `color_idx`. -/
def writeColor (data : List Nat) (color_idx : Int) (b0 b1 b2 b3 : Nat) : List Nat :=
  (((data.set color_idx.toNat b0).set (color_idx.toNat + 1) b1).set
    (color_idx.toNat + 2) b2).set (color_idx.toNat + 3) b3

/-- `TclController::SaveLedImageForStrands`. -/
def TclController.SaveLedImageForStrands (STRAND_COUNT : Nat) (c : TclController)
    (strands : Strands) : Strands :=
  let led_image_data : List Nat :=
    forLoop STRAND_COUNT (fun strand_id data =>
      forLoop (c.layout_.lengths_ strand_id) (fun led_id data =>
        let color := fun i => strands.colors strand_id (led_id * 4 + i)
        (c.layout_.coords_ strand_id led_id).foldl (fun data p =>
          let color_idx := (p.y_ * c.width_ + p.x_) * 4
          writeColor data color_idx (color 0) (color 1) (color 2) (color 3)) data) data)
      (List.replicate (RGBA_LEN c.width_ c.height_).toNat 0)
  { strands with led_image := ⟨led_image_data, c.width_, c.height_⟩ }

/-- `TclController::ConvertStrandsHls`: every LED record has its first three
bytes converted by OpenCV, to HLS when `to_hls` and back to RGB otherwise. -/
def TclController.ConvertStrandsHls (STRAND_COUNT : Nat) (ext : External) (c : TclController)
    (strands : Strands) (to_hls : Bool) : Strands :=
  forLoop STRAND_COUNT (fun strand_id (strands : Strands) =>
    forLoop (c.layout_.lengths_ strand_id) (fun led_id (strands : Strands) =>
      let color := fun i => strands.colors strand_id (led_id * 4 + i)
      let out :=
        if to_hls then ext.rgb2hls (color 0) (color 1) (color 2)
        else ext.hls2rgb (color 0) (color 1) (color 2)
      let record := [out.1, out.2.1, out.2.2]
      { strands with colors := writeStrand strands.colors strand_id (led_id * 4) record })
      strands) strands

/-- `TclController::ConvertImageToStrands`: `null` is the `NULL` result. -/
def TclController.ConvertImageToStrands (STRAND_COUNT : Nat) (ext : External)
    (c : TclController) (image : RgbaImage) : Outcome Strands :=
  match c.PopulateStrandsColors STRAND_COUNT Strands.new image with
  | Outcome.ok strands =>
    let strands := c.ConvertStrandsHls STRAND_COUNT ext strands true
    let strands := c.PerformHdr STRAND_COUNT strands
    let strands := c.ConvertStrandsHls STRAND_COUNT ext strands false
    let strands := c.ApplyStrandsGamma STRAND_COUNT strands
    let strands := c.SaveLedImageForStrands STRAND_COUNT strands
    Outcome.ok strands
  | Outcome.null => Outcome.null
  | Outcome.fault => Outcome.fault

/-- The pipeline of `ConvertImageToStrands` with the HDR step removed, in the
words of the spec: sample, convert to HLS, convert back to RGB, apply gamma,
build the LED image. -/
def TclController.ConvertImageToStrandsWithoutHdr (STRAND_COUNT : Nat) (ext : External)
    (c : TclController) (image : RgbaImage) : Outcome Strands :=
  match c.PopulateStrandsColors STRAND_COUNT Strands.new image with
  | Outcome.ok strands =>
    let strands := c.ConvertStrandsHls STRAND_COUNT ext strands true
    let strands := c.ConvertStrandsHls STRAND_COUNT ext strands false
    let strands := c.ApplyStrandsGamma STRAND_COUNT strands
    let strands := c.SaveLedImageForStrands STRAND_COUNT strands
    Outcome.ok strands
  | Outcome.null => Outcome.null
  | Outcome.fault => Outcome.fault

/-- A stand-in for the external functions, used to run examples: colour
conversions that keep the bytes and image utilities that keep the
destination. -/
def plainExternal : External :=
  { rgb2hls := fun a b c => (a, b, c), hls2rgb := fun a b c => (a, b, c),
    PasteSubImage := fun _ _ _ dst _ _ _ _ _ => dst,
    ResizeImage := fun src _ _ _ _ => src,
    FlipImage := fun src _ _ _ => src }

/-- A controller that has sent five frames since the last reply, which came
at time 0, and has no reset pending. -/
def watchdogController : TclController :=
  { hdrController HdrMode.HDR_NONE with
    init_sent_ := true, require_reset_ := false, last_reply_time_ := 0,
    frames_sent_after_reply_ := 5 }

/-! ## The work queue -/

/-- The struct `TclRenderer::WorkItem` (declared in `tcl_renderer.h`), with
the fields in the order of its constructor. `controller_` points to an
element of the `controllers_` vector and is modelled by its index; `none` is
the `NULL` of the placeholder item. -/
structure WorkItem where
  needs_reset_ : Bool
  controller_ : Option Nat
  img_ : RgbaImage
  id_ : Int
  time_ : Nat
deriving DecidableEq, Repr

/-- Modelled from the spec: the ordering of the priority queue (the
comparison of `WorkItem` is in `tcl_renderer.h`, not part of the sources):
ascending deadline, ties broken by insertion order. The queue is the list of
its items in that order; `top` is the head and `pop` removes it. This is
`queue_.push(item)`. -/
def queuePush : List WorkItem → WorkItem → List WorkItem
  | [], item => [item]
  | x :: rest, item =>
    if item.time_ < x.time_ then item :: x :: rest else x :: queuePush rest item

/-- A list is a state of the priority queue when its deadlines ascend. -/
def QueueOrdered (q : List WorkItem) : Prop :=
  q.Pairwise (fun a b => a.time_ ≤ b.time_)

/-- What `PopNextWorkItemLocked` leaves behind: its return value, the two
out-parameters and the queue. -/
structure PopResult where
  found : Bool
  item : WorkItem
  next_time : Nat
  queue : List WorkItem
deriving DecidableEq, Repr

/-- The `while (true)` loop of `PopNextWorkItemLocked`; every pass starts
with a non-empty queue (the first case is never reached from
`PopNextWorkItemLocked`). -/
def PopNextWorkItemLocked.loop (cur_time : Nat) : List WorkItem → WorkItem → PopResult
  | [], item => { found := false, item := item, next_time := 0, queue := [] }
  | top :: rest, _ =>
    if top.needs_reset_ = true then
      { found := true, item := top, next_time := 0, queue := [] }
    else if top.time_ > cur_time then
      { found := false, item := top, next_time := top.time_, queue := top :: rest }
    else
      match rest with
      | [] => { found := true, item := top, next_time := 0, queue := [] }
      | next :: _ =>
        if next.time_ > cur_time then
          { found := true, item := top, next_time := next.time_, queue := rest }
        else PopNextWorkItemLocked.loop cur_time rest top

/-- `TclRenderer::PopNextWorkItemLocked` on the queue `queue_`, with the
current content of `*item`; `cur_time` is the value that
`GetCurrentMillis()` returns. -/
def PopNextWorkItemLocked (queue_ : List WorkItem) (item : WorkItem) (cur_time : Nat) :
    PopResult :=
  if queue_.isEmpty = true then
    { found := false, item := item, next_time := 0, queue := queue_ }
  else PopNextWorkItemLocked.loop cur_time queue_ item

/-- A FRAME item for controller 0 with a 1 x 1 image, used in examples. -/
def frameItem (time : Nat) (id : Int) : WorkItem :=
  { needs_reset_ := false, controller_ := some 0, img_ := ⟨[1, 2, 3, 255], 1, 1⟩,
    id_ := id, time_ := time }

/-- The placeholder item `WorkItem(false, NULL, RgbaImage(), 0, 0)` that `Run`
passes to `PopNextWorkItemLocked`. -/
def WorkItem.placeholder : WorkItem :=
  { needs_reset_ := false, controller_ := none, img_ := RgbaImage.empty, id_ := 0, time_ := 0 }

/-! ## Clock and network -/

/-- One call of `send`: the controller, the bytes handed over and the value
that `send` returned. -/
structure SentPacket where
  controller_id : Int
  data : List Nat
  result : Int
deriving DecidableEq, Repr

/-- The environment of the worker thread. The clock counts microseconds and
advances by the sleeps of the worker. The network is given by the answers it
will give: `connectResult n` is the outcome of the n-th attempt to open, bind
and connect a socket (the descriptor, or `none` when a step fails),
`sendResult n size` the return value of the n-th `send`, of `size` bytes, and
`recvPending n` the number of datagrams that the n-th run of
`ConsumeReplyData` finds. `sent` records the calls of `send` in order. -/
structure World where
  time_us : Nat
  connectResult : Nat → Option Nat
  connectCount : Nat
  sendResult : Nat → Nat → Int
  sendCount : Nat
  recvPending : Nat → Nat
  recvCount : Nat
  sent : List SentPacket

/-- The function `GetCurrentMillis` (not part of the sources). -/
def GetCurrentMillis (w : World) : Nat := w.time_us / 1000

/-- The function `Sleep`, with its argument in microseconds. -/
def Sleep (us : Nat) (w : World) : World := { w with time_us := w.time_us + us }

/-- The constant `kMgsStartDelayUs`. -/
def kMgsStartDelayUs : Nat := 500

/-- The constant `kMgsDataDelayUs`. -/
def kMgsDataDelayUs : Nat := 1500

/-- The message `MSG_INIT`. -/
def MSG_INIT : List Nat := [0xC5, 0x77, 0x88, 0x00, 0x00]

/-- The message `MSG_RESET`. -/
def MSG_RESET : List Nat := [0xC2, 0x77, 0x88, 0x00, 0x00]

/-- The message `MSG_START_FRAME`. -/
def MSG_START_FRAME : List Nat := [0xC5, 0x77, 0x88, 0x00, 0x00]

/-- The message `MSG_END_FRAME`. -/
def MSG_END_FRAME : List Nat := [0xAA, 0x01, 0x8C, 0x01, 0x55]

/-- The bytes `FRAME_MSG_PREFIX`. -/
def FRAME_MSG_PREFIX : List Nat :=
  [0x88, 0x00, 0x68, 0x3F, 0x2B, 0xFD, 0x60, 0x8B, 0x95, 0xEF, 0x04, 0x69]

/-- The bytes `FRAME_MSG_SUFFIX`. -/
def FRAME_MSG_SUFFIX : List Nat := [0x00, 0x00, 0x00, 0x00]

/-- `TclController::CloseSocket`. -/
def TclController.CloseSocket (c : TclController) : TclController :=
  if c.socket_ ≠ -1 then { c with socket_ := -1 } else c

/-- `TclController::Connect`: every failing step leaves `socket_` at -1. -/
def TclController.Connect (c : TclController) (w : World) : Bool × TclController × World :=
  if c.socket_ ≠ -1 then (true, c, w)
  else
    let w2 := { w with connectCount := w.connectCount + 1 }
    match w.connectResult w.connectCount with
    | some fd => (true, { c with socket_ := (fd : Int) }, w2)
    | none => (false, { c with socket_ := -1 }, w2)

/-- `TclController::SendPacket`. -/
def TclController.SendPacket (c : TclController) (w : World) (data : List Nat) :
    Bool × TclController × World :=
  let size := data.length
  let sent := w.sendResult w.sendCount size
  let w2 := { w with sendCount := w.sendCount + 1,
                     sent := w.sent ++ [{ controller_id := c.id_, data := data, result := sent }] }
  if sent = -1 then (false, c, w2)
  else if sent ≠ (size : Int) then (false, { c with require_reset_ := true }, w2)
  else (true, c, w2)

/-- `TclController::ConsumeReplyData`: every datagram that `recv` returns
stamps the reply time; the loop ends when `recv` finds nothing more. -/
def TclController.ConsumeReplyData (c : TclController) (w : World) : TclController × World :=
  let n := w.recvPending w.recvCount
  let w2 := { w with recvCount := w.recvCount + 1 }
  (forLoop n (fun _ c => c.SetLastReplyTime (GetCurrentMillis w2)) c, w2)

/-- The part of `InitController` that sends `MSG_RESET` when a reset is
required. -/
def InitController.reset (c : TclController) (w : World) : Bool × TclController × World :=
  if c.require_reset_ = true then
    match c.SendPacket w MSG_RESET with
    | (false, c2, w2) => (false, c2, w2)
    | (true, c2, w2) => (true, { c2 with require_reset_ := false }, Sleep 5000000 w2)
  else (true, c, w)

/-- `TclController::InitController`. -/
def TclController.InitController (c : TclController) (w : World) :
    Bool × TclController × World :=
  match c.Connect w with
  | (false, c1, w1) => (false, c1, w1)
  | (true, c1, w1) =>
    if c1.init_sent_ = true ∧ c1.require_reset_ = false then (true, c1, w1)
    else
      match InitController.reset c1 w1 with
      | (false, c2, w2) => (false, c2, w2)
      | (true, c2, w2) =>
        match c2.SendPacket w2 MSG_INIT with
        | (false, c3, w3) => (false, c3, w3)
        | (true, c3, w3) =>
          let w4 := Sleep 100000 w3
          let c4 := { c3 with init_sent_ := true }
          (true, c4.SetLastReplyTime (GetCurrentMillis w4), w4)

/-- The content of `packet` when data packet `message_idx` is sent: the
prefix with byte 1 replaced by the index (a `uint8_t`), 1024 bytes of the
frame from `frame_data_pos` on, and the suffix. A read beyond the frame is
not defined by the source; the model reads 0 there. -/
def SendFrame.packet (frame_data : List Nat) (message_idx frame_data_pos : Nat) : List Nat :=
  FRAME_MSG_PREFIX.set 1 (message_idx % 256)
    ++ (List.range 1024).map (fun i => frame_data.getD (frame_data_pos + i) 0)
    ++ FRAME_MSG_SUFFIX

/-- The `while (frame_data_pos < FRAME_DATA_LEN)` loop of `SendFrame`; the
result holds whether all sends succeeded and the final `message_idx` and
`frame_data_pos`. -/
def SendFrame.loop (len : Nat) (frame_data : List Nat) (message_idx frame_data_pos : Nat)
    (c : TclController) (w : World) : Bool × Nat × Nat × TclController × World :=
  if h : frame_data_pos < len then
    match c.SendPacket w (SendFrame.packet frame_data message_idx frame_data_pos) with
    | (false, c2, w2) => (false, message_idx + 1, frame_data_pos + 1024, c2, w2)
    | (true, c2, w2) =>
      SendFrame.loop len frame_data (message_idx + 1) (frame_data_pos + 1024) c2
        (Sleep kMgsDataDelayUs w2)
  else (true, message_idx, frame_data_pos, c, w)
termination_by len - frame_data_pos
decreasing_by omega

/-- `TclController::SendFrame`: `ok` is `return true`, `null` is
`return false`, `fault` a failed `CHECK`. -/
def TclController.SendFrame (STRAND_LENGTH : Nat) (c : TclController) (w : World)
    (frame_data : List Nat) : Outcome Unit × TclController × World :=
  match c.ConsumeReplyData w with
  | (c1, w1) =>
    match c1.SendPacket w1 MSG_START_FRAME with
    | (false, c2, w2) => (Outcome.null, c2, w2)
    | (true, c2, w2) =>
      match SendFrame.loop (FRAME_DATA_LEN STRAND_LENGTH) frame_data 0 0 c2
          (Sleep kMgsStartDelayUs w2) with
      | (false, _, _, c3, w3) => (Outcome.null, c3, w3)
      | (true, message_idx, frame_data_pos, c3, w3) =>
        if frame_data_pos ≠ FRAME_DATA_LEN STRAND_LENGTH ∨ message_idx ≠ 12 then
          (Outcome.fault, c3, w3)
        else
          match c3.SendPacket w3 MSG_END_FRAME with
          | (false, c4, w4) => (Outcome.null, c4, w4)
          | (true, c4, w4) =>
            match c4.ConsumeReplyData w4 with
            | (c5, w5) =>
              (Outcome.ok (),
                { c5 with frames_sent_after_reply_ := c5.frames_sent_after_reply_ + 1 }, w5)

/-- `TclController::ApplyEffect`: the image after the effect image, if any,
has been pasted over it. -/
def TclController.ApplyEffect (ext : External) (c : TclController) (image : RgbaImage) :
    RgbaImage :=
  if c.effect_image_.IsEmpty = true then image
  else
    let pasted :=
      ext.PasteSubImage c.effect_image_.data c.width_ c.height_ image.data 0 0 c.width_ c.height_
        true
    { image with data := pasted }

/-- `TclController::BuildFrameDataForImage`: the frame (`null` for `NULL`)
and the controller with its cached images and image id updated. -/
def TclController.BuildFrameDataForImage (STRAND_COUNT STRAND_LENGTH : Nat) (ext : External)
    (c : TclController) (img : RgbaImage) (id : Int) : Outcome (List Nat) × TclController :=
  let img2 := c.ApplyEffect ext img
  match c.ConvertImageToStrands STRAND_COUNT ext img2 with
  | Outcome.ok strands =>
    (Outcome.ok (ConvertStrandsToFrame STRAND_COUNT STRAND_LENGTH strands),
      { c with last_image_ := img2, last_image_id_ := id, last_led_image_ := strands.led_image })
  | Outcome.null => (Outcome.null, c)
  | Outcome.fault => (Outcome.fault, c)

/-! ## The renderer and its worker -/

/-- The fields of the class `TclRenderer` that the worker uses. -/
structure TclRenderer where
  fps_ : Int
  auto_reset_after_no_data_ms_ : Nat
  is_shutting_down_ : Bool
  has_started_thread_ : Bool
  enable_net_ : Bool
  controllers_locked_ : Bool
  base_time_ : Nat
  controllers_ : List TclController
  queue_ : List WorkItem
  frame_delays_ : List Int

/-- How one pass of the body of the `while (true)` loop of `Run` ends. -/
inductive RunStatus where
  | exited
  | restarted
  | waiting
  | completed
  | aborted
deriving DecidableEq, Repr

/-- The loop of `Run` that calls `InitController` on every controller and
accumulates `failed_init`. -/
def Run.initAll : List TclController → World → Bool × List TclController × World
  | [], w => (false, [], w)
  | c :: rest, w =>
    match c.InitController w with
    | (ok, c2, w2) =>
      match Run.initAll rest w2 with
      | (failed, rest2, w3) => (!ok || failed, c2 :: rest2, w3)

/-- First part of the body of the loop of `Run`: the shutdown test, the
watchdogs and the initialisation of the controllers. `exited` is the
`break`, `restarted` the `continue` after a failed initialisation, and
`completed` means that the worker goes on to serve the queue. -/
def TclRenderer.RunPrepare (r : TclRenderer) (w : World) : RunStatus × TclRenderer × World :=
  if r.is_shutting_down_ = true then (RunStatus.exited, r, w)
  else if r.enable_net_ = true then
    let cs := r.controllers_.map
      (fun c => c.UpdateAutoReset r.auto_reset_after_no_data_ms_ (GetCurrentMillis w))
    match Run.initAll cs w with
    | (true, cs2, w2) =>
      (RunStatus.restarted, { r with controllers_ := cs2 }, Sleep 1000000 w2)
    | (false, cs2, w2) => (RunStatus.completed, { r with controllers_ := cs2 }, w2)
  else (RunStatus.completed, r, w)

/-- Second part of the body of the loop of `Run`, from the call of
`PopNextWorkItemLocked` on: `waiting` means that nothing is due and the
worker waits on the condition (after which this part runs again),
`restarted` is the `continue` after a RESET item, `completed` the end of the
body, and `aborted` a fault (a failed `CHECK`, a division by zero or the use
of a controller pointer that is `NULL`). -/
def TclRenderer.RunServe (STRAND_COUNT STRAND_LENGTH : Nat) (ext : External)
    (r : TclRenderer) (w : World) : RunStatus × TclRenderer × World :=
  if r.is_shutting_down_ = true then (RunStatus.exited, r, w)
  else
    let p := PopNextWorkItemLocked r.queue_ WorkItem.placeholder (GetCurrentMillis w)
    let r1 := { r with queue_ := p.queue }
    if p.found = false then (RunStatus.waiting, r1, w)
    else
      match p.item.controller_ with
      | none =>
        if p.item.needs_reset_ = false ∧ p.item.img_.IsEmpty = true then
          (RunStatus.completed, r1, w)
        else (RunStatus.aborted, r1, w)
      | some i =>
        match r1.controllers_[i]? with
        | none => (RunStatus.aborted, r1, w)
        | some c =>
          if p.item.needs_reset_ = true then
            (RunStatus.restarted,
              { r1 with controllers_ := r1.controllers_.set i c.ScheduleReset }, w)
          else if p.item.img_.IsEmpty = true then (RunStatus.completed, r1, w)
          else
            match c.BuildFrameDataForImage STRAND_COUNT STRAND_LENGTH ext p.item.img_
                p.item.id_ with
            | (Outcome.fault, c2) =>
              (RunStatus.aborted, { r1 with controllers_ := r1.controllers_.set i c2 }, w)
            | (Outcome.null, c2) =>
              (RunStatus.completed, { r1 with controllers_ := r1.controllers_.set i c2 }, w)
            | (Outcome.ok frame_data, c2) =>
              if r1.enable_net_ = false then
                (RunStatus.completed,
                  { r1 with controllers_ := r1.controllers_.set i c2,
                            frame_delays_ := r1.frame_delays_ ++
                              [(GetCurrentMillis w : Int) - (p.item.time_ : Int)] }, w)
              else
                match c2.SendFrame STRAND_LENGTH w frame_data with
                | (Outcome.ok _, c3, w3) =>
                  (RunStatus.completed,
                    { r1 with controllers_ := r1.controllers_.set i c3,
                              frame_delays_ := r1.frame_delays_ ++
                                [(GetCurrentMillis w3 : Int) - (p.item.time_ : Int)] }, w3)
                | (Outcome.null, c3, w3) =>
                  (RunStatus.completed,
                    { r1 with controllers_ := r1.controllers_.set i c3.ScheduleReset }, w3)
                | (Outcome.fault, c3, w3) =>
                  (RunStatus.aborted, { r1 with controllers_ := r1.controllers_.set i c3 }, w3)

/-- A RESET item for controller 0 with deadline `time`. -/
def resetItem (time : Nat) : WorkItem :=
  { needs_reset_ := true, controller_ := some 0, img_ := RgbaImage.empty, id_ := 0,
    time_ := time }

/-- A world at time 0 in which every connect and every send succeeds and no
reply ever arrives. -/
def quietWorld : World :=
  { time_us := 0, connectResult := fun _ => some 3, connectCount := 0,
    sendResult := fun _ size => size, sendCount := 0, recvPending := fun _ => 0,
    recvCount := 0, sent := [] }

/-- The quiet world with one reply of the controller waiting on the socket
whenever it is read. -/
def replyWorld : World := { quietWorld with recvPending := fun _ => 1 }

/-- A renderer with the watchdog controller as its only controller, the
network enabled, and a queue headed by a RESET item with a deadline in the
future (time 900) followed by two frames. -/
def resetRenderer : TclRenderer :=
  { fps_ := 15, auto_reset_after_no_data_ms_ := 5000, is_shutting_down_ := false,
    has_started_thread_ := true, enable_net_ := true, controllers_locked_ := true,
    base_time_ := 0, controllers_ := [watchdogController],
    queue_ := [resetItem 900, frameItem 950 1, frameItem 990 2], frame_delays_ := [] }

/-- The world after one more call of `send`, recorded with its result. -/
def World.logSend (w : World) (controller_id : Int) (data : List Nat) (result : Int) : World :=
  { w with sendCount := w.sendCount + 1,
           sent := w.sent ++ [{ controller_id := controller_id, data := data, result := result }] }

/-- Every `send` writes all the bytes it is given. -/
def World.SendsSucceed (w : World) : Prop := ∀ n size, w.sendResult n size = (size : Int)

/-- The world after `n` data packets of a frame were sent in full, starting
with packet `message_idx` at `frame_data_pos`, each followed by its sleep. -/
def World.afterDataPackets (id : Int) (frame_data : List Nat) :
    Nat → Nat → Nat → World → World
  | 0, _, _, w => w
  | n + 1, message_idx, frame_data_pos, w =>
    World.afterDataPackets id frame_data n (message_idx + 1) (frame_data_pos + 1024)
      (Sleep kMgsDataDelayUs
        (w.logSend id (SendFrame.packet frame_data message_idx frame_data_pos) 1040))

/-- A call of `send` succeeded: it wrote all the bytes it was given. -/
def SentPacket.Succeeded (p : SentPacket) : Prop := p.result = (p.data.length : Int)

/-- The log `after` extends the log `before` by a run of sends that stops at
the first failure: every send but the last succeeded; when `ok` holds the
last one succeeded too, and otherwise there is a last one and it failed. -/
def StopsAtFailure (before after : List SentPacket) (ok : Bool) : Prop :=
  ∃ added, after = before ++ added ∧
    (∀ p ∈ added.dropLast, p.Succeeded) ∧
    (ok = true → ∀ p ∈ added, p.Succeeded) ∧
    (ok = false → ∃ last, added.getLast? = some last ∧ ¬ last.Succeeded)

/-- A world in which the second call of `send` returns the error -1 and
every other call succeeds. -/
def secondSendFails : World :=
  { quietWorld with sendResult := fun n size => if n = 1 then -1 else size }

/-- A renderer with one freshly constructed controller (id 0, 4 x 4 image,
layout `hdrLayout`), network enabled and an empty queue. -/
def freshRenderer : TclRenderer :=
  { fps_ := 15, auto_reset_after_no_data_ms_ := 5000, is_shutting_down_ := false,
    has_started_thread_ := true, enable_net_ := true, controllers_locked_ := true,
    base_time_ := 0, controllers_ := [TclController.new 8 0 4 4 hdrLayout ⟨id, id, id⟩],
    queue_ := [], frame_delays_ := [] }

/-! ## Scheduling images -/

/-- The enum `EffectMode` (declared in `tcl_renderer.h`). -/
inductive EffectMode where
  | EFFECT_OVERLAY
  | EFFECT_DUPLICATE
  | EFFECT_MIRROR
deriving DecidableEq, Repr

/-- Whether a call ended in a fault. -/
def Outcome.isFault {α : Type} : Outcome α → Bool
  | Outcome.fault => true
  | _ => false

/-- `TclController::BuildImage` for a non-null `bytes`: the return value and
the content of `*dst`. The buffers that the source allocates without
initialising them start at zero in the model; `width_ / 2` is the division
of `int`. -/
def TclController.BuildImage (ext : External) (c : TclController) (bytes : List Nat)
    (w h : Int) (mode : EffectMode) (dst : RgbaImage) : Bool × RgbaImage :=
  if bytes.length = 0 then (false, dst)
  else
    let img_data : List Nat :=
      match mode with
      | EffectMode.EFFECT_OVERLAY => ext.ResizeImage bytes w h c.width_ c.height_
      | EffectMode.EFFECT_DUPLICATE =>
        let img_data := List.replicate (RGBA_LEN c.width_ c.height_).toNat 0
        let img1 := ext.ResizeImage bytes w h (Int.tdiv c.width_ 2) c.height_
        let img_data :=
          ext.PasteSubImage img1 (Int.tdiv c.width_ 2) c.height_ img_data 0 0 c.width_ c.height_
            false
        ext.PasteSubImage img1 (Int.tdiv c.width_ 2) c.height_ img_data (Int.tdiv c.width_ 2) 0
          c.width_ c.height_ false
      | EffectMode.EFFECT_MIRROR =>
        let img_data := List.replicate (RGBA_LEN c.width_ c.height_).toNat 0
        let img1 := ext.ResizeImage bytes w h (Int.tdiv c.width_ 2) c.height_
        let img2 := ext.FlipImage img1 (Int.tdiv c.width_ 2) c.height_ true
        let img_data :=
          ext.PasteSubImage img1 (Int.tdiv c.width_ 2) c.height_ img_data 0 0 c.width_ c.height_
            false
        ext.PasteSubImage img2 (Int.tdiv c.width_ 2) c.height_ img_data (Int.tdiv c.width_ 2) 0
          c.width_ c.height_ false
    (true, { data := img_data, width := c.width_, height := c.height_ })

/-- The loop of `FindControllerLocked`, at position `i` of the vector: the
first controller with the given id, with its position. -/
def FindControllerLocked.go (id : Int) : List TclController → Nat → Option (Nat × TclController)
  | [], _ => none
  | c :: rest, i => if c.id_ = id then some (i, c) else FindControllerLocked.go id rest (i + 1)

/-- `TclRenderer::FindControllerLocked`: `none` is `NULL`; a controller is
returned together with its position in `controllers_`, which stands for the
pointer. -/
def TclRenderer.FindControllerLocked (r : TclRenderer) (id : Int) :
    Option (Nat × TclController) :=
  FindControllerLocked.go id r.controllers_ 0

/-- `TclRenderer::GetLastImageId`. -/
def TclRenderer.GetLastImageId (r : TclRenderer) (controller_id : Int) : Int :=
  match r.FindControllerLocked controller_id with
  | some (_, controller) => controller.last_image_id_
  | none => -1

/-! ## Double-precision arithmetic -/

/-- The whole part of the base-2 logarithm of `n` for `n > 0`, found by
halving `n` at most `fuel` times. -/
def log2Floor.go : Nat → Nat → Nat
  | 0, _ => 0
  | fuel + 1, n => if n < 2 then 0 else log2Floor.go fuel (n / 2) + 1

/-- The whole part of the base-2 logarithm of `n`, for `n > 0`. -/
def log2Floor (n : Nat) : Nat := log2Floor.go n n

/-- The integer nearest to `a / b`, a tie going to the even one. -/
def roundHalfEven (a b : Nat) : Nat :=
  if 2 * (a % b) < b then a / b
  else if b < 2 * (a % b) then a / b + 1
  else if (a / b) % 2 = 0 then a / b
  else a / b + 1

/-- A finite, non-negative value of the C type `double` (IEEE 754 binary64):
the fraction `num / den`, with `den` a power of two. -/
structure Double where
  num : Nat
  den : Nat
deriving DecidableEq, Repr

/-- The rational number that a `Double` stands for. -/
def Double.val (x : Double) : ℚ := (x.num : ℚ) / (x.den : ℚ)

/-- The binary exponent `k` of the fraction `num / den` (both positive):
`2^k <= num / den < 2^(k+1)`. -/
def Double.exponent (num den : Nat) : Int :=
  let k0 : Int := (log2Floor num : Int) - (log2Floor den : Int)
  if den * 2 ^ k0.toNat ≤ num * 2 ^ (-k0).toNat then k0 else k0 - 1

/-- The `double` nearest to the fraction `num / den`, a tie going to the even
significand: the result of a correctly rounded operation (the default
rounding mode) whose exact value is `num / den`. The significand has 53 bits
and the unit in the last place is `2^e`, with `e` at least -1074 (denormal
values). Values of 2^1024 and more, which round to infinity, are not
modelled, and neither is a zero denominator (infinity or not-a-number): the
function gives 0 for it. -/
def Double.ofFraction (num den : Nat) : Double :=
  if num = 0 ∨ den = 0 then ⟨0, 1⟩
  else
    let k := Double.exponent num den
    let e : Int := if k - 52 < -1074 then -1074 else k - 52
    let m := roundHalfEven (num * 2 ^ (-e).toNat) (den * 2 ^ e.toNat)
    ⟨m * 2 ^ e.toNat, 2 ^ (-e).toNat⟩

/-- The conversion of a non-negative integer to `double`. -/
def Double.ofNat (n : Nat) : Double := Double.ofFraction n 1

/-- The product `x * y` of two doubles. -/
def Double.mul (x y : Double) : Double := Double.ofFraction (x.num * y.num) (x.den * y.den)

/-- The quotient `x / y` of two doubles. -/
def Double.div (x y : Double) : Double := Double.ofFraction (x.num * y.den) (x.den * y.num)

/-- The C function `round` on a non-negative double: the nearest integer, a
half rounded away from zero. The result is again a double. -/
def Double.round (x : Double) : Double := ⟨(2 * x.num + x.den) / (2 * x.den), 1⟩

/-- The conversion `(uint64_t) x`, which drops the fraction. The language
defines it for values below 2^64 only. -/
def Double.toUInt64 (x : Double) : Nat := x.num / x.den

/-- The alignment of a target time with the FPS ticks in `ScheduleImageAt`:
`frame_num = round(((double) (time_abs - base_time_)) / 1000.0 * fps_)` and
`time_abs = base_time_ + (uint64_t) (frame_num * 1000.0 / fps_)`, every
operation in `double` as in the source, each result rounded to binary64, and
the sum in `uint64_t`. With a
negative `fps_` both `frame_num` and the divisor are negative in the source
and the quotient is the one for `-fps_`, every double operation being
symmetric in the sign; so the model works with the absolute value of `fps_`.
With `fps_ = 0` the quotient is not a number and its conversion to `uint64_t`
is undefined; the model then adds 0. -/
def alignToFps (base_time_ : Nat) (fps_ : Int) (time_abs : Nat) : Nat :=
  if time_abs > base_time_ then
    let frame_num :=
      Double.round
        (Double.mul (Double.div (Double.ofNat (time_abs - base_time_)) (Double.ofNat 1000))
          (Double.ofNat fps_.natAbs))
    (base_time_
        + Double.toUInt64
            (Double.div (Double.mul frame_num (Double.ofNat 1000)) (Double.ofNat fps_.natAbs)))
      % 18446744073709551616
  else time_abs

/-- `TclRenderer::ScheduleImageAt` for a non-null `bytes`; `time` is the
field `time_` of the `AdjustableTime` argument. `fault` is the failed
`CHECK(has_started_thread_)`. The crop arguments are unused, as in the
source. -/
def TclRenderer.ScheduleImageAt (ext : External) (r : TclRenderer) (controller_id : Int)
    (bytes : List Nat) (w h : Int) (mode : EffectMode) (_crop_x _crop_y _crop_w _crop_h : Int)
    (id : Int) (time : Nat) : Outcome TclRenderer :=
  if r.has_started_thread_ = false then Outcome.fault
  else if r.is_shutting_down_ = true then Outcome.ok r
  else
    match r.FindControllerLocked controller_id with
    | none => Outcome.ok r
    | some (i, controller) =>
      if (bytes.length : Int) ≠ RGBA_LEN w h then Outcome.ok r
      else
        let time_abs := alignToFps r.base_time_ r.fps_ time
        let image := (controller.BuildImage ext bytes w h mode RgbaImage.empty).2
        Outcome.ok { r with
          queue_ := queuePush r.queue_
            { needs_reset_ := false, controller_ := some i, img_ := image, id_ := id,
              time_ := time_abs } }

/-- The value of a call that ended normally. -/
def Outcome.value? {α : Type} : Outcome α → Option α
  | Outcome.ok a => some a
  | _ => none

/-- A started renderer with 10 frames per second, base time 1000, one fresh
controller (id 0, 4 x 4 image) and an empty queue. -/
def lateRenderer : TclRenderer :=
  { freshRenderer with fps_ := 10, base_time_ := 1000 }

/-- Sequencing of calls: the second call runs when the first ended normally. -/
def Outcome.bind {α β : Type} : Outcome α → (α → Outcome β) → Outcome β
  | Outcome.ok a, f => f a
  | Outcome.null, _ => Outcome.null
  | Outcome.fault, _ => Outcome.fault

/-- Three calls of `ScheduleImageAt` for one controller, one after the other,
with image ids `id1`, `id2`, `id3` and target times `t1`, `t2`, `t3`. -/
def scheduleThree (ext : External) (r : TclRenderer) (controller_id : Int)
    (b1 b2 b3 : List Nat) (w h : Int) (mode : EffectMode) (id1 id2 id3 : Int)
    (t1 t2 t3 : Nat) : Outcome TclRenderer :=
  (r.ScheduleImageAt ext controller_id b1 w h mode 0 0 0 0 id1 t1).bind fun r1 =>
  (r1.ScheduleImageAt ext controller_id b2 w h mode 0 0 0 0 id2 t2).bind fun r2 =>
  r2.ScheduleImageAt ext controller_id b3 w h mode 0 0 0 0 id3 t3

/-- A started renderer with 10 frames per second, base time 0, one fresh
controller (id 0, 4 x 4 image) and an empty queue. -/
def tenFpsRenderer : TclRenderer :=
  { freshRenderer with fps_ := 10 }

/-- A renderer like `freshRenderer` whose worker thread has not been started. -/
def idleRenderer : TclRenderer :=
  { freshRenderer with has_started_thread_ := false }

/-- Two states of a controller with the same id and the same last image id. -/
def TclController.SameImageId (c c2 : TclController) : Prop :=
  c2.id_ = c.id_ ∧ c2.last_image_id_ = c.last_image_id_

/-- A world like `quietWorld` in which every call of `send` after the first
two (the RESET and the INIT message) returns -1. -/
def sendsFailAfterInit : World :=
  { quietWorld with sendResult := fun n size => if n < 2 then size else -1 }

/-- The renderer `freshRenderer` with one frame in its queue: a 4 x 4 image
for controller 0 with image id 7 and deadline 0. -/
def queuedRenderer : TclRenderer :=
  { freshRenderer with
    queue_ := [WorkItem.mk false (some 0) ⟨List.replicate 64 0, 4, 4⟩ 7 0] }

/-- One pass of the body of the loop of `Run`: `RunPrepare`, and `RunServe`
when the worker goes on to serve the queue. -/
def TclRenderer.RunPass (STRAND_COUNT STRAND_LENGTH : Nat) (ext : External)
    (r : TclRenderer) (w : World) : RunStatus × TclRenderer × World :=
  match r.RunPrepare w with
  | (RunStatus.completed, r1, w1) => r1.RunServe STRAND_COUNT STRAND_LENGTH ext w1
  | res => res

/-! ## Configuration -/

/-- The constructor `TclRenderer()`; `now` is the value that
`GetCurrentMillis()` returns. -/
def TclRenderer.new (now : Nat) : TclRenderer :=
  { fps_ := 15, auto_reset_after_no_data_ms_ := 5000, is_shutting_down_ := false,
    has_started_thread_ := false, enable_net_ := false, controllers_locked_ := false,
    base_time_ := now, controllers_ := [], queue_ := [], frame_delays_ := [] }

/-- `TclRenderer::AddController`: `fault` is a failed `CHECK`, and also the
array `new PixelUsage[width_ * height_]` of the controller's constructor when
the length is negative, which throws and ends the program. The length is the
`int` product of the two dimensions, wrapped to 32 bits. The source makes no
other test of `width` and `height`. An allocation of non-negative length is
taken to succeed; when the `int` product of two positive dimensions wraps to
a non-negative value the array is shorter than the image, and what the code
does then is not followed here. -/
def TclRenderer.AddController (STRAND_COUNT : Nat) (r : TclRenderer) (id width height : Int)
    (layout : Layout) (gamma : RgbGamma) : Outcome TclRenderer :=
  if r.controllers_locked_ = true then Outcome.fault
  else if (r.FindControllerLocked id).isSome = true then Outcome.fault
  else if wrap32 (width * height) < 0 then Outcome.fault
  else
    let controller := TclController.new STRAND_COUNT id width height layout gamma
    Outcome.ok { r with controllers_ := r.controllers_ ++ [controller] }

/-- `TclRenderer::LockControllers`. -/
def TclRenderer.LockControllers (r : TclRenderer) : TclRenderer :=
  { r with controllers_locked_ := true }

/-- The arguments of one call of `AddController`. -/
structure ControllerArgs where
  id : Int
  width : Int
  height : Int
  layout : Layout
  gamma : RgbGamma

/-- A sequence of calls of `AddController`, one after the other; a call that
aborts ends the sequence. -/
def addControllers (STRAND_COUNT : Nat) : TclRenderer → List ControllerArgs → Outcome TclRenderer
  | r, [] => Outcome.ok r
  | r, a :: rest =>
    (r.AddController STRAND_COUNT a.id a.width a.height a.layout a.gamma).bind
      fun r2 => addControllers STRAND_COUNT r2 rest

/-- The constructor `Layout()`: zero lengths. The coordinate arrays are not
initialised by the source; the model starts them at 0. -/
def Layout.new : Layout :=
  { x_ := fun _ _ => 0, y_ := fun _ _ => 0, lengths_ := fun _ => 0 }

/-- `Layout::AddCoord`: `fault` is the failed `CHECK` on `strand_id`. -/
def Layout.AddCoord (STRAND_COUNT STRAND_LENGTH : Nat) (layout : Layout) (strand_id x y : Int) :
    Outcome Layout :=
  if ¬ (strand_id ≥ 0 ∧ strand_id < (STRAND_COUNT : Int)) then Outcome.fault
  else if layout.lengths_ strand_id.toNat = STRAND_LENGTH then Outcome.ok layout
  else
    let pos := layout.lengths_ strand_id.toNat
    Outcome.ok
      { lengths_ := fun s => if s = strand_id.toNat then pos + 1 else layout.lengths_ s,
        x_ := fun s k => if s = strand_id.toNat ∧ k = pos then x else layout.x_ s k,
        y_ := fun s k => if s = strand_id.toNat ∧ k = pos then y else layout.y_ s k }

/-- The arguments of one call of `Layout::AddCoord`. -/
structure CoordArgs where
  strand_id : Int
  x : Int
  y : Int
deriving DecidableEq, Repr

/-- A sequence of calls of `Layout::AddCoord`, one after the other; a call
that aborts ends the sequence. -/
def addCoords (STRAND_COUNT STRAND_LENGTH : Nat) : Layout → List CoordArgs → Outcome Layout
  | layout, [] => Outcome.ok layout
  | layout, a :: rest =>
    (layout.AddCoord STRAND_COUNT STRAND_LENGTH a.strand_id a.x a.y).bind
      fun l2 => addCoords STRAND_COUNT STRAND_LENGTH l2 rest

/-! ## Sampling -/

/-- A controller for `twoLedLayout` on a 1 x 1 image: its second LED has no
pixel coordinate. -/
def darkLedController : TclController :=
  TclController.new 8 0 1 1 twoLedLayout ⟨id, id, id⟩

/-- The OpenCV matrix `cv::Mat` as far as `kinect.cc` uses it: the number of
rows and columns, the size of an element in bytes and the content in
row-major order (the matrices are continuous). For `CV_16UC1` the content is
one `uint16_t` value per element, for `CV_8UC3` it is three bytes per
element. -/
structure Mat where
  rows : Int
  cols : Int
  elemSize : Nat
  data : List Nat
deriving DecidableEq, Repr

/-- A default-constructed `cv::Mat`: no elements, `elemSize()` is 0. -/
def Mat.empty : Mat := ⟨0, 0, 0, []⟩

/-- `cv::Mat::total()`: the number of elements. -/
def Mat.total (m : Mat) : Nat := (m.rows * m.cols).toNat

/-- `m.create(rows, cols, CV_16UC1)` followed by `m.setTo(cv::Scalar(0))`. -/
def Mat.create16UC1 (rows cols : Int) : Mat :=
  ⟨rows, cols, 2, List.replicate (rows * cols).toNat 0⟩

/-- `m.create(rows, cols, CV_8UC3)` followed by `m.setTo(cv::Scalar(0, 0, 0))`. -/
def Mat.create8UC3 (rows cols : Int) : Mat :=
  ⟨rows, cols, 3, List.replicate ((rows * cols).toNat * 3) 0⟩

/-- The type `cv::Vec3i` of the entries of `circles_`: `v0` and `v1` are the
centroid of a contour, `v2` its radius. -/
structure Vec3i where
  v0 : Int
  v1 : Int
  v2 : Int
deriving DecidableEq, Repr

/-- A handle of a `kkonnect::Device`. -/
structure Device where
  handle : Nat
deriving DecidableEq, Repr

/-- The struct `kkonnect::ImageInfo` as far as `ConnectDevices` reads it. -/
structure ImageInfo where
  enabled : Bool
  width : Int
  height : Int
deriving DecidableEq, Repr

/-- The fields of the class `KinectRangeImpl` (without the thread, the
mutexes and the structuring elements). -/
structure KinectRangeImpl where
  fps_ : Int
  video_enabled_ : Bool
  depth_enabled_ : Bool
  devices_ : List Device
  width_ : Int
  height_ : Int
  has_started_thread_ : Bool
  video_data_ : Mat
  depth_data_orig_ : Mat
  depth_data_blur_ : Mat
  depth_data_range_ : Mat
  circles_ : List Vec3i
  has_new_depth_image_ : Bool
  has_new_video_image_ : Bool
deriving DecidableEq, Repr

/-- The constructor `KinectRangeImpl()` with the default member
initialisers. -/
def KinectRangeImpl.new : KinectRangeImpl :=
  { fps_ := 15, video_enabled_ := false, depth_enabled_ := false, devices_ := [],
    width_ := 0, height_ := 0, has_started_thread_ := false,
    video_data_ := Mat.empty, depth_data_orig_ := Mat.empty, depth_data_blur_ := Mat.empty,
    depth_data_range_ := Mat.empty, circles_ := [],
    has_new_depth_image_ := false, has_new_video_image_ := false }

/-- What the kkonnect library answers during `ConnectDevices`:
`GetDeviceCount()`, whether `OpenDevice` succeeds, how the wait for the
connection ends (`none`: still in progress after 15 seconds; `some ok`: the
status is `kErrorSuccess` or another error), the two image infos and the
device that was opened. -/
structure Connection where
  device_count : Int
  open_ok : Bool
  connected : Option Bool
  video_info : ImageInfo
  depth_info : ImageInfo
  device : Device
deriving DecidableEq, Repr

/-- `KinectRangeImpl::ConnectDevices`: every early `return` leaves the object
as it is; `fault` is a failed `CHECK`. -/
def KinectRangeImpl.ConnectDevices (k : KinectRangeImpl) (conn : Connection) :
    Outcome KinectRangeImpl :=
  let device_count := conn.device_count
  if conn.open_ok = false then Outcome.ok k
  else
    match conn.connected with
    | none => Outcome.ok k
    | some false => Outcome.ok k
    | some true =>
      let video_info := conn.video_info
      let depth_info := conn.depth_info
      if video_info.enabled = true ∧ depth_info.enabled = true ∧
          ¬ (video_info.width = depth_info.width ∧ video_info.height = depth_info.height) then
        Outcome.fault
      else
        let width_ :=
          if video_info.enabled = true then video_info.width
          else if depth_info.enabled = true then depth_info.width else k.width_
        let height_ :=
          if video_info.enabled = true then video_info.height
          else if depth_info.enabled = true then depth_info.height else k.height_
        if ¬ (width_ > 0 ∧ height_ > 0) then Outcome.fault
        else
          Outcome.ok { k with
            width_ := width_, height_ := height_, devices_ := k.devices_ ++ [conn.device],
            video_data_ := Mat.create8UC3 height_ (width_ * device_count),
            depth_data_orig_ := Mat.create16UC1 height_ (width_ * device_count),
            depth_data_blur_ := Mat.create16UC1 height_ (width_ * device_count) }

/-- The clamp of one depth value in the words of the spec: to `[500, 3000]`. -/
def clampDepth (distance : Nat) : Nat :=
  if distance < 500 then 500 else if distance > 3000 then 3000 else distance

/-- `KinectRangeImpl::ClampDepthDataLocked`: `fault` is the failed `CHECK`.
The loop counter is a `uint32_t`; the model is for matrices of fewer than
2^32 elements. A read beyond the buffer is not defined by the source; the
model reads 0 and writes nothing there. -/
def KinectRangeImpl.ClampDepthDataLocked (k : KinectRangeImpl) : Outcome KinectRangeImpl :=
  if k.depth_data_orig_.elemSize ≠ 2 then Outcome.fault
  else
    let data :=
      forLoop k.video_data_.total (fun i data =>
        let distance := data.getD i 0
        if distance < 500 then data.set i 500
        else if distance > 3000 then data.set i 3000
        else data) k.depth_data_orig_.data
    Outcome.ok { k with depth_data_orig_ := { k.depth_data_orig_ with data := data } }

/-- `KinectRangeImpl::GetWidth`. -/
def KinectRangeImpl.GetWidth (k : KinectRangeImpl) : Int := k.width_ * k.devices_.length

/-- `KinectRangeImpl::GetHeight`. -/
def KinectRangeImpl.GetHeight (k : KinectRangeImpl) : Int := k.height_

/-- `KinectRangeImpl::GetPersonCoordX`. The quotient of the source is a
`double`; the model gives its exact value (a division by `width_ = 0` gives 0
in the model). -/
def KinectRangeImpl.GetPersonCoordX (k : KinectRangeImpl) : ℚ :=
  match k.circles_ with
  | [] => -1
  | c :: _ => (c.v0 : ℚ) / (k.width_ : ℚ)

/-- The object after `ConnectDevices` on `depthConnection 1`, with the depth
values 0, 499, 500, 1200, 3000, 3001, 65535, 2000 in `depth_data_orig_`. -/
def depthKinect : KinectRangeImpl :=
  { KinectRangeImpl.new with
    width_ := 4, height_ := 2, devices_ := [⟨0⟩],
    video_data_ := Mat.create8UC3 2 4,
    depth_data_orig_ := ⟨2, 4, 2, [0, 499, 500, 1200, 3000, 3001, 65535, 2000]⟩,
    depth_data_blur_ := Mat.create16UC1 2 4 }

/-- The OpenCV operations that `kinect.cc` calls, and the part of
`FindContoursLocked` that works on their results: `FindContours range
circles` is the content of `circles_` after `FindContoursLocked` has run on
the range image `range` with `circles_ = circles` before (its early returns
leave `circles_` as it is; otherwise it appends the circles of the accepted
contours, computed from `cv::moments` in `double`, and sorts `circles_` by
radius). `DepthColorImage` is the image that
`GetAndClearLastDepthColorImage` builds. -/
structure KinectExternal where
  blur : Mat → Mat → Mat
  inRange : Mat → Nat → Nat → Mat
  erode : Mat → Mat
  dilate : Mat → Mat
  FindContours : Mat → List Vec3i → List Vec3i
  DepthColorImage : Mat → List Vec3i → List Nat

/-- What a device answers when `MergeImages` polls it: the return values of
`GetAndClearDepthData` and `GetAndClearVideoData`, and what the two calls do
to the buffer they are given (first argument: the row size in bytes). -/
structure DevicePoll where
  has_depth : Bool
  depth : Int → List Nat → List Nat
  has_video : Bool
  video : Int → List Nat → List Nat

/-- `KinectRangeImpl::ContrastDepthLocked`. -/
def KinectRangeImpl.ContrastDepthLocked (ext : KinectExternal) (k : KinectRangeImpl) :
    Outcome KinectRangeImpl :=
  match k.ClampDepthDataLocked with
  | Outcome.ok k1 =>
    let depth_data_blur_ := ext.blur k1.depth_data_orig_ k1.depth_data_blur_
    let range := ext.inRange depth_data_blur_ 1500 2500
    let range := ext.erode range
    let range := ext.erode range
    let range := ext.dilate range
    let range := ext.dilate range
    Outcome.ok { k1 with depth_data_blur_ := depth_data_blur_, depth_data_range_ := range }
  | Outcome.null => Outcome.null
  | Outcome.fault => Outcome.fault

/-- `KinectRangeImpl::FindContoursLocked`, see `KinectExternal`. -/
def KinectRangeImpl.FindContoursLocked (ext : KinectExternal) (k : KinectRangeImpl) :
    KinectRangeImpl :=
  { k with circles_ := ext.FindContours k.depth_data_range_ k.circles_ }

/-- The loop of `MergeImages` over the devices: the two update flags and the
contents of `depth_data_orig_` and `video_data_` afterwards. -/
def MergeImages.poll (k : KinectRangeImpl) (answers : Device → DevicePoll) :
    Bool × Bool × List Nat × List Nat :=
  k.devices_.foldl (fun acc device =>
    let full_witdh : Int := k.width_ * k.devices_.length
    let p := answers device
    (acc.1 || p.has_depth, acc.2.1 || p.has_video,
      p.depth (full_witdh * 2) acc.2.2.1, p.video (full_witdh * 3) acc.2.2.2))
    (false, false, k.depth_data_orig_.data, k.video_data_.data)

/-- `KinectRangeImpl::MergeImages` for one tick; `answers` is what the
devices answer in this tick. -/
def KinectRangeImpl.MergeImages (ext : KinectExternal) (answers : Device → DevicePoll)
    (k : KinectRangeImpl) : Outcome KinectRangeImpl :=
  let polled := MergeImages.poll k answers
  let has_depth_update := polled.1
  let has_video_update := polled.2.1
  let k1 := { k with
    depth_data_orig_ := { k.depth_data_orig_ with data := polled.2.2.1 },
    video_data_ := { k.video_data_ with data := polled.2.2.2 } }
  let k2 := { k1 with circles_ := [] }
  let contrasted :=
    if has_depth_update = true then
      match k2.ContrastDepthLocked ext with
      | Outcome.ok k3 =>
        Outcome.ok { k3.FindContoursLocked ext with has_new_depth_image_ := true }
      | Outcome.null => Outcome.null
      | Outcome.fault => Outcome.fault
    else Outcome.ok k2
  match contrasted with
  | Outcome.ok k4 =>
    if has_video_update = true then Outcome.ok { k4 with has_new_video_image_ := true }
    else Outcome.ok k4
  | Outcome.null => Outcome.null
  | Outcome.fault => Outcome.fault

/-- `KinectRangeImpl::GetAndClearLastDepthColorImage`: `none` is `NULL`. -/
def KinectRangeImpl.GetAndClearLastDepthColorImage (ext : KinectExternal)
    (k : KinectRangeImpl) : Option (List Nat) × KinectRangeImpl :=
  if k.has_new_depth_image_ = false then (none, k)
  else
    (some (ext.DepthColorImage k.depth_data_blur_ k.circles_),
      { k with has_new_depth_image_ := false })

/-- `KinectRangeImpl::GetAndClearLastVideoImage`: `none` is `NULL`. The
buffer `new uint8_t[dst_size]` is not initialised by the source; `heap i` is
the byte that the fresh buffer holds at index `i`. A read beyond the video
buffer is not defined by the source; the model reads 0 there. -/
def KinectRangeImpl.GetAndClearLastVideoImage (heap : Nat → Nat) (k : KinectRangeImpl) :
    Option (List Nat) × KinectRangeImpl :=
  if k.has_new_video_image_ = false then (none, k)
  else
    let width := k.GetWidth
    let height := k.GetHeight
    let src := k.video_data_.data
    let dst_size := width * height * 4
    let dst := (List.range dst_size.toNat).map heap
    let dst :=
      forLoop height.toNat (fun y dst =>
        let dst_row := y * width.toNat * 4
        let src_row := y * width.toNat * 3
        forLoop width.toNat (fun x dst =>
          let dst := dst.set (dst_row + x * 4) (src.getD (src_row + x * 3) 0)
          let dst := dst.set (dst_row + x * 4 + 1) (src.getD (src_row + x * 3 + 1) 0)
          let dst := dst.set (dst_row + x * 4 + 2) (src.getD (src_row + x * 3 + 2) 0)
          dst.set (dst_row + 3) 0) dst) dst
    (some dst, { k with has_new_video_image_ := false })

/-- A connected object with one device and a 2 x 1 video image whose pixels
are (1, 2, 3) and (4, 5, 6), and a new video image pending. -/
def videoKinect : KinectRangeImpl :=
  { KinectRangeImpl.new with
    width_ := 2, height_ := 1, devices_ := [⟨0⟩],
    video_data_ := ⟨1, 2, 3, [1, 2, 3, 4, 5, 6]⟩,
    depth_data_orig_ := Mat.create16UC1 1 2,
    depth_data_blur_ := Mat.create16UC1 1 2,
    has_new_video_image_ := true }

/-- A stand-in for the OpenCV operations, used to run examples: every image
operation keeps its input and the contour search finds one circle at (5, 1). -/
def plainKinectExternal : KinectExternal :=
  { blur := fun src _ => src, inRange := fun m _ _ => m, erode := fun m => m,
    dilate := fun m => m, FindContours := fun _ circles => circles ++ [⟨5, 1, 1⟩],
    DepthColorImage := fun _ _ => [] }

/-- Devices that report nothing in a tick and leave the buffers as they are. -/
def silentDevices : Device → DevicePoll :=
  fun _ => { has_depth := false, depth := fun _ d => d, has_video := false,
             video := fun _ v => v }

/-- The object `depthKinect` with a person detected on the previous tick. -/
def personKinect : KinectRangeImpl :=
  { depthKinect with circles_ := [⟨3, 1, 1⟩], has_new_depth_image_ := true }
/-! ## Generic facts about loops -/

theorem forLoop_zero {σ : Type} (body : Nat → σ → σ) (init : σ) :
    forLoop 0 body init = init := rfl

theorem forLoop_succ {σ : Type} (n : Nat) (body : Nat → σ → σ) (init : σ) :
    forLoop (n + 1) body init = body n (forLoop n body init) := by
  simp [forLoop, List.range_succ, List.foldl_append]

/-- Loop invariant rule for counted loops. -/
theorem forLoop_induction {σ : Type} (P : Nat → σ → Prop) (n : Nat)
    (body : Nat → σ → σ) (init : σ) (h0 : P 0 init)
    (hstep : ∀ i st, i < n → P i st → P (i + 1) (body i st)) :
    P n (forLoop n body init) := by
  induction n with
  | zero => simpa [forLoop_zero] using h0
  | succ m ih =>
    rw [forLoop_succ]
    exact hstep m _ (Nat.lt_succ_self m)
      (ih (fun i st hi hp => hstep i st (Nat.lt_succ_of_lt hi) hp))

/-! ## Facts about the wire encoder -/

theorem or_mod_two_pow_eq (x y n : Nat) :
    (x ||| y) % 2 ^ n = (x % 2 ^ n) ||| (y % 2 ^ n) := by
  apply Nat.eq_of_testBit_eq
  intro i
  simp only [Nat.testBit_mod_two_pow, Nat.testBit_or]
  cases decide (i < n) <;> simp

theorem or_bit_mod_256 (S n : Nat) (h : S < 2 ^ n) :
    ((S % 256) ||| (1 <<< n)) % 256 = (S + 2 ^ n) % 256 := by
  have e : S + 2 ^ n = 2 ^ n * 1 ||| S := by
    rw [← Nat.mul_add_lt_is_or h 1]; ring
  have h256 : (256 : Nat) = 2 ^ 8 := by norm_num
  rw [e, Nat.one_shiftLeft, h256, or_mod_two_pow_eq, or_mod_two_pow_eq, Nat.mod_mod,
    Nat.mul_one, Nat.lor_comm]

theorem and_two_pow_ne_zero (x b : Nat) : x &&& 2 ^ b ≠ 0 ↔ x.testBit b = true := by
  rw [Nat.and_two_pow]
  cases h : x.testBit b <;> simp [Nat.pos_iff_ne_zero.mp (Nat.two_pow_pos b)]

theorem planeSum_lt (n : Nat) (strands : Strands) (k c b : Nat) :
    planeSum n strands k c b < 2 ^ n := by
  induction n with
  | zero => simp [planeSum]
  | succ m ih =>
    have : planeTerm strands k c b m ≤ 2 ^ m := by
      unfold planeTerm; split <;> simp
    unfold planeSum at ih ⊢
    rw [Finset.sum_range_succ, pow_succ]
    omega

theorem strandLoop_eq (n : Nat) (strands : Strands) (k c b : Nat) :
    forLoop n (BuildFrameColorSeq.strandStep strands k c (2 ^ b)) 0
      = planeSum n strands k c b % 256 := by
  induction n with
  | zero => simp [forLoop_zero, planeSum]
  | succ m ih =>
    rw [forLoop_succ, ih]
    have hlt := planeSum_lt m strands k c b
    have hs : planeSum (m + 1) strands k c b
        = planeSum m strands k c b + planeTerm strands k c b m := by
      simp [planeSum, Finset.sum_range_succ]
    rw [hs]
    unfold BuildFrameColorSeq.strandStep planeTerm
    by_cases hk : k < strands.lengths m
    · by_cases hb : (strands.colors m (k * 4 + c)).testBit b = true
      · have hne := (and_two_pow_ne_zero (strands.colors m (k * 4 + c)) b).mpr hb
        simp only [ge_iff_le, Nat.not_le.mpr hk, if_false, hne, ne_eq, not_false_eq_true,
          if_true, hk, hb, and_self]
        exact or_bit_mod_256 _ _ hlt
      · have hne : ¬ (strands.colors m (k * 4 + c) &&& 2 ^ b ≠ 0) :=
          fun h => hb ((and_two_pow_ne_zero _ b).mp h)
        simp [Nat.not_le.mpr hk, hne, hb]
    · simp [Nat.le_of_not_lt hk, hk]

theorem BuildFrameColorSeq.loop_pos (STRAND_COUNT : Nat) (strands : Strands)
    (k c mask : Nat) (dst : List Nat) (h : mask > 0) :
    BuildFrameColorSeq.loop STRAND_COUNT strands k c mask dst
      = BuildFrameColorSeq.loop STRAND_COUNT strands k c (mask >>> 1)
          (dst ++ [forLoop STRAND_COUNT (BuildFrameColorSeq.strandStep strands k c mask) 0]) := by
  rw [BuildFrameColorSeq.loop]; simp [h]

theorem BuildFrameColorSeq.loop_zero (STRAND_COUNT : Nat) (strands : Strands)
    (k c : Nat) (dst : List Nat) :
    BuildFrameColorSeq.loop STRAND_COUNT strands k c 0 dst = dst := by
  rw [BuildFrameColorSeq.loop]; simp

/-- Closed form of `BuildFrameColorSeq`: eight bytes, bit plane 7 first. -/
theorem BuildFrameColorSeq_eq (STRAND_COUNT : Nat) (strands : Strands) (k c : Nat) :
    BuildFrameColorSeq STRAND_COUNT strands k c
      = [planeSum STRAND_COUNT strands k c 7 % 256, planeSum STRAND_COUNT strands k c 6 % 256,
         planeSum STRAND_COUNT strands k c 5 % 256, planeSum STRAND_COUNT strands k c 4 % 256,
         planeSum STRAND_COUNT strands k c 3 % 256, planeSum STRAND_COUNT strands k c 2 % 256,
         planeSum STRAND_COUNT strands k c 1 % 256, planeSum STRAND_COUNT strands k c 0 % 256] := by
  have e7 := strandLoop_eq STRAND_COUNT strands k c 7
  have e6 := strandLoop_eq STRAND_COUNT strands k c 6
  have e5 := strandLoop_eq STRAND_COUNT strands k c 5
  have e4 := strandLoop_eq STRAND_COUNT strands k c 4
  have e3 := strandLoop_eq STRAND_COUNT strands k c 3
  have e2 := strandLoop_eq STRAND_COUNT strands k c 2
  have e1 := strandLoop_eq STRAND_COUNT strands k c 1
  have e0 := strandLoop_eq STRAND_COUNT strands k c 0
  norm_num at e7 e6 e5 e4 e3 e2 e1 e0
  unfold BuildFrameColorSeq
  rw [BuildFrameColorSeq.loop_pos _ _ _ _ _ _ (by decide)]
  rw [BuildFrameColorSeq.loop_pos _ _ _ _ _ _ (by decide)]
  rw [BuildFrameColorSeq.loop_pos _ _ _ _ _ _ (by decide)]
  rw [BuildFrameColorSeq.loop_pos _ _ _ _ _ _ (by decide)]
  rw [BuildFrameColorSeq.loop_pos _ _ _ _ _ _ (by decide)]
  rw [BuildFrameColorSeq.loop_pos _ _ _ _ _ _ (by decide)]
  rw [BuildFrameColorSeq.loop_pos _ _ _ _ _ _ (by decide)]
  rw [BuildFrameColorSeq.loop_pos _ _ _ _ _ _ (by decide)]
  norm_num [Nat.shiftRight_eq_div_pow, BuildFrameColorSeq.loop_zero, e7, e6, e5, e4, e3, e2, e1, e0]

/-- The `CHECK(pos == 8)` of `BuildFrameColorSeq` always holds. -/
theorem BuildFrameColorSeq_length (STRAND_COUNT : Nat) (strands : Strands) (k c : Nat) :
    (BuildFrameColorSeq STRAND_COUNT strands k c).length = 8 := by
  rw [BuildFrameColorSeq_eq]; rfl

/-- The 24 bytes that LED `k` adds to the raw frame. -/
theorem raw_succ (SC n : Nat) (strands : Strands) :
    ConvertStrandsToFrame.raw SC (n + 1) strands
      = ConvertStrandsToFrame.raw SC n strands ++ BuildFrameColorSeq SC strands n 2
        ++ BuildFrameColorSeq SC strands n 1 ++ BuildFrameColorSeq SC strands n 0 := by
  unfold ConvertStrandsToFrame.raw
  rw [forLoop_succ]

theorem raw_length (SC n : Nat) (strands : Strands) :
    (ConvertStrandsToFrame.raw SC n strands).length = n * 24 := by
  induction n with
  | zero => simp [ConvertStrandsToFrame.raw, forLoop_zero]
  | succ m ih =>
    rw [raw_succ]
    simp only [List.length_append, BuildFrameColorSeq_length, ih]
    ring

theorem raw_getElem (SC n : Nat) (strands : Strands) (k j i : Nat)
    (hk : k < n) (hj : j < 3) (hi : i < 8) :
    (ConvertStrandsToFrame.raw SC n strands)[k * 24 + j * 8 + i]?
      = some (planeSum SC strands k (2 - j) (7 - i) % 256) := by
  induction n with
  | zero => omega
  | succ m ih =>
    rw [raw_succ, List.append_assoc, List.append_assoc, List.getElem?_append, raw_length]
    by_cases hkm : k < m
    · have : k * 24 + j * 8 + i < m * 24 := by omega
      rw [if_pos this]
      exact ih hkm
    · have hkm2 : k = m := by omega
      subst hkm2
      have : ¬ (k * 24 + j * 8 + i < k * 24) := by omega
      rw [if_neg this]
      have e : k * 24 + j * 8 + i - k * 24 = j * 8 + i := by omega
      rw [e, BuildFrameColorSeq_eq, BuildFrameColorSeq_eq, BuildFrameColorSeq_eq]
      interval_cases j <;> interval_cases i <;> rfl

theorem offsetLoop_length (m : Nat) (f : Nat → Nat) (l : List Nat) :
    (forLoop m (fun i result => result.set i (f (result.getD i 0))) l).length = l.length := by
  induction m with
  | zero => rfl
  | succ m ih => rw [forLoop_succ, List.length_set, ih]

theorem offsetLoop_getElem (m : Nat) (f : Nat → Nat) (l : List Nat) (j : Nat) :
    (forLoop m (fun i result => result.set i (f (result.getD i 0))) l)[j]?
      = if j < m then l[j]?.map f else l[j]? := by
  induction m with
  | zero => simp [forLoop_zero]
  | succ m ih =>
    rw [forLoop_succ, List.getElem?_set, offsetLoop_length]
    by_cases hmj : m = j
    · subst hmj
      simp only [if_true, Nat.lt_succ_self]
      by_cases hl : m < l.length
      · have := ih
        simp only [Nat.lt_irrefl, if_false] at this
        rw [if_pos hl, List.getD_eq_getElem?_getD, this, List.getElem?_eq_getElem hl]
        rfl
      · simp [hl, List.getElem?_eq_none (Nat.le_of_not_lt hl)]
    · rw [if_neg hmj, ih]
      by_cases h1 : j < m
      · simp [h1, Nat.lt_succ_of_lt h1]
      · have : ¬ j < m + 1 := by omega
        simp [h1, this]

theorem frame_length (SC SL : Nat) (strands : Strands) :
    (ConvertStrandsToFrame SC SL strands).length = SL * 24 := by
  unfold ConvertStrandsToFrame
  rw [offsetLoop_length (FRAME_DATA_LEN SL) (fun v => (v + 0x2C) &&& 0xFF), raw_length]

theorem frame_getElem (SC SL : Nat) (strands : Strands) (k j i : Nat)
    (hk : k < SL) (hj : j < 3) (hi : i < 8) :
    (ConvertStrandsToFrame SC SL strands)[k * 24 + j * 8 + i]?
      = some ((0x2C + planeSum SC strands k (2 - j) (7 - i)) % 256) := by
  unfold ConvertStrandsToFrame
  rw [offsetLoop_getElem (FRAME_DATA_LEN SL) (fun v => (v + 0x2C) &&& 0xFF),
    raw_getElem SC SL strands k j i hk hj hi]
  have hlt : k * 24 + j * 8 + i < FRAME_DATA_LEN SL := by
    unfold FRAME_DATA_LEN; omega
  rw [if_pos hlt]
  simp only [Option.map_some']
  have h := Nat.and_pow_two_sub_one_eq_mod (planeSum SC strands k (2 - j) (7 - i) % 256 + 0x2C) 8
  norm_num at h ⊢
  rw [h]
  omega

theorem planeSum_congr (SC : Nat) (a b : Strands) (k c bit : Nat) (hc : c < 3)
    (hlen : a.lengths = b.lengths)
    (hcol : ∀ s k c, c < 3 → a.colors s (k * 4 + c) = b.colors s (k * 4 + c)) :
    planeSum SC a k c bit = planeSum SC b k c bit := by
  unfold planeSum planeTerm
  apply Finset.sum_congr rfl
  intro s _
  rw [hlen, hcol s k c hc]

/-- C1: the frame has exactly STRAND_LENGTH*24 bytes; the byte at position
k*24 + j*8 + (7-b), for LED k, channel slot j (slot 0 is record byte 2 = B,
slot 1 is record byte 1 = G, slot 2 is record byte 0 = R) and bit b, is
0x2C plus the sum of 2^s over the strands s that have LED k and whose channel
byte has bit b set, modulo 256; strand sets that differ only in alpha bytes
(record byte 3) give the same frame. -/
theorem ConvertStrandsToFrame_bytes (STRAND_COUNT STRAND_LENGTH : Nat) (strands : Strands) :
    (ConvertStrandsToFrame STRAND_COUNT STRAND_LENGTH strands).length = STRAND_LENGTH * 24 ∧
    (∀ k j b, k < STRAND_LENGTH → j < 3 → b < 8 →
      (ConvertStrandsToFrame STRAND_COUNT STRAND_LENGTH strands)[k * 24 + j * 8 + (7 - b)]?
        = some ((0x2C + ∑ s in Finset.range STRAND_COUNT,
            if k < strands.lengths s ∧ (strands.colors s (k * 4 + (2 - j))).testBit b = true
            then 2 ^ s else 0) % 256)) ∧
    (∀ other : Strands, other.lengths = strands.lengths →
      (∀ s k c, c < 3 → other.colors s (k * 4 + c) = strands.colors s (k * 4 + c)) →
      ConvertStrandsToFrame STRAND_COUNT STRAND_LENGTH other
        = ConvertStrandsToFrame STRAND_COUNT STRAND_LENGTH strands) := by
  refine ⟨frame_length _ _ _, ?_, ?_⟩
  · intro k j b hk hj hb
    have h := frame_getElem STRAND_COUNT STRAND_LENGTH strands k j (7 - b) hk hj (by omega)
    have e : 7 - (7 - b) = b := by omega
    rw [e] at h
    exact h
  · intro other hlen hcol
    apply List.ext_getElem?
    intro i
    by_cases hi : i < STRAND_LENGTH * 24
    · have hk : i / 24 < STRAND_LENGTH := by omega
      have hj : i % 24 / 8 < 3 := by omega
      have hb : i % 8 < 8 := by omega
      have e : i = i / 24 * 24 + i % 24 / 8 * 8 + i % 8 := by omega
      rw [e, frame_getElem _ _ _ _ _ _ hk hj hb, frame_getElem _ _ _ _ _ _ hk hj hb,
        planeSum_congr STRAND_COUNT other strands _ _ _ (by omega) hlen hcol]
    · rw [List.getElem?_eq_none (by rw [frame_length]; omega),
        List.getElem?_eq_none (by rw [frame_length]; omega)]

theorem ConvertStrandsToFrame_bytes_witness :
    (ConvertStrandsToFrame 8 2 scenarioStrands).length = 2 * 24 ∧
    (ConvertStrandsToFrame 8 2 scenarioStrands)[0 * 24 + 2 * 8 + (7 - 7)]?
        = some ((0x2C + ∑ s in Finset.range 8,
            if 0 < scenarioStrands.lengths s
              ∧ (scenarioStrands.colors s (0 * 4 + (2 - 2))).testBit 7 = true
            then 2 ^ s else 0) % 256) :=
  ⟨(ConvertStrandsToFrame_bytes 8 2 scenarioStrands).1,
   (ConvertStrandsToFrame_bytes 8 2 scenarioStrands).2.1 0 2 7 (by decide) (by decide) (by decide)⟩

theorem planeSum_single (SC : Nat) (strands : Strands) (s k c b : Nat)
    (hs : s < SC) (hk : k < strands.lengths s)
    (hbits : ∀ s2 k2 c2, s2 < SC → k2 < strands.lengths s2 → c2 < 3 →
      strands.colors s2 (k2 * 4 + c2) = if s2 = s ∧ k2 = k ∧ c2 = c then 2 ^ b else 0)
    (k2 c2 b2 : Nat) (hc2 : c2 < 3) :
    planeSum SC strands k2 c2 b2 = if k2 = k ∧ c2 = c ∧ b2 = b then 2 ^ s else 0 := by
  unfold planeSum
  have hterm : ∀ s2 ∈ Finset.range SC, planeTerm strands k2 c2 b2 s2
      = if s2 = s then (if k2 = k ∧ c2 = c ∧ b2 = b then 2 ^ s else 0) else 0 := by
    intro s2 hs2
    have hs2 : s2 < SC := Finset.mem_range.mp hs2
    unfold planeTerm
    by_cases hk2 : k2 < strands.lengths s2
    · rw [hbits s2 k2 c2 hs2 hk2 hc2]
      by_cases hcond : s2 = s ∧ k2 = k ∧ c2 = c
      · obtain ⟨rfl, rfl, rfl⟩ := hcond
        by_cases hb : b2 = b
        · subst hb; simp [hk2, Nat.testBit_two_pow]
        · have : ¬ b = b2 := fun h => hb h.symm
          simp [hk2, Nat.testBit_two_pow, hb, this]
      · rw [if_neg hcond]
        by_cases hss : s2 = s
        · subst hss
          have : ¬ (k2 = k ∧ c2 = c) := fun h => hcond ⟨rfl, h.1, h.2⟩
          have h3 : ¬ (k2 = k ∧ c2 = c ∧ b2 = b) := fun h => this ⟨h.1, h.2.1⟩
          simp [h3]
        · simp [hss]
    · by_cases hss : s2 = s
      · subst hss
        have : ¬ k2 = k := fun h => hk2 (h ▸ hk)
        simp [hk2, this]
      · simp [hk2, hss]
  rw [Finset.sum_congr rfl hterm, Finset.sum_ite_eq']
  simp [hs]

/-- C2: when the only colour bit set in the strand set is bit b of channel c
of LED k of strand s, the frame before the 0x2C offset has exactly one
non-zero byte, at position k*24 + channel_slot(c)*8 + (7-b) with
channel_slot(c) = 2 - c (B is slot 0, G slot 1, R slot 2), and that byte is
1<<s; after the offset that byte is 0x2C + (1<<s) and every other byte 0x2C.
STRAND_COUNT is at most 8, the width of a frame byte. -/
theorem ConvertStrandsToFrame_single_bit (STRAND_COUNT STRAND_LENGTH : Nat)
    (strands : Strands) (s k c b : Nat)
    (hSC : STRAND_COUNT ≤ 8) (hs : s < STRAND_COUNT)
    (hk : k < strands.lengths s) (hlen : strands.lengths s ≤ STRAND_LENGTH)
    (hc : c < 3) (hb : b < 8)
    (hbits : ∀ s2 k2 c2, s2 < STRAND_COUNT → k2 < strands.lengths s2 → c2 < 3 →
      strands.colors s2 (k2 * 4 + c2) = if s2 = s ∧ k2 = k ∧ c2 = c then 2 ^ b else 0) :
    (ConvertStrandsToFrame.raw STRAND_COUNT STRAND_LENGTH strands).length = STRAND_LENGTH * 24 ∧
    k * 24 + (2 - c) * 8 + (7 - b) < STRAND_LENGTH * 24 ∧
    1 <<< s ≠ 0 ∧
    (∀ i, i < STRAND_LENGTH * 24 →
      (ConvertStrandsToFrame.raw STRAND_COUNT STRAND_LENGTH strands)[i]?
        = some (if i = k * 24 + (2 - c) * 8 + (7 - b) then 1 <<< s else 0)) ∧
    (∀ i, i < STRAND_LENGTH * 24 →
      (ConvertStrandsToFrame STRAND_COUNT STRAND_LENGTH strands)[i]?
        = some (if i = k * 24 + (2 - c) * 8 + (7 - b) then 0x2C + 1 <<< s else 0x2C)) := by
  have hpow : 2 ^ s < 256 := by
    have h8 : s < 8 := by omega
    calc 2 ^ s < 2 ^ 8 := Nat.pow_lt_pow_right (by norm_num) h8
      _ = 256 := by norm_num
  have hpos : 0 < 2 ^ s := Nat.two_pow_pos s
  have key : ∀ i, i < STRAND_LENGTH * 24 →
      planeSum STRAND_COUNT strands (i / 24) (2 - i % 24 / 8) (7 - i % 8)
        = if i = k * 24 + (2 - c) * 8 + (7 - b) then 2 ^ s else 0 := by
    intro i _
    rw [planeSum_single STRAND_COUNT strands s k c b hs hk hbits _ _ _ (by omega)]
    by_cases hi : i = k * 24 + (2 - c) * 8 + (7 - b)
    · rw [if_pos hi, if_pos]
      subst hi
      refine ⟨by omega, by omega, by omega⟩
    · rw [if_neg hi, if_neg]
      rintro ⟨h1, h2, h3⟩
      apply hi
      omega
  refine ⟨raw_length _ _ _, by omega, by rw [Nat.one_shiftLeft]; omega, ?_, ?_⟩
  · intro i hi
    have e : i = i / 24 * 24 + i % 24 / 8 * 8 + i % 8 := by omega
    have h := raw_getElem STRAND_COUNT STRAND_LENGTH strands (i / 24) (i % 24 / 8) (i % 8)
      (by omega) (by omega) (by omega)
    rw [← e, key i hi] at h
    rw [h, Nat.one_shiftLeft]
    by_cases hp : i = k * 24 + (2 - c) * 8 + (7 - b)
    · simp only [if_pos hp]; rw [Nat.mod_eq_of_lt hpow]
    · simp only [if_neg hp]
  · intro i hi
    have e : i = i / 24 * 24 + i % 24 / 8 * 8 + i % 8 := by omega
    have h := frame_getElem STRAND_COUNT STRAND_LENGTH strands (i / 24) (i % 24 / 8) (i % 8)
      (by omega) (by omega) (by omega)
    rw [← e, key i hi] at h
    rw [h, Nat.one_shiftLeft]
    by_cases hp : i = k * 24 + (2 - c) * 8 + (7 - b)
    · simp only [if_pos hp]
      have h8 : s < 8 := by omega
      have : 2 ^ s ≤ 128 := by
        calc 2 ^ s ≤ 2 ^ 7 := Nat.pow_le_pow_right (by norm_num) (by omega)
          _ = 128 := by norm_num
      congr 1
      omega
    · simp only [if_neg hp]

/-- Scenario of the spec: strand 0, LED 0, R = 0x80 with STRAND_COUNT = 8 and
STRAND_LENGTH = 2: byte 16 of the frame is 0x2D and the other 47 bytes are
0x2C. -/
theorem ConvertStrandsToFrame_single_bit_witness :
    (ConvertStrandsToFrame 8 2 scenarioStrands).length = 48 ∧
    ∀ i, i < 48 →
      (ConvertStrandsToFrame 8 2 scenarioStrands)[i]? = some (if i = 16 then 0x2D else 0x2C) := by
  have h := ConvertStrandsToFrame_single_bit 8 2 scenarioStrands 0 0 0 7
    (by decide) (by decide) (by decide) (by decide) (by decide) (by decide)
    (by
      intro s2 k2 c2 _ hk2 hc2
      unfold scenarioStrands at hk2 ⊢
      by_cases h0 : s2 = 0
      · subst h0
        simp only [if_true] at hk2
        have : k2 = 0 := by omega
        subst this
        interval_cases c2 <;> simp
      · simp [h0] at hk2)
  exact ⟨frame_length 8 2 scenarioStrands, h.2.2.2.2⟩

/-! ## Facts about the layout map -/

theorem pixelPos_inj (w h : Int) (p q : Coord) (hp : inImage w h p) (hq : inImage w h q)
    (e : pixelPos w p = pixelPos w q) : p = q := by
  obtain ⟨px, py⟩ := p
  obtain ⟨qx, qy⟩ := q
  unfold inImage at hp hq
  unfold pixelPos at e
  simp only at hp hq e
  have hy : py = qy := by
    by_contra hne
    rcases lt_or_gt_of_ne hne with hlt | hgt
    · have : (qy - py) * w ≥ 1 * w := by
        apply mul_le_mul_of_nonneg_right <;> omega
      nlinarith
    · have : (py - qy) * w ≥ 1 * w := by
        apply mul_le_mul_of_nonneg_right <;> omega
      nlinarith
  subst hy
  have hx : px = qx := by omega
  subst hx
  rfl

theorem neighbourhood_nodup (x y : Int) : (neighbourhood x y).Nodup := by
  unfold neighbourhood
  simp only [List.nodup_cons, List.mem_cons, Coord.mk.injEq, List.mem_singleton,
    List.not_mem_nil, List.nodup_nil, not_or, not_false_eq_true, and_true]
  omega

theorem ledBody_eq_addAll (layout : Layout) (w h : Int) (s k : Nat) (st : LayoutState) :
    PopulateLayoutMap.ledBody layout w h s k st
      = addAll w h s k (neighbourhood (layout.x_ s k) (layout.y_ s k)) st := rfl

theorem addAll_cons (w h : Int) (s k : Nat) (p : Coord) (ps : List Coord) (st : LayoutState) :
    addAll w h s k (p :: ps) st = addAll w h s k ps (AddCoord st s k p.x_ p.y_ w h) := rfl

/-- What a run of `AddCoord` calls over distinct pixels does: the LED gets the
pixels that are inside the image and were free before the run, in order; no
other list changes; the pixels in use afterwards are the ones in use before
and the pixels of the run that are inside the image. -/
theorem addAll_spec (w h : Int) (s k : Nat) (ps : List Coord) :
    ∀ st : LayoutState, ps.Nodup →
      (addAll w h s k ps st).1.coords_ s k
          = st.1.coords_ s k
            ++ ps.filter (fun p => decide (inImage w h p) && !(st.2 (pixelPos w p)).in_use) ∧
      (∀ s2 k2, ¬ (s2 = s ∧ k2 = k) →
        (addAll w h s k ps st).1.coords_ s2 k2 = st.1.coords_ s2 k2) ∧
      (addAll w h s k ps st).1.hdr_siblings_ = st.1.hdr_siblings_ ∧
      (addAll w h s k ps st).1.lengths_ = st.1.lengths_ ∧
      (∀ q, ((addAll w h s k ps st).2 q).in_use = true ↔
        ((st.2 q).in_use = true ∨ ∃ p ∈ ps, inImage w h p ∧ q = pixelPos w p)) := by
  induction ps with
  | nil => intro st _; simp [addAll]
  | cons p rest ih =>
    intro st hnd
    have hnd2 : rest.Nodup := (List.nodup_cons.mp hnd).2
    have hp : p ∉ rest := (List.nodup_cons.mp hnd).1
    rw [addAll_cons]
    obtain ⟨ih1, ih2, ih3, ih4, ih5⟩ := ih (AddCoord st s k p.x_ p.y_ w h) hnd2
    by_cases hg : p.x_ < 0 ∨ p.x_ ≥ w ∨ p.y_ < 0 ∨ p.y_ ≥ h ∨
        (st.2 (p.y_ * w + p.x_)).in_use = true
    · -- the guard returns early
      have hst : AddCoord st s k p.x_ p.y_ w h = st := by
        unfold AddCoord; rw [if_pos hg]
      rw [hst] at ih1 ih2 ih3 ih4 ih5 ⊢
      have hf : (decide (inImage w h p) && !(st.2 (pixelPos w p)).in_use) = false := by
        by_cases hin : inImage w h p
        · have : (st.2 (p.y_ * w + p.x_)).in_use = true := by
            unfold inImage at hin
            rcases hg with h1 | h1 | h1 | h1 | h1
            · omega
            · omega
            · omega
            · omega
            · exact h1
          simp [pixelPos, this]
        · simp [hin]
      refine ⟨?_, ih2, ih3, ih4, ?_⟩
      · rw [ih1, List.filter_cons, hf]; simp
      · intro q
        rw [ih5 q]
        constructor
        · rintro (h1 | ⟨p2, hp2, hin2, hq2⟩)
          · exact Or.inl h1
          · exact Or.inr ⟨p2, List.mem_cons_of_mem _ hp2, hin2, hq2⟩
        · rintro (h1 | ⟨p2, hp2, hin2, hq2⟩)
          · exact Or.inl h1
          · rcases List.mem_cons.mp hp2 with rfl | hp2
            · left
              have hfalse := hf
              simp only [hin2, decide_True, Bool.true_and, Bool.not_eq_false_eq_eq_true] at hfalse
              rw [hq2]
              simpa using hfalse
            · exact Or.inr ⟨p2, hp2, hin2, hq2⟩
    · -- the pixel is claimed
      have hin : inImage w h p := by
        unfold inImage
        simp only [not_or, not_lt, ge_iff_le, not_le] at hg
        exact ⟨hg.1, hg.2.1, hg.2.2.1, hg.2.2.2.1⟩
      have hfree : (st.2 (pixelPos w p)).in_use = false := by
        simp only [not_or] at hg
        simpa [pixelPos] using hg.2.2.2.2
      have hst1 : (AddCoord st s k p.x_ p.y_ w h).1.coords_ s k = st.1.coords_ s k ++ [p] := by
        unfold AddCoord; rw [if_neg hg]; simp [LayoutMap.AddCoord]
      have hst2 : ∀ s2 k2, ¬ (s2 = s ∧ k2 = k) →
          (AddCoord st s k p.x_ p.y_ w h).1.coords_ s2 k2 = st.1.coords_ s2 k2 := by
        intro s2 k2 hne
        unfold AddCoord; rw [if_neg hg]; simp [LayoutMap.AddCoord, hne]
      have hst3 : (AddCoord st s k p.x_ p.y_ w h).1.hdr_siblings_ = st.1.hdr_siblings_ := by
        unfold AddCoord; rw [if_neg hg]; simp [LayoutMap.AddCoord]
      have hst4 : (AddCoord st s k p.x_ p.y_ w h).1.lengths_ = st.1.lengths_ := by
        unfold AddCoord; rw [if_neg hg]; simp [LayoutMap.AddCoord]
      have hst5 : ∀ q, ((AddCoord st s k p.x_ p.y_ w h).2 q).in_use
          = if q = pixelPos w p then true else (st.2 q).in_use := by
        intro q
        unfold AddCoord; rw [if_neg hg]
        simp only [pixelPos]
        split <;> rfl
      refine ⟨?_, ?_, ih3.trans hst3, ih4.trans hst4, ?_⟩
      · rw [ih1, hst1, List.filter_cons]
        have ht : (decide (inImage w h p) && !(st.2 (pixelPos w p)).in_use) = true := by
          simp [hin, hfree]
        rw [ht]
        simp only [if_true, List.append_assoc, List.singleton_append, List.append_cancel_left_eq,
          List.cons.injEq, true_and]
        apply List.filter_congr
        intro p2 hp2
        by_cases hin2 : inImage w h p2
        · have hne : pixelPos w p2 ≠ pixelPos w p := by
            intro e
            have := pixelPos_inj w h p2 p hin2 hin e
            exact hp (this ▸ hp2)
          rw [hst5, if_neg hne]
        · simp [hin2]
      · intro s2 k2 hne
        rw [ih2 s2 k2 hne, hst2 s2 k2 hne]
      · intro q
        rw [ih5 q, hst5 q]
        constructor
        · rintro (h1 | ⟨p2, hp2, hin2, hq2⟩)
          · by_cases hq : q = pixelPos w p
            · exact Or.inr ⟨p, List.mem_cons_self _ _, hin, hq⟩
            · rw [if_neg hq] at h1; exact Or.inl h1
          · exact Or.inr ⟨p2, List.mem_cons_of_mem _ hp2, hin2, hq2⟩
        · rintro (h1 | ⟨p2, hp2, hin2, hq2⟩)
          · left
            split
            · rfl
            · exact h1
          · rcases List.mem_cons.mp hp2 with rfl | hp2
            · left; rw [if_pos hq2]
            · exact Or.inr ⟨p2, hp2, hin2, hq2⟩

theorem earlier_irrefl (s k : Nat) : ¬ earlier s k s k := by
  unfold earlier; omega

theorem earlier_trans (a b c d e f : Nat) (h1 : earlier a b c d) (h2 : earlier c d e f) :
    earlier a b e f := by
  unfold earlier at *; omega

theorem earlier_trichotomy (a b c d : Nat) :
    earlier a b c d ∨ (a = c ∧ b = d) ∨ earlier c d a b := by
  unfold earlier; omega

/-- Handling one more LED keeps the invariant of the claiming loops. -/
theorem ledBody_inv (layout : Layout) (w h : Int) (P : Nat → Nat → Prop) (s k : Nat)
    (st : LayoutState) (inv : LayoutInv layout w h P st) (hnew : ¬ P s k)
    (hbefore : ∀ s2 k2, P s2 k2 → earlier s2 k2 s k) :
    LayoutInv layout w h (fun s2 k2 => P s2 k2 ∨ (s2 = s ∧ k2 = k))
      (PopulateLayoutMap.ledBody layout w h s k st) := by
  rw [ledBody_eq_addAll]
  obtain ⟨a1, a2, _, _, a5⟩ := addAll_spec w h s k
    (neighbourhood (layout.x_ s k) (layout.y_ s k)) st (neighbourhood_nodup _ _)
  rw [inv.unproc s k hnew, List.nil_append] at a1
  -- pixels of handled LEDs are inside the image
  have hin_old : ∀ s2 k2 p, p ∈ st.1.coords_ s2 k2 → P s2 k2 ∧ inImage w h p := by
    intro s2 k2 p hp
    by_cases hP : P s2 k2
    · exact ⟨hP, ((inv.mem s2 k2 hP p).mp hp).2.1⟩
    · rw [inv.unproc s2 k2 hP] at hp; cases hp
  have hother : ∀ s2 k2, P s2 k2 →
      (addAll w h s k (neighbourhood (layout.x_ s k) (layout.y_ s k)) st).1.coords_ s2 k2
        = st.1.coords_ s2 k2 := by
    intro s2 k2 hP
    apply a2
    rintro ⟨rfl, rfl⟩
    exact hnew hP
  have hearlier : ∀ s2 k2, earlier s2 k2 s k →
      (addAll w h s k (neighbourhood (layout.x_ s k) (layout.y_ s k)) st).1.coords_ s2 k2
        = st.1.coords_ s2 k2 := by
    intro s2 k2 he
    apply a2
    rintro ⟨rfl, rfl⟩
    exact earlier_irrefl _ _ he
  have hmem_new : ∀ p,
      p ∈ (addAll w h s k (neighbourhood (layout.x_ s k) (layout.y_ s k)) st).1.coords_ s k ↔
        (p ∈ neighbourhood (layout.x_ s k) (layout.y_ s k) ∧ inImage w h p ∧
          (st.2 (pixelPos w p)).in_use = false) := by
    intro p
    rw [a1, List.mem_filter]
    simp
  constructor
  · -- unproc
    intro s2 k2 hP
    simp only [not_or] at hP
    rw [a2 s2 k2 hP.2]
    exact inv.unproc s2 k2 hP.1
  · -- sub
    intro s2 k2 hP
    rcases hP with hP | ⟨rfl, rfl⟩
    · rw [hother s2 k2 hP]; exact inv.sub s2 k2 hP
    · rw [a1]; exact List.filter_sublist _
  · -- mem
    intro s2 k2 hP p
    rcases hP with hP | ⟨rfl, rfl⟩
    · rw [hother s2 k2 hP, inv.mem s2 k2 hP p]
      have : ∀ s3 k3, earlier s3 k3 s2 k2 →
          (addAll w h s k (neighbourhood (layout.x_ s k) (layout.y_ s k)) st).1.coords_ s3 k3
            = st.1.coords_ s3 k3 :=
        fun s3 k3 he => hearlier s3 k3 (earlier_trans _ _ _ _ _ _ he (hbefore s2 k2 hP))
      constructor
      · rintro ⟨h1, h2, h3⟩
        exact ⟨h1, h2, fun s3 k3 he => by rw [this s3 k3 he]; exact h3 s3 k3 he⟩
      · rintro ⟨h1, h2, h3⟩
        exact ⟨h1, h2, fun s3 k3 he => by rw [← this s3 k3 he]; exact h3 s3 k3 he⟩
    · rw [hmem_new]
      constructor
      · rintro ⟨h1, h2, h3⟩
        refine ⟨h1, h2, ?_⟩
        intro s3 k3 he hp3
        rw [hearlier s3 k3 he] at hp3
        have : (st.2 (pixelPos w p)).in_use = true := (inv.use _).mpr ⟨s3, k3, p, hp3, rfl⟩
        rw [h3] at this
        cases this
      · rintro ⟨h1, h2, h3⟩
        refine ⟨h1, h2, ?_⟩
        by_contra hne
        have hu : (st.2 (pixelPos w p)).in_use = true := by
          cases hb : (st.2 (pixelPos w p)).in_use
          · exact absurd hb hne
          · rfl
        obtain ⟨s3, k3, p3, hp3, e⟩ := (inv.use _).mp hu
        obtain ⟨hP3, hin3⟩ := hin_old s3 k3 p3 hp3
        have : p = p3 := pixelPos_inj w h p p3 h2 hin3 e
        subst this
        have he := hbefore s3 k3 hP3
        apply h3 s3 k3 he
        rw [hearlier s3 k3 he]
        exact hp3
  · -- use
    intro q
    rw [a5 q]
    constructor
    · rintro (hq | ⟨p, hp, hin, rfl⟩)
      · obtain ⟨s3, k3, p3, hp3, e⟩ := (inv.use q).mp hq
        exact ⟨s3, k3, p3, by rw [hother s3 k3 (hin_old s3 k3 p3 hp3).1]; exact hp3, e⟩
      · cases hb : (st.2 (pixelPos w p)).in_use
        · exact ⟨s, k, p, (hmem_new p).mpr ⟨hp, hin, hb⟩, rfl⟩
        · obtain ⟨s3, k3, p3, hp3, e⟩ := (inv.use _).mp hb
          exact ⟨s3, k3, p3, by rw [hother s3 k3 (hin_old s3 k3 p3 hp3).1]; exact hp3, e⟩
    · rintro ⟨s3, k3, p3, hp3, e⟩
      by_cases hsk : s3 = s ∧ k3 = k
      · obtain ⟨rfl, rfl⟩ := hsk
        obtain ⟨h1, h2, _⟩ := (hmem_new p3).mp hp3
        exact Or.inr ⟨p3, h1, h2, e⟩
      · rw [a2 s3 k3 hsk] at hp3
        exact Or.inl ((inv.use q).mpr ⟨s3, k3, p3, hp3, e⟩)

theorem ledBody_frame (layout : Layout) (w h : Int) (s k : Nat) (st : LayoutState) :
    (PopulateLayoutMap.ledBody layout w h s k st).1.hdr_siblings_ = st.1.hdr_siblings_ ∧
    (PopulateLayoutMap.ledBody layout w h s k st).1.lengths_ = st.1.lengths_ := by
  rw [ledBody_eq_addAll]
  obtain ⟨_, _, a3, a4, _⟩ := addAll_spec w h s k
    (neighbourhood (layout.x_ s k) (layout.y_ s k)) st (neighbourhood_nodup _ _)
  exact ⟨a3, a4⟩

theorem LayoutInv.congr (layout : Layout) (w h : Int) (P Q : Nat → Nat → Prop)
    (st : LayoutState) (hPQ : ∀ s k, P s k ↔ Q s k) (inv : LayoutInv layout w h P st) :
    LayoutInv layout w h Q st := by
  have : P = Q := by
    funext s k; exact propext (hPQ s k)
  exact this ▸ inv

theorem processed_succ (layout : Layout) (i j s k : Nat) :
    processed layout i (j + 1) s k ↔ (processed layout i j s k ∨ (s = i ∧ k = j)) := by
  unfold processed; omega

theorem processed_next (layout : Layout) (i s k : Nat) :
    processed layout i (layout.lengths_ i) s k ↔ processed layout (i + 1) 0 s k := by
  unfold processed
  by_cases h : s = i
  · subst h; omega
  · omega

theorem strandBody_inv (layout : Layout) (w h : Int) (init : LayoutMap) (i : Nat)
    (st : LayoutState) (hst : StrandLoopInv layout w h init i st) :
    StrandLoopInv layout w h init (i + 1) (PopulateLayoutMap.strandBody layout w h i st) := by
  unfold PopulateLayoutMap.strandBody
  have key := forLoop_induction
    (fun j (t : LayoutState) =>
      LayoutInv layout w h (processed layout i j) t ∧
      t.1.hdr_siblings_ = init.hdr_siblings_ ∧
      ∀ s, t.1.lengths_ s = if s < i + 1 then layout.lengths_ s else init.lengths_ s)
    (layout.lengths_ i)
    (fun led_id t => PopulateLayoutMap.ledBody layout w h i led_id t)
    (({ st.1 with lengths_ := fun s => if s = i then layout.lengths_ i else st.1.lengths_ s },
      st.2) : LayoutState)
    (by
      refine ⟨⟨hst.inv.unproc, hst.inv.sub, hst.inv.mem, hst.inv.use⟩, hst.hdr, ?_⟩
      intro s
      simp only
      by_cases hs : s = i
      · subst hs; simp
      · rw [if_neg hs, hst.len s]
        by_cases h1 : s < i
        · simp [h1, Nat.lt_succ_of_lt h1]
        · have : ¬ s < i + 1 := by omega
          simp [h1, this])
    (by
      intro j t _ ⟨hinv, hhdr, hlen⟩
      have hnew : ¬ processed layout i j i j := by unfold processed; omega
      have hbefore : ∀ s2 k2, processed layout i j s2 k2 → earlier s2 k2 i j := by
        intro s2 k2 hp; unfold processed at hp; unfold earlier; omega
      have h1 := ledBody_inv layout w h _ i j t hinv hnew hbefore
      have h2 := ledBody_frame layout w h i j t
      refine ⟨LayoutInv.congr layout w h _ _ _ (fun s k => (processed_succ layout i j s k).symm) h1,
        h2.1.trans hhdr, ?_⟩
      intro s
      rw [h2.2]; exact hlen s)
  obtain ⟨k1, k2, k3⟩ := key
  exact ⟨LayoutInv.congr layout w h _ _ _ (processed_next layout i) k1, k2, k3⟩

theorem CopyCoord_eq (st : LayoutState) (x y w h x_src y_src : Int) :
    CopyCoord st x y w h x_src y_src = st := by
  unfold CopyCoord
  simp

theorem copyBody_eq (w h x y : Int) (st : LayoutState) :
    PopulateLayoutMap.copyBody w h x y st = st := by
  unfold PopulateLayoutMap.copyBody
  simp [CopyCoord_eq]

theorem forLoop_id {σ : Type} (n : Nat) (body : Nat → σ → σ) (init : σ)
    (hbody : ∀ i st, body i st = st) : forLoop n body init = init := by
  induction n with
  | zero => rfl
  | succ m ih => rw [forLoop_succ, hbody, ih]

/-- The state after the claiming loops of `PopulateLayoutMap`. -/
theorem claimLoop_inv (SC : Nat) (w h : Int) (layout : Layout) :
    StrandLoopInv layout w h LayoutMap.new SC
      (forLoop SC (PopulateLayoutMap.strandBody layout w h)
        (LayoutMap.new, fun _ =>
          { in_use := false, is_primary := false, strand_id := 0, led_id := 0 })) := by
  apply forLoop_induction (fun i st => StrandLoopInv layout w h LayoutMap.new i st)
  · refine ⟨⟨?_, ?_, ?_, ?_⟩, rfl, ?_⟩
    · intro s k _; rfl
    · intro s k hP; unfold processed at hP; omega
    · intro s k hP; unfold processed at hP; omega
    · intro q
      simp [LayoutMap.new]
    · intro s; simp
  · intro i st _ hst
    exact strandBody_inv layout w h _ i st hst

theorem appendSiblings_nil (m : LayoutMap) (s k : Nat) : appendSiblings m s k [] = m := by
  unfold appendSiblings
  cases m
  simp

theorem appendSiblings_append (m : LayoutMap) (s k : Nat) (l1 l2 : List HdrSibling) :
    appendSiblings (appendSiblings m s k l1) s k l2 = appendSiblings m s k (l1 ++ l2) := by
  unfold appendSiblings
  simp only [LayoutMap.mk.injEq, true_and, and_true]
  funext s2 k2
  by_cases hc : s2 = s ∧ k2 = k
  · simp [hc]
  · simp [hc]

theorem hdr_inner (layout : Layout) (s1 k1 s2 n : Nat) (m : LayoutMap) :
    forLoop n (fun led_id2 m =>
        if wrap32
              (wrap32 (wrap32 (layout.x_ s2 led_id2 - layout.x_ s1 k1)
                  * wrap32 (layout.x_ s2 led_id2 - layout.x_ s1 k1))
                + wrap32 (wrap32 (layout.y_ s2 led_id2 - layout.y_ s1 k1)
                  * wrap32 (layout.y_ s2 led_id2 - layout.y_ s1 k1)))
            < kHdrSiblingsDistance * kHdrSiblingsDistance then
          m.AddHdrSibling s1 k1 s2 led_id2
        else m) m
      = appendSiblings m s1 k1 (strandSiblings layout s1 k1 s2 n) := by
  induction n with
  | zero => simp [forLoop_zero, strandSiblings, appendSiblings_nil]
  | succ n ih =>
    rw [forLoop_succ, ih]
    unfold strandSiblings
    rw [List.range_succ, List.filter_append, List.map_append, ← appendSiblings_append]
    by_cases hd : distance2 layout s1 k1 s2 n < kHdrSiblingsDistance * kHdrSiblingsDistance
    · have hd2 := hd
      unfold distance2 at hd2
      rw [if_pos hd2]
      simp only [List.filter_cons, hd, decide_True, if_true, List.filter_nil, List.map_cons,
        List.map_nil]
      rfl
    · have hd2 := hd
      unfold distance2 at hd2
      rw [if_neg hd2]
      simp only [List.filter_cons, hd, decide_False, List.filter_nil, List.map_nil,
        Bool.false_eq_true, if_false]
      rw [appendSiblings_nil]

theorem hdr_middle (layout : Layout) (s1 k1 n2 : Nat) (m : LayoutMap) :
    forLoop n2 (fun strand_id2 m =>
        forLoop (layout.lengths_ strand_id2) (fun led_id2 m =>
          if wrap32
                (wrap32 (wrap32 (layout.x_ strand_id2 led_id2 - layout.x_ s1 k1)
                    * wrap32 (layout.x_ strand_id2 led_id2 - layout.x_ s1 k1))
                  + wrap32 (wrap32 (layout.y_ strand_id2 led_id2 - layout.y_ s1 k1)
                    * wrap32 (layout.y_ strand_id2 led_id2 - layout.y_ s1 k1)))
              < kHdrSiblingsDistance * kHdrSiblingsDistance then
            m.AddHdrSibling s1 k1 strand_id2 led_id2
          else m) m) m
      = appendSiblings m s1 k1 (siblingList layout s1 k1 n2) := by
  induction n2 with
  | zero => simp [forLoop_zero, siblingList, appendSiblings_nil]
  | succ n ih =>
    rw [forLoop_succ, ih, hdr_inner, appendSiblings_append]
    unfold siblingList
    rw [List.range_succ, List.flatMap_append]
    simp

/-- The HDR sibling loops leave coordinates and lengths alone and append to
the sibling vector of every configured LED the siblings found for it. -/
theorem hdrLoop_spec (SC : Nat) (layout : Layout) (m : LayoutMap) :
    (PopulateLayoutMap.hdrLoop SC layout m).coords_ = m.coords_ ∧
    (PopulateLayoutMap.hdrLoop SC layout m).lengths_ = m.lengths_ ∧
    ∀ s k, (PopulateLayoutMap.hdrLoop SC layout m).hdr_siblings_ s k
      = if s < SC ∧ k < layout.lengths_ s then m.hdr_siblings_ s k ++ siblingList layout s k SC
        else m.hdr_siblings_ s k := by
  unfold PopulateLayoutMap.hdrLoop
  simp only [hdr_middle]
  apply forLoop_induction (fun i (t : LayoutMap) =>
    t.coords_ = m.coords_ ∧ t.lengths_ = m.lengths_ ∧
    ∀ s k, t.hdr_siblings_ s k
      = if s < i ∧ k < layout.lengths_ s then m.hdr_siblings_ s k ++ siblingList layout s k SC
        else m.hdr_siblings_ s k)
  · refine ⟨rfl, rfl, ?_⟩
    intro s k; simp
  · intro i t _ ⟨h1, h2, h3⟩
    have key := forLoop_induction (fun j (u : LayoutMap) =>
        u.coords_ = m.coords_ ∧ u.lengths_ = m.lengths_ ∧
        ∀ s k, u.hdr_siblings_ s k
          = if (s < i ∧ k < layout.lengths_ s) ∨ (s = i ∧ k < j) then
              m.hdr_siblings_ s k ++ siblingList layout s k SC
            else m.hdr_siblings_ s k)
      (layout.lengths_ i)
      (fun led_id1 u => appendSiblings u i led_id1 (siblingList layout i led_id1 SC)) t
      (by
        refine ⟨h1, h2, ?_⟩
        intro s k
        rw [h3 s k]
        have : ((s < i ∧ k < layout.lengths_ s) ∨ (s = i ∧ k < 0)) ↔ (s < i ∧ k < layout.lengths_ s) := by
          omega
        simp only [this])
      (by
        intro j u _ ⟨g1, g2, g3⟩
        refine ⟨g1, g2, ?_⟩
        intro s k
        unfold appendSiblings
        simp only
        rw [g3 s k]
        by_cases hc : s = i ∧ k = j
        · obtain ⟨rfl, rfl⟩ := hc
          have c1 : ¬ ((s < s ∧ k < layout.lengths_ s) ∨ (s = s ∧ k < k)) := by omega
          have c2 : (s < s ∧ k < layout.lengths_ s) ∨ (s = s ∧ k < k + 1) := by omega
          rw [if_pos ⟨rfl, rfl⟩, if_neg c1, if_pos c2]
        · rw [if_neg hc]
          have : ((s < i ∧ k < layout.lengths_ s) ∨ (s = i ∧ k < j + 1))
              ↔ ((s < i ∧ k < layout.lengths_ s) ∨ (s = i ∧ k < j)) := by omega
          simp only [this])
    obtain ⟨k1, k2, k3⟩ := key
    refine ⟨k1, k2, ?_⟩
    intro s k
    rw [k3 s k]
    have : ((s < i ∧ k < layout.lengths_ s) ∨ (s = i ∧ k < layout.lengths_ i))
        ↔ (s < i + 1 ∧ k < layout.lengths_ s) := by
      by_cases hs : s = i
      · subst hs; omega
      · omega
    simp only [this]

/-- The coordinate lists after `PopulateLayoutMap`, run by the constructor on
a fresh layout map: an LED that is not configured has none; the list of a
configured LED is the subsequence of its neighbourhood made of the pixels
that are inside the image and in the list of no earlier LED. -/
theorem PopulateLayoutMap_coords (SC : Nat) (w h : Int) (layout : Layout) :
    (∀ s k, ¬ (s < SC ∧ k < layout.lengths_ s) →
      (PopulateLayoutMap SC w h LayoutMap.new layout).coords_ s k = []) ∧
    (∀ s k, s < SC → k < layout.lengths_ s →
      List.Sublist ((PopulateLayoutMap SC w h LayoutMap.new layout).coords_ s k)
        (neighbourhood (layout.x_ s k) (layout.y_ s k))) ∧
    (∀ s k, s < SC → k < layout.lengths_ s → ∀ p,
      p ∈ (PopulateLayoutMap SC w h LayoutMap.new layout).coords_ s k ↔
        (p ∈ neighbourhood (layout.x_ s k) (layout.y_ s k) ∧ inImage w h p ∧
          ∀ s2 k2, earlier s2 k2 s k →
            p ∉ (PopulateLayoutMap SC w h LayoutMap.new layout).coords_ s2 k2)) := by
  have hinv := claimLoop_inv SC w h layout
  have hP : ∀ s k, processed layout SC 0 s k ↔ (s < SC ∧ k < layout.lengths_ s) := by
    intro s k; unfold processed; omega
  have hco : (PopulateLayoutMap SC w h LayoutMap.new layout).coords_
      = (forLoop SC (PopulateLayoutMap.strandBody layout w h)
        (LayoutMap.new, fun _ =>
          { in_use := false, is_primary := false, strand_id := 0, led_id := 0 })).1.coords_ := by
    unfold PopulateLayoutMap
    simp only
    rw [(hdrLoop_spec SC layout _).1]
    rw [forLoop_id _ _ _ (fun x st => forLoop_id _ _ _ (fun y st => copyBody_eq w h x y st))]
  rw [hco]
  refine ⟨?_, ?_, ?_⟩
  · intro s k hn
    exact hinv.inv.unproc s k (fun hp => hn ((hP s k).mp hp))
  · intro s k hs hk
    exact hinv.inv.sub s k ((hP s k).mpr ⟨hs, hk⟩)
  · intro s k hs hk p
    exact hinv.inv.mem s k ((hP s k).mpr ⟨hs, hk⟩) p

/-- The strand lengths after `PopulateLayoutMap`. -/
theorem PopulateLayoutMap_lengths (SC : Nat) (w h : Int) (layout : Layout) (s : Nat) :
    (PopulateLayoutMap SC w h LayoutMap.new layout).lengths_ s
      = if s < SC then layout.lengths_ s else 0 := by
  have hinv := claimLoop_inv SC w h layout
  unfold PopulateLayoutMap
  simp only
  rw [(hdrLoop_spec SC layout _).2.1]
  rw [forLoop_id _ _ _ (fun x st => forLoop_id _ _ _ (fun y st => copyBody_eq w h x y st))]
  exact hinv.len s

/-- The sibling vectors after `PopulateLayoutMap`. -/
theorem PopulateLayoutMap_siblings (SC : Nat) (w h : Int) (layout : Layout) (s k : Nat) :
    (PopulateLayoutMap SC w h LayoutMap.new layout).hdr_siblings_ s k
      = if s < SC ∧ k < layout.lengths_ s then siblingList layout s k SC else [] := by
  have hinv := claimLoop_inv SC w h layout
  unfold PopulateLayoutMap
  simp only
  rw [(hdrLoop_spec SC layout _).2.2 s k]
  rw [forLoop_id _ _ _ (fun x st => forLoop_id _ _ _ (fun y st => copyBody_eq w h x y st))]
  rw [hinv.hdr]
  simp [LayoutMap.new]

theorem PopulateLayoutMap_coords_nodup (SC : Nat) (w h : Int) (layout : Layout) (s k : Nat) :
    ((PopulateLayoutMap SC w h LayoutMap.new layout).coords_ s k).Nodup := by
  obtain ⟨h1, h2, _⟩ := PopulateLayoutMap_coords SC w h layout
  by_cases hc : s < SC ∧ k < layout.lengths_ s
  · exact (h2 s k hc.1 hc.2).nodup (neighbourhood_nodup _ _)
  · rw [h1 s k hc]; exact List.nodup_nil

theorem PopulateLayoutMap_coords_disjoint (SC : Nat) (w h : Int) (layout : Layout)
    (s1 k1 s2 k2 : Nat) (p : Coord)
    (hp1 : p ∈ (PopulateLayoutMap SC w h LayoutMap.new layout).coords_ s1 k1)
    (hp2 : p ∈ (PopulateLayoutMap SC w h LayoutMap.new layout).coords_ s2 k2) :
    s1 = s2 ∧ k1 = k2 := by
  obtain ⟨h1, _, h3⟩ := PopulateLayoutMap_coords SC w h layout
  have c1 : s1 < SC ∧ k1 < layout.lengths_ s1 := by
    by_contra hc; rw [h1 s1 k1 hc] at hp1; cases hp1
  have c2 : s2 < SC ∧ k2 < layout.lengths_ s2 := by
    by_contra hc; rw [h1 s2 k2 hc] at hp2; cases hp2
  rcases earlier_trichotomy s1 k1 s2 k2 with he | he | he
  · exact absurd hp1 (((h3 s2 k2 c2.1 c2.2 p).mp hp2).2.2 s1 k1 he)
  · exact he
  · exact absurd hp2 (((h3 s1 k1 c1.1 c1.2 p).mp hp1).2.2 s2 k2 he)

/-- C3: after PopulateLayoutMap each pixel is owned by at most one LED: no
coordinate list holds a pixel twice, no pixel is in the lists of two
different LEDs, and a pixel occurs at most once in total over the lists
coords_[s][k] of all strands s < STRAND_COUNT and LEDs k < STRAND_LENGTH. -/
theorem PopulateLayoutMap_pixel_ownership (STRAND_COUNT STRAND_LENGTH : Nat)
    (width height : Int) (layout : Layout) :
    (∀ s k, ((PopulateLayoutMap STRAND_COUNT width height LayoutMap.new layout).coords_ s k).Nodup) ∧
    (∀ s1 k1 s2 k2 p,
      p ∈ (PopulateLayoutMap STRAND_COUNT width height LayoutMap.new layout).coords_ s1 k1 →
      p ∈ (PopulateLayoutMap STRAND_COUNT width height LayoutMap.new layout).coords_ s2 k2 →
      s1 = s2 ∧ k1 = k2) ∧
    (∀ p, List.count p ((List.range STRAND_COUNT).flatMap (fun s =>
        (List.range STRAND_LENGTH).flatMap (fun k =>
          (PopulateLayoutMap STRAND_COUNT width height LayoutMap.new layout).coords_ s k))) ≤ 1) := by
  have hnd := PopulateLayoutMap_coords_nodup STRAND_COUNT width height layout
  have hdj := PopulateLayoutMap_coords_disjoint STRAND_COUNT width height layout
  refine ⟨hnd, hdj, ?_⟩
  have hall : ((List.range STRAND_COUNT).flatMap (fun s =>
        (List.range STRAND_LENGTH).flatMap (fun k =>
          (PopulateLayoutMap STRAND_COUNT width height LayoutMap.new layout).coords_ s k))).Nodup := by
    rw [List.nodup_flatMap]
    constructor
    · intro s _
      rw [List.nodup_flatMap]
      constructor
      · intro k _; exact hnd s k
      · apply (List.nodup_range STRAND_LENGTH).pairwise_of_forall_ne
        intro k1 _ k2 _ hne
        simp only [Function.onFun]
        intro p hp1 hp2
        exact hne (hdj s k1 s k2 p hp1 hp2).2
    · apply (List.nodup_range STRAND_COUNT).pairwise_of_forall_ne
      intro s1 _ s2 _ hne
      simp only [Function.onFun]
      intro p hp1 hp2
      obtain ⟨k1, _, hk1⟩ := List.mem_flatMap.mp hp1
      obtain ⟨k2, _, hk2⟩ := List.mem_flatMap.mp hp2
      exact hne (hdj s1 k1 s2 k2 p hk1 hk2).1
  intro p
  exact List.nodup_iff_count_le_one.mp hall p

set_option maxRecDepth 100000 in
theorem PopulateLayoutMap_pixel_ownership_witness :
    (PopulateLayoutMap 8 1 1 LayoutMap.new twoLedLayout).coords_ 0 0 = [⟨0, 0⟩] ∧
    (⟨0, 0⟩ : Coord) ∉ (PopulateLayoutMap 8 1 1 LayoutMap.new twoLedLayout).coords_ 0 1 := by
  have h0 : (PopulateLayoutMap 8 1 1 LayoutMap.new twoLedLayout).coords_ 0 0 = [⟨0, 0⟩] := by
    decide
  refine ⟨h0, ?_⟩
  intro hmem
  have h := (PopulateLayoutMap_pixel_ownership 8 2 1 1 twoLedLayout).2.1 0 0 0 1 ⟨0, 0⟩
    (by rw [h0]; exact List.mem_singleton.mpr rfl) hmem
  exact absurd h.2 (by decide)

/-! ## 32-bit `int` arithmetic -/

theorem wrap32_of_range (z : Int) (h1 : -2147483648 ≤ z) (h2 : z < 2147483648) :
    wrap32 z = z := by
  unfold wrap32; omega

theorem wrap32_range (z : Int) : -2147483648 ≤ wrap32 z ∧ wrap32 z < 2147483648 := by
  unfold wrap32; omega

theorem wrap32_spec (z : Int) : ∃ k : Int, wrap32 z = z + 4294967296 * k :=
  ⟨-((z + 2147483648) / 4294967296), by unfold wrap32; omega⟩

theorem wrap32_congr (a b k : Int) (h : a = b + 4294967296 * k) : wrap32 a = wrap32 b := by
  unfold wrap32; omega

/-- The square of a wrapped difference does not depend on the order of the
two operands, after wrapping. -/
theorem wrap32_sq_sub_comm (a b : Int) :
    wrap32 (wrap32 (a - b) * wrap32 (a - b)) = wrap32 (wrap32 (b - a) * wrap32 (b - a)) := by
  obtain ⟨k1, h1⟩ := wrap32_spec (a - b)
  obtain ⟨k2, h2⟩ := wrap32_spec (b - a)
  rw [h1, h2]
  apply wrap32_congr _ _
    (2 * (a - b) * k1 + 4294967296 * k1 * k1 + 2 * (a - b) * k2 - 4294967296 * k2 * k2)
  ring

theorem distance2_comm (layout : Layout) (s1 k1 s2 k2 : Nat) :
    distance2 layout s1 k1 s2 k2 = distance2 layout s2 k2 s1 k1 := by
  unfold distance2
  rw [wrap32_sq_sub_comm (layout.x_ s2 k2) (layout.x_ s1 k1),
    wrap32_sq_sub_comm (layout.y_ s2 k2) (layout.y_ s1 k1)]

/-- While the squared distance of two LEDs is below 2^31, no operation of its
`int` computation overflows. -/
theorem distance2_exact (layout : Layout) (s1 k1 s2 k2 : Nat)
    (h : (layout.x_ s2 k2 - layout.x_ s1 k1) ^ 2 + (layout.y_ s2 k2 - layout.y_ s1 k1) ^ 2
      < 2147483648) :
    distance2 layout s1 k1 s2 k2
      = (layout.x_ s2 k2 - layout.x_ s1 k1) ^ 2 + (layout.y_ s2 k2 - layout.y_ s1 k1) ^ 2 := by
  unfold distance2
  generalize layout.x_ s2 k2 - layout.x_ s1 k1 = a at h ⊢
  generalize layout.y_ s2 k2 - layout.y_ s1 k1 = b at h ⊢
  have ha2 : 0 ≤ a ^ 2 := sq_nonneg a
  have hb2 : 0 ≤ b ^ 2 := sq_nonneg b
  have ha : -46341 < a ∧ a < 46341 := by constructor <;> nlinarith
  have hb : -46341 < b ∧ b < 46341 := by constructor <;> nlinarith
  rw [wrap32_of_range a (by omega) (by omega), wrap32_of_range b (by omega) (by omega),
    ← pow_two, ← pow_two, wrap32_of_range (a ^ 2) (by omega) (by omega),
    wrap32_of_range (b ^ 2) (by omega) (by omega),
    wrap32_of_range (a ^ 2 + b ^ 2) (by omega) (by omega)]

theorem mem_strandSiblings (layout : Layout) (s1 k1 s2 n : Nat) (a : HdrSibling) :
    a ∈ strandSiblings layout s1 k1 s2 n ↔
      (a.strand_id_ = s2 ∧ a.led_id_ < n ∧
        distance2 layout s1 k1 s2 a.led_id_ < kHdrSiblingsDistance * kHdrSiblingsDistance) := by
  unfold strandSiblings
  simp only [List.mem_map, List.mem_filter, List.mem_range, decide_eq_true_eq]
  constructor
  · rintro ⟨k2, ⟨h1, h2⟩, rfl⟩
    exact ⟨rfl, h1, h2⟩
  · rintro ⟨h1, h2, h3⟩
    refine ⟨a.led_id_, ⟨h2, h3⟩, ?_⟩
    cases a
    simp only at h1
    subst h1
    rfl

theorem strandSiblings_nodup (layout : Layout) (s1 k1 s2 n : Nat) :
    (strandSiblings layout s1 k1 s2 n).Nodup := by
  unfold strandSiblings
  apply List.Nodup.map
  · intro a b hab
    simpa using hab
  · exact (List.nodup_range n).filter _

theorem mem_siblingList (layout : Layout) (s1 k1 n2 : Nat) (a : HdrSibling) :
    a ∈ siblingList layout s1 k1 n2 ↔
      (a.strand_id_ < n2 ∧ a.led_id_ < layout.lengths_ a.strand_id_ ∧
        distance2 layout s1 k1 a.strand_id_ a.led_id_
          < kHdrSiblingsDistance * kHdrSiblingsDistance) := by
  unfold siblingList
  simp only [List.mem_flatMap, List.mem_range, mem_strandSiblings]
  constructor
  · rintro ⟨s2, h1, h2, h3, h4⟩
    subst h2
    exact ⟨h1, h3, h4⟩
  · rintro ⟨h1, h2, h3⟩
    exact ⟨a.strand_id_, h1, rfl, h2, h3⟩

theorem siblingList_nodup (layout : Layout) (s1 k1 n2 : Nat) :
    (siblingList layout s1 k1 n2).Nodup := by
  unfold siblingList
  rw [List.nodup_flatMap]
  constructor
  · intro s2 _; exact strandSiblings_nodup _ _ _ _ _
  · apply (List.nodup_range n2).pairwise_of_forall_ne
    intro a _ b _ hne
    simp only [Function.onFun]
    intro x hx1 hx2
    exact hne (((mem_strandSiblings _ _ _ _ _ x).mp hx1).1.symm.trans
      ((mem_strandSiblings _ _ _ _ _ x).mp hx2).1)

/-- Every configured LED is among its own HDR siblings. -/
theorem PopulateLayoutMap_self_sibling (SC : Nat) (w h : Int) (layout : Layout) (s k : Nat)
    (hs : s < SC) (hk : k < layout.lengths_ s) :
    (⟨s, k⟩ : HdrSibling) ∈ (PopulateLayoutMap SC w h LayoutMap.new layout).hdr_siblings_ s k := by
  rw [PopulateLayoutMap_siblings, if_pos ⟨hs, hk⟩, mem_siblingList]
  refine ⟨hs, hk, ?_⟩
  unfold distance2 kHdrSiblingsDistance
  simp [wrap32]

set_option maxRecDepth 100000 in
/-- C8, counterexample: on a layout with LEDs at (0,0), (65536,0) and
(0,46341) the LEDs at (65536,0) and (0,46341) are among the HDR siblings of
the LED at (0,0), each once, although their squared distances 65536^2 and
46341^2 are not below 169: as 32-bit `int` values the two squares are 0 and
a negative number. -/
theorem PopulateLayoutMap_far_leds_are_siblings :
    farLedLayout.lengths_ 0 = 3 ∧
    (farLedLayout.x_ 0 0, farLedLayout.y_ 0 0) = (0, 0) ∧
    (farLedLayout.x_ 0 1, farLedLayout.y_ 0 1) = (65536, 0) ∧
    (farLedLayout.x_ 0 2, farLedLayout.y_ 0 2) = (0, 46341) ∧
    (PopulateLayoutMap 8 4 4 LayoutMap.new farLedLayout).hdr_siblings_ 0 0
      = [⟨0, 0⟩, ⟨0, 1⟩, ⟨0, 2⟩] ∧
    ¬ ((farLedLayout.x_ 0 1 - farLedLayout.x_ 0 0) ^ 2
        + (farLedLayout.y_ 0 1 - farLedLayout.y_ 0 0) ^ 2 < 169) ∧
    ¬ ((farLedLayout.x_ 0 2 - farLedLayout.x_ 0 0) ^ 2
        + (farLedLayout.y_ 0 2 - farLedLayout.y_ 0 0) ^ 2 < 169) := by
  decide

/-- C8, amended: after PopulateLayoutMap, for configured LEDs (s1,k1) and
(s2,k2) whose squared distance (x2-x1)^2 + (y2-y1)^2 is below 2^31 (the code
computes it in a 32-bit int), the sibling vector of (s1,k1) holds (s2,k2)
exactly once when that squared distance is below 169 and not at all
otherwise; every configured LED is its own sibling and the sibling relation
is symmetric. -/
theorem PopulateLayoutMap_hdr_siblings (STRAND_COUNT : Nat) (width height : Int)
    (layout : Layout) :
    (∀ s1 k1 s2 k2, s1 < STRAND_COUNT → k1 < layout.lengths_ s1 →
      s2 < STRAND_COUNT → k2 < layout.lengths_ s2 →
      (layout.x_ s2 k2 - layout.x_ s1 k1) ^ 2 + (layout.y_ s2 k2 - layout.y_ s1 k1) ^ 2
        < 2 ^ 31 →
      List.count (⟨s2, k2⟩ : HdrSibling)
          ((PopulateLayoutMap STRAND_COUNT width height LayoutMap.new layout).hdr_siblings_ s1 k1)
        = if (layout.x_ s2 k2 - layout.x_ s1 k1) ^ 2 + (layout.y_ s2 k2 - layout.y_ s1 k1) ^ 2
              < 169 then 1 else 0) ∧
    (∀ s k, s < STRAND_COUNT → k < layout.lengths_ s →
      (⟨s, k⟩ : HdrSibling) ∈
        (PopulateLayoutMap STRAND_COUNT width height LayoutMap.new layout).hdr_siblings_ s k) ∧
    (∀ s1 k1 s2 k2, s1 < STRAND_COUNT → k1 < layout.lengths_ s1 →
      s2 < STRAND_COUNT → k2 < layout.lengths_ s2 →
      ((⟨s2, k2⟩ : HdrSibling) ∈
          (PopulateLayoutMap STRAND_COUNT width height LayoutMap.new layout).hdr_siblings_ s1 k1 ↔
        (⟨s1, k1⟩ : HdrSibling) ∈
          (PopulateLayoutMap STRAND_COUNT width height LayoutMap.new layout).hdr_siblings_ s2 k2)) := by
  have hmem : ∀ s1 k1 s2 k2, s1 < STRAND_COUNT → k1 < layout.lengths_ s1 →
      s2 < STRAND_COUNT → k2 < layout.lengths_ s2 →
      ((⟨s2, k2⟩ : HdrSibling) ∈
          (PopulateLayoutMap STRAND_COUNT width height LayoutMap.new layout).hdr_siblings_ s1 k1 ↔
        distance2 layout s1 k1 s2 k2 < kHdrSiblingsDistance * kHdrSiblingsDistance) := by
    intro s1 k1 s2 k2 h1 h2 h3 h4
    rw [PopulateLayoutMap_siblings, if_pos ⟨h1, h2⟩, mem_siblingList]
    simp [h3, h4]
  have h169 : kHdrSiblingsDistance * kHdrSiblingsDistance = 169 := by decide
  refine ⟨?_, ?_, ?_⟩
  · intro s1 k1 s2 k2 h1 h2 h3 h4 hb
    have hm := hmem s1 k1 s2 k2 h1 h2 h3 h4
    rw [distance2_exact layout s1 k1 s2 k2 (by simpa using hb), h169] at hm
    by_cases hlt : (layout.x_ s2 k2 - layout.x_ s1 k1) ^ 2
        + (layout.y_ s2 k2 - layout.y_ s1 k1) ^ 2 < 169
    · rw [if_pos hlt]
      apply List.count_eq_one_of_mem
      · rw [PopulateLayoutMap_siblings, if_pos ⟨h1, h2⟩]
        exact siblingList_nodup _ _ _ _
      · exact hm.mpr hlt
    · rw [if_neg hlt]
      apply List.count_eq_zero_of_not_mem
      exact fun hx => hlt (hm.mp hx)
  · intro s k h1 h2
    exact PopulateLayoutMap_self_sibling STRAND_COUNT width height layout s k h1 h2
  · intro s1 k1 s2 k2 h1 h2 h3 h4
    rw [hmem s1 k1 s2 k2 h1 h2 h3 h4, hmem s2 k2 s1 k1 h3 h4 h1 h2, distance2_comm]

/-- On `twoLedLayout` both LEDs sit at pixel (0,0): LED 1 is its own sibling
and is once among the siblings of LED 0. -/
theorem PopulateLayoutMap_hdr_siblings_witness :
    (⟨0, 1⟩ : HdrSibling) ∈ (PopulateLayoutMap 8 1 1 LayoutMap.new twoLedLayout).hdr_siblings_ 0 1 ∧
    (twoLedLayout.x_ 0 1 - twoLedLayout.x_ 0 0) ^ 2
      + (twoLedLayout.y_ 0 1 - twoLedLayout.y_ 0 0) ^ 2 < 2 ^ 31 ∧
    List.count (⟨0, 1⟩ : HdrSibling)
        ((PopulateLayoutMap 8 1 1 LayoutMap.new twoLedLayout).hdr_siblings_ 0 0) = 1 :=
  ⟨(PopulateLayoutMap_hdr_siblings 8 1 1 twoLedLayout).2.1 0 1 (by decide) (by decide),
   by decide,
   (PopulateLayoutMap_hdr_siblings 8 1 1 twoLedLayout).1 0 0 0 1
     (by decide) (by decide) (by decide) (by decide) (by decide)⟩

theorem siblingStep_eq (strands : Strands) (r : HdrRange) (a : HdrSibling) :
    PerformHdr.siblingStep strands r a
      = { l_min := min r.l_min (siblingL strands a), l_max := max r.l_max (siblingL strands a),
          s_min := min r.s_min (siblingS strands a), s_max := max r.s_max (siblingS strands a) } := by
  obtain ⟨a1, a2, a3, a4⟩ := r
  unfold PerformHdr.siblingStep siblingL siblingS
  by_cases h1 : strands.colors a.strand_id_ (a.led_id_ * 4 + 1) < a1 <;>
    by_cases h2 : strands.colors a.strand_id_ (a.led_id_ * 4 + 1) > a2 <;>
    by_cases h3 : strands.colors a.strand_id_ (a.led_id_ * 4 + 2) < a3 <;>
    by_cases h4 : strands.colors a.strand_id_ (a.led_id_ * 4 + 2) > a4 <;>
    simp only [h1, h2, h3, h4, if_true, if_false, HdrRange.mk.injEq] <;> omega

theorem hdr_range_fold (strands : Strands) (hbytes : ∀ s i, strands.colors s i < 256)
    (l : List HdrSibling) :
    (l = [] ∧ l.foldl (PerformHdr.siblingStep strands)
        { l_min := 255, l_max := 0, s_min := 255, s_max := 0 }
        = { l_min := 255, l_max := 0, s_min := 255, s_max := 0 }) ∨
    (IsMinOver (siblingL strands) l
        (l.foldl (PerformHdr.siblingStep strands)
          { l_min := 255, l_max := 0, s_min := 255, s_max := 0 }).l_min ∧
      IsMaxOver (siblingL strands) l
        (l.foldl (PerformHdr.siblingStep strands)
          { l_min := 255, l_max := 0, s_min := 255, s_max := 0 }).l_max ∧
      IsMinOver (siblingS strands) l
        (l.foldl (PerformHdr.siblingStep strands)
          { l_min := 255, l_max := 0, s_min := 255, s_max := 0 }).s_min ∧
      IsMaxOver (siblingS strands) l
        (l.foldl (PerformHdr.siblingStep strands)
          { l_min := 255, l_max := 0, s_min := 255, s_max := 0 }).s_max) := by
  induction l using List.reverseRecOn with
  | nil => left; exact ⟨rfl, rfl⟩
  | append_singleton l a ih =>
    right
    rw [List.foldl_append]
    simp only [List.foldl_cons, List.foldl_nil]
    have hL : siblingL strands a < 256 := hbytes _ _
    have hS : siblingS strands a < 256 := hbytes _ _
    rcases ih with ⟨hnil, hr⟩ | ⟨h1, h2, h3, h4⟩
    · subst hnil
      rw [hr, siblingStep_eq]
      unfold IsMinOver IsMaxOver
      simp only [List.nil_append, List.mem_singleton, exists_eq_left, forall_eq]
      omega
    · generalize l.foldl (PerformHdr.siblingStep strands)
        { l_min := 255, l_max := 0, s_min := 255, s_max := 0 } = r at h1 h2 h3 h4
      obtain ⟨⟨a1, ha1, e1⟩, m1⟩ := h1
      obtain ⟨⟨a2, ha2, e2⟩, m2⟩ := h2
      obtain ⟨⟨a3, ha3, e3⟩, m3⟩ := h3
      obtain ⟨⟨a4, ha4, e4⟩, m4⟩ := h4
      rw [siblingStep_eq]
      simp only
      rw [IsMinOver, IsMaxOver, IsMinOver, IsMaxOver]
      refine ⟨⟨?_, ?_⟩, ⟨?_, ?_⟩, ⟨?_, ?_⟩, ⟨?_, ?_⟩⟩
      · by_cases hc : r.l_min ≤ siblingL strands a
        · exact ⟨a1, List.mem_append_left _ ha1, by rw [e1]; omega⟩
        · exact ⟨a, by simp, by omega⟩
      · intro b hb
        rcases List.mem_append.mp hb with hb | hb
        · have := m1 b hb; omega
        · rw [List.mem_singleton.mp hb]; omega
      · by_cases hc : siblingL strands a ≤ r.l_max
        · exact ⟨a2, List.mem_append_left _ ha2, by rw [e2]; omega⟩
        · exact ⟨a, by simp, by omega⟩
      · intro b hb
        rcases List.mem_append.mp hb with hb | hb
        · have := m2 b hb; omega
        · rw [List.mem_singleton.mp hb]; omega
      · by_cases hc : r.s_min ≤ siblingS strands a
        · exact ⟨a3, List.mem_append_left _ ha3, by rw [e3]; omega⟩
        · exact ⟨a, by simp, by omega⟩
      · intro b hb
        rcases List.mem_append.mp hb with hb | hb
        · have := m3 b hb; omega
        · rw [List.mem_singleton.mp hb]; omega
      · by_cases hc : siblingS strands a ≤ r.s_max
        · exact ⟨a4, List.mem_append_left _ ha4, by rw [e4]; omega⟩
        · exact ⟨a, by simp, by omega⟩
      · intro b hb
        rcases List.mem_append.mp hb with hb | hb
        · have := m4 b hb; omega
        · rw [List.mem_singleton.mp hb]; omega

theorem writeStrand_same (bufs : Nat → Nat → Nat) (s off : Nat) (bytes : List Nat) (j : Nat)
    (hj : j < bytes.length) : writeStrand bufs s off bytes s (off + j) = bytes.getD j 0 := by
  unfold writeStrand writeBytes
  have : off ≤ off + j ∧ off + j < off + bytes.length := by omega
  simp only [if_true, if_pos this]
  congr 1
  omega

theorem writeStrand_other (bufs : Nat → Nat → Nat) (s off : Nat) (bytes : List Nat) (s2 i : Nat)
    (h : s2 ≠ s ∨ i < off ∨ off + bytes.length ≤ i) :
    writeStrand bufs s off bytes s2 i = bufs s2 i := by
  unfold writeStrand writeBytes
  by_cases hs : s2 = s
  · subst hs
    have : ¬ (off ≤ i ∧ i < off + bytes.length) := by
      rcases h with h | h | h
      · exact absurd rfl h
      · omega
      · omega
    simp only [if_true, if_neg this]
  · simp only [if_neg hs]

theorem record_length (mode : HdrMode) (lm : LayoutMap) (strands : Strands) (s k : Nat) :
    (PerformHdr.record mode lm strands s k).length = 4 := rfl

/-- The buffers `res_colors` after the LED loops of `PerformHdr`. -/
theorem hdr_res_colors (SC : Nat) (mode : HdrMode) (lm : LayoutMap) (strands : Strands)
    (s k j : Nat) (hs : s < SC) (hk : k < lm.lengths_ s) (hj : j < 4) :
    forLoop SC (fun strand_id res =>
        forLoop (lm.lengths_ strand_id) (fun led_id res =>
          PerformHdr.ledBody mode lm strands strand_id led_id res) res)
        (fun _ _ => 0) s (k * 4 + j)
      = (PerformHdr.record mode lm strands s k).getD j 0 := by
  have key := forLoop_induction
    (fun i (res : Nat → Nat → Nat) => ∀ s k j, s < i → k < lm.lengths_ s → j < 4 →
      res s (k * 4 + j) = (PerformHdr.record mode lm strands s k).getD j 0)
    SC
    (fun strand_id res =>
        forLoop (lm.lengths_ strand_id) (fun led_id res =>
          PerformHdr.ledBody mode lm strands strand_id led_id res) res)
    (fun _ _ => 0)
    (by intro s k j hs; omega)
    (by
      intro i res _ hres
      have inner := forLoop_induction
        (fun n (r : Nat → Nat → Nat) => ∀ s k j,
          (s < i ∧ k < lm.lengths_ s) ∨ (s = i ∧ k < n) → j < 4 →
          r s (k * 4 + j) = (PerformHdr.record mode lm strands s k).getD j 0)
        (lm.lengths_ i)
        (fun led_id res => PerformHdr.ledBody mode lm strands i led_id res) res
        (by
          intro s k j hc hj
          rcases hc with hc | hc
          · exact hres s k j hc.1 hc.2 hj
          · omega)
        (by
          intro n r _ hr s k j hc hj
          beta_reduce
          unfold PerformHdr.ledBody
          by_cases hnew : s = i ∧ k = n
          · obtain ⟨rfl, rfl⟩ := hnew
            exact writeStrand_same _ _ _ _ _ (by rw [record_length]; exact hj)
          · rw [writeStrand_other]
            · apply hr s k j _ hj
              rcases hc with hc | hc
              · exact Or.inl hc
              · right; omega
            · rw [record_length]
              by_cases hsi : s = i
              · right; omega
              · exact Or.inl hsi)
      intro s k j hs hk hj
      apply inner s k j _ hj
      by_cases hsi : s = i
      · subst hsi; exact Or.inr ⟨rfl, hk⟩
      · left; exact ⟨by omega, hk⟩)
  exact key s k j hs hk hj

/-- The copy-back loop of `PerformHdr`. -/
theorem hdr_copy_back (SC : Nat) (len : Nat → Nat) (res : Nat → Nat → Nat) (strands : Strands)
    (s i : Nat) :
    (forLoop SC (fun strand_id (st : Strands) =>
        { st with colors := fun s i =>
            if s = strand_id ∧ i < len strand_id * 4 then res strand_id i
            else st.colors s i }) strands).colors s i
      = if s < SC ∧ i < len s * 4 then res s i else strands.colors s i := by
  induction SC with
  | zero => simp [forLoop_zero]
  | succ n ih =>
    rw [forLoop_succ]
    simp only
    rw [ih]
    by_cases hs : s = n
    · subst hs
      by_cases hi : i < len s * 4
      · simp [hi]
      · simp [hi]
    · have : (s < n + 1 ∧ i < len s * 4) ↔ (s < n ∧ i < len s * 4) := by omega
      simp only [hs, false_and, if_false, this]

theorem EXTEND256_eq (v lo hi : Nat) (h1 : lo ≤ v) (h2 : v ≤ hi) (h3 : hi < 256) :
    EXTEND256 v lo hi % 256 = extend256 v lo hi := by
  unfold EXTEND256 extend256
  by_cases he : hi = lo
  · rw [if_pos he, if_pos he]; exact Nat.mod_eq_of_lt h3
  · rw [if_neg he, if_neg he]
    have e1 : (v + 2 ^ 32 - lo) % 2 ^ 32 = v - lo := by omega
    have e2 : (hi + 2 ^ 32 - lo) % 2 ^ 32 = hi - lo := by omega
    have e3 : 255 * (v - lo) % 2 ^ 32 = 255 * (v - lo) := by
      apply Nat.mod_eq_of_lt
      have : v - lo ≤ 255 := by omega
      calc 255 * (v - lo) ≤ 255 * 255 := Nat.mul_le_mul_left _ this
        _ < 2 ^ 32 := by norm_num
    rw [e1, e2, e3]
    apply Nat.mod_eq_of_lt
    have h := Nat.and_pow_two_sub_one_eq_mod (255 * (v - lo) / (hi - lo)) 8
    norm_num at h ⊢
    rw [h]
    omega

/-- The colours after `PerformHdr` when the mode is not `HDR_NONE`. -/
theorem PerformHdr_colors (SC : Nat) (c : TclController) (strands : Strands)
    (hmode : c.hdr_mode_ ≠ HdrMode.HDR_NONE) (s k j : Nat)
    (hs : s < SC) (hk : k < c.layout_.lengths_ s) (hj : j < 4) :
    (c.PerformHdr SC strands).colors s (k * 4 + j)
      = (PerformHdr.record c.hdr_mode_ c.layout_ strands s k).getD j 0 := by
  unfold TclController.PerformHdr
  rw [if_neg hmode]
  simp only
  rw [hdr_copy_back SC c.layout_.lengths_]
  have : s < SC ∧ k * 4 + j < c.layout_.lengths_ s * 4 := ⟨hs, by omega⟩
  rw [if_pos this]
  exact hdr_res_colors SC c.hdr_mode_ c.layout_ strands s k j hs hk hj

/-- C4: for a controller whose layout map was built by PopulateLayoutMap,
a strand buffer of bytes and a configured LED (s,k), PerformHdr leaves
byte 0 (H) and byte 3 (A) unchanged, sets byte 1 (L) to
extend256(L, l_min, l_max) when the mode is LUMINANCE or LSAT and leaves it
unchanged otherwise, and sets byte 2 (S) to extend256(S, s_min, s_max) when
the mode is SATURATION or LSAT and leaves it unchanged otherwise, where
l_min, l_max, s_min, s_max are the minimum and maximum of the L and S bytes
of the HDR siblings of the LED in the input buffer (and bracket the L and S
bytes of the LED itself). -/
theorem PerformHdr_bytes (STRAND_COUNT : Nat) (c : TclController) (layout : Layout)
    (strands : Strands) (s k : Nat)
    (hlayout : c.layout_ = PopulateLayoutMap STRAND_COUNT c.width_ c.height_ LayoutMap.new layout)
    (hbytes : ∀ s i, strands.colors s i < 256)
    (hs : s < STRAND_COUNT) (hk : k < layout.lengths_ s) :
    ∃ l_min l_max s_min s_max,
      IsMinOver (siblingL strands) (c.layout_.hdr_siblings_ s k) l_min ∧
      IsMaxOver (siblingL strands) (c.layout_.hdr_siblings_ s k) l_max ∧
      IsMinOver (siblingS strands) (c.layout_.hdr_siblings_ s k) s_min ∧
      IsMaxOver (siblingS strands) (c.layout_.hdr_siblings_ s k) s_max ∧
      (l_min ≤ strands.colors s (k * 4 + 1) ∧ strands.colors s (k * 4 + 1) ≤ l_max) ∧
      (s_min ≤ strands.colors s (k * 4 + 2) ∧ strands.colors s (k * 4 + 2) ≤ s_max) ∧
      (c.PerformHdr STRAND_COUNT strands).colors s (k * 4) = strands.colors s (k * 4) ∧
      (c.PerformHdr STRAND_COUNT strands).colors s (k * 4 + 3) = strands.colors s (k * 4 + 3) ∧
      (c.PerformHdr STRAND_COUNT strands).colors s (k * 4 + 1)
        = (if c.hdr_mode_ = HdrMode.HDR_LUMINANCE ∨ c.hdr_mode_ = HdrMode.HDR_LSAT then
            extend256 (strands.colors s (k * 4 + 1)) l_min l_max
          else strands.colors s (k * 4 + 1)) ∧
      (c.PerformHdr STRAND_COUNT strands).colors s (k * 4 + 2)
        = (if c.hdr_mode_ = HdrMode.HDR_SATURATION ∨ c.hdr_mode_ = HdrMode.HDR_LSAT then
            extend256 (strands.colors s (k * 4 + 2)) s_min s_max
          else strands.colors s (k * 4 + 2)) := by
  have hlen : c.layout_.lengths_ s = layout.lengths_ s := by
    rw [hlayout, PopulateLayoutMap_lengths, if_pos hs]
  have hself : (⟨s, k⟩ : HdrSibling) ∈ c.layout_.hdr_siblings_ s k := by
    rw [hlayout]
    exact PopulateLayoutMap_self_sibling STRAND_COUNT c.width_ c.height_ layout s k hs hk
  rcases hdr_range_fold strands hbytes (c.layout_.hdr_siblings_ s k) with ⟨hnil, _⟩ | hr
  · rw [hnil] at hself; cases hself
  obtain ⟨m1, m2, m3, m4⟩ := hr
  have hrange : PerformHdr.range c.layout_ strands s k
      = (c.layout_.hdr_siblings_ s k).foldl (PerformHdr.siblingStep strands)
          { l_min := 255, l_max := 0, s_min := 255, s_max := 0 } := rfl
  rw [← hrange] at m1 m2 m3 m4
  have b1 : (PerformHdr.range c.layout_ strands s k).l_min ≤ strands.colors s (k * 4 + 1) :=
    m1.2 _ hself
  have b2 : strands.colors s (k * 4 + 1) ≤ (PerformHdr.range c.layout_ strands s k).l_max :=
    m2.2 _ hself
  have b3 : (PerformHdr.range c.layout_ strands s k).s_min ≤ strands.colors s (k * 4 + 2) :=
    m3.2 _ hself
  have b4 : strands.colors s (k * 4 + 2) ≤ (PerformHdr.range c.layout_ strands s k).s_max :=
    m4.2 _ hself
  have u2 : (PerformHdr.range c.layout_ strands s k).l_max < 256 := by
    obtain ⟨a, _, ha⟩ := m2.1
    rw [← ha]; exact hbytes _ _
  have u4 : (PerformHdr.range c.layout_ strands s k).s_max < 256 := by
    obtain ⟨a, _, ha⟩ := m4.1
    rw [← ha]; exact hbytes _ _
  refine ⟨_, _, _, _, m1, m2, m3, m4, ⟨b1, b2⟩, ⟨b3, b4⟩, ?_⟩
  by_cases hmode : c.hdr_mode_ = HdrMode.HDR_NONE
  · have hid : c.PerformHdr STRAND_COUNT strands = strands := by
      unfold TclController.PerformHdr; rw [if_pos hmode]
    rw [hid, hmode]
    simp
  · have hk2 : k < c.layout_.lengths_ s := by rw [hlen]; exact hk
    have g0 := PerformHdr_colors STRAND_COUNT c strands hmode s k 0 hs hk2 (by norm_num)
    have g1 := PerformHdr_colors STRAND_COUNT c strands hmode s k 1 hs hk2 (by norm_num)
    have g2 := PerformHdr_colors STRAND_COUNT c strands hmode s k 2 hs hk2 (by norm_num)
    have g3 := PerformHdr_colors STRAND_COUNT c strands hmode s k 3 hs hk2 (by norm_num)
    refine ⟨g0, g3, ?_, ?_⟩
    · rw [g1]
      unfold PerformHdr.record
      simp only [List.getD_cons_succ, List.getD_cons_zero]
      by_cases hm : c.hdr_mode_ = HdrMode.HDR_LUMINANCE ∨ c.hdr_mode_ = HdrMode.HDR_LSAT
      · rw [if_pos hm, if_pos (Or.symm hm)]
        exact EXTEND256_eq _ _ _ b1 b2 u2
      · rw [if_neg hm, if_neg (fun h => hm (Or.symm h))]
    · rw [g2]
      unfold PerformHdr.record
      simp only [List.getD_cons_succ, List.getD_cons_zero]
      by_cases hm : c.hdr_mode_ = HdrMode.HDR_SATURATION ∨ c.hdr_mode_ = HdrMode.HDR_LSAT
      · rw [if_pos hm, if_pos (Or.symm hm)]
        exact EXTEND256_eq _ _ _ b3 b4 u4
      · rw [if_neg hm, if_neg (fun h => hm (Or.symm h))]

set_option maxRecDepth 100000 in
/-- Scenario of the spec: two mutually sibling LEDs (0,100,100) and
(0,200,200) under LSAT become (0,0,0) and (0,255,255); alpha stays 255. -/
theorem PerformHdr_bytes_witness :
    (List.range 8).map (((hdrController HdrMode.HDR_LSAT).PerformHdr 8 hdrStrands).colors 0)
      = [0, 0, 0, 255, 0, 255, 255, 255] ∧
    ∃ l_min l_max s_min s_max,
      IsMinOver (siblingL hdrStrands)
        ((hdrController HdrMode.HDR_LSAT).layout_.hdr_siblings_ 0 1) l_min ∧
      IsMaxOver (siblingL hdrStrands)
        ((hdrController HdrMode.HDR_LSAT).layout_.hdr_siblings_ 0 1) l_max ∧
      IsMinOver (siblingS hdrStrands)
        ((hdrController HdrMode.HDR_LSAT).layout_.hdr_siblings_ 0 1) s_min ∧
      IsMaxOver (siblingS hdrStrands)
        ((hdrController HdrMode.HDR_LSAT).layout_.hdr_siblings_ 0 1) s_max ∧
      ((hdrController HdrMode.HDR_LSAT).PerformHdr 8 hdrStrands).colors 0 (1 * 4 + 1)
        = extend256 (hdrStrands.colors 0 (1 * 4 + 1)) l_min l_max := by
  refine ⟨by decide, ?_⟩
  obtain ⟨a, b, c, d, h1, h2, h3, h4, _, _, _, _, h9, _⟩ :=
    PerformHdr_bytes 8 (hdrController HdrMode.HDR_LSAT) hdrLayout hdrStrands 0 1 rfl
      (by
        intro s i
        unfold hdrStrands
        simp only
        split
        · by_cases hi : i < 8
          · interval_cases i <;> simp
          · rw [List.getD_eq_default _ _ (by simp; omega)]; norm_num
        · norm_num)
      (by decide) (by decide)
  refine ⟨a, b, c, d, h1, h2, h3, h4, ?_⟩
  rw [h9]
  have : (hdrController HdrMode.HDR_LSAT).hdr_mode_ = HdrMode.HDR_LSAT := rfl
  rw [this]
  simp

/-- C5: with hdr_mode = NONE, PerformHdr returns the strand set as it is,
every byte of every strand included, and for every image
ConvertImageToStrands gives the result of the same pipeline with the HDR
step removed. -/
theorem PerformHdr_none (STRAND_COUNT : Nat) (ext : External) (c : TclController)
    (hmode : c.hdr_mode_ = HdrMode.HDR_NONE) :
    (∀ strands : Strands, c.PerformHdr STRAND_COUNT strands = strands) ∧
    (∀ (strands : Strands) (s i : Nat),
      (c.PerformHdr STRAND_COUNT strands).colors s i = strands.colors s i) ∧
    (∀ image : RgbaImage,
      c.ConvertImageToStrands STRAND_COUNT ext image
        = c.ConvertImageToStrandsWithoutHdr STRAND_COUNT ext image) := by
  have hid : ∀ strands : Strands, c.PerformHdr STRAND_COUNT strands = strands := by
    intro strands
    unfold TclController.PerformHdr
    rw [if_pos hmode]
  refine ⟨hid, fun strands s i => by rw [hid], ?_⟩
  intro image
  unfold TclController.ConvertImageToStrands TclController.ConvertImageToStrandsWithoutHdr
  simp only [hid]

theorem PerformHdr_none_witness :
    (hdrController HdrMode.HDR_NONE).hdr_mode_ = HdrMode.HDR_NONE ∧
    (hdrController HdrMode.HDR_NONE).PerformHdr 8 hdrStrands = hdrStrands ∧
    (hdrController HdrMode.HDR_NONE).ConvertImageToStrands 8 plainExternal
        ⟨List.replicate 64 7, 4, 4⟩
      = (hdrController HdrMode.HDR_NONE).ConvertImageToStrandsWithoutHdr 8 plainExternal
        ⟨List.replicate 64 7, 4, 4⟩ :=
  ⟨rfl,
   (PerformHdr_none 8 plainExternal (hdrController HdrMode.HDR_NONE) rfl).1 hdrStrands,
   (PerformHdr_none 8 plainExternal (hdrController HdrMode.HDR_NONE) rfl).2.2 _⟩

/-! ## The auto-reset watchdog -/

/-- C10: UpdateAutoReset(m) at time now sets require_reset when m > 0,
frames_sent_after_reply > 2 and now - last_reply_time > m (a uint64
difference, which is the plain difference when last_reply_time is not after
now); in every other case require_reset stays as it was; require_reset is
never cleared and no other field of the controller changes. -/
theorem UpdateAutoReset_spec (c : TclController) (m now : Nat) :
    (m > 0 ∧ c.frames_sent_after_reply_ > 2 ∧ sub64 now c.last_reply_time_ > m →
      (c.UpdateAutoReset m now).require_reset_ = true) ∧
    (¬ (m > 0 ∧ c.frames_sent_after_reply_ > 2 ∧ sub64 now c.last_reply_time_ > m) →
      (c.UpdateAutoReset m now).require_reset_ = c.require_reset_) ∧
    (c.require_reset_ = true → (c.UpdateAutoReset m now).require_reset_ = true) ∧
    c.UpdateAutoReset m now
      = { c with require_reset_ := (c.UpdateAutoReset m now).require_reset_ } ∧
    (c.last_reply_time_ ≤ now → now < 2 ^ 64 →
      sub64 now c.last_reply_time_ = now - c.last_reply_time_) := by
  refine ⟨?_, ?_, ?_, ?_, ?_⟩
  · rintro ⟨h1, h2, h3⟩
    unfold TclController.UpdateAutoReset
    by_cases hr : c.require_reset_ = true
    · have : m ≤ 0 ∨ c.require_reset_ = true ∨ c.frames_sent_after_reply_ ≤ 2 := Or.inr (Or.inl hr)
      rw [if_pos this]; exact hr
    · have : ¬ (m ≤ 0 ∨ c.require_reset_ = true ∨ c.frames_sent_after_reply_ ≤ 2) := by
        simp only [not_or]; exact ⟨by omega, hr, by omega⟩
      rw [if_neg this]
      simp only [h3, if_true]
  · intro hn
    unfold TclController.UpdateAutoReset
    by_cases hg : m ≤ 0 ∨ c.require_reset_ = true ∨ c.frames_sent_after_reply_ ≤ 2
    · rw [if_pos hg]
    · rw [if_neg hg]
      simp only [not_or] at hg
      have : ¬ sub64 now c.last_reply_time_ > m := fun h => hn ⟨by omega, by omega, h⟩
      simp only [this, if_false]
  · intro hr
    unfold TclController.UpdateAutoReset
    have : m ≤ 0 ∨ c.require_reset_ = true ∨ c.frames_sent_after_reply_ ≤ 2 := Or.inr (Or.inl hr)
    rw [if_pos this]; exact hr
  · unfold TclController.UpdateAutoReset
    by_cases hg : m ≤ 0 ∨ c.require_reset_ = true ∨ c.frames_sent_after_reply_ ≤ 2
    · simp only [if_pos hg]
    · simp only [if_neg hg]
      by_cases hd : sub64 now c.last_reply_time_ > m
      · simp only [hd, if_true]
      · simp only [hd, if_false]
  · intro h1 h2
    unfold sub64
    have : c.last_reply_time_ % 2 ^ 64 = c.last_reply_time_ := Nat.mod_eq_of_lt (by omega)
    rw [this]
    omega

/-- Scenario of the spec: with m = 1000 and five frames sent since the last
reply at time 0, the watchdog sets require_reset at time 1001. -/
theorem UpdateAutoReset_spec_witness :
    (1000 > 0 ∧ watchdogController.frames_sent_after_reply_ > 2 ∧
      sub64 1001 watchdogController.last_reply_time_ > 1000) ∧
    watchdogController.require_reset_ = false ∧
    (watchdogController.UpdateAutoReset 1000 1001).require_reset_ = true :=
  ⟨by decide, rfl,
   (UpdateAutoReset_spec watchdogController 1000 1001).1 (by decide)⟩

/-! ## Facts about the work queue -/

theorem queuePush_perm (q : List WorkItem) (item : WorkItem) :
    (queuePush q item).Perm (item :: q) := by
  induction q with
  | nil => exact List.Perm.refl _
  | cons x rest ih =>
    unfold queuePush
    split
    · exact List.Perm.refl _
    · exact (List.Perm.cons x ih).trans (List.Perm.swap item x rest)

theorem queuePush_ordered (q : List WorkItem) (item : WorkItem) (hq : QueueOrdered q) :
    QueueOrdered (queuePush q item) := by
  induction q with
  | nil => simp [queuePush, QueueOrdered]
  | cons x rest ih =>
    unfold QueueOrdered at hq ih ⊢
    obtain ⟨hx, hrest⟩ := List.pairwise_cons.mp hq
    unfold queuePush
    split
    · rename_i hlt
      apply List.pairwise_cons.mpr
      refine ⟨?_, hq⟩
      intro y hy
      rcases List.mem_cons.mp hy with rfl | hy
      · omega
      · have := hx y hy; omega
    · rename_i hnlt
      apply List.pairwise_cons.mpr
      refine ⟨?_, ih hrest⟩
      intro y hy
      have hy2 := (queuePush_perm rest item).mem_iff.mp hy
      rcases List.mem_cons.mp hy2 with rfl | hy2
      · omega
      · exact hx y hy2

theorem foldl_queuePush (l : List WorkItem) :
    ∀ q, QueueOrdered q →
      QueueOrdered (l.foldl queuePush q) ∧ (l.foldl queuePush q).Perm (l ++ q) := by
  induction l with
  | nil => intro q hq; exact ⟨hq, List.Perm.refl _⟩
  | cons x rest ih =>
    intro q hq
    simp only [List.foldl_cons]
    obtain ⟨h1, h2⟩ := ih (queuePush q x) (queuePush_ordered q x hq)
    refine ⟨h1, h2.trans ?_⟩
    refine (List.Perm.append_left rest (queuePush_perm q x)).trans ?_
    simp

/-- The loop of `PopNextWorkItemLocked` on a queue of FRAME items whose head
is due. -/
theorem popLoop_frames (now : Nat) :
    ∀ (q : List WorkItem) (item : WorkItem), QueueOrdered q →
      (∀ x ∈ q, x.needs_reset_ = false) → (∃ x, q.head? = some x ∧ x.time_ ≤ now) →
      (PopNextWorkItemLocked.loop now q item).found = true ∧
      (PopNextWorkItemLocked.loop now q item).item ∈ q ∧
      (PopNextWorkItemLocked.loop now q item).item.time_ ≤ now ∧
      (∀ x ∈ q, x.time_ ≤ now → x.time_ ≤ (PopNextWorkItemLocked.loop now q item).item.time_) ∧
      (PopNextWorkItemLocked.loop now q item).queue = q.filter (fun x => decide (x.time_ > now)) := by
  intro q
  induction q with
  | nil => intro item _ _ ⟨x, hx, _⟩; simp at hx
  | cons top rest ih =>
    intro item hq hfr ⟨x, hx, hxt⟩
    simp only [List.head?_cons, Option.some.injEq] at hx
    subst hx
    have htop : top.needs_reset_ = false := hfr top (List.mem_cons_self _ _)
    have hnot : ¬ top.time_ > now := by omega
    unfold QueueOrdered at hq
    obtain ⟨hhead, hrest⟩ := List.pairwise_cons.mp hq
    have hftop : (decide (top.time_ > now)) = false := by simp; omega
    cases rest with
    | nil =>
      have e : PopNextWorkItemLocked.loop now [top] item
          = { found := true, item := top, next_time := 0, queue := [] } := by
        simp only [PopNextWorkItemLocked.loop, htop, Bool.false_eq_true, if_false, hnot]
      rw [e]
      refine ⟨rfl, List.mem_cons_self _ _, hxt, ?_, ?_⟩
      · intro y hy _
        rw [List.mem_singleton.mp hy]
      · simp [List.filter_cons, hftop]
    | cons next rest2 =>
      by_cases hnext : next.time_ > now
      · have e : PopNextWorkItemLocked.loop now (top :: next :: rest2) item
            = { found := true, item := top, next_time := next.time_, queue := next :: rest2 } := by
          simp only [PopNextWorkItemLocked.loop, htop, Bool.false_eq_true, if_false, hnot,
            hnext, if_true]
        rw [e]
        refine ⟨rfl, List.mem_cons_self _ _, hxt, ?_, ?_⟩
        · intro y hy hyt
          rcases List.mem_cons.mp hy with rfl | hy
          · exact Nat.le_refl _
          · exfalso
            rcases List.mem_cons.mp hy with rfl | hy2
            · omega
            · have := (List.pairwise_cons.mp hrest).1 y hy2
              omega
        · rw [List.filter_cons, hftop]
          simp only [Bool.false_eq_true, if_false]
          symm
          apply List.filter_eq_self.mpr
          intro y hy
          rcases List.mem_cons.mp hy with rfl | hy2
          · simpa using hnext
          · have := (List.pairwise_cons.mp hrest).1 y hy2
            simp only [decide_eq_true_eq]
            omega
      · have hstep : PopNextWorkItemLocked.loop now (top :: next :: rest2) item
            = PopNextWorkItemLocked.loop now (next :: rest2) top := by
          simp only [PopNextWorkItemLocked.loop, htop, Bool.false_eq_true, if_false, hnot, hnext]
        rw [hstep]
        obtain ⟨g1, g2, g3, g4, g5⟩ := ih top hrest
          (fun y hy => hfr y (List.mem_cons_of_mem _ hy))
          ⟨next, rfl, by omega⟩
        refine ⟨g1, List.mem_cons_of_mem _ g2, g3, ?_, ?_⟩
        · intro y hy hyt
          rcases List.mem_cons.mp hy with rfl | hy
          · have h1 := hhead next (List.mem_cons_self _ _)
            have h2 := g4 next (List.mem_cons_self _ _) (by omega)
            omega
          · exact g4 y hy hyt
        · rw [g5]
          exact (List.filter_cons_of_neg (by simpa using hnot)).symm

/-- C6: on a queue that holds only FRAME items, at least one of them with
deadline <= now, PopNextWorkItemLocked returns true with an item of the
queue whose deadline is the greatest deadline <= now, and the queue it
leaves consists of exactly the items with deadline > now (every item with
deadline <= now is removed, the stale ones without being returned); in
particular after three enqueues, in any order, of FRAME items with deadlines
t1 < t2 < t3 <= now the call returns the t3 item and leaves the queue
empty. -/
theorem PopNextWorkItemLocked_frames :
    (∀ (q : List WorkItem) (item : WorkItem) (now : Nat), QueueOrdered q →
      (∀ x ∈ q, x.needs_reset_ = false) → (∃ x ∈ q, x.time_ ≤ now) →
      (PopNextWorkItemLocked q item now).found = true ∧
      (PopNextWorkItemLocked q item now).item ∈ q ∧
      (PopNextWorkItemLocked q item now).item.time_ ≤ now ∧
      (∀ x ∈ q, x.time_ ≤ now → x.time_ ≤ (PopNextWorkItemLocked q item now).item.time_) ∧
      (PopNextWorkItemLocked q item now).queue = q.filter (fun x => decide (x.time_ > now))) ∧
    (∀ (i1 i2 i3 item : WorkItem) (now : Nat) (order : List WorkItem),
      i1.needs_reset_ = false → i2.needs_reset_ = false → i3.needs_reset_ = false →
      i1.time_ < i2.time_ → i2.time_ < i3.time_ → i3.time_ ≤ now →
      order.Perm [i1, i2, i3] →
      (PopNextWorkItemLocked (order.foldl queuePush []) item now).found = true ∧
      (PopNextWorkItemLocked (order.foldl queuePush []) item now).item = i3 ∧
      (PopNextWorkItemLocked (order.foldl queuePush []) item now).queue = []) := by
  have main : ∀ (q : List WorkItem) (item : WorkItem) (now : Nat), QueueOrdered q →
      (∀ x ∈ q, x.needs_reset_ = false) → (∃ x ∈ q, x.time_ ≤ now) →
      (PopNextWorkItemLocked q item now).found = true ∧
      (PopNextWorkItemLocked q item now).item ∈ q ∧
      (PopNextWorkItemLocked q item now).item.time_ ≤ now ∧
      (∀ x ∈ q, x.time_ ≤ now → x.time_ ≤ (PopNextWorkItemLocked q item now).item.time_) ∧
      (PopNextWorkItemLocked q item now).queue = q.filter (fun x => decide (x.time_ > now)) := by
    intro q item now hq hfr ⟨x, hx, hxt⟩
    cases q with
    | nil => cases hx
    | cons top rest =>
      have hpop : PopNextWorkItemLocked (top :: rest) item now
          = PopNextWorkItemLocked.loop now (top :: rest) item := by
        simp [PopNextWorkItemLocked]
      rw [hpop]
      apply popLoop_frames now (top :: rest) item hq hfr
      refine ⟨top, rfl, ?_⟩
      rcases List.mem_cons.mp hx with rfl | hx2
      · exact hxt
      · have := (List.pairwise_cons.mp hq).1 x hx2
        omega
  refine ⟨main, ?_⟩
  intro i1 i2 i3 item now order f1 f2 f3 h12 h23 h3 hperm
  obtain ⟨hord, hp⟩ := foldl_queuePush order [] List.Pairwise.nil
  rw [List.append_nil] at hp
  have hmem : ∀ x, x ∈ order.foldl queuePush [] ↔ (x = i1 ∨ x = i2 ∨ x = i3) := by
    intro x
    rw [(hp.trans hperm).mem_iff]
    simp
  obtain ⟨g1, g2, g3, g4, g5⟩ := main (order.foldl queuePush []) item now hord
    (by
      intro x hx
      rcases (hmem x).mp hx with rfl | rfl | rfl
      · exact f1
      · exact f2
      · exact f3)
    ⟨i3, (hmem i3).mpr (Or.inr (Or.inr rfl)), h3⟩
  refine ⟨g1, ?_, ?_⟩
  · have hge := g4 i3 ((hmem i3).mpr (Or.inr (Or.inr rfl))) h3
    rcases (hmem _).mp g2 with e | e | e
    · rw [e] at hge; omega
    · rw [e] at hge; omega
    · exact e
  · rw [g5]
    apply List.filter_eq_nil_iff.mpr
    intro x hx
    simp only [decide_eq_true_eq, not_lt]
    rcases (hmem x).mp hx with rfl | rfl | rfl <;> omega

/-- Scenario of the spec: frames with deadlines 50, 150 and 250 are queued
and the worker pops at time 300: the frame with deadline 250 is returned and
nothing is left in the queue. -/
theorem PopNextWorkItemLocked_frames_witness :
    (PopNextWorkItemLocked
        ([frameItem 50 1, frameItem 150 2, frameItem 250 3].foldl queuePush [])
        WorkItem.placeholder 300).found = true ∧
    (PopNextWorkItemLocked
        ([frameItem 50 1, frameItem 150 2, frameItem 250 3].foldl queuePush [])
        WorkItem.placeholder 300).item = frameItem 250 3 ∧
    (PopNextWorkItemLocked
        ([frameItem 50 1, frameItem 150 2, frameItem 250 3].foldl queuePush [])
        WorkItem.placeholder 300).queue = [] :=
  PopNextWorkItemLocked_frames.2 (frameItem 50 1) (frameItem 150 2) (frameItem 250 3)
    WorkItem.placeholder 300 [frameItem 50 1, frameItem 150 2, frameItem 250 3]
    rfl rfl rfl (by decide) (by decide) (by decide) (List.Perm.refl _)

/-! ## The worker and RESET items -/

/-- C7: when the item at the head of the queue is a RESET,
PopNextWorkItemLocked returns true with that item, whatever its deadline and
the current time, and leaves the queue empty (the items of every controller
are dropped); the worker then sets require_reset on the controller of the
RESET item and does nothing else: no other field of that controller changes
(no frame is built, no image id recorded), no other controller changes and
the network is not used. -/
theorem reset_at_head (STRAND_COUNT STRAND_LENGTH : Nat) (ext : External)
    (r : TclRenderer) (w : World) (top : WorkItem) (rest : List WorkItem)
    (item : WorkItem) (now i : Nat) (c : TclController)
    (hreset : top.needs_reset_ = true) :
    PopNextWorkItemLocked (top :: rest) item now
      = { found := true, item := top, next_time := 0, queue := [] } ∧
    (r.is_shutting_down_ = false → r.queue_ = top :: rest →
      top.controller_ = some i → r.controllers_[i]? = some c →
      r.RunServe STRAND_COUNT STRAND_LENGTH ext w
        = (RunStatus.restarted,
            { r with queue_ := [],
                     controllers_ := r.controllers_.set i { c with require_reset_ := true } },
            w)) := by
  have hpop : ∀ (it : WorkItem) (t : Nat), PopNextWorkItemLocked (top :: rest) it t
      = { found := true, item := top, next_time := 0, queue := [] } := by
    intro it t
    simp [PopNextWorkItemLocked, PopNextWorkItemLocked.loop, hreset]
  refine ⟨hpop item now, ?_⟩
  intro hs hq hc hi
  unfold TclRenderer.RunServe
  simp only [hs, hq, hpop, Bool.false_eq_true, if_false, hc, hi, hreset, if_true,
    Bool.true_eq_false, TclController.ScheduleReset]

/-- A RESET item with deadline 900 heads the queue at time 0: it is returned
at once, the two frames behind it are dropped, the controller gets
require_reset and nothing is sent. -/
theorem reset_at_head_witness :
    (resetItem 900).needs_reset_ = true ∧
    PopNextWorkItemLocked resetRenderer.queue_ WorkItem.placeholder 0
      = { found := true, item := resetItem 900, next_time := 0, queue := [] } ∧
    resetRenderer.RunServe 8 2 plainExternal quietWorld
      = (RunStatus.restarted,
          { resetRenderer with
              queue_ := [],
              controllers_ := resetRenderer.controllers_.set 0
                { watchdogController with require_reset_ := true } },
          quietWorld) :=
  ⟨rfl,
   (reset_at_head 8 2 plainExternal resetRenderer quietWorld (resetItem 900)
      [frameItem 950 1, frameItem 990 2] WorkItem.placeholder 0 0 watchdogController rfl).1,
   (reset_at_head 8 2 plainExternal resetRenderer quietWorld (resetItem 900)
      [frameItem 950 1, frameItem 990 2] WorkItem.placeholder 0 0 watchdogController rfl).2
      rfl rfl rfl rfl⟩

/-! ## The controller protocol -/

theorem SendPacket_eq (c : TclController) (w : World) (data : List Nat) :
    c.SendPacket w data
      = if w.sendResult w.sendCount data.length = -1 then
          (false, c, w.logSend c.id_ data (w.sendResult w.sendCount data.length))
        else if w.sendResult w.sendCount data.length ≠ (data.length : Int) then
          (false, { c with require_reset_ := true },
            w.logSend c.id_ data (w.sendResult w.sendCount data.length))
        else (true, c, w.logSend c.id_ data (w.sendResult w.sendCount data.length)) := rfl

theorem SendPacket_ok (c : TclController) (w : World) (data : List Nat)
    (h : w.SendsSucceed) :
    c.SendPacket w data = (true, c, w.logSend c.id_ data data.length) := by
  rw [SendPacket_eq, h]
  have h1 : ¬ ((data.length : Int) = -1) := by omega
  simp [h1]

theorem Connect_true (c : TclController) (w : World) (h : (c.Connect w).1 = true) :
    ∃ s n, c.Connect w = (true, { c with socket_ := s }, { w with connectCount := n }) := by
  unfold TclController.Connect at h ⊢
  by_cases hs : c.socket_ ≠ -1
  · rw [if_pos hs]
    exact ⟨c.socket_, w.connectCount, rfl⟩
  · rw [if_neg hs] at h ⊢
    cases hr : w.connectResult w.connectCount with
    | none => rw [hr] at h; simp at h
    | some fd => exact ⟨(fd : Int), w.connectCount + 1, rfl⟩

/-- `InitController` after a successful `Connect`, when every send
succeeds. -/
theorem InitController_after_connect (c : TclController) (w : World) (s : Int) (n : Nat)
    (hC : c.Connect w = (true, { c with socket_ := s }, { w with connectCount := n }))
    (hsend : w.SendsSucceed) :
    c.InitController w
      = if c.init_sent_ = true ∧ c.require_reset_ = false then
          (true, { c with socket_ := s }, { w with connectCount := n })
        else if c.require_reset_ = true then
          (true,
            { c with socket_ := s, require_reset_ := false, init_sent_ := true,
                     last_reply_time_ := (w.time_us + 5000000 + 100000) / 1000,
                     frames_sent_after_reply_ := 0 },
            { w with connectCount := n, sendCount := w.sendCount + 1 + 1,
                     time_us := w.time_us + 5000000 + 100000,
                     sent := w.sent ++ [{ controller_id := c.id_, data := MSG_RESET, result := 5 }]
                       ++ [{ controller_id := c.id_, data := MSG_INIT, result := 5 }] })
        else
          (true,
            { c with socket_ := s, init_sent_ := true,
                     last_reply_time_ := (w.time_us + 100000) / 1000,
                     frames_sent_after_reply_ := 0 },
            { w with connectCount := n, sendCount := w.sendCount + 1,
                     time_us := w.time_us + 100000,
                     sent := w.sent ++ [{ controller_id := c.id_, data := MSG_INIT, result := 5 }] }) := by
  have hs1 : World.SendsSucceed { w with connectCount := n } := hsend
  unfold TclController.InitController
  rw [hC]
  simp only
  by_cases h1 : c.init_sent_ = true ∧ c.require_reset_ = false
  · rw [if_pos h1, if_pos h1]
  · rw [if_neg h1, if_neg h1]
    by_cases h2 : c.require_reset_ = true
    · rw [if_pos h2]
      unfold InitController.reset
      simp only [h2, if_true]
      rw [SendPacket_ok _ _ _ hs1]
      simp only
      rw [SendPacket_ok _ _ _ (by exact hsend)]
      simp [World.logSend, Sleep, TclController.SetLastReplyTime, GetCurrentMillis, MSG_RESET,
        MSG_INIT, h2]
    · rw [if_neg h2]
      unfold InitController.reset
      simp only [h2, Bool.false_eq_true, if_false]
      rw [SendPacket_ok _ _ _ hs1]
      simp [World.logSend, Sleep, TclController.SetLastReplyTime, GetCurrentMillis, MSG_INIT]

/-- C11: when the socket connects and every send succeeds, InitController
returns true; it sends nothing when init_sent is true and require_reset is
false; otherwise it sends MSG_RESET (C2 77 88 00 00) first exactly when
require_reset is set, then MSG_INIT (C5 77 88 00 00), and returns with
init_sent = true, require_reset = false and frames_sent_after_reply = 0; a
freshly constructed controller has require_reset = true and init_sent =
false, so its first initialisation sends RESET then INIT. -/
theorem InitController_success (c : TclController) (w : World)
    (hconn : (c.Connect w).1 = true) (hsend : w.SendsSucceed) :
    (c.InitController w).1 = true ∧
    (c.init_sent_ = true ∧ c.require_reset_ = false →
      (c.InitController w).2.2.sent = w.sent ∧
      (c.InitController w).2.1.init_sent_ = true ∧
      (c.InitController w).2.1.require_reset_ = false) ∧
    (¬ (c.init_sent_ = true ∧ c.require_reset_ = false) →
      (c.InitController w).2.2.sent
        = w.sent
          ++ (if c.require_reset_ = true then
                [{ controller_id := c.id_, data := [0xC2, 0x77, 0x88, 0x00, 0x00], result := 5 }]
              else [])
          ++ [{ controller_id := c.id_, data := [0xC5, 0x77, 0x88, 0x00, 0x00], result := 5 }] ∧
      (c.InitController w).2.1.init_sent_ = true ∧
      (c.InitController w).2.1.require_reset_ = false ∧
      (c.InitController w).2.1.frames_sent_after_reply_ = 0) ∧
    (∀ (STRAND_COUNT : Nat) (id width height : Int) (layout : Layout) (gamma : RgbGamma),
      (TclController.new STRAND_COUNT id width height layout gamma).require_reset_ = true ∧
      (TclController.new STRAND_COUNT id width height layout gamma).init_sent_ = false ∧
      (((TclController.new STRAND_COUNT id width height layout gamma).Connect w).1 = true →
        ((TclController.new STRAND_COUNT id width height layout gamma).InitController w).2.2.sent
          = w.sent ++ [{ controller_id := id, data := [0xC2, 0x77, 0x88, 0x00, 0x00], result := 5 },
                       { controller_id := id, data := [0xC5, 0x77, 0x88, 0x00, 0x00], result := 5 }])) := by
  obtain ⟨s, n, hC⟩ := Connect_true c w hconn
  have key := InitController_after_connect c w s n hC hsend
  refine ⟨?_, ?_, ?_, ?_⟩
  · rw [key]; split_ifs <;> rfl
  · intro h
    rw [key, if_pos h]
    exact ⟨rfl, h.1, h.2⟩
  · intro h
    rw [key, if_neg h]
    by_cases h2 : c.require_reset_ = true
    · rw [if_pos h2, if_pos h2]
      exact ⟨rfl, rfl, rfl, rfl⟩
    · rw [if_neg h2, if_neg h2]
      refine ⟨by simp [MSG_INIT], rfl, ?_, rfl⟩
      simpa using h2
  · intro SC id width height layout gamma
    refine ⟨rfl, rfl, ?_⟩
    intro hc2
    obtain ⟨s2, n2, hC2⟩ := Connect_true _ w hc2
    rw [InitController_after_connect _ w s2 n2 hC2 hsend]
    have h1 : ¬ ((TclController.new SC id width height layout gamma).init_sent_ = true ∧
        (TclController.new SC id width height layout gamma).require_reset_ = false) := by
      simp [TclController.new]
    have h2 : (TclController.new SC id width height layout gamma).require_reset_ = true := rfl
    rw [if_neg h1, if_pos h2]
    simp [TclController.new, MSG_RESET, MSG_INIT]

/-- The watchdog controller (initialised, no reset pending) sends nothing;
a fresh controller sends RESET and INIT. -/
theorem InitController_success_witness :
    ((watchdogController.Connect quietWorld).1 = true ∧ quietWorld.SendsSucceed) ∧
    (watchdogController.InitController quietWorld).2.2.sent = [] ∧
    ((TclController.new 8 4 4 4 hdrLayout ⟨id, id, id⟩).InitController quietWorld).2.2.sent
      = [{ controller_id := 4, data := [0xC2, 0x77, 0x88, 0x00, 0x00], result := 5 },
         { controller_id := 4, data := [0xC5, 0x77, 0x88, 0x00, 0x00], result := 5 }] :=
  ⟨⟨rfl, fun _ _ => rfl⟩,
   ((InitController_success watchdogController quietWorld rfl (fun _ _ => rfl)).2.1
      ⟨rfl, rfl⟩).1,
   ((InitController_success watchdogController quietWorld rfl (fun _ _ => rfl)).2.2.2
      8 4 4 4 hdrLayout ⟨id, id, id⟩).2.2 rfl⟩

theorem packet_length (frame_data : List Nat) (idx pos : Nat) :
    (SendFrame.packet frame_data idx pos).length = 1040 := by
  simp [SendFrame.packet, FRAME_MSG_PREFIX, FRAME_MSG_SUFFIX]

theorem SendFrame.loop_done (len : Nat) (fd : List Nat) (idx pos : Nat) (c : TclController)
    (w : World) (h : ¬ pos < len) :
    SendFrame.loop len fd idx pos c w = (true, idx, pos, c, w) := by
  rw [SendFrame.loop]; simp [h]

theorem SendFrame.loop_step (len : Nat) (fd : List Nat) (idx pos : Nat) (c : TclController)
    (w : World) (h : pos < len) (hsend : w.SendsSucceed) :
    SendFrame.loop len fd idx pos c w
      = SendFrame.loop len fd (idx + 1) (pos + 1024) c
          (Sleep kMgsDataDelayUs (w.logSend c.id_ (SendFrame.packet fd idx pos) 1040)) := by
  rw [SendFrame.loop]
  simp only [h, dite_true]
  rw [SendPacket_ok _ _ _ hsend, packet_length]
  rfl

theorem SendFrame.loop_steps (len : Nat) (fd : List Nat) (c : TclController) (n : Nat) :
    ∀ (idx pos : Nat) (w : World), w.SendsSucceed → (∀ j, j < n → pos + 1024 * j < len) →
      SendFrame.loop len fd idx pos c w
        = SendFrame.loop len fd (idx + n) (pos + 1024 * n) c
            (World.afterDataPackets c.id_ fd n idx pos w) := by
  induction n with
  | zero => intro idx pos w _ _; rfl
  | succ n ih =>
    intro idx pos w hsend hg
    rw [SendFrame.loop_step len fd idx pos c w (by simpa using hg 0 (Nat.succ_pos n)) hsend]
    rw [ih (idx + 1) (pos + 1024) _ (by exact hsend)
      (by intro j hj; have := hg (j + 1) (by omega); omega)]
    have e1 : idx + 1 + n = idx + (n + 1) := by omega
    have e2 : pos + 1024 + 1024 * n = pos + 1024 * (n + 1) := by omega
    rw [e1, e2]
    rfl

theorem afterDataPackets_fields (id : Int) (fd : List Nat) (n : Nat) :
    ∀ (idx pos : Nat) (w : World),
      (World.afterDataPackets id fd n idx pos w).sent
        = w.sent ++ (List.range n).map (fun j =>
            ({ controller_id := id, data := SendFrame.packet fd (idx + j) (pos + 1024 * j),
               result := 1040 } : SentPacket)) ∧
      (World.afterDataPackets id fd n idx pos w).sendResult = w.sendResult ∧
      (World.afterDataPackets id fd n idx pos w).recvPending = w.recvPending ∧
      (World.afterDataPackets id fd n idx pos w).recvCount = w.recvCount ∧
      (World.afterDataPackets id fd n idx pos w).sendCount = w.sendCount + n := by
  induction n with
  | zero => intro idx pos w; simp [World.afterDataPackets]
  | succ n ih =>
    intro idx pos w
    obtain ⟨h1, h2, h3, h4, h5⟩ := ih (idx + 1) (pos + 1024)
      (Sleep kMgsDataDelayUs (w.logSend id (SendFrame.packet fd idx pos) 1040))
    unfold World.afterDataPackets
    refine ⟨?_, h2, h3, h4, ?_⟩
    · rw [h1]
      simp only [Sleep, World.logSend, List.append_assoc, List.singleton_append]
      rw [List.range_succ_eq_map, List.map_cons, List.map_map]
      simp only [Nat.add_zero, Nat.mul_zero, List.append_cancel_left_eq, List.cons.injEq, true_and]
      apply List.map_congr_left
      intro j _
      simp only [Function.comp]
      have e1 : idx + 1 + j = idx + (j + 1) := by omega
      have e2 : pos + 1024 + 1024 * j = pos + 1024 * (j + 1) := by omega
      rw [e1, e2]
    · rw [h5]
      simp only [Sleep, World.logSend]
      omega

theorem ConsumeReplyData_eq (c : TclController) (w : World) :
    c.ConsumeReplyData w
      = (if w.recvPending w.recvCount = 0 then c
         else c.SetLastReplyTime (GetCurrentMillis w),
         { w with recvCount := w.recvCount + 1 }) := by
  unfold TclController.ConsumeReplyData
  simp only [Prod.mk.injEq, and_true]
  have hnow : GetCurrentMillis { w with recvCount := w.recvCount + 1 } = GetCurrentMillis w := rfl
  rw [hnow]
  generalize w.recvPending w.recvCount = n
  induction n with
  | zero => simp [forLoop_zero]
  | succ m ih =>
    rw [forLoop_succ, ih]
    simp only [Nat.succ_ne_zero, if_false]
    split <;> rfl

theorem payload_eq (fd : List Nat) (pos : Nat) (h : pos + 1024 ≤ fd.length) :
    (List.range 1024).map (fun i => fd.getD (pos + i) 0) = (fd.drop pos).take 1024 := by
  apply List.ext_getElem
  · simp; omega
  · intro i h1 h2
    simp only [List.length_map, List.length_range] at h1
    simp only [List.getElem_map, List.getElem_range, List.getElem_take, List.getElem_drop]
    exact List.getD_eq_getElem _ _ (by omega)

theorem chunks_flatten (l : List Nat) (k n : Nat) :
    ((List.range n).map (fun i => (l.drop (i * k)).take k)).flatten = l.take (n * k) := by
  induction n with
  | zero => simp
  | succ m ih =>
    rw [List.range_succ, List.map_append, List.flatten_append, ih]
    simp only [List.map_cons, List.map_nil, List.flatten_cons, List.flatten_nil, List.append_nil]
    rw [Nat.succ_mul, List.take_add]

theorem packet_explicit (fd : List Nat) (i : Nat) (hi : i < 256)
    (h : i * 1024 + 1024 ≤ fd.length) :
    SendFrame.packet fd i (i * 1024)
      = [0x88, i, 0x68, 0x3F, 0x2B, 0xFD, 0x60, 0x8B, 0x95, 0xEF, 0x04, 0x69]
        ++ (fd.drop (i * 1024)).take 1024 ++ [0x00, 0x00, 0x00, 0x00] := by
  unfold SendFrame.packet
  rw [payload_eq fd (i * 1024) h, Nat.mod_eq_of_lt hi]
  rfl

/-- `SendFrame` for `STRAND_LENGTH = 512` when every send succeeds. -/
theorem SendFrame_eq (c : TclController) (w : World) (fd : List Nat) (hsend : w.SendsSucceed) :
    c.SendFrame 512 w fd
      = (Outcome.ok (),
          { (c.ConsumeReplyData w).1.ConsumeReplyData
              ((World.afterDataPackets c.id_ fd 12 0 0
                (Sleep kMgsStartDelayUs
                  ((c.ConsumeReplyData w).2.logSend c.id_ MSG_START_FRAME 5))).logSend
                c.id_ MSG_END_FRAME 5) |>.1 with
            frames_sent_after_reply_ :=
              ((c.ConsumeReplyData w).1.ConsumeReplyData
                ((World.afterDataPackets c.id_ fd 12 0 0
                  (Sleep kMgsStartDelayUs
                    ((c.ConsumeReplyData w).2.logSend c.id_ MSG_START_FRAME 5))).logSend
                  c.id_ MSG_END_FRAME 5)).1.frames_sent_after_reply_ + 1 },
          ((c.ConsumeReplyData w).1.ConsumeReplyData
            ((World.afterDataPackets c.id_ fd 12 0 0
              (Sleep kMgsStartDelayUs
                ((c.ConsumeReplyData w).2.logSend c.id_ MSG_START_FRAME 5))).logSend
              c.id_ MSG_END_FRAME 5)).2) := by
  have hid : (c.ConsumeReplyData w).1.id_ = c.id_ := by
    rw [ConsumeReplyData_eq]; simp only; split <;> rfl
  have hs1 : (c.ConsumeReplyData w).2.SendsSucceed := by
    rw [ConsumeReplyData_eq]; exact hsend
  have hs2 : (Sleep kMgsStartDelayUs
      ((c.ConsumeReplyData w).2.logSend c.id_ MSG_START_FRAME 5)).SendsSucceed := hs1
  have hs3 : ((World.afterDataPackets c.id_ fd 12 0 0
      (Sleep kMgsStartDelayUs
        ((c.ConsumeReplyData w).2.logSend c.id_ MSG_START_FRAME 5)))).SendsSucceed := by
    unfold World.SendsSucceed
    rw [(afterDataPackets_fields c.id_ fd 12 0 0 _).2.1]
    exact hs2
  unfold TclController.SendFrame
  generalize hcr : c.ConsumeReplyData w = cr at hid hs1 hs2 hs3 ⊢
  obtain ⟨c1, w1⟩ := cr
  simp only at hid hs1 hs2 hs3 ⊢
  rw [SendPacket_ok _ _ _ hs1]
  simp only
  have hstart : (MSG_START_FRAME.length : Int) = 5 := rfl
  rw [hid]
  have hloop := SendFrame.loop_steps (FRAME_DATA_LEN 512) fd c1 12 0 0
    (Sleep kMgsStartDelayUs (w1.logSend c.id_ MSG_START_FRAME 5)) hs2
    (by intro j hj; unfold FRAME_DATA_LEN; omega)
  rw [hid] at hloop
  have hstart2 : (↑MSG_START_FRAME.length : Int) = 5 := rfl
  simp only [hstart2]
  rw [hloop, SendFrame.loop_done _ _ _ _ _ _ (by unfold FRAME_DATA_LEN; omega)]
  have hck : ¬ (0 + 1024 * 12 ≠ FRAME_DATA_LEN 512 ∨ 0 + 12 ≠ 12) := by
    unfold FRAME_DATA_LEN; omega
  simp only [if_neg hck]
  rw [SendPacket_ok _ _ _ hs3, hid]
  have hend : (↑MSG_END_FRAME.length : Int) = 5 := rfl
  simp only [hend]

/-- The counter `frames_sent_after_reply_` after `SendFrame` when every send
succeeds: `SetLastReplyTime` zeroes it for a reply consumed by either call of
`ConsumeReplyData`, and the final statement of `SendFrame` adds one. -/
theorem SendFrame_frames_sent (c : TclController) (w : World) (frame_data : List Nat)
    (hsend : w.SendsSucceed) :
    (c.SendFrame 512 w frame_data).2.1.frames_sent_after_reply_
      = (if w.recvPending w.recvCount = 0 ∧ w.recvPending (w.recvCount + 1) = 0 then
          c.frames_sent_after_reply_ else 0) + 1 := by
  rw [SendFrame_eq c w frame_data hsend]
  simp only
  have hfr : ∀ (c1 : TclController) (W : World),
      (c1.ConsumeReplyData W).1.frames_sent_after_reply_
        = if W.recvPending W.recvCount = 0 then c1.frames_sent_after_reply_ else 0 := by
    intro c1 W
    rw [ConsumeReplyData_eq]
    simp only
    split <;> rfl
  have hW := afterDataPackets_fields c.id_ frame_data 12 0 0
    (Sleep kMgsStartDelayUs ((c.ConsumeReplyData w).2.logSend c.id_ MSG_START_FRAME 5))
  have hp : ((World.afterDataPackets c.id_ frame_data 12 0 0
      (Sleep kMgsStartDelayUs
        ((c.ConsumeReplyData w).2.logSend c.id_ MSG_START_FRAME 5))).logSend
      c.id_ MSG_END_FRAME 5).recvPending = w.recvPending := by
    have : (c.ConsumeReplyData w).2.recvPending = w.recvPending := by
      rw [ConsumeReplyData_eq]
    exact hW.2.2.1.trans this
  have hc : ((World.afterDataPackets c.id_ frame_data 12 0 0
      (Sleep kMgsStartDelayUs
        ((c.ConsumeReplyData w).2.logSend c.id_ MSG_START_FRAME 5))).logSend
      c.id_ MSG_END_FRAME 5).recvCount = w.recvCount + 1 := by
    have : (c.ConsumeReplyData w).2.recvCount = w.recvCount + 1 := by
      rw [ConsumeReplyData_eq]
    exact hW.2.2.2.1.trans this
  rw [hfr, hp, hc, hfr]
  by_cases h1 : w.recvPending w.recvCount = 0 <;>
    by_cases h2 : w.recvPending (w.recvCount + 1) = 0 <;>
    simp [h1, h2]

/-- C13, amended: with STRAND_LENGTH = 512 (FRAME_DATA_LEN = 12288), a frame
of that length and every send succeeding, SendFrame returns true after
sending exactly 14 packets in this order: START_FRAME (C5 77 88 00 00),
twelve data packets of 1040 bytes, END_FRAME (AA 01 8C 01 55); data packet i
is the prefix 88 00 68 3F 2B FD 60 8B 95 EF 04 69 with byte 1 replaced by i,
then frame_data[i*1024 .. (i+1)*1024), then four zero bytes, so the twelve
payloads concatenated are the frame; frames_sent_after_reply is then its old
value plus one when neither of the two reads of the socket in the call finds
a reply, and 1 when one of them does (a reply zeroes the counter). -/
theorem SendFrame_packets (c : TclController) (w : World) (frame_data : List Nat)
    (hlen : frame_data.length = FRAME_DATA_LEN 512) (hsend : w.SendsSucceed) :
    FRAME_DATA_LEN 512 = 12288 ∧
    (c.SendFrame 512 w frame_data).1 = Outcome.ok () ∧
    (c.SendFrame 512 w frame_data).2.2.sent
      = w.sent
        ++ [{ controller_id := c.id_, data := [0xC5, 0x77, 0x88, 0x00, 0x00], result := 5 }]
        ++ (List.range 12).map (fun i =>
            ({ controller_id := c.id_,
               data := [0x88, i, 0x68, 0x3F, 0x2B, 0xFD, 0x60, 0x8B, 0x95, 0xEF, 0x04, 0x69]
                 ++ (frame_data.drop (i * 1024)).take 1024 ++ [0x00, 0x00, 0x00, 0x00],
               result := 1040 } : SentPacket))
        ++ [{ controller_id := c.id_, data := [0xAA, 0x01, 0x8C, 0x01, 0x55], result := 5 }] ∧
    (∀ i, i < 12 →
      ([0x88, i, 0x68, 0x3F, 0x2B, 0xFD, 0x60, 0x8B, 0x95, 0xEF, 0x04, 0x69]
        ++ (frame_data.drop (i * 1024)).take 1024 ++ [0x00, 0x00, 0x00, 0x00]).length = 1040) ∧
    ((List.range 12).map (fun i => (frame_data.drop (i * 1024)).take 1024)).flatten
      = frame_data ∧
    (c.SendFrame 512 w frame_data).2.1.frames_sent_after_reply_
      = (if w.recvPending w.recvCount = 0 ∧ w.recvPending (w.recvCount + 1) = 0 then
          c.frames_sent_after_reply_ else 0) + 1 := by
  have h12288 : FRAME_DATA_LEN 512 = 12288 := by unfold FRAME_DATA_LEN; norm_num
  rw [h12288] at hlen
  have key := SendFrame_eq c w frame_data hsend
  refine ⟨h12288, ?_, ?_, ?_, ?_, ?_⟩
  · rw [key]
  · rw [key]
    simp only
    have hW := afterDataPackets_fields c.id_ frame_data 12 0 0
      (Sleep kMgsStartDelayUs ((c.ConsumeReplyData w).2.logSend c.id_ MSG_START_FRAME 5))
    have h0 : (Sleep kMgsStartDelayUs
        ((c.ConsumeReplyData w).2.logSend c.id_ MSG_START_FRAME 5)).sent
        = w.sent ++ [{ controller_id := c.id_, data := [0xC5, 0x77, 0x88, 0x00, 0x00],
                       result := 5 }] := by
      rw [ConsumeReplyData_eq]; rfl
    have h1 : ∀ (c1 : TclController) (W : World),
        (c1.ConsumeReplyData (W.logSend c.id_ MSG_END_FRAME 5)).2.sent
          = W.sent ++ [{ controller_id := c.id_, data := [0xAA, 0x01, 0x8C, 0x01, 0x55],
                         result := 5 }] := by
      intro c1 W
      rw [ConsumeReplyData_eq]; rfl
    rw [h1, hW.1, h0]
    have hmap : (List.range 12).map (fun j =>
          ({ controller_id := c.id_,
             data := SendFrame.packet frame_data (0 + j) (0 + 1024 * j),
             result := 1040 } : SentPacket))
        = (List.range 12).map (fun i =>
          ({ controller_id := c.id_,
             data := [0x88, i, 0x68, 0x3F, 0x2B, 0xFD, 0x60, 0x8B, 0x95, 0xEF, 0x04, 0x69]
               ++ (frame_data.drop (i * 1024)).take 1024 ++ [0x00, 0x00, 0x00, 0x00],
             result := 1040 } : SentPacket)) := by
      apply List.map_congr_left
      intro i hi
      have hi2 : i < 12 := List.mem_range.mp hi
      have := packet_explicit frame_data i (by omega) (by omega)
      rw [Nat.zero_add, Nat.zero_add, Nat.mul_comm 1024 i, this]
    rw [hmap]
  · intro i hi
    simp only [List.length_append, List.length_take, List.length_drop, List.length_cons,
      List.length_nil]
    omega
  · rw [chunks_flatten]
    exact List.take_of_length_le (by omega)
  · exact SendFrame_frames_sent c w frame_data hsend

/-- A frame of 12288 zero bytes sent by the watchdog controller (five frames
already sent) in the quiet world: 14 packets, true, and six frames sent. -/
theorem SendFrame_packets_witness :
    ((List.replicate 12288 0).length = FRAME_DATA_LEN 512 ∧ quietWorld.SendsSucceed) ∧
    (watchdogController.SendFrame 512 quietWorld (List.replicate 12288 0)).1 = Outcome.ok () ∧
    (watchdogController.SendFrame 512 quietWorld (List.replicate 12288 0)).2.2.sent.length = 14 ∧
    (watchdogController.SendFrame 512 quietWorld
      (List.replicate 12288 0)).2.1.frames_sent_after_reply_ = 6 := by
  have hl : (List.replicate 12288 0).length = FRAME_DATA_LEN 512 := by
    rw [List.length_replicate]; rfl
  have h := SendFrame_packets watchdogController quietWorld (List.replicate 12288 0) hl
    (fun _ _ => rfl)
  refine ⟨⟨hl, fun _ _ => rfl⟩, h.2.1, ?_, ?_⟩
  · rw [h.2.2.1]
    simp only [List.length_append, List.length_map, List.length_range, List.length_cons,
      List.length_nil]
    rfl
  · rw [h.2.2.2.2.2]
    rfl

/-- C13, counterexample: the watchdog controller has sent five frames since
the last reply; it sends a frame of 12288 zero bytes, every send succeeds,
and a reply is waiting on the socket. Afterwards frames_sent_after_reply is
1, not 6: the counter is not incremented by one. -/
theorem SendFrame_counter_reset_by_reply :
    (List.replicate 12288 0).length = FRAME_DATA_LEN 512 ∧ replyWorld.SendsSucceed ∧
    (watchdogController.SendFrame 512 replyWorld (List.replicate 12288 0)).1 = Outcome.ok () ∧
    watchdogController.frames_sent_after_reply_ = 5 ∧
    (watchdogController.SendFrame 512 replyWorld
      (List.replicate 12288 0)).2.1.frames_sent_after_reply_ = 1 ∧
    ¬ (watchdogController.SendFrame 512 replyWorld
        (List.replicate 12288 0)).2.1.frames_sent_after_reply_
      = watchdogController.frames_sent_after_reply_ + 1 := by
  have hs : replyWorld.SendsSucceed := fun _ _ => rfl
  have h := SendFrame_frames_sent watchdogController replyWorld (List.replicate 12288 0) hs
  have h1 : (watchdogController.SendFrame 512 replyWorld
      (List.replicate 12288 0)).2.1.frames_sent_after_reply_ = 1 := by
    rw [h]; rfl
  refine ⟨by rw [List.length_replicate]; rfl, hs, ?_, rfl, h1, ?_⟩
  · rw [SendFrame_eq watchdogController replyWorld (List.replicate 12288 0) hs]
  · rw [h1]; decide

/-! ## Failed sends -/

/-- C12, counterexample: a fresh controller is initialised while the second
send (MSG_INIT, after MSG_RESET went out) returns the error -1. The worker
handles the failure (it sleeps and restarts its loop) and require_reset of
the controller is false afterwards. -/
theorem init_error_leaves_require_reset_clear :
    (freshRenderer.RunPrepare secondSendFails).1 = RunStatus.restarted ∧
    (freshRenderer.RunPrepare secondSendFails).2.2.sent
      = [{ controller_id := 0, data := MSG_RESET, result := 5 },
         { controller_id := 0, data := MSG_INIT, result := -1 }] ∧
    (freshRenderer.RunPrepare secondSendFails).2.1.controllers_.map
      (fun c => c.require_reset_) = [false] := by
  decide

theorem StopsAtFailure.refl (l : List SentPacket) : StopsAtFailure l l true :=
  ⟨[], by simp, by simp, by simp, by simp⟩

theorem StopsAtFailure.trans (a b c : List SentPacket) (ok : Bool)
    (h1 : StopsAtFailure a b true) (h2 : StopsAtFailure b c ok) : StopsAtFailure a c ok := by
  obtain ⟨l1, e1, _, s1, _⟩ := h1
  obtain ⟨l2, e2, d2, s2, f2⟩ := h2
  have s1 := s1 rfl
  refine ⟨l1 ++ l2, by rw [e2, e1, List.append_assoc], ?_, ?_, ?_⟩
  · intro p hp
    by_cases hl2 : l2 = []
    · subst hl2
      rw [List.append_nil] at hp
      exact s1 p (List.mem_of_mem_dropLast hp)
    · rw [List.dropLast_append_of_ne_nil _ hl2] at hp
      rcases List.mem_append.mp hp with hp | hp
      · exact s1 p hp
      · exact d2 p hp
  · intro hok p hp
    rcases List.mem_append.mp hp with hp | hp
    · exact s1 p hp
    · exact s2 hok p hp
  · intro hok
    obtain ⟨last, hl, hf⟩ := f2 hok
    refine ⟨last, ?_, hf⟩
    rw [List.getLast?_append, hl]
    rfl

theorem SendPacket_stops (c : TclController) (w : World) (data : List Nat) :
    StopsAtFailure w.sent (c.SendPacket w data).2.2.sent (c.SendPacket w data).1 := by
  rw [SendPacket_eq]
  refine ⟨[{ controller_id := c.id_, data := data,
             result := w.sendResult w.sendCount data.length }], ?_, ?_, ?_, ?_⟩
  · split_ifs <;> rfl
  · intro p hp; simp at hp
  · intro hok p hp
    rw [List.mem_singleton.mp hp]
    unfold SentPacket.Succeeded
    simp only
    by_contra hne
    by_cases h1 : w.sendResult w.sendCount data.length = -1
    · simp [h1] at hok
    · simp [h1, hne] at hok
  · intro hok
    refine ⟨_, rfl, ?_⟩
    intro he
    have he : w.sendResult w.sendCount data.length = (data.length : Int) := he
    have h1 : ¬ (w.sendResult w.sendCount data.length = -1) := by rw [he]; omega
    simp [h1, he] at hok

theorem SendPacket_sendResult (c : TclController) (w : World) (data : List Nat) :
    (c.SendPacket w data).2.2.sent
      = w.sent ++ [{ controller_id := c.id_, data := data,
                     result := w.sendResult w.sendCount data.length }] := by
  rw [SendPacket_eq]; split_ifs <;> rfl

/-- The packet loop of `SendFrame` stops at the first failed send. -/
theorem SendFrame.loop_stops (len : Nat) (fd : List Nat) (k : Nat) :
    ∀ (idx pos : Nat) (c : TclController) (w : World), len - pos ≤ k →
      StopsAtFailure w.sent (SendFrame.loop len fd idx pos c w).2.2.2.2.sent
        (SendFrame.loop len fd idx pos c w).1 := by
  induction k with
  | zero =>
    intro idx pos c w hk
    rw [SendFrame.loop_done _ _ _ _ _ _ (by omega)]
    exact StopsAtFailure.refl _
  | succ k ih =>
    intro idx pos c w hk
    by_cases hlt : pos < len
    · rw [SendFrame.loop]
      simp only [hlt, dite_true]
      have hp := SendPacket_stops c w (SendFrame.packet fd idx pos)
      rcases hsp : c.SendPacket w (SendFrame.packet fd idx pos) with ⟨ok, c2, w2⟩
      rw [hsp] at hp
      cases ok with
      | false => exact hp
      | true =>
        simp only
        have := ih (idx + 1) (pos + 1024) c2 (Sleep kMgsDataDelayUs w2) (by omega)
        exact StopsAtFailure.trans _ _ _ _ hp this
    · rw [SendFrame.loop_done _ _ _ _ _ _ hlt]
      exact StopsAtFailure.refl _

/-- `SendFrame` stops at the first failed send, and it returns `false`
exactly when a send failed. -/
theorem SendFrame_stops (SL : Nat) (c : TclController) (w : World) (fd : List Nat) :
    StopsAtFailure w.sent (c.SendFrame SL w fd).2.2.sent
      (match (c.SendFrame SL w fd).1 with
        | Outcome.null => false
        | _ => true) := by
  unfold TclController.SendFrame
  rw [ConsumeReplyData_eq]
  simp only
  generalize (if w.recvPending w.recvCount = 0 then c
    else c.SetLastReplyTime (GetCurrentMillis w)) = c1
  have hp1 := SendPacket_stops c1 { w with recvCount := w.recvCount + 1 } MSG_START_FRAME
  rcases hsp : c1.SendPacket { w with recvCount := w.recvCount + 1 } MSG_START_FRAME
    with ⟨ok, c2, w2⟩
  rw [hsp] at hp1
  cases ok with
  | false => exact hp1
  | true =>
    simp only
    have hl := SendFrame.loop_stops (FRAME_DATA_LEN SL) fd (FRAME_DATA_LEN SL) 0 0 c2
      (Sleep kMgsStartDelayUs w2) (by omega)
    rcases hlp : SendFrame.loop (FRAME_DATA_LEN SL) fd 0 0 c2 (Sleep kMgsStartDelayUs w2)
      with ⟨ok2, idx, pos, c3, w3⟩
    rw [hlp] at hl
    have hl2 : StopsAtFailure w.sent w3.sent ok2 := StopsAtFailure.trans _ _ _ _ hp1 hl
    cases ok2 with
    | false => exact hl2
    | true =>
      simp only
      by_cases hck : pos ≠ FRAME_DATA_LEN SL ∨ idx ≠ 12
      · rw [if_pos hck]; exact hl2
      · rw [if_neg hck]
        have hp3 := SendPacket_stops c3 w3 MSG_END_FRAME
        rcases hsp3 : c3.SendPacket w3 MSG_END_FRAME with ⟨ok3, c4, w4⟩
        rw [hsp3] at hp3
        have hl3 : StopsAtFailure w.sent w4.sent ok3 := StopsAtFailure.trans _ _ _ _ hl2 hp3
        cases ok3 with
        | false => exact hl3
        | true =>
          simp only
          rw [ConsumeReplyData_eq]
          exact hl3

/-- What a failed send does to the controller. -/
theorem SendPacket_failed (c : TclController) (w : World) (data : List Nat)
    (h : (c.SendPacket w data).1 = false) :
    ¬ (w.sendResult w.sendCount data.length = (data.length : Int)) ∧
    (c.SendPacket w data).2.1
      = (if w.sendResult w.sendCount data.length = -1 then c
         else { c with require_reset_ := true }) := by
  rw [SendPacket_eq] at h ⊢
  by_cases h1 : w.sendResult w.sendCount data.length = -1
  · rw [if_pos h1, if_pos h1]
    exact ⟨by omega, rfl⟩
  · by_cases h2 : w.sendResult w.sendCount data.length = (data.length : Int)
    · rw [if_neg h1, if_neg (by simpa using h2)] at h
      cases h
    · rw [if_neg h1, if_pos h2, if_neg h1]
      exact ⟨h2, rfl⟩

/-- The part of `InitController` after `Connect` when a send fails. -/
theorem InitController_failed_aux (c1 : TclController) (w1 : World)
    (h1 : ¬ (c1.init_sent_ = true ∧ c1.require_reset_ = false))
    (hfail : (match InitController.reset c1 w1 with
      | (false, c2, w2) => (false, c2, w2)
      | (true, c2, w2) =>
        match c2.SendPacket w2 MSG_INIT with
        | (false, c3, w3) => (false, c3, w3)
        | (true, c3, w3) =>
          (true, TclController.SetLastReplyTime { c3 with init_sent_ := true }
            (GetCurrentMillis (Sleep 100000 w3)), Sleep 100000 w3)).1 = false) :
    ∃ earlier last,
      (match InitController.reset c1 w1 with
      | (false, c2, w2) => (false, c2, w2)
      | (true, c2, w2) =>
        match c2.SendPacket w2 MSG_INIT with
        | (false, c3, w3) => (false, c3, w3)
        | (true, c3, w3) =>
          (true, TclController.SetLastReplyTime { c3 with init_sent_ := true }
            (GetCurrentMillis (Sleep 100000 w3)), Sleep 100000 w3)).2.2.sent
        = w1.sent ++ earlier ++ [last] ∧
      (∀ p ∈ earlier, p.Succeeded) ∧ ¬ last.Succeeded ∧
      (last.data = MSG_RESET ∨ last.data = MSG_INIT) ∧
      ((match InitController.reset c1 w1 with
      | (false, c2, w2) => (false, c2, w2)
      | (true, c2, w2) =>
        match c2.SendPacket w2 MSG_INIT with
        | (false, c3, w3) => (false, c3, w3)
        | (true, c3, w3) =>
          (true, TclController.SetLastReplyTime { c3 with init_sent_ := true }
            (GetCurrentMillis (Sleep 100000 w3)), Sleep 100000 w3)).2.1.require_reset_ = true ↔
        (last.data = MSG_RESET ∨ last.result ≠ -1)) := by
  have hne : MSG_INIT ≠ MSG_RESET := by decide
  by_cases h2 : c1.require_reset_ = true
  · -- a reset is required
    have hreset : InitController.reset c1 w1
        = match c1.SendPacket w1 MSG_RESET with
          | (false, c2, w2) => (false, c2, w2)
          | (true, c2, w2) => (true, { c2 with require_reset_ := false }, Sleep 5000000 w2) := by
      unfold InitController.reset; rw [if_pos h2]
    rw [hreset] at hfail ⊢
    have hsent := SendPacket_sendResult c1 w1 MSG_RESET
    have hstop := SendPacket_stops c1 w1 MSG_RESET
    have hfl := SendPacket_failed c1 w1 MSG_RESET
    generalize c1.SendPacket w1 MSG_RESET = res at hsent hstop hfl hfail ⊢
    obtain ⟨ok, c2, w2⟩ := res
    simp only at hsent hstop hfl hfail ⊢
    cases ok with
    | false =>
      have hf := hfl rfl
      refine ⟨[], { controller_id := c1.id_, data := MSG_RESET,
                    result := w1.sendResult w1.sendCount MSG_RESET.length },
        by rw [hsent]; simp, by simp, fun hs => hf.1 hs, Or.inl rfl, ?_⟩
      simp only [true_or, iff_true]
      rw [hf.2]
      split
      · exact h2
      · rfl
    | true =>
      obtain ⟨added, e1, _, hs1, _⟩ := hstop
      have hrec : SentPacket.Succeeded
          { controller_id := c1.id_, data := MSG_RESET,
            result := w1.sendResult w1.sendCount MSG_RESET.length } := by
        apply hs1 rfl
        rw [hsent] at e1
        rw [← List.append_cancel_left e1]
        exact List.mem_singleton.mpr rfl
      simp only at hfail ⊢
      generalize hc2 : ({ c2 with require_reset_ := false } : TclController) = c2r at hfail ⊢
      have hsent2 := SendPacket_sendResult c2r (Sleep 5000000 w2) MSG_INIT
      have hfl2 := SendPacket_failed c2r (Sleep 5000000 w2) MSG_INIT
      generalize c2r.SendPacket (Sleep 5000000 w2) MSG_INIT = res2 at hsent2 hfl2 hfail ⊢
      obtain ⟨ok2, c3, w3⟩ := res2
      simp only at hsent2 hfl2 hfail ⊢
      cases ok2 with
      | true => cases hfail
      | false =>
        have hf := hfl2 rfl
        refine ⟨[{ controller_id := c1.id_, data := MSG_RESET,
                   result := w1.sendResult w1.sendCount MSG_RESET.length }],
          { controller_id := c2r.id_, data := MSG_INIT,
            result := (Sleep 5000000 w2).sendResult (Sleep 5000000 w2).sendCount MSG_INIT.length },
          by rw [hsent2]; simp only [Sleep]; rw [hsent], ?_, fun hs => hf.1 hs, Or.inr rfl, ?_⟩
        · intro p hp
          rw [List.mem_singleton.mp hp]
          exact hrec
        · simp only [hne, false_or]
          rw [hf.2]
          have hr : c2r.require_reset_ = false := by rw [← hc2]
          split
          · rename_i he
            rw [hr, he]
            simp
          · rename_i he
            simp only [true_iff]
            exact he
  · -- no reset is required
    have hreset : InitController.reset c1 w1 = (true, c1, w1) := by
      unfold InitController.reset; rw [if_neg h2]
    rw [hreset] at hfail ⊢
    simp only at hfail ⊢
    have hsent2 := SendPacket_sendResult c1 w1 MSG_INIT
    have hfl2 := SendPacket_failed c1 w1 MSG_INIT
    generalize c1.SendPacket w1 MSG_INIT = res2 at hsent2 hfl2 hfail ⊢
    obtain ⟨ok2, c3, w3⟩ := res2
    simp only at hsent2 hfl2 hfail ⊢
    cases ok2 with
    | true => cases hfail
    | false =>
      have hf := hfl2 rfl
      refine ⟨[], { controller_id := c1.id_, data := MSG_INIT,
                    result := w1.sendResult w1.sendCount MSG_INIT.length },
        by rw [hsent2]; simp, by simp, fun hs => hf.1 hs, Or.inr rfl, ?_⟩
      simp only [hne, false_or]
      rw [hf.2]
      split
      · rename_i he
        rw [he]
        simp only [ne_eq, not_true_eq_false, iff_false]
        exact h2
      · rename_i he
        simp only [true_iff]
        exact he

/-- `InitController` when a send fails: nothing is sent after the failed
send, and require_reset ends up true exactly when the failed message is
MSG_RESET or the send wrote fewer bytes than requested. -/
theorem InitController_failed (c : TclController) (w : World)
    (hconn : (c.Connect w).1 = true) (hfail : (c.InitController w).1 = false) :
    ∃ earlier last,
      (c.InitController w).2.2.sent = w.sent ++ earlier ++ [last] ∧
      (∀ p ∈ earlier, p.Succeeded) ∧ ¬ last.Succeeded ∧
      (last.data = MSG_RESET ∨ last.data = MSG_INIT) ∧
      ((c.InitController w).2.1.require_reset_ = true ↔
        (last.data = MSG_RESET ∨ last.result ≠ -1)) := by
  obtain ⟨s, n, hC⟩ := Connect_true c w hconn
  unfold TclController.InitController at hfail ⊢
  rw [hC] at hfail ⊢
  simp only at hfail ⊢
  by_cases h1 : c.init_sent_ = true ∧ c.require_reset_ = false
  · rw [if_pos h1] at hfail; cases hfail
  rw [if_neg h1] at hfail ⊢
  exact InitController_failed_aux { c with socket_ := s } { w with connectCount := n } h1 hfail

/-- C12, amended: a send issued by SendFrame that fails, by an error or by a
short write, is the last send of the call (SendFrame returns false exactly
when its last send failed), and the worker then sets require_reset on that
controller without sending anything more. A send issued by InitController
that fails is the last send of the call too, and the worker only sleeps and
restarts its loop, leaving the controllers as InitController left them:
require_reset is then true exactly when the failed message is MSG_RESET or
the send wrote fewer bytes than requested, and false when MSG_INIT failed by
returning an error. -/
theorem send_failure_handling (STRAND_COUNT STRAND_LENGTH : Nat) (ext : External) :
    (∀ (c : TclController) (w : World) (frame_data : List Nat),
      StopsAtFailure w.sent (c.SendFrame STRAND_LENGTH w frame_data).2.2.sent
        (match (c.SendFrame STRAND_LENGTH w frame_data).1 with
          | Outcome.null => false
          | _ => true)) ∧
    (∀ (r : TclRenderer) (w w3 : World) (i : Nat) (c c2 c3 : TclController)
        (frame_data : List Nat),
      r.is_shutting_down_ = false → r.enable_net_ = true →
      (PopNextWorkItemLocked r.queue_ WorkItem.placeholder (GetCurrentMillis w)).found = true →
      (PopNextWorkItemLocked r.queue_ WorkItem.placeholder (GetCurrentMillis w)).item.needs_reset_
        = false →
      (PopNextWorkItemLocked r.queue_ WorkItem.placeholder (GetCurrentMillis w)).item.img_.IsEmpty
        = false →
      (PopNextWorkItemLocked r.queue_ WorkItem.placeholder (GetCurrentMillis w)).item.controller_
        = some i →
      r.controllers_[i]? = some c →
      c.BuildFrameDataForImage STRAND_COUNT STRAND_LENGTH ext
        (PopNextWorkItemLocked r.queue_ WorkItem.placeholder (GetCurrentMillis w)).item.img_
        (PopNextWorkItemLocked r.queue_ WorkItem.placeholder (GetCurrentMillis w)).item.id_
        = (Outcome.ok frame_data, c2) →
      c2.SendFrame STRAND_LENGTH w frame_data = (Outcome.null, c3, w3) →
      r.RunServe STRAND_COUNT STRAND_LENGTH ext w
        = (RunStatus.completed,
            { r with
                queue_ := (PopNextWorkItemLocked r.queue_ WorkItem.placeholder
                  (GetCurrentMillis w)).queue,
                controllers_ := r.controllers_.set i { c3 with require_reset_ := true } },
            w3)) ∧
    (∀ (c : TclController) (w : World),
      (c.Connect w).1 = true → (c.InitController w).1 = false →
      ∃ earlier last,
        (c.InitController w).2.2.sent = w.sent ++ earlier ++ [last] ∧
        (∀ p ∈ earlier, p.Succeeded) ∧ ¬ last.Succeeded ∧
        (last.data = MSG_RESET ∨ last.data = MSG_INIT) ∧
        ((c.InitController w).2.1.require_reset_ = true ↔
          (last.data = MSG_RESET ∨ last.result ≠ -1))) ∧
    (∀ (r : TclRenderer) (w : World),
      r.is_shutting_down_ = false → r.enable_net_ = true →
      (Run.initAll (r.controllers_.map (fun c =>
        c.UpdateAutoReset r.auto_reset_after_no_data_ms_ (GetCurrentMillis w))) w).1 = true →
      r.RunPrepare w
        = (RunStatus.restarted,
            { r with controllers_ := (Run.initAll (r.controllers_.map (fun c =>
                c.UpdateAutoReset r.auto_reset_after_no_data_ms_ (GetCurrentMillis w))) w).2.1 },
            Sleep 1000000 (Run.initAll (r.controllers_.map (fun c =>
                c.UpdateAutoReset r.auto_reset_after_no_data_ms_ (GetCurrentMillis w))) w).2.2)) := by
  refine ⟨fun c w fd => SendFrame_stops STRAND_LENGTH c w fd, ?_,
    fun c w h1 h2 => InitController_failed c w h1 h2, ?_⟩
  · intro r w w3 i c c2 c3 fd hs hnet hfound hreset himg hctl hc hbuild hsend
    unfold TclRenderer.RunServe
    simp only [hs, Bool.false_eq_true, if_false, hfound, Bool.true_eq_false, hctl, hc, hreset,
      himg, hbuild, hnet, hsend, TclController.ScheduleReset]
  · intro r w hs hnet hinit
    unfold TclRenderer.RunPrepare
    simp only [hs, Bool.false_eq_true, if_false, hnet, if_true]
    generalize Run.initAll (r.controllers_.map (fun c =>
        c.UpdateAutoReset r.auto_reset_after_no_data_ms_ (GetCurrentMillis w))) w = res at hinit ⊢
    obtain ⟨ok, cs2, w2⟩ := res
    simp only at hinit
    subst hinit
    rfl

/-- The fresh controller of the counterexample: MSG_INIT fails with -1 after
MSG_RESET went out; it is the last send and require_reset is false. -/
theorem send_failure_handling_witness :
    (((TclController.new 8 0 4 4 hdrLayout ⟨id, id, id⟩).Connect secondSendFails).1 = true ∧
     ((TclController.new 8 0 4 4 hdrLayout ⟨id, id, id⟩).InitController secondSendFails).1
       = false) ∧
    ∃ earlier last,
      ((TclController.new 8 0 4 4 hdrLayout ⟨id, id, id⟩).InitController secondSendFails).2.2.sent
        = secondSendFails.sent ++ earlier ++ [last] ∧
      (∀ p ∈ earlier, p.Succeeded) ∧ ¬ last.Succeeded ∧
      (last.data = MSG_RESET ∨ last.data = MSG_INIT) ∧
      (((TclController.new 8 0 4 4 hdrLayout ⟨id, id, id⟩).InitController
          secondSendFails).2.1.require_reset_ = true ↔
        (last.data = MSG_RESET ∨ last.result ≠ -1)) :=
  ⟨⟨by decide, by decide⟩,
   (send_failure_handling 8 2 plainExternal).2.2.1
     (TclController.new 8 0 4 4 hdrLayout ⟨id, id, id⟩) secondSendFails (by decide) (by decide)⟩

/-! ## Scheduling -/

theorem log2Floor.go_spec : ∀ (fuel n : Nat), 0 < n → n ≤ fuel →
    2 ^ log2Floor.go fuel n ≤ n ∧ n < 2 ^ (log2Floor.go fuel n + 1)
  | 0, n, h0, hf => by omega
  | fuel + 1, n, h0, hf => by
    unfold log2Floor.go
    by_cases h : n < 2
    · rw [if_pos h]
      simp
      omega
    · rw [if_neg h]
      obtain ⟨h1, h2⟩ := log2Floor.go_spec fuel (n / 2) (by omega) (by omega)
      constructor
      · rw [pow_succ]; omega
      · rw [pow_succ]; omega

theorem log2Floor_spec (n : Nat) (h : 0 < n) :
    2 ^ log2Floor n ≤ n ∧ n < 2 ^ (log2Floor n + 1) :=
  log2Floor.go_spec n n h (le_refl n)

theorem roundHalfEven_spec (a b : Nat) (hb : 0 < b) :
    2 * (roundHalfEven a b * b) ≤ 2 * a + b ∧ 2 * a ≤ 2 * (roundHalfEven a b * b) + b := by
  have hdiv := Nat.div_add_mod a b
  have hmod := Nat.mod_lt a hb
  unfold roundHalfEven
  generalize a / b = q at hdiv ⊢
  generalize a % b = r at hdiv hmod ⊢
  have e1 : q * b = b * q := Nat.mul_comm q b
  have e2 : (q + 1) * b = b * q + b := by ring
  split_ifs <;> (try rw [e2]) <;> (try rw [e1]) <;> omega

theorem roundHalfEven_exact (b K : Nat) (hb : 0 < b) : roundHalfEven (b * K) b = K := by
  unfold roundHalfEven
  rw [Nat.mul_mod_right, Nat.mul_div_cancel_left K hb, if_pos (by omega)]

theorem two_zpow_split (z : Int) :
    (2 : ℚ) ^ z = (2 : ℚ) ^ z.toNat / (2 : ℚ) ^ (-z).toNat := by
  rcases le_total 0 z with h | h
  · obtain ⟨n, rfl⟩ := Int.eq_ofNat_of_zero_le h
    have : (-(n : Int)).toNat = 0 := by omega
    rw [this]
    simp
  · obtain ⟨n, hn⟩ := Int.eq_ofNat_of_zero_le (show 0 ≤ -z by omega)
    have hz : z = -(n : Int) := by omega
    subst hz
    have : (-(n : Int)).toNat = 0 := by omega
    rw [this]
    simp

/-- The exponent of a positive fraction brackets it between two powers of
two. -/
theorem Double.exponent_spec (num den : Nat) (hn : 0 < num) (hd : 0 < den) :
    (2 : ℚ) ^ Double.exponent num den ≤ (num : ℚ) / den ∧
    (num : ℚ) / den < (2 : ℚ) ^ (Double.exponent num den + 1) := by
  obtain ⟨a1, a2⟩ := log2Floor_spec num hn
  obtain ⟨b1, b2⟩ := log2Floor_spec den hd
  have hdq : (0 : ℚ) < den := by exact_mod_cast hd
  have A1 : (2 : ℚ) ^ log2Floor num ≤ num := by exact_mod_cast a1
  have A2 : (num : ℚ) < 2 ^ (log2Floor num + 1) := by exact_mod_cast a2
  have B1 : (2 : ℚ) ^ log2Floor den ≤ den := by exact_mod_cast b1
  have B2 : (den : ℚ) < 2 ^ (log2Floor den + 1) := by exact_mod_cast b2
  unfold Double.exponent
  simp only
  generalize hk0 : (log2Floor num : Int) - (log2Floor den : Int) = k0
  have hpos : ∀ n : Nat, (0 : ℚ) < 2 ^ n := fun n => by positivity
  have hk0a : (2 : ℚ) ^ (k0 + 1) = 2 ^ (log2Floor num + 1) / 2 ^ log2Floor den := by
    rw [← hk0, show (log2Floor num : Int) - (log2Floor den : Int) + 1
      = ((log2Floor num + 1 : Nat) : Int) - ((log2Floor den : Nat) : Int) by push_cast; ring,
      zpow_sub₀ (by norm_num), zpow_natCast, zpow_natCast]
  have hk0b : (2 : ℚ) ^ (k0 - 1) = 2 ^ log2Floor num / 2 ^ (log2Floor den + 1) := by
    rw [← hk0, show (log2Floor num : Int) - (log2Floor den : Int) - 1
      = ((log2Floor num : Nat) : Int) - ((log2Floor den + 1 : Nat) : Int) by push_cast; ring,
      zpow_sub₀ (by norm_num), zpow_natCast, zpow_natCast]
  have htest : (den * 2 ^ k0.toNat ≤ num * 2 ^ (-k0).toNat) ↔ (2 : ℚ) ^ k0 ≤ (num : ℚ) / den := by
    rw [two_zpow_split k0, div_le_div_iff₀ (hpos _) hdq]
    constructor
    · intro h
      have : ((den * 2 ^ k0.toNat : Nat) : ℚ) ≤ ((num * 2 ^ (-k0).toNat : Nat) : ℚ) := by
        exact_mod_cast h
      push_cast at this
      linarith
    · intro h
      have : ((den * 2 ^ k0.toNat : Nat) : ℚ) ≤ ((num * 2 ^ (-k0).toNat : Nat) : ℚ) := by
        push_cast
        linarith
      exact_mod_cast this
  by_cases ht : den * 2 ^ k0.toNat ≤ num * 2 ^ (-k0).toNat
  · rw [if_pos ht]
    refine ⟨htest.mp ht, ?_⟩
    rw [hk0a, div_lt_div_iff₀ hdq (hpos _)]
    calc (num : ℚ) * 2 ^ log2Floor den < 2 ^ (log2Floor num + 1) * 2 ^ log2Floor den := by
          apply mul_lt_mul_of_pos_right A2 (hpos _)
      _ ≤ 2 ^ (log2Floor num + 1) * den := by
          apply mul_le_mul_of_nonneg_left B1 (le_of_lt (hpos _))
  · rw [if_neg ht]
    constructor
    · rw [hk0b, div_le_div_iff₀ (hpos _) hdq]
      calc (2 : ℚ) ^ log2Floor num * den ≤ num * den := by
            apply mul_le_mul_of_nonneg_right A1 (le_of_lt hdq)
        _ ≤ num * 2 ^ (log2Floor den + 1) := by
            apply mul_le_mul_of_nonneg_left (le_of_lt B2)
            exact_mod_cast Nat.zero_le num
    · rw [show k0 - 1 + 1 = k0 by ring]
      exact lt_of_not_le (fun h => ht (htest.mpr h))

theorem two_pow_ratio (e : Int) :
    ((2 ^ e.toNat : Nat) : ℚ) / ((2 ^ (-e).toNat : Nat) : ℚ) = (2 : ℚ) ^ e := by
  rw [two_zpow_split e]
  push_cast
  rfl

/-- A positive fraction in the normal range is rounded to a double with a
relative error of at most 2^-53. -/
theorem Double.ofFraction_spec (num den : Nat) (hn : 0 < num) (hd : 0 < den)
    (hq : (1 : ℚ) / 2 ^ 1000 ≤ (num : ℚ) / den) :
    0 < (Double.ofFraction num den).den ∧
    |(Double.ofFraction num den).val - (num : ℚ) / den| ≤ (num : ℚ) / den / 2 ^ 53 := by
  obtain ⟨k1, k2⟩ := Double.exponent_spec num den hn hd
  unfold Double.ofFraction Double.val
  rw [if_neg (by omega)]
  simp only
  generalize Double.exponent num den = k at k1 k2 ⊢
  have hk : -1001 < k := by
    by_contra hc
    have h1 : (2 : ℚ) ^ (k + 1) ≤ (2 : ℚ) ^ (-1000 : Int) :=
      zpow_le_zpow_right₀ (by norm_num) (by omega)
    have h2 : (2 : ℚ) ^ (-1000 : Int) = 1 / 2 ^ 1000 := by
      rw [zpow_neg, one_div]; norm_cast
    rw [h2] at h1
    linarith
  rw [if_neg (by omega)]
  generalize he : k - 52 = e
  have hk52 : (2 : ℚ) ^ k = 2 ^ 52 * (2 : ℚ) ^ e := by
    rw [← he, zpow_sub₀ (by norm_num)]
    have : (2 : ℚ) ^ (52 : Int) = 2 ^ 52 := by norm_cast
    rw [this]
    field_simp
  have hr := two_pow_ratio e
  generalize hP : (2 ^ (-e).toNat : Nat) = P at hr ⊢
  generalize hQ : (2 ^ e.toNat : Nat) = Q at hr ⊢
  have hPpos : 0 < P := by rw [← hP]; positivity
  have hQpos : 0 < Q := by rw [← hQ]; positivity
  refine ⟨hPpos, ?_⟩
  obtain ⟨r1, r2⟩ := roundHalfEven_spec (num * P) (den * Q) (Nat.mul_pos hd hQpos)
  generalize roundHalfEven (num * P) (den * Q) = m at r1 r2 ⊢
  have hPq : (0 : ℚ) < P := by exact_mod_cast hPpos
  have hQq : (0 : ℚ) < Q := by exact_mod_cast hQpos
  have hdq : (0 : ℚ) < den := by exact_mod_cast hd
  have R1 : 2 * ((m : ℚ) * (den * Q)) ≤ 2 * (num * P) + den * Q := by exact_mod_cast r1
  have R2 : 2 * ((num : ℚ) * P) ≤ 2 * (m * (den * Q)) + den * Q := by exact_mod_cast r2
  have hdiff : ((m * Q : Nat) : ℚ) / P - (num : ℚ) / den
      = ((m : ℚ) * (den * Q) - num * P) / (den * P) := by
    push_cast
    field_simp
    ring
  have ht : (Q : ℚ) / P / 2 ≤ (num : ℚ) / den / 2 ^ 53 := by
    rw [hr]
    rw [hk52] at k1
    have : (2 : ℚ) ^ 53 = 2 * 2 ^ 52 := by norm_num
    rw [this, div_le_div_iff₀ (by norm_num) (by positivity)]
    have hepos : (0 : ℚ) < 2 ^ e := by positivity
    nlinarith
  have hbound : |(m : ℚ) * (den * Q) - num * P| / (den * P) ≤ (Q : ℚ) / P / 2 := by
    rw [div_div, div_le_div_iff₀ (by positivity) (by positivity)]
    have : |(m : ℚ) * (den * Q) - num * P| ≤ den * Q / 2 := by
      rw [abs_le]
      constructor <;> linarith
    calc |(m : ℚ) * (den * Q) - num * P| * (P * 2) ≤ (den * Q / 2) * (P * 2) := by
          apply mul_le_mul_of_nonneg_right this (by positivity)
      _ = Q * (den * P) := by ring
  rw [hdiff, abs_div, abs_of_pos (by positivity : (0 : ℚ) < den * P)]
  exact le_trans hbound ht

/-- A whole number below 2^53 is a double: the fraction `den * K / den` is
rounded to `K`. -/
theorem Double.ofFraction_exact (den K : Nat) (hd : 0 < den) (hK : K < 2 ^ 53) :
    0 < (Double.ofFraction (den * K) den).den ∧
    (Double.ofFraction (den * K) den).val = K := by
  by_cases hK0 : K = 0
  · subst hK0
    unfold Double.ofFraction Double.val
    rw [if_pos (by simp)]
    simp
  have hKpos : 0 < K := Nat.pos_of_ne_zero hK0
  obtain ⟨k1, _⟩ := Double.exponent_spec (den * K) den (Nat.mul_pos hd hKpos) hd
  unfold Double.ofFraction Double.val
  rw [if_neg (by
    have := Nat.mul_pos hd hKpos
    omega)]
  simp only
  generalize Double.exponent (den * K) den = k at k1 ⊢
  have hdq : (0 : ℚ) < den := by exact_mod_cast hd
  have hval : (((den * K : Nat) : ℚ)) / den = K := by
    push_cast
    field_simp
  rw [hval] at k1
  have hk : k < 53 := by
    by_contra hc
    have h1 : (2 : ℚ) ^ (53 : Int) ≤ (2 : ℚ) ^ k :=
      zpow_le_zpow_right₀ (by norm_num) (by omega)
    have h2 : (2 : ℚ) ^ (53 : Int) = 2 ^ 53 := by norm_cast
    rw [h2] at h1
    have h3 : (K : ℚ) < 2 ^ 53 := by exact_mod_cast hK
    linarith
  generalize he : (if k - 52 < -1074 then (-1074 : Int) else k - 52) = e
  have he0 : e ≤ 0 := by
    rw [← he]
    split_ifs <;> omega
  have hQ : e.toNat = 0 := by omega
  rw [hQ, pow_zero, Nat.mul_one, Nat.mul_one, Nat.mul_assoc, roundHalfEven_exact _ _ hd]
  have hPpos : 0 < 2 ^ (-e).toNat := by positivity
  refine ⟨hPpos, ?_⟩
  push_cast
  field_simp

theorem Double.num_pos (x : Double) (hv : 0 < x.val) : 0 < x.num := by
  unfold Double.val at hv
  rcases Nat.eq_zero_or_pos x.num with h | h
  · rw [h] at hv
    simp at hv
  · exact h

theorem Double.num_eq (x : Double) (A : Nat) (hd : 0 < x.den) (hv : x.val = A) :
    x.num = x.den * A := by
  unfold Double.val at hv
  have hdq : (x.den : ℚ) ≠ 0 := by exact_mod_cast hd.ne'
  rw [div_eq_iff hdq] at hv
  have : (x.num : ℚ) = ((x.den * A : Nat) : ℚ) := by
    push_cast
    rw [hv]
    ring
  exact_mod_cast this

theorem Double.ofNat_exact (n : Nat) (hn : n < 2 ^ 53) :
    0 < (Double.ofNat n).den ∧ (Double.ofNat n).val = n := by
  have := Double.ofFraction_exact 1 n (by norm_num) hn
  rw [Nat.one_mul] at this
  exact this

/-- The product of two positive doubles, in the normal range, has a relative
error of at most 2^-53. -/
theorem Double.mul_spec (x y : Double) (hxd : 0 < x.den) (hyd : 0 < y.den)
    (hx : 0 < x.val) (hy : 0 < y.val) (hq : (1 : ℚ) / 2 ^ 1000 ≤ x.val * y.val) :
    0 < (x.mul y).den ∧ |(x.mul y).val - x.val * y.val| ≤ x.val * y.val / 2 ^ 53 := by
  have e : (((x.num * y.num : Nat) : ℚ)) / ((x.den * y.den : Nat) : ℚ) = x.val * y.val := by
    unfold Double.val
    push_cast
    rw [mul_div_mul_comm]
  have := Double.ofFraction_spec (x.num * y.num) (x.den * y.den)
    (Nat.mul_pos (x.num_pos hx) (y.num_pos hy)) (Nat.mul_pos hxd hyd) (by rw [e]; exact hq)
  rw [e] at this
  exact this

/-- The quotient of two positive doubles, in the normal range, has a relative
error of at most 2^-53. -/
theorem Double.div_spec (x y : Double) (hxd : 0 < x.den) (hyd : 0 < y.den)
    (hx : 0 < x.val) (hy : 0 < y.val) (hq : (1 : ℚ) / 2 ^ 1000 ≤ x.val / y.val) :
    0 < (x.div y).den ∧ |(x.div y).val - x.val / y.val| ≤ x.val / y.val / 2 ^ 53 := by
  have hyn := y.num_pos hy
  have e : (((x.num * y.den : Nat) : ℚ)) / ((x.den * y.num : Nat) : ℚ) = x.val / y.val := by
    unfold Double.val
    push_cast
    have h1 : (x.den : ℚ) ≠ 0 := by exact_mod_cast hxd.ne'
    have h2 : (y.den : ℚ) ≠ 0 := by exact_mod_cast hyd.ne'
    have h3 : (y.num : ℚ) ≠ 0 := by exact_mod_cast hyn.ne'
    field_simp
  have := Double.ofFraction_spec (x.num * y.den) (x.den * y.num)
    (Nat.mul_pos (x.num_pos hx) hyd) (Nat.mul_pos hxd hyn) (by rw [e]; exact hq)
  rw [e] at this
  exact this

/-- The product of two whole doubles is exact while it is below 2^53. -/
theorem Double.mul_exact (x y : Double) (A B : Nat) (hxd : 0 < x.den) (hyd : 0 < y.den)
    (hx : x.val = A) (hy : y.val = B) (hAB : A * B < 2 ^ 53) :
    0 < (x.mul y).den ∧ (x.mul y).val = ((A * B : Nat) : ℚ) := by
  have e : x.num * y.num = (x.den * y.den) * (A * B) := by
    rw [x.num_eq A hxd hx, y.num_eq B hyd hy]
    ring
  unfold Double.mul
  rw [e]
  exact Double.ofFraction_exact _ _ (Nat.mul_pos hxd hyd) hAB

/-- The quotient of two whole doubles is exact when it is a whole number
below 2^53. -/
theorem Double.div_exact (x y : Double) (f K : Nat) (hxd : 0 < x.den) (hyd : 0 < y.den)
    (hx : x.val = ((f * K : Nat) : ℚ)) (hy : y.val = f) (hf : 0 < f) (hK : K < 2 ^ 53) :
    0 < (x.div y).den ∧ (x.div y).val = K := by
  have e : x.num * y.den = (x.den * y.num) * K := by
    rw [x.num_eq (f * K) hxd hx, y.num_eq f hyd hy]
    ring
  unfold Double.div
  rw [e]
  refine Double.ofFraction_exact _ _ (Nat.mul_pos hxd ?_) hK
  rw [y.num_eq f hyd hy]
  exact Nat.mul_pos hyd hf

/-- The function `round` gives a whole number at most one half away. -/
theorem Double.round_spec (x : Double) (hd : 0 < x.den) :
    ∃ N : Nat, x.round = ⟨N, 1⟩ ∧ |(N : ℚ) - x.val| ≤ 1 / 2 := by
  refine ⟨(2 * x.num + x.den) / (2 * x.den), rfl, ?_⟩
  have h1 := Nat.div_mul_le_self (2 * x.num + x.den) (2 * x.den)
  have h2 := Nat.lt_div_mul_add (a := 2 * x.num + x.den) (b := 2 * x.den) (by omega)
  generalize (2 * x.num + x.den) / (2 * x.den) = N at h1 h2 ⊢
  have hdq : (0 : ℚ) < x.den := by exact_mod_cast hd
  have H1 : (N : ℚ) * (2 * x.den) ≤ 2 * x.num + x.den := by exact_mod_cast h1
  have H2 : (2 : ℚ) * x.num + x.den < N * (2 * x.den) + 2 * x.den := by exact_mod_cast h2
  have hv : (x.num : ℚ) = x.val * x.den := by
    unfold Double.val
    field_simp
  rw [hv] at H1 H2
  generalize x.val = v at H1 H2 ⊢
  rw [abs_le]
  constructor
  · by_contra hc
    push_neg at hc
    nlinarith
  · by_contra hc
    push_neg at hc
    nlinarith

theorem Double.toUInt64_eq (x : Double) (K : Nat) (hd : 0 < x.den) (h1 : (K : ℚ) ≤ x.val)
    (h2 : x.val < K + 1) : x.toUInt64 = K := by
  unfold Double.val at h1 h2
  have hdq : (0 : ℚ) < x.den := by exact_mod_cast hd
  rw [le_div_iff₀ hdq] at h1
  rw [div_lt_iff₀ hdq] at h2
  have H1 : K * x.den ≤ x.num := by exact_mod_cast h1
  have H2 : x.num < (K + 1) * x.den := by exact_mod_cast h2
  unfold Double.toUInt64
  apply Nat.div_eq_of_lt_le
  · exact H1
  · exact H2

theorem tiny_le (q : ℚ) (h : (1 : ℚ) / 2 ^ 60 ≤ q) : (1 : ℚ) / 2 ^ 1000 ≤ q := by
  refine le_trans ?_ h
  apply one_div_le_one_div_of_le (by positivity)
  exact pow_le_pow_right₀ (by norm_num) (by norm_num)

/-- The last two steps of the alignment: for a whole frame number `N` with
`N * 1000 < 2^53` the conversion of `N * 1000.0 / fps` to `uint64_t` is the
whole part of the exact quotient. -/
theorem frame_time_exact (N f : Nat) (hf : 0 < f) (hf51 : f < 2 ^ 51)
    (hN : N * 1000 < 2 ^ 53) :
    Double.toUInt64 (Double.div (Double.mul ⟨N, 1⟩ (Double.ofNat 1000)) (Double.ofNat f))
      = N * 1000 / f := by
  obtain ⟨cd, cv⟩ := Double.ofNat_exact 1000 (by norm_num)
  obtain ⟨fd, fv⟩ := Double.ofNat_exact f (lt_trans hf51 (by norm_num))
  generalize Double.ofNat 1000 = c at cd cv ⊢
  generalize Double.ofNat f = cf at fd fv ⊢
  have hNv : (⟨N, 1⟩ : Double).val = N := by simp [Double.val]
  obtain ⟨x3d, x3v⟩ := Double.mul_exact ⟨N, 1⟩ c N 1000 (by norm_num) cd hNv cv hN
  generalize Double.mul ⟨N, 1⟩ c = x3 at x3d x3v ⊢
  have hdm := Nat.div_add_mod (N * 1000) f
  have hml := Nat.mod_lt (N * 1000) hf
  have hKle : N * 1000 / f ≤ N * 1000 := Nat.div_le_self _ _
  generalize hA : N * 1000 = A at hN x3v hdm hml hKle ⊢
  generalize hK : A / f = K at hdm hKle ⊢
  generalize hr : A % f = r at hdm hml
  have hfq : (0 : ℚ) < f := by exact_mod_cast hf
  by_cases hr0 : r = 0
  · subst hr0
    rw [Nat.add_zero] at hdm
    rw [← hdm] at x3v
    obtain ⟨x4d, x4v⟩ := Double.div_exact x3 cf f K x3d fd x3v fv hf (by omega)
    apply Double.toUInt64_eq _ _ x4d
    · rw [x4v]
    · rw [x4v]; linarith
  · have hrpos : 1 ≤ r := by omega
    have hApos : 0 < A := by
      rcases Nat.eq_zero_or_pos A with h | h
      · subst h
        simp at hr
        omega
      · exact h
    have hAq : (0 : ℚ) < A := by exact_mod_cast hApos
    have hA53 : (A : ℚ) < 2 ^ 53 := by exact_mod_cast hN
    have hf51q : (f : ℚ) < 2 ^ 51 := by exact_mod_cast hf51
    have hAK : (A : ℚ) = f * K + r := by exact_mod_cast hdm.symm
    have hr1 : (1 : ℚ) ≤ r := by exact_mod_cast hrpos
    have hr2 : (r : ℚ) + 1 ≤ f := by exact_mod_cast hml
    obtain ⟨g, hg⟩ : ∃ g : ℚ, g = 1 / f := ⟨_, rfl⟩
    have hgpos : 0 < g := by rw [hg]; positivity
    have hfg : (f : ℚ) * g = 1 := by rw [hg]; field_simp
    have hy : (A : ℚ) / f = A * g := by rw [hg]; ring
    have hy2 : (A : ℚ) * g = K + r * g := by
      rw [hAK]
      calc ((f : ℚ) * K + r) * g = (f * g) * K + r * g := by ring
        _ = K + r * g := by rw [hfg]; ring
    have hq : (1 : ℚ) / 2 ^ 1000 ≤ x3.val / cf.val := by
      apply tiny_le
      rw [x3v, fv, hy]
      have h1 : (1 : ℚ) / 2 ^ 51 ≤ g := by
        rw [hg]
        apply one_div_le_one_div_of_le hfq (le_of_lt hf51q)
      have h2 : g ≤ A * g := by
        have hA1 : (1 : ℚ) ≤ A := by exact_mod_cast hApos
        have := mul_le_mul_of_nonneg_right hA1 (le_of_lt hgpos)
        linarith
      have h3 : (1 : ℚ) / 2 ^ 60 ≤ 1 / 2 ^ 51 := by norm_num
      linarith
    obtain ⟨x4d, x4e⟩ := Double.div_spec x3 cf x3d fd (by rw [x3v]; exact hAq)
      (by rw [fv]; exact hfq) hq
    rw [x3v, fv, hy, abs_le] at x4e
    have e1 : g ≤ r * g := by
      have := mul_le_mul_of_nonneg_right hr1 (le_of_lt hgpos)
      linarith
    have e2 : r * g ≤ 1 - g := by
      have := mul_le_mul_of_nonneg_right hr2 (le_of_lt hgpos)
      linarith
    have e3 : (A : ℚ) * g / 2 ^ 53 < g := by
      rw [div_lt_iff₀ (by positivity)]
      have := mul_lt_mul_of_pos_right hA53 hgpos
      linarith
    apply Double.toUInt64_eq _ _ x4d
    · linarith [x4e.1]
    · linarith [x4e.2]

/-- The alignment of a target after the base time, for a positive frame rate
and `(target - base) * fps < 2^51`: the frame number `N` that the code rounds
to is a whole number nearest to `(target - base) * fps / 1000`, and the
aligned time is the base time plus the whole part of `N * 1000 / fps`. -/
theorem alignToFps_spec (base : Nat) (fps : Int) (target : Nat) (ht : target > base)
    (hfps : 0 < fps) (hD : (target - base) * fps.natAbs < 2 ^ 51) :
    ∃ N : Nat, 1000 * N ≤ (target - base) * fps.natAbs + 500 ∧
      (target - base) * fps.natAbs ≤ 1000 * N + 500 ∧
      alignToFps base fps target
        = (base + N * 1000 / fps.natAbs) % 18446744073709551616 := by
  unfold alignToFps
  rw [if_pos ht]
  simp only
  have hdpos : 0 < target - base := by omega
  have hfpos : 0 < fps.natAbs := by omega
  generalize target - base = d at hD hdpos ⊢
  generalize fps.natAbs = f at hD hfpos ⊢
  have hd51 : d < 2 ^ 51 := lt_of_le_of_lt (Nat.le_mul_of_pos_right d hfpos) hD
  have hf51 : f < 2 ^ 51 := lt_of_le_of_lt (Nat.le_mul_of_pos_left f hdpos) hD
  have hdq : (0 : ℚ) < d := by exact_mod_cast hdpos
  have hfq : (0 : ℚ) < f := by exact_mod_cast hfpos
  have hd1 : (1 : ℚ) ≤ d := by exact_mod_cast hdpos
  have hf1 : (1 : ℚ) ≤ f := by exact_mod_cast hfpos
  have hDq : (d : ℚ) * f < 2 ^ 51 := by exact_mod_cast hD
  obtain ⟨x0d, x0v⟩ := Double.ofNat_exact d (lt_trans hd51 (by norm_num))
  obtain ⟨cd, cv⟩ := Double.ofNat_exact 1000 (by norm_num)
  obtain ⟨fd, fv⟩ := Double.ofNat_exact f (lt_trans hf51 (by norm_num))
  -- the quotient by 1000.0
  obtain ⟨x1d, x1e⟩ := Double.div_spec (Double.ofNat d) (Double.ofNat 1000) x0d cd
    (by rw [x0v]; exact hdq) (by rw [cv]; norm_num)
    (by
      apply tiny_le
      rw [x0v, cv]
      have : (1 : ℚ) / 2 ^ 60 ≤ 1 / 1000 := by norm_num
      have h2 : (1 : ℚ) / 1000 ≤ d / ((1000 : Nat) : ℚ) := by
        push_cast
        rw [div_le_div_iff₀ (by norm_num) (by norm_num)]
        linarith
      linarith)
  rw [x0v, cv] at x1e
  generalize Double.div (Double.ofNat d) (Double.ofNat 1000) = x1 at x1d x1e ⊢
  push_cast at x1e
  rw [abs_le] at x1e
  obtain ⟨x1l, x1u⟩ := x1e
  have hapos : 0 < x1.val := by
    have : (0 : ℚ) < d / 1000 := by positivity
    have h2 : (d : ℚ) / 1000 / 2 ^ 53 ≤ d / 1000 / 2 := by
      apply div_le_div_of_nonneg_left (le_of_lt this) (by norm_num) (by norm_num)
    linarith
  -- the product with fps
  have hal : (d : ℚ) / 1000 * f - d / 1000 * f / 2 ^ 53 ≤ x1.val * f := by
    have := mul_le_mul_of_nonneg_right x1l (le_of_lt hfq)
    linarith
  have hau : x1.val * f ≤ (d : ℚ) / 1000 * f + d / 1000 * f / 2 ^ 53 := by
    have := mul_le_mul_of_nonneg_right x1u (le_of_lt hfq)
    linarith
  have hX1 : (1 : ℚ) / 1000 ≤ (d : ℚ) / 1000 * f := by
    have : (1 : ℚ) * 1 ≤ d * f := mul_le_mul hd1 hf1 (by norm_num) (by linarith)
    linarith
  obtain ⟨x2d, x2e⟩ := Double.mul_spec x1 (Double.ofNat f) x1d fd hapos
    (by rw [fv]; exact hfq)
    (by
      apply tiny_le
      rw [fv]
      have h3 : (d : ℚ) / 1000 * f / 2 ^ 53 ≤ d / 1000 * f / 2 := by
        apply div_le_div_of_nonneg_left (by positivity) (by norm_num) (by norm_num)
      have : (1 : ℚ) / 2 ^ 60 ≤ 1 / 2000 := by norm_num
      linarith)
  rw [fv] at x2e
  generalize Double.mul x1 (Double.ofNat f) = x2 at x2d x2e ⊢
  rw [abs_le] at x2e
  obtain ⟨x2l, x2u⟩ := x2e
  -- the rounding to a frame number
  obtain ⟨N, hround, hN⟩ := Double.round_spec x2 x2d
  rw [hround]
  rw [abs_le] at hN
  obtain ⟨hNl, hNu⟩ := hN
  generalize x1.val * f = af at hal hau x2l x2u
  generalize x2.val = b at x2l x2u hNl hNu
  have hX : (d : ℚ) / 1000 * f = d * f / 1000 := by ring
  rw [hX] at hal hau
  generalize hDD : (d : ℚ) * f = D at hDq hal hau
  have hDpos : 0 ≤ D := by rw [← hDD]; positivity
  have hN1 : (1000 : ℚ) * N < D + 501 := by
    have h1 : af / 2 ^ 53 ≤ (D / 1000 + D / 1000 / 2 ^ 53) / 2 ^ 53 := by
      apply div_le_div_of_nonneg_right hau (by positivity)
    have h2 : 1000 * (D / 1000 / 2 ^ 53 + (D / 1000 + D / 1000 / 2 ^ 53) / 2 ^ 53) < 1 := by
      have : D / 2 ^ 53 < 1 / 4 := by
        rw [div_lt_iff₀ (by positivity)]
        norm_num
        linarith
      have h4 : D / 2 ^ 53 / 2 ^ 53 ≤ D / 2 ^ 53 := by
        apply div_le_self (by positivity) (by norm_num)
      have e : 1000 * (D / 1000 / 2 ^ 53 + (D / 1000 + D / 1000 / 2 ^ 53) / 2 ^ 53)
          = 2 * (D / 2 ^ 53) + D / 2 ^ 53 / 2 ^ 53 := by ring
      rw [e]
      linarith
    linarith
  have hN2 : D < (1000 : ℚ) * N + 501 := by
    have h1 : (D / 1000 - D / 1000 / 2 ^ 53) / 2 ^ 53 ≤ D / 1000 / 2 ^ 53 := by
      apply div_le_div_of_nonneg_right _ (by positivity)
      have : 0 ≤ D / 1000 / 2 ^ 53 := by positivity
      linarith
    have h0 : af / 2 ^ 53 ≤ (D / 1000 + D / 1000 / 2 ^ 53) / 2 ^ 53 := by
      apply div_le_div_of_nonneg_right hau (by positivity)
    have h2 : 1000 * (D / 1000 / 2 ^ 53 + (D / 1000 + D / 1000 / 2 ^ 53) / 2 ^ 53) < 1 := by
      have : D / 2 ^ 53 < 1 / 4 := by
        rw [div_lt_iff₀ (by positivity)]
        norm_num
        linarith
      have h4 : D / 2 ^ 53 / 2 ^ 53 ≤ D / 2 ^ 53 := by
        apply div_le_self (by positivity) (by norm_num)
      have e : 1000 * (D / 1000 / 2 ^ 53 + (D / 1000 + D / 1000 / 2 ^ 53) / 2 ^ 53)
          = 2 * (D / 2 ^ 53) + D / 2 ^ 53 / 2 ^ 53 := by ring
      rw [e]
      linarith
    linarith
  have hn1 : 1000 * N < d * f + 501 := by
    rw [← hDD] at hN1
    exact_mod_cast hN1
  have hn2 : d * f < 1000 * N + 501 := by
    rw [← hDD] at hN2
    exact_mod_cast hN2
  refine ⟨N, by omega, by omega, ?_⟩
  rw [frame_time_exact N f hfpos hf51 (by
    have : (2 : Nat) ^ 51 = 2251799813685248 := by norm_num
    have h53 : (2 : Nat) ^ 53 = 9007199254740992 := by norm_num
    omega)]

theorem trunc_eq_floor (m n : Nat) : ((m / n : Nat) : Int) = ⌊(m : ℚ) / (n : ℚ)⌋ := by
  have := Rat.floor_intCast_div_natCast (m : Int) n
  rw [show ((m : Int) : ℚ) = (m : ℚ) by push_cast; rfl] at this
  rw [this]
  rfl

/-- The aligned time in the terms of the spec, for a target after the base
time, a positive frame rate and `(target - base) * fps < 2^51`. -/
theorem alignToFps_nearest (base : Nat) (fps : Int) (target : Nat) (ht : target > base)
    (hfps : fps > 0) (hD : ((target : Int) - base) * fps < 2 ^ 51) :
    ∃ n : Nat,
      |(n : ℚ) - ((target : ℚ) - (base : ℚ)) / 1000 * (fps : ℚ)| ≤ 1 / 2 ∧
      ((alignToFps base fps target : Nat) : Int)
        = ((base : Int) + ⌊(n : ℚ) * 1000 / (fps : ℚ)⌋) % 2 ^ 64 := by
  obtain ⟨f, rfl⟩ : ∃ f : Nat, fps = (f : Int) := ⟨fps.toNat, by omega⟩
  have hsub : ((target - base : Nat) : Int) = (target : Int) - base := by omega
  have hD2 : (target - base) * (f : Int).natAbs < 2 ^ 51 := by
    rw [Int.natAbs_ofNat]
    have : (((target - base) * f : Nat) : Int) < 2 ^ 51 := by
      push_cast
      rw [hsub]
      exact hD
    exact_mod_cast this
  obtain ⟨N, h1, h2, h3⟩ := alignToFps_spec base f target ht hfps hD2
  rw [Int.natAbs_ofNat] at h1 h2 h3
  refine ⟨N, ?_, ?_⟩
  · have H1 : (1000 : ℚ) * N ≤ ((target : ℚ) - base) * f + 500 := by
      have : ((1000 * N : Nat) : ℚ) ≤ (((target - base) * f + 500 : Nat) : ℚ) := by
        exact_mod_cast h1
      push_cast [Nat.cast_sub (le_of_lt ht)] at this
      exact this
    have H2 : ((target : ℚ) - base) * f ≤ 1000 * N + 500 := by
      have : ((((target - base) * f : Nat)) : ℚ) ≤ ((1000 * N + 500 : Nat) : ℚ) := by
        exact_mod_cast h2
      push_cast [Nat.cast_sub (le_of_lt ht)] at this
      exact this
    rw [abs_le]
    push_cast
    constructor <;> linarith
  · rw [h3]
    have hfl := trunc_eq_floor (N * 1000) f
    push_cast at hfl
    push_cast
    rw [← hfl]

theorem FindControllerLocked.go_some (id : Int) (cs : List TclController) :
    ∀ (k i : Nat) (c : TclController), FindControllerLocked.go id cs k = some (i, c) →
      k ≤ i ∧ cs[i - k]? = some c ∧ c.id_ = id := by
  induction cs with
  | nil => intro k i c h; simp [FindControllerLocked.go] at h
  | cons x rest ih =>
    intro k i c h
    unfold FindControllerLocked.go at h
    by_cases hx : x.id_ = id
    · rw [if_pos hx] at h
      simp only [Option.some.injEq, Prod.mk.injEq] at h
      obtain ⟨rfl, rfl⟩ := h
      simp [hx]
    · rw [if_neg hx] at h
      obtain ⟨h1, h2, h3⟩ := ih (k + 1) i c h
      refine ⟨by omega, ?_, h3⟩
      have : i - k = (i - (k + 1)) + 1 := by omega
      rw [this, List.getElem?_cons_succ]
      exact h2

theorem FindControllerLocked.go_none (id : Int) (cs : List TclController) :
    ∀ k, FindControllerLocked.go id cs k = none ↔ ∀ c ∈ cs, c.id_ ≠ id := by
  induction cs with
  | nil => intro k; simp [FindControllerLocked.go]
  | cons x rest ih =>
    intro k
    unfold FindControllerLocked.go
    by_cases hx : x.id_ = id
    · simp [hx]
    · rw [if_neg hx, ih (k + 1)]
      simp [hx]

theorem FindControllerLocked_some (r : TclRenderer) (id : Int) (i : Nat) (c : TclController)
    (h : r.FindControllerLocked id = some (i, c)) :
    r.controllers_[i]? = some c ∧ c.id_ = id := by
  obtain ⟨_, h2, h3⟩ := FindControllerLocked.go_some id r.controllers_ 0 i c h
  exact ⟨by simpa using h2, h3⟩

theorem FindControllerLocked_none (r : TclRenderer) (id : Int) :
    r.FindControllerLocked id = none ↔ ∀ c ∈ r.controllers_, c.id_ ≠ id :=
  FindControllerLocked.go_none id r.controllers_ 0

set_option maxRecDepth 100000 in
/-- C14, counterexample: with base_time = 1000 and fps = 10 a target time of
930, which lies before the base time, is queued with deadline 930; the FPS
ticks relative to the base time are 1000 + 100 k, so 930 is no tick, and the
formula of the claim gives 900. With base_time = 0 and fps = 15 a target time
of 4100 is queued with deadline 4066, where the formula of the claim gives
62 * 1000 / 15 = 4133 1/3: the product 4100 / 1000 * 15 is 61.5 in exact
arithmetic and just below 61.5 in double arithmetic, which rounds it to 61. -/
theorem deadline_differs_from_formula :
    ((lateRenderer.ScheduleImageAt plainExternal 0 (List.replicate 64 0) 4 4
        EffectMode.EFFECT_OVERLAY 0 0 0 0 7 930).value?.map
      (fun r => r.queue_.map (fun item => item.time_))) = some [930] ∧
    (∀ k : Int, (1000 : Int) + k * (1000 / 10) ≠ 930) ∧
    (1000 : ℚ) + (round (((930 : ℚ) - 1000) / 1000 * 10) : ℚ) * 1000 / 10 = 900 ∧
    (freshRenderer.fps_ = 15 ∧ freshRenderer.base_time_ = 0) ∧
    ((freshRenderer.ScheduleImageAt plainExternal 0 (List.replicate 64 0) 4 4
        EffectMode.EFFECT_OVERLAY 0 0 0 0 7 4100).value?.map
      (fun r => r.queue_.map (fun item => item.time_))) = some [4066] ∧
    (0 : ℚ) + (round (((4100 : ℚ) - 0) / 1000 * 15) : ℚ) * 1000 / 15 = 12400 / 3 ∧
    ⌊(0 : ℚ) + (round (((4100 : ℚ) - 0) / 1000 * 15) : ℚ) * 1000 / 15⌋ = 4133 := by
  have hr : round (((930 : ℚ) - 1000) / 1000 * 10) = -1 := by
    rw [round_eq, Int.floor_eq_iff]
    norm_num
  have hr2 : round (((4100 : ℚ) - 0) / 1000 * 15) = 62 := by
    rw [round_eq, Int.floor_eq_iff]
    norm_num
  refine ⟨by decide, by intro k; omega, ?_, ⟨rfl, rfl⟩, by decide, ?_, ?_⟩
  · rw [hr]
    norm_num
  · rw [hr2]
    norm_num
  · rw [hr2, Int.floor_eq_iff]
    norm_num

/-- C14, amended: the deadline that ScheduleImageAt enqueues is the target
time itself when the target is not after base_time. For a target after
base_time, fps > 0 and (target - base_time) * fps < 2^51 it is
base_time + floor(n * 1000/fps), taken modulo 2^64, where n is a whole frame
number nearest to (target - base_time)/1000 * fps, that is
|n - (target - base_time)/1000 * fps| <= 1/2: the FPS tick nearest to the
target, cut to whole milliseconds. When two frame numbers are equally near,
the double arithmetic of the code decides which of them n is. -/
theorem ScheduleImageAt_deadline (ext : External) (r : TclRenderer) (controller_id : Int)
    (bytes : List Nat) (w h : Int) (mode : EffectMode) (crop_x crop_y crop_w crop_h : Int)
    (id : Int) (target : Nat) (i : Nat) (c : TclController)
    (hstarted : r.has_started_thread_ = true) (hrun : r.is_shutting_down_ = false)
    (hfind : r.FindControllerLocked controller_id = some (i, c))
    (hlen : (bytes.length : Int) = RGBA_LEN w h) :
    ∃ item : WorkItem,
      r.ScheduleImageAt ext controller_id bytes w h mode crop_x crop_y crop_w crop_h id target
        = Outcome.ok { r with queue_ := queuePush r.queue_ item } ∧
      item.id_ = id ∧
      (target ≤ r.base_time_ → item.time_ = target) ∧
      (target > r.base_time_ → r.fps_ > 0 →
        ((target : Int) - r.base_time_) * r.fps_ < 2 ^ 51 →
        ∃ n : Nat,
          |(n : ℚ) - ((target : ℚ) - (r.base_time_ : ℚ)) / 1000 * (r.fps_ : ℚ)| ≤ 1 / 2 ∧
          (item.time_ : Int)
            = ((r.base_time_ : Int) + ⌊(n : ℚ) * 1000 / (r.fps_ : ℚ)⌋) % 2 ^ 64) := by
  refine ⟨{ needs_reset_ := false, controller_ := some i,
            img_ := (c.BuildImage ext bytes w h mode RgbaImage.empty).2, id_ := id,
            time_ := alignToFps r.base_time_ r.fps_ target }, ?_, rfl, ?_, ?_⟩
  · unfold TclRenderer.ScheduleImageAt
    simp only [hstarted, Bool.true_eq_false, if_false, hrun, Bool.false_eq_true, hfind, hlen,
      ne_eq, not_true_eq_false]
  · intro ht
    simp only [alignToFps]
    rw [if_neg (by omega)]
  · intro ht hfps hD
    exact alignToFps_nearest r.base_time_ r.fps_ target ht hfps hD

set_option maxRecDepth 100000 in
/-- A target of 1070 with base time 1000 and 10 frames per second is queued
with deadline 1100: the frame number nearest to 0.7 is 1. -/
theorem ScheduleImageAt_deadline_witness :
    (lateRenderer.has_started_thread_ = true ∧ lateRenderer.is_shutting_down_ = false ∧
      (lateRenderer.FindControllerLocked 0).isSome = true ∧
      (((List.replicate 64 0).length : Nat) : Int) = RGBA_LEN 4 4) ∧
    ((lateRenderer.ScheduleImageAt plainExternal 0 (List.replicate 64 0) 4 4
        EffectMode.EFFECT_OVERLAY 0 0 0 0 7 1070).value?.map
      (fun r => r.queue_.map (fun item => item.time_))) = some [1100] ∧
    ∃ item : WorkItem,
      lateRenderer.ScheduleImageAt plainExternal 0 (List.replicate 64 0) 4 4
          EffectMode.EFFECT_OVERLAY 0 0 0 0 7 1070
        = Outcome.ok { lateRenderer with queue_ := queuePush lateRenderer.queue_ item } ∧
      item.id_ = 7 ∧
      (1070 ≤ lateRenderer.base_time_ → item.time_ = 1070) ∧
      (1070 > lateRenderer.base_time_ → lateRenderer.fps_ > 0 →
        (((1070 : Nat) : Int) - lateRenderer.base_time_) * lateRenderer.fps_ < 2 ^ 51 →
        ∃ n : Nat,
          |(n : ℚ) - (((1070 : Nat) : ℚ) - (lateRenderer.base_time_ : ℚ)) / 1000
              * (lateRenderer.fps_ : ℚ)| ≤ 1 / 2 ∧
          (item.time_ : Int)
            = ((lateRenderer.base_time_ : Int)
                + ⌊(n : ℚ) * 1000 / (lateRenderer.fps_ : ℚ)⌋) % 2 ^ 64) :=
  ⟨⟨rfl, rfl, by decide, by decide⟩, by decide,
   ScheduleImageAt_deadline plainExternal lateRenderer 0 (List.replicate 64 0) 4 4
     EffectMode.EFFECT_OVERLAY 0 0 0 0 7 1070 0 (TclController.new 8 0 4 4 hdrLayout ⟨id, id, id⟩)
     rfl rfl rfl (by decide)⟩

/-- C17, counterexample: on a renderer whose worker thread has not been
started, a call that is not shutting down, names an existing controller and
passes an image of the right length fails the CHECK at the top of
ScheduleImageAt instead of adding a FRAME item; the same happens while the
renderer is shutting down. -/
theorem ScheduleImageAt_aborts_before_start :
    idleRenderer.is_shutting_down_ = false ∧
    (idleRenderer.FindControllerLocked 0).isSome = true ∧
    (((List.replicate 64 0).length : Nat) : Int) = 4 * 4 * 4 ∧
    (idleRenderer.ScheduleImageAt plainExternal 0 (List.replicate 64 0) 4 4
      EffectMode.EFFECT_OVERLAY 0 0 0 0 7 50).isFault = true ∧
    (({ idleRenderer with is_shutting_down_ := true } : TclRenderer).ScheduleImageAt
      plainExternal 0 (List.replicate 64 0) 4 4 EffectMode.EFFECT_OVERLAY 0 0 0 0 7 50).isFault
      = true := by
  decide

/-- C17, amended: ScheduleImageAt aborts on a failed CHECK when the worker
thread has not been started. On a started renderer it returns the renderer
unchanged (queue and controllers) when the renderer is shutting down, when no
controller has the id controller_id, or when the byte length of the image
differs from 4*w*h; in every other case the controllers are unchanged and the
queue gains exactly one item, a FRAME item (needs_reset false) with the given
image id whose controller is the one with that id. -/
theorem ScheduleImageAt_cases (ext : External) (r : TclRenderer) (controller_id : Int)
    (bytes : List Nat) (w h : Int) (mode : EffectMode) (crop_x crop_y crop_w crop_h : Int)
    (id : Int) (time : Nat) :
    (r.has_started_thread_ = false →
      r.ScheduleImageAt ext controller_id bytes w h mode crop_x crop_y crop_w crop_h id time
        = Outcome.fault) ∧
    (r.has_started_thread_ = true →
      (r.is_shutting_down_ = true ∨ (∀ c ∈ r.controllers_, c.id_ ≠ controller_id) ∨
          (bytes.length : Int) ≠ 4 * w * h →
        r.ScheduleImageAt ext controller_id bytes w h mode crop_x crop_y crop_w crop_h id time
          = Outcome.ok r) ∧
      (¬ (r.is_shutting_down_ = true ∨ (∀ c ∈ r.controllers_, c.id_ ≠ controller_id) ∨
          (bytes.length : Int) ≠ 4 * w * h) →
        ∃ (r2 : TclRenderer) (item : WorkItem) (i : Nat) (c : TclController),
          r.ScheduleImageAt ext controller_id bytes w h mode crop_x crop_y crop_w crop_h id time
            = Outcome.ok r2 ∧
          r2 = { r with queue_ := r2.queue_ } ∧
          r2.queue_.Perm (item :: r.queue_) ∧
          item.needs_reset_ = false ∧ item.id_ = id ∧ item.controller_ = some i ∧
          r.controllers_[i]? = some c ∧ c.id_ = controller_id)) := by
  have hlen : RGBA_LEN w h = 4 * w * h := by unfold RGBA_LEN; ring
  refine ⟨?_, ?_⟩
  · intro hs
    unfold TclRenderer.ScheduleImageAt
    rw [if_pos hs]
  · intro hs
    have hs2 : ¬ (r.has_started_thread_ = false) := by simp [hs]
    refine ⟨?_, ?_⟩
    · intro hcase
      unfold TclRenderer.ScheduleImageAt
      rw [if_neg hs2]
      by_cases hd : r.is_shutting_down_ = true
      · rw [if_pos hd]
      · rw [if_neg hd]
        cases hf : r.FindControllerLocked controller_id with
        | none => rfl
        | some p =>
          obtain ⟨i, c⟩ := p
          have hne : (bytes.length : Int) ≠ RGBA_LEN w h := by
            rcases hcase with h1 | h1 | h1
            · exact absurd h1 hd
            · rw [(FindControllerLocked_none r controller_id).mpr h1] at hf
              cases hf
            · rw [hlen]; exact h1
          simp only [if_pos hne]
    · intro hcase
      simp only [not_or, ne_eq, not_not, not_forall] at hcase
      obtain ⟨hd, hex, hl⟩ := hcase
      have hd2 : ¬ (r.is_shutting_down_ = true) := hd
      cases hf : r.FindControllerLocked controller_id with
      | none =>
        obtain ⟨c, hc, hcid⟩ := hex
        exact absurd hcid ((FindControllerLocked_none r controller_id).mp hf c hc)
      | some p =>
        obtain ⟨i, c⟩ := p
        obtain ⟨hget, hid⟩ := FindControllerLocked_some r controller_id i c hf
        have hl2 : ¬ ((bytes.length : Int) ≠ RGBA_LEN w h) := by rw [hlen]; simpa using hl
        obtain ⟨item, hitem⟩ : ∃ item : WorkItem, item = WorkItem.mk false (some i)
            (c.BuildImage ext bytes w h mode RgbaImage.empty).2 id
            (alignToFps r.base_time_ r.fps_ time) := ⟨_, rfl⟩
        refine ⟨{ r with queue_ := queuePush r.queue_ item }, item, i, c, ?_, rfl,
          queuePush_perm _ _, by rw [hitem], by rw [hitem], by rw [hitem], hget, hid⟩
        unfold TclRenderer.ScheduleImageAt
        rw [if_neg hs2, if_neg hd2, hitem]
        simp only [hf, if_neg hl2]

/-- On the started renderer with base time 1000, a call with an unknown
controller id changes nothing. -/
theorem ScheduleImageAt_cases_witness :
    lateRenderer.has_started_thread_ = true ∧
    (∀ c ∈ lateRenderer.controllers_, c.id_ ≠ 5) ∧
    lateRenderer.ScheduleImageAt plainExternal 5 (List.replicate 64 0) 4 4
        EffectMode.EFFECT_OVERLAY 0 0 0 0 7 1070 = Outcome.ok lateRenderer :=
  have hno : ∀ c ∈ lateRenderer.controllers_, c.id_ ≠ 5 := by
    intro c hc
    simp only [lateRenderer, freshRenderer, List.mem_singleton] at hc
    rw [hc]
    decide
  ⟨rfl, hno,
   ((ScheduleImageAt_cases plainExternal lateRenderer 5 (List.replicate 64 0) 4 4
      EffectMode.EFFECT_OVERLAY 0 0 0 0 7 1070).2 rfl).1 (Or.inr (Or.inl hno))⟩

theorem ScheduleImageAt_ok (ext : External) (r : TclRenderer) (controller_id : Int)
    (bytes : List Nat) (w h : Int) (mode : EffectMode) (cx cy cw ch : Int)
    (id : Int) (target : Nat) (i : Nat) (c : TclController) (item : WorkItem)
    (hstarted : r.has_started_thread_ = true) (hrun : r.is_shutting_down_ = false)
    (hfind : r.FindControllerLocked controller_id = some (i, c))
    (hlen : (bytes.length : Int) = RGBA_LEN w h)
    (hitem : item = WorkItem.mk false (some i)
      (c.BuildImage ext bytes w h mode RgbaImage.empty).2 id
      (alignToFps r.base_time_ r.fps_ target)) :
    r.ScheduleImageAt ext controller_id bytes w h mode cx cy cw ch id target
      = Outcome.ok { r with queue_ := queuePush r.queue_ item } := by
  unfold TclRenderer.ScheduleImageAt
  rw [hitem]
  simp only [hstarted, Bool.true_eq_false, if_false, hrun, Bool.false_eq_true, hfind, hlen,
    ne_eq, not_true_eq_false]

/-- The worker's pass depends on the queue only through the result of
`PopNextWorkItemLocked`. -/
theorem RunServe_congr (SC SL : Nat) (ext : External) (r : TclRenderer) (q1 q2 : List WorkItem)
    (w : World) (hrun : r.is_shutting_down_ = false)
    (hp : PopNextWorkItemLocked q1 WorkItem.placeholder (GetCurrentMillis w)
      = PopNextWorkItemLocked q2 WorkItem.placeholder (GetCurrentMillis w)) :
    ({ r with queue_ := q1 } : TclRenderer).RunServe SC SL ext w
      = ({ r with queue_ := q2 } : TclRenderer).RunServe SC SL ext w := by
  unfold TclRenderer.RunServe
  simp only [hp, hrun, Bool.false_eq_true, if_false]

/-- After a pass of the worker that did not exit, the queue is the one that
`PopNextWorkItemLocked` left. -/
theorem RunServe_queue (SC SL : Nat) (ext : External) (r : TclRenderer) (w : World)
    (hrun : r.is_shutting_down_ = false) :
    (r.RunServe SC SL ext w).2.1.queue_
      = (PopNextWorkItemLocked r.queue_ WorkItem.placeholder (GetCurrentMillis w)).queue := by
  unfold TclRenderer.RunServe
  simp only [hrun, Bool.false_eq_true, if_false]
  repeat' (first | rfl | split)

set_option maxRecDepth 100000 in
/-- C15, counterexample: with fps = 10 and base_time = 0 the three frames
are queued with the aligned deadlines 100, 200 and 300; the frame popped at
now = 300 has deadline 300, not 250. At now = 260 the frame scheduled for
250 is not yet due, and the frame scheduled for 150 is popped. -/
theorem popped_frame_has_aligned_deadline :
    ((scheduleThree plainExternal tenFpsRenderer 0 (List.replicate 64 0) (List.replicate 64 0)
        (List.replicate 64 0) 4 4 EffectMode.EFFECT_OVERLAY 1 2 3 50 150 250).value?.map
      (fun r => r.queue_.map (fun item => (item.time_, item.id_))))
      = some [(100, 1), (200, 2), (300, 3)] ∧
    ((scheduleThree plainExternal tenFpsRenderer 0 (List.replicate 64 0) (List.replicate 64 0)
        (List.replicate 64 0) 4 4 EffectMode.EFFECT_OVERLAY 1 2 3 50 150 250).value?.map
      (fun r =>
        ((PopNextWorkItemLocked r.queue_ WorkItem.placeholder 300).found,
         (PopNextWorkItemLocked r.queue_ WorkItem.placeholder 300).item.time_,
         (PopNextWorkItemLocked r.queue_ WorkItem.placeholder 300).item.id_)))
      = some (true, 300, 3) ∧
    ((scheduleThree plainExternal tenFpsRenderer 0 (List.replicate 64 0) (List.replicate 64 0)
        (List.replicate 64 0) 4 4 EffectMode.EFFECT_OVERLAY 1 2 3 50 150 250).value?.map
      (fun r =>
        ((PopNextWorkItemLocked r.queue_ WorkItem.placeholder 260).found,
         (PopNextWorkItemLocked r.queue_ WorkItem.placeholder 260).item.time_,
         (PopNextWorkItemLocked r.queue_ WorkItem.placeholder 260).item.id_)))
      = some (true, 200, 2) := by
  decide

set_option maxRecDepth 100000 in
/-- C15, amended: with fps = 10, base_time = 0 and an empty queue, three
calls of ScheduleImageAt for one controller with target times 50, 150 and 250
queue three frames with the aligned deadlines 100, 200 and 300. Popping at
now = 300 returns exactly one frame and leaves the queue empty: the frame has
deadline 300 and the image id of the frame scheduled for 250, and a pass of
the worker at now = 300 is the pass it makes when only that frame is queued. -/
theorem scheduled_frames_stale_drop (ext : External) (r : TclRenderer) (controller_id : Int)
    (b1 b2 b3 : List Nat) (w h : Int) (mode : EffectMode) (id1 id2 id3 : Int)
    (i : Nat) (c : TclController)
    (hfps : r.fps_ = 10) (hbase : r.base_time_ = 0) (hq : r.queue_ = [])
    (hstarted : r.has_started_thread_ = true) (hrun : r.is_shutting_down_ = false)
    (hfind : r.FindControllerLocked controller_id = some (i, c))
    (hl1 : (b1.length : Int) = RGBA_LEN w h) (hl2 : (b2.length : Int) = RGBA_LEN w h)
    (hl3 : (b3.length : Int) = RGBA_LEN w h) :
    ∃ (r3 : TclRenderer) (item : WorkItem),
      scheduleThree ext r controller_id b1 b2 b3 w h mode id1 id2 id3 50 150 250
        = Outcome.ok r3 ∧
      r3.controllers_ = r.controllers_ ∧
      r3.queue_.map (fun x => (x.time_, x.id_)) = [(100, id1), (200, id2), (300, id3)] ∧
      PopNextWorkItemLocked r3.queue_ WorkItem.placeholder 300
        = { found := true, item := item, next_time := 0, queue := [] } ∧
      item.needs_reset_ = false ∧ item.controller_ = some i ∧
      item.time_ = 300 ∧ item.id_ = id3 ∧
      ∀ (SC SL : Nat) (world : World), GetCurrentMillis world = 300 →
        r3.RunServe SC SL ext world
          = ({ r3 with queue_ := [item] } : TclRenderer).RunServe SC SL ext world ∧
        (r3.RunServe SC SL ext world).2.1.queue_ = [] := by
  have a1 : alignToFps 0 10 50 = 100 := by decide
  have a2 : alignToFps 0 10 150 = 200 := by decide
  have a3 : alignToFps 0 10 250 = 300 := by decide
  obtain ⟨i1, e1⟩ : ∃ x : WorkItem, x = WorkItem.mk false (some i)
      (c.BuildImage ext b1 w h mode RgbaImage.empty).2 id1 100 := ⟨_, rfl⟩
  obtain ⟨i2, e2⟩ : ∃ x : WorkItem, x = WorkItem.mk false (some i)
      (c.BuildImage ext b2 w h mode RgbaImage.empty).2 id2 200 := ⟨_, rfl⟩
  obtain ⟨i3, e3⟩ : ∃ x : WorkItem, x = WorkItem.mk false (some i)
      (c.BuildImage ext b3 w h mode RgbaImage.empty).2 id3 300 := ⟨_, rfl⟩
  have t1 : i1.time_ = 100 := by rw [e1]
  have t2 : i2.time_ = 200 := by rw [e2]
  have t3 : i3.time_ = 300 := by rw [e3]
  have n1 : i1.needs_reset_ = false := by rw [e1]
  have n2 : i2.needs_reset_ = false := by rw [e2]
  have n3 : i3.needs_reset_ = false := by rw [e3]
  have s1 := ScheduleImageAt_ok ext r controller_id b1 w h mode 0 0 0 0 id1 50 i c i1
    hstarted hrun hfind hl1 (by rw [e1, hfps, hbase, a1])
  have s2 := ScheduleImageAt_ok ext { r with queue_ := queuePush r.queue_ i1 } controller_id b2
    w h mode 0 0 0 0 id2 150 i c i2 hstarted hrun hfind hl2
    (by rw [e2]; simp only [hfps, hbase, a2])
  have s3 := ScheduleImageAt_ok ext
    { r with queue_ := queuePush (queuePush r.queue_ i1) i2 } controller_id b3
    w h mode 0 0 0 0 id3 250 i c i3 hstarted hrun hfind hl3
    (by rw [e3]; simp only [hfps, hbase, a3])
  have hqueue : queuePush (queuePush (queuePush r.queue_ i1) i2) i3 = [i1, i2, i3] := by
    rw [hq]
    simp [queuePush, t1, t2, t3]
  have hpop : PopNextWorkItemLocked [i1, i2, i3] WorkItem.placeholder 300
      = { found := true, item := i3, next_time := 0, queue := [] } := by
    simp [PopNextWorkItemLocked, PopNextWorkItemLocked.loop, t1, t2, t3, n1, n2, n3]
  have hpop1 : PopNextWorkItemLocked [i3] WorkItem.placeholder 300
      = { found := true, item := i3, next_time := 0, queue := [] } := by
    simp [PopNextWorkItemLocked, PopNextWorkItemLocked.loop, t3, n3]
  refine ⟨{ r with queue_ := [i1, i2, i3] }, i3, ?_, rfl, ?_, hpop, n3, by rw [e3], t3,
    by rw [e3], ?_⟩
  · unfold scheduleThree
    rw [s1]
    simp only [Outcome.bind]
    rw [s2]
    simp only [Outcome.bind]
    rw [s3, hqueue]
  · simp only [List.map_cons, List.map_nil, t1, t2, t3]
    rw [e1, e2, e3]
  · intro SC SL world hnow
    refine ⟨?_, ?_⟩
    · exact RunServe_congr SC SL ext r [i1, i2, i3] [i3] world hrun (by rw [hnow, hpop, hpop1])
    · refine (RunServe_queue SC SL ext { r with queue_ := [i1, i2, i3] } world hrun).trans ?_
      simp only [hnow, hpop]

/-- The scenario on the renderer with 10 frames per second, base time 0 and
one controller. -/
theorem scheduled_frames_stale_drop_witness :
    (tenFpsRenderer.fps_ = 10 ∧ tenFpsRenderer.base_time_ = 0 ∧ tenFpsRenderer.queue_ = [] ∧
      tenFpsRenderer.has_started_thread_ = true ∧ tenFpsRenderer.is_shutting_down_ = false ∧
      (((List.replicate 64 0).length : Nat) : Int) = RGBA_LEN 4 4) ∧
    ∃ (r3 : TclRenderer) (item : WorkItem),
      scheduleThree plainExternal tenFpsRenderer 0 (List.replicate 64 0) (List.replicate 64 0)
        (List.replicate 64 0) 4 4 EffectMode.EFFECT_OVERLAY 1 2 3 50 150 250 = Outcome.ok r3 ∧
      r3.controllers_ = tenFpsRenderer.controllers_ ∧
      r3.queue_.map (fun x => (x.time_, x.id_)) = [(100, 1), (200, 2), (300, 3)] ∧
      PopNextWorkItemLocked r3.queue_ WorkItem.placeholder 300
        = { found := true, item := item, next_time := 0, queue := [] } ∧
      item.needs_reset_ = false ∧ item.controller_ = some 0 ∧
      item.time_ = 300 ∧ item.id_ = 3 ∧
      ∀ (SC SL : Nat) (world : World), GetCurrentMillis world = 300 →
        r3.RunServe SC SL plainExternal world
          = ({ r3 with queue_ := [item] } : TclRenderer).RunServe SC SL plainExternal world ∧
        (r3.RunServe SC SL plainExternal world).2.1.queue_ = [] :=
  ⟨⟨rfl, rfl, rfl, rfl, rfl, by decide⟩,
   scheduled_frames_stale_drop plainExternal tenFpsRenderer 0 (List.replicate 64 0)
     (List.replicate 64 0) (List.replicate 64 0) 4 4 EffectMode.EFFECT_OVERLAY 1 2 3 0
     (TclController.new 8 0 4 4 hdrLayout ⟨id, id, id⟩) rfl rfl rfl rfl rfl rfl
     (by decide) (by decide) (by decide)⟩

/-! ## The last image id -/

theorem SameImageId_refl (c : TclController) : c.SameImageId c := ⟨rfl, rfl⟩

theorem SameImageId_trans {a b c : TclController} (h1 : a.SameImageId b)
    (h2 : b.SameImageId c) : a.SameImageId c :=
  ⟨h2.1.trans h1.1, h2.2.trans h1.2⟩

theorem UpdateAutoReset_same (c : TclController) (ms now : Nat) :
    c.SameImageId (c.UpdateAutoReset ms now) := by
  unfold TclController.UpdateAutoReset
  simp only
  split_ifs <;> exact ⟨rfl, rfl⟩

theorem SendPacket_same (c : TclController) (w : World) (data : List Nat) :
    c.SameImageId (c.SendPacket w data).2.1 := by
  unfold TclController.SendPacket
  simp only
  split_ifs <;> exact ⟨rfl, rfl⟩

theorem ConsumeReplyData_same (c : TclController) (w : World) :
    c.SameImageId (c.ConsumeReplyData w).1 := by
  rw [ConsumeReplyData_eq]
  simp only
  split_ifs <;> exact ⟨rfl, rfl⟩

theorem Connect_same (c : TclController) (w : World) :
    c.SameImageId (c.Connect w).2.1 := by
  unfold TclController.Connect
  split_ifs
  · exact ⟨rfl, rfl⟩
  · simp only
    split <;> exact ⟨rfl, rfl⟩

theorem InitController.reset_same (c : TclController) (w : World) :
    c.SameImageId (InitController.reset c w).2.1 := by
  unfold InitController.reset
  split_ifs
  · have h := SendPacket_same c w MSG_RESET
    rcases hsp : c.SendPacket w MSG_RESET with ⟨ok, c2, w2⟩
    rw [hsp] at h
    cases ok with
    | false => exact h
    | true => exact h
  · exact ⟨rfl, rfl⟩

theorem InitController_same (c : TclController) (w : World) :
    c.SameImageId (c.InitController w).2.1 := by
  unfold TclController.InitController
  have h1 := Connect_same c w
  rcases hc : c.Connect w with ⟨ok1, c1, w1⟩
  rw [hc] at h1
  cases ok1 with
  | false => exact h1
  | true =>
    simp only
    split_ifs
    · exact h1
    · have h2 := InitController.reset_same c1 w1
      rcases hr : InitController.reset c1 w1 with ⟨ok2, c2, w2⟩
      rw [hr] at h2
      cases ok2 with
      | false => exact SameImageId_trans h1 h2
      | true =>
        simp only
        have h3 := SendPacket_same c2 w2 MSG_INIT
        rcases hs : c2.SendPacket w2 MSG_INIT with ⟨ok3, c3, w3⟩
        rw [hs] at h3
        cases ok3 with
        | false => exact SameImageId_trans (SameImageId_trans h1 h2) h3
        | true => exact SameImageId_trans (SameImageId_trans h1 h2) h3

theorem SendFrame.loop_same (len : Nat) (fd : List Nat) (k : Nat) :
    ∀ (idx pos : Nat) (c : TclController) (w : World), len - pos ≤ k →
      c.SameImageId (SendFrame.loop len fd idx pos c w).2.2.2.1 := by
  induction k with
  | zero =>
    intro idx pos c w hk
    rw [SendFrame.loop_done _ _ _ _ _ _ (by omega)]
    exact SameImageId_refl _
  | succ k ih =>
    intro idx pos c w hk
    by_cases hlt : pos < len
    · rw [SendFrame.loop]
      simp only [hlt, dite_true]
      have hp := SendPacket_same c w (SendFrame.packet fd idx pos)
      rcases hsp : c.SendPacket w (SendFrame.packet fd idx pos) with ⟨ok, c2, w2⟩
      rw [hsp] at hp
      cases ok with
      | false => exact hp
      | true =>
        simp only
        exact SameImageId_trans hp (ih (idx + 1) (pos + 1024) c2 (Sleep kMgsDataDelayUs w2) (by omega))
    · rw [SendFrame.loop_done _ _ _ _ _ _ hlt]
      exact SameImageId_refl _

theorem SendFrame_same (SL : Nat) (c : TclController) (w : World) (fd : List Nat) :
    c.SameImageId (c.SendFrame SL w fd).2.1 := by
  unfold TclController.SendFrame
  have h1 := ConsumeReplyData_same c w
  rcases hc : c.ConsumeReplyData w with ⟨c1, w1⟩
  rw [hc] at h1
  simp only
  have h2 := SendPacket_same c1 w1 MSG_START_FRAME
  rcases hs : c1.SendPacket w1 MSG_START_FRAME with ⟨ok2, c2, w2⟩
  rw [hs] at h2
  cases ok2 with
  | false => exact SameImageId_trans h1 h2
  | true =>
    simp only
    have h3 := SendFrame.loop_same (FRAME_DATA_LEN SL) fd (FRAME_DATA_LEN SL) 0 0 c2
      (Sleep kMgsStartDelayUs w2) (by omega)
    rcases hl : SendFrame.loop (FRAME_DATA_LEN SL) fd 0 0 c2 (Sleep kMgsStartDelayUs w2)
      with ⟨ok3, idx, pos, c3, w3⟩
    rw [hl] at h3
    have h13 := SameImageId_trans (SameImageId_trans h1 h2) h3
    cases ok3 with
    | false => exact h13
    | true =>
      simp only
      split_ifs
      · exact h13
      · have h4 := SendPacket_same c3 w3 MSG_END_FRAME
        rcases he : c3.SendPacket w3 MSG_END_FRAME with ⟨ok4, c4, w4⟩
        rw [he] at h4
        cases ok4 with
        | false => exact SameImageId_trans h13 h4
        | true =>
          simp only
          have h5 := ConsumeReplyData_same c4 w4
          rcases hr : c4.ConsumeReplyData w4 with ⟨c5, w5⟩
          rw [hr] at h5
          exact SameImageId_trans (SameImageId_trans h13 h4) ⟨h5.1, h5.2⟩

/-- What `BuildFrameDataForImage` does to the id and the last image id: a
frame that was built stores its id, a conversion that failed stores nothing. -/
theorem BuildFrameDataForImage_ids (SC SL : Nat) (ext : External) (c : TclController)
    (img : RgbaImage) (id : Int) :
    (c.BuildFrameDataForImage SC SL ext img id).2.id_ = c.id_ ∧
    (∀ fd, (c.BuildFrameDataForImage SC SL ext img id).1 = Outcome.ok fd →
      (c.BuildFrameDataForImage SC SL ext img id).2.last_image_id_ = id) ∧
    ((∀ fd, (c.BuildFrameDataForImage SC SL ext img id).1 ≠ Outcome.ok fd) →
      (c.BuildFrameDataForImage SC SL ext img id).2 = c) := by
  unfold TclController.BuildFrameDataForImage
  simp only
  split
  · exact ⟨rfl, fun _ _ => rfl, fun h => absurd rfl (h _)⟩
  · exact ⟨rfl, fun _ h => (by cases h), fun _ => rfl⟩
  · exact ⟨rfl, fun _ h => (by cases h), fun _ => rfl⟩

theorem FindControllerLocked.go_set (id : Int) (c2 : TclController) :
    ∀ (cs : List TclController) (k i : Nat) (c : TclController), cs[i]? = some c →
      c2.id_ = c.id_ →
      FindControllerLocked.go id (cs.set i c2) k
        = (FindControllerLocked.go id cs k).map (fun p => if p.1 = k + i then (p.1, c2) else p) := by
  intro cs
  induction cs with
  | nil => intro k i c h; simp at h
  | cons x rest ih =>
    intro k i c h hid
    cases i with
    | zero =>
      simp only [List.getElem?_cons_zero, Option.some.injEq] at h
      subst h
      simp only [List.set_cons_zero, FindControllerLocked.go, hid]
      by_cases hx : x.id_ = id
      · simp [hx]
      · rw [if_neg hx, if_neg hx]
        cases hg : FindControllerLocked.go id rest (k + 1) with
        | none => rfl
        | some p =>
          obtain ⟨j, y⟩ := p
          have := (FindControllerLocked.go_some id rest (k + 1) j y hg).1
          simp only [Option.map_some', Nat.add_zero, Option.some.injEq]
          rw [if_neg (fun e => by have e2 : j = k := e; omega)]
    | succ i =>
      simp only [List.getElem?_cons_succ] at h
      simp only [List.set_cons_succ, FindControllerLocked.go]
      by_cases hx : x.id_ = id
      · rw [if_pos hx, if_pos hx]
        simp only [Option.map_some', Option.some.injEq]
        rw [if_neg (fun e => by have e2 : k = k + (i + 1) := e; omega)]
      · rw [if_neg hx, if_neg hx, ih (k + 1) i c h hid]
        have e : k + 1 + i = k + (i + 1) := by omega
        rw [e]

theorem FindControllerLocked.go_same (id : Int) :
    ∀ (cs cs2 : List TclController) (k : Nat),
      List.Forall₂ TclController.SameImageId cs cs2 →
      (FindControllerLocked.go id cs2 k).map (fun p => p.2.last_image_id_)
        = (FindControllerLocked.go id cs k).map (fun p => p.2.last_image_id_) := by
  intro cs cs2 k h
  induction h generalizing k with
  | nil => rfl
  | cons hab _ ih =>
    simp only [FindControllerLocked.go, hab.1]
    split_ifs
    · simp only [Option.map_some', hab.2]
    · exact ih (k + 1)

/-- `GetLastImageId` in terms of the search. -/
theorem GetLastImageId_eq (r : TclRenderer) (id : Int) :
    r.GetLastImageId id
      = ((FindControllerLocked.go id r.controllers_ 0).map
          (fun p => p.2.last_image_id_)).getD (-1) := by
  unfold TclRenderer.GetLastImageId TclRenderer.FindControllerLocked
  cases FindControllerLocked.go id r.controllers_ 0 with
  | none => rfl
  | some p => rfl

theorem GetLastImageId_same (r r2 : TclRenderer) (id : Int)
    (h : List.Forall₂ TclController.SameImageId r.controllers_ r2.controllers_) :
    r2.GetLastImageId id = r.GetLastImageId id := by
  rw [GetLastImageId_eq, GetLastImageId_eq, FindControllerLocked.go_same id _ _ 0 h]

/-- Replacing the controller found under an id by a state with the same id. -/
theorem GetLastImageId_set (r r2 : TclRenderer) (i : Nat) (c c2 : TclController) (id : Int)
    (hfind : r.FindControllerLocked c.id_ = some (i, c)) (hid : c2.id_ = c.id_)
    (hcs : r2.controllers_ = r.controllers_.set i c2) :
    r2.GetLastImageId id = if id = c.id_ then c2.last_image_id_ else r.GetLastImageId id := by
  obtain ⟨hget, _⟩ := FindControllerLocked_some r c.id_ i c hfind
  rw [GetLastImageId_eq, GetLastImageId_eq, hcs,
    FindControllerLocked.go_set id c2 r.controllers_ 0 i c hget hid]
  by_cases hi : id = c.id_
  · rw [if_pos hi, hi]
    unfold TclRenderer.FindControllerLocked at hfind
    rw [hfind]
    simp
  · rw [if_neg hi]
    cases hg : FindControllerLocked.go id r.controllers_ 0 with
    | none => rfl
    | some p =>
      obtain ⟨j, y⟩ := p
      obtain ⟨_, hy, hyid⟩ := FindControllerLocked.go_some id r.controllers_ 0 j y hg
      have hji : j ≠ i := by
        intro e
        rw [e] at hy
        simp only [Nat.sub_zero] at hy
        rw [hget] at hy
        simp only [Option.some.injEq] at hy
        rw [← hy] at hyid
        exact hi hyid.symm
      simp only [Option.map_some', Nat.zero_add]
      rw [if_neg hji]

theorem SameImageId_forall2_trans :
    ∀ (a b c : List TclController), List.Forall₂ TclController.SameImageId a b →
      List.Forall₂ TclController.SameImageId b c →
      List.Forall₂ TclController.SameImageId a c := by
  intro a b c h1
  induction h1 generalizing c with
  | nil => intro h2; cases h2; exact List.Forall₂.nil
  | cons hab _ ih =>
    intro h2
    cases h2 with
    | cons hbc hrest => exact List.Forall₂.cons (SameImageId_trans hab hbc) (ih _ hrest)

theorem Run.initAll_same :
    ∀ (cs : List TclController) (w : World),
      List.Forall₂ TclController.SameImageId cs (Run.initAll cs w).2.1 := by
  intro cs
  induction cs with
  | nil => intro w; exact List.Forall₂.nil
  | cons c rest ih =>
    intro w
    unfold Run.initAll
    have h1 := InitController_same c w
    rcases hc : c.InitController w with ⟨ok, c2, w2⟩
    rw [hc] at h1
    simp only
    have h2 := ih w2
    rcases hr : Run.initAll rest w2 with ⟨failed, rest2, w3⟩
    rw [hr] at h2
    exact List.Forall₂.cons h1 h2

/-- The first part of the worker's pass changes no last image id. -/
theorem RunPrepare_GetLastImageId (r : TclRenderer) (w : World) (id : Int) :
    (r.RunPrepare w).2.1.GetLastImageId id = r.GetLastImageId id := by
  apply GetLastImageId_same
  unfold TclRenderer.RunPrepare
  have hrefl : List.Forall₂ TclController.SameImageId r.controllers_ r.controllers_ :=
    List.forall₂_same.mpr (fun c _ => SameImageId_refl c)
  split_ifs
  · exact hrefl
  · simp only
    have hmap : List.Forall₂ TclController.SameImageId r.controllers_
        (r.controllers_.map
          (fun c => c.UpdateAutoReset r.auto_reset_after_no_data_ms_ (GetCurrentMillis w))) := by
      rw [List.forall₂_map_right_iff]
      exact List.forall₂_same.mpr (fun c _ => UpdateAutoReset_same c _ _)
    have hinit := Run.initAll_same (r.controllers_.map
      (fun c => c.UpdateAutoReset r.auto_reset_after_no_data_ms_ (GetCurrentMillis w))) w
    generalize Run.initAll (r.controllers_.map
      (fun c => c.UpdateAutoReset r.auto_reset_after_no_data_ms_ (GetCurrentMillis w))) w
      = res at hinit ⊢
    obtain ⟨failed, cs2, w2⟩ := res
    simp only at hinit
    have htr : List.Forall₂ TclController.SameImageId r.controllers_ cs2 :=
      SameImageId_forall2_trans _ _ _ hmap hinit
    cases failed with
    | true => exact htr
    | false => exact htr
  · exact hrefl

theorem SameImageId_set (c c2 : TclController) (h : c.SameImageId c2) :
    ∀ (cs : List TclController) (i : Nat), cs[i]? = some c →
      List.Forall₂ TclController.SameImageId cs (cs.set i c2) := by
  intro cs
  induction cs with
  | nil => intro i hi; simp at hi
  | cons x rest ih =>
    intro i hi
    cases i with
    | zero =>
      simp only [List.getElem?_cons_zero, Option.some.injEq] at hi
      subst hi
      exact List.Forall₂.cons h (List.forall₂_same.mpr (fun y _ => SameImageId_refl y))
    | succ i =>
      simp only [List.getElem?_cons_succ] at hi
      exact List.Forall₂.cons (SameImageId_refl x) (ih i hi)

/-- A pass of the worker that builds a frame stores the id of the frame with
its controller, whatever `SendFrame` returns. -/
theorem RunServe_built (SC SL : Nat) (ext : External) (r : TclRenderer) (w : World)
    (p : PopResult) (i : Nat) (c : TclController)
    (hp : PopNextWorkItemLocked r.queue_ WorkItem.placeholder (GetCurrentMillis w) = p)
    (hrun : r.is_shutting_down_ = false) (hfound : p.found = true)
    (hframe : p.item.needs_reset_ = false) (himg : p.item.img_.IsEmpty = false)
    (hctl : p.item.controller_ = some i) (hfind : r.FindControllerLocked c.id_ = some (i, c))
    (hbuild : (c.BuildFrameDataForImage SC SL ext p.item.img_ p.item.id_).1.value?.isSome = true)
    (id : Int) :
    (r.RunServe SC SL ext w).2.1.GetLastImageId id
      = if id = c.id_ then p.item.id_ else r.GetLastImageId id := by
  obtain ⟨hget, _⟩ := FindControllerLocked_some r c.id_ i c hfind
  have key : ∀ (r2 : TclRenderer) (c2 : TclController),
      r2.controllers_ = r.controllers_.set i c2 → c2.id_ = c.id_ →
      c2.last_image_id_ = p.item.id_ →
      r2.GetLastImageId id = if id = c.id_ then p.item.id_ else r.GetLastImageId id := by
    intro r2 c2 h1 h2 h3
    rw [GetLastImageId_set r r2 i c c2 id hfind h2 h1, h3]
  unfold TclRenderer.RunServe
  simp only [hp, hrun, hfound, hctl, hget, hframe, himg, Bool.false_eq_true, if_false,
    Bool.true_eq_false]
  have hb := BuildFrameDataForImage_ids SC SL ext c p.item.img_ p.item.id_
  generalize c.BuildFrameDataForImage SC SL ext p.item.img_ p.item.id_ = res at hb hbuild ⊢
  obtain ⟨o, c2⟩ := res
  simp only at hb hbuild
  cases o with
  | null => simp [Outcome.value?] at hbuild
  | fault => simp [Outcome.value?] at hbuild
  | ok fd =>
  simp only
  have hid2 : c2.id_ = c.id_ := hb.1
  have hl2 : c2.last_image_id_ = p.item.id_ := hb.2.1 fd rfl
  by_cases hnet : r.enable_net_ = false
  · rw [if_pos hnet]
    exact key _ c2 rfl hid2 hl2
  · rw [if_neg hnet]
    have hs := SendFrame_same SL c2 w fd
    generalize c2.SendFrame SL w fd = sres at hs ⊢
    obtain ⟨o3, c3, w3⟩ := sres
    have hid3 : c3.id_ = c.id_ := hs.1.trans hid2
    have hl3 : c3.last_image_id_ = p.item.id_ := hs.2.trans hl2
    cases o3 with
    | ok u => exact key _ c3 rfl hid3 hl3
    | null => exact key _ c3.ScheduleReset rfl hid3 hl3
    | fault => exact key _ c3 rfl hid3 hl3

/-- A pass of the worker that finds nothing due, a RESET item or an empty
image changes no last image id. -/
theorem RunServe_not_built (SC SL : Nat) (ext : External) (r : TclRenderer) (w : World)
    (p : PopResult)
    (hp : PopNextWorkItemLocked r.queue_ WorkItem.placeholder (GetCurrentMillis w) = p)
    (h : p.found = false ∨ p.item.needs_reset_ = true ∨ p.item.img_.IsEmpty = true)
    (id : Int) :
    (r.RunServe SC SL ext w).2.1.GetLastImageId id = r.GetLastImageId id := by
  apply GetLastImageId_same
  have hrefl : List.Forall₂ TclController.SameImageId r.controllers_ r.controllers_ :=
    List.forall₂_same.mpr (fun c _ => SameImageId_refl c)
  unfold TclRenderer.RunServe
  simp only [hp]
  by_cases hrun : r.is_shutting_down_ = true
  · rw [if_pos hrun]
    exact hrefl
  · rw [if_neg hrun]
    by_cases hfound : p.found = false
    · rw [if_pos hfound]
      exact hrefl
    · rw [if_neg hfound]
      cases hc : p.item.controller_ with
      | none =>
        simp only
        split_ifs <;> exact hrefl
      | some i =>
        simp only
        cases hg : r.controllers_[i]? with
        | none => exact hrefl
        | some c =>
          simp only
          by_cases hreset : p.item.needs_reset_ = true
          · rw [if_pos hreset]
            exact SameImageId_set c c.ScheduleReset ⟨rfl, rfl⟩ _ i hg
          · rw [if_neg hreset]
            have himg : p.item.img_.IsEmpty = true := by
              rcases h with h | h | h
              · exact absurd h hfound
              · exact absurd h hreset
              · exact h
            rw [if_pos himg]
            exact hrefl

set_option maxRecDepth 100000 in
/-- C16, counterexample: the worker initialises the controller, pops the
frame with image id 7 and builds its frame data; the first send of SendFrame
(the start-of-frame message) returns -1, so SendFrame fails and no frame was
transmitted. GetLastImageId was 0 before the pass and is 7 after it. -/
theorem last_image_id_after_failed_send :
    queuedRenderer.GetLastImageId 0 = 0 ∧
    (queuedRenderer.RunPass 8 512 plainExternal sendsFailAfterInit).1 = RunStatus.completed ∧
    (queuedRenderer.RunPass 8 512 plainExternal sendsFailAfterInit).2.1.GetLastImageId 0 = 7 ∧
    (queuedRenderer.RunPass 8 512 plainExternal sendsFailAfterInit).2.1.frame_delays_ = [] ∧
    (queuedRenderer.RunPass 8 512 plainExternal sendsFailAfterInit).2.2.sent.map
      (fun p => (p.data, p.result)) = [(MSG_RESET, 5), (MSG_INIT, 5), (MSG_START_FRAME, -1)] := by
  decide

/-- C16, amended: GetLastImageId returns -1 for an id that no controller
has, and the stored last image id of the controller otherwise, which is 0 for
a new controller. The first part of a pass of the worker (watchdogs and
InitController) changes no last image id. A pass that pops a FRAME item with
a non-empty image and builds its frame data (ConvertImageToStrands does not
fail) sets the last image id of the item's controller to the image id of the
item, whether the network is enabled or not and whatever SendFrame returns,
and changes no other controller's; a pass that finds nothing due, a RESET
item or an empty image changes none. -/
theorem GetLastImageId_tracks_built_frame (SC SL : Nat) (ext : External) (r : TclRenderer)
    (w : World) :
    (∀ id, (∀ c ∈ r.controllers_, c.id_ ≠ id) → r.GetLastImageId id = -1) ∧
    (∀ id i c, r.FindControllerLocked id = some (i, c) →
      r.GetLastImageId id = c.last_image_id_) ∧
    (∀ (N : Nat) (id width height : Int) (layout : Layout) (gamma : RgbGamma),
      (TclController.new N id width height layout gamma).last_image_id_ = 0) ∧
    (∀ id, (r.RunPrepare w).2.1.GetLastImageId id = r.GetLastImageId id) ∧
    (∀ (i : Nat) (c : TclController),
      r.is_shutting_down_ = false →
      (PopNextWorkItemLocked r.queue_ WorkItem.placeholder (GetCurrentMillis w)).found = true →
      (PopNextWorkItemLocked r.queue_ WorkItem.placeholder (GetCurrentMillis w)).item.needs_reset_
        = false →
      (PopNextWorkItemLocked r.queue_ WorkItem.placeholder (GetCurrentMillis w)).item.img_.IsEmpty
        = false →
      (PopNextWorkItemLocked r.queue_ WorkItem.placeholder (GetCurrentMillis w)).item.controller_
        = some i →
      r.FindControllerLocked c.id_ = some (i, c) →
      (c.BuildFrameDataForImage SC SL ext
        (PopNextWorkItemLocked r.queue_ WorkItem.placeholder (GetCurrentMillis w)).item.img_
        (PopNextWorkItemLocked r.queue_ WorkItem.placeholder (GetCurrentMillis w)).item.id_
        ).1.value?.isSome = true →
      ∀ id, (r.RunServe SC SL ext w).2.1.GetLastImageId id
        = if id = c.id_ then
            (PopNextWorkItemLocked r.queue_ WorkItem.placeholder (GetCurrentMillis w)).item.id_
          else r.GetLastImageId id) ∧
    ((PopNextWorkItemLocked r.queue_ WorkItem.placeholder (GetCurrentMillis w)).found = false ∨
      (PopNextWorkItemLocked r.queue_ WorkItem.placeholder (GetCurrentMillis w)).item.needs_reset_
        = true ∨
      (PopNextWorkItemLocked r.queue_ WorkItem.placeholder (GetCurrentMillis w)).item.img_.IsEmpty
        = true →
      ∀ id, (r.RunServe SC SL ext w).2.1.GetLastImageId id = r.GetLastImageId id) := by
  refine ⟨?_, ?_, ?_, ?_, ?_, ?_⟩
  · intro id h
    unfold TclRenderer.GetLastImageId
    rw [(FindControllerLocked_none r id).mpr h]
  · intro id i c h
    unfold TclRenderer.GetLastImageId
    rw [h]
  · intro N id width height layout gamma
    rfl
  · exact RunPrepare_GetLastImageId r w
  · intro i c hrun hfound hframe himg hctl hfind hbuild id
    exact RunServe_built SC SL ext r w _ i c rfl hrun hfound hframe himg hctl hfind hbuild id
  · intro h id
    exact RunServe_not_built SC SL ext r w _ rfl h id

set_option maxRecDepth 100000 in
/-- With every send succeeding, a pass over the queued frame with image id 7
sets the last image id of controller 0 to 7. -/
theorem GetLastImageId_tracks_built_frame_witness :
    (queuedRenderer.is_shutting_down_ = false ∧
      (PopNextWorkItemLocked queuedRenderer.queue_ WorkItem.placeholder
        (GetCurrentMillis quietWorld)).found = true ∧
      (PopNextWorkItemLocked queuedRenderer.queue_ WorkItem.placeholder
        (GetCurrentMillis quietWorld)).item.id_ = 7 ∧
      queuedRenderer.GetLastImageId 0 = 0) ∧
    ∀ id, (queuedRenderer.RunServe 8 512 plainExternal quietWorld).2.1.GetLastImageId id
      = if id = (TclController.new 8 0 4 4 hdrLayout ⟨fun x => x, fun x => x, fun x => x⟩).id_ then
          (PopNextWorkItemLocked queuedRenderer.queue_ WorkItem.placeholder
            (GetCurrentMillis quietWorld)).item.id_
        else queuedRenderer.GetLastImageId id :=
  ⟨⟨rfl, by decide, by decide, by decide⟩,
   (GetLastImageId_tracks_built_frame 8 512 plainExternal queuedRenderer quietWorld).2.2.2.2.1 0
     (TclController.new 8 0 4 4 hdrLayout ⟨fun x => x, fun x => x, fun x => x⟩)
     rfl (by decide) (by decide) (by decide) (by decide) rfl (by decide)⟩

/-! ## Adding controllers -/

theorem FindControllerLocked_isSome (r : TclRenderer) (id : Int) :
    (r.FindControllerLocked id).isSome = true ↔ ∃ c ∈ r.controllers_, c.id_ = id := by
  have h := FindControllerLocked_none r id
  cases hf : r.FindControllerLocked id with
  | none =>
    rw [hf] at h
    simp only [Option.isSome_none, Bool.false_eq_true, false_iff, not_exists, not_and]
    exact fun c hc => h.mp rfl c hc
  | some p =>
    rw [hf] at h
    simp only [Option.isSome_some, true_iff]
    by_contra hne
    simp only [not_exists, not_and] at hne
    have := h.mpr (fun c hc => hne c hc)
    cases this

theorem AddController_ok (SC : Nat) (r r2 : TclRenderer) (id width height : Int)
    (layout : Layout) (gamma : RgbGamma)
    (h : r.AddController SC id width height layout gamma = Outcome.ok r2) :
    r.controllers_locked_ = false ∧ (∀ c ∈ r.controllers_, c.id_ ≠ id) ∧
    0 ≤ wrap32 (width * height) ∧
    r2 = { r with controllers_ :=
            r.controllers_ ++ [TclController.new SC id width height layout gamma] } := by
  unfold TclRenderer.AddController at h
  by_cases h1 : r.controllers_locked_ = true
  · rw [if_pos h1] at h; cases h
  · rw [if_neg h1] at h
    by_cases h2 : (r.FindControllerLocked id).isSome = true
    · rw [if_pos h2] at h; cases h
    · rw [if_neg h2] at h
      by_cases h3 : wrap32 (width * height) < 0
      · rw [if_pos h3] at h; cases h
      · rw [if_neg h3] at h
        simp only [Outcome.ok.injEq] at h
        refine ⟨by simpa using h1, ?_, by omega, h.symm⟩
        intro c hc hid
        exact h2 ((FindControllerLocked_isSome r id).mpr ⟨c, hc, hid⟩)

theorem AddController_ids (SC : Nat) (r r2 : TclRenderer) (id width height : Int)
    (layout : Layout) (gamma : RgbGamma)
    (h : r.AddController SC id width height layout gamma = Outcome.ok r2)
    (hn : (r.controllers_.map (fun c => c.id_)).Nodup) :
    r2.controllers_.map (fun c => c.id_) = r.controllers_.map (fun c => c.id_) ++ [id] ∧
    (r2.controllers_.map (fun c => c.id_)).Nodup := by
  obtain ⟨_, hnew, _, rfl⟩ := AddController_ok SC r r2 id width height layout gamma h
  have e : (r.controllers_ ++ [TclController.new SC id width height layout gamma]).map
      (fun c => c.id_) = r.controllers_.map (fun c => c.id_) ++ [id] := by
    rw [List.map_append]; rfl
  refine ⟨e, ?_⟩
  show ((r.controllers_ ++ [TclController.new SC id width height layout gamma]).map
      (fun c => c.id_)).Nodup
  rw [e]
  refine List.Nodup.append hn (List.nodup_singleton id) ?_
  intro x hx hx2
  simp only [List.mem_singleton] at hx2
  subst hx2
  obtain ⟨c, hc, hcid⟩ := List.mem_map.mp hx
  exact hnew c hc hcid

theorem addControllers_ids (SC : Nat) :
    ∀ (args : List ControllerArgs) (r r2 : TclRenderer),
      addControllers SC r args = Outcome.ok r2 →
      (r.controllers_.map (fun c => c.id_)).Nodup →
      r2.controllers_.map (fun c => c.id_)
        = r.controllers_.map (fun c => c.id_) ++ args.map (fun a => a.id) ∧
      (r2.controllers_.map (fun c => c.id_)).Nodup := by
  intro args
  induction args with
  | nil =>
    intro r r2 h hn
    simp only [addControllers, Outcome.ok.injEq] at h
    subst h
    exact ⟨by simp, hn⟩
  | cons a rest ih =>
    intro r r2 h hn
    unfold addControllers at h
    cases h1 : r.AddController SC a.id a.width a.height a.layout a.gamma with
    | null => rw [h1] at h; cases h
    | fault => rw [h1] at h; cases h
    | ok r1 =>
      rw [h1] at h
      simp only [Outcome.bind] at h
      obtain ⟨e1, n1⟩ := AddController_ids SC r r1 a.id a.width a.height a.layout a.gamma h1 hn
      obtain ⟨e2, n2⟩ := ih r1 r2 h n1
      refine ⟨?_, n2⟩
      rw [e2, e1]
      simp

/-- C18, counterexample: on a new renderer, which is unlocked and has no
controller, AddController with id 0 and the positive dimensions 50000 x 50000
does not append a controller: the `int` product of the dimensions is
negative, the array allocation of the constructor throws, and the call ends
abnormally. -/
theorem AddController_aborts_on_large_dimensions :
    (TclRenderer.new 0).controllers_locked_ = false ∧
    (TclRenderer.new 0).controllers_ = [] ∧
    (0 : Int) < 50000 ∧
    wrap32 (50000 * 50000) = -1794967296 ∧
    (TclRenderer.new 0).AddController 8 0 50000 50000 hdrLayout ⟨id, id, id⟩ = Outcome.fault ∧
    ¬ ∃ c : TclController, c.id_ = 0 ∧
        (TclRenderer.new 0).AddController 8 0 50000 50000 hdrLayout ⟨id, id, id⟩
          = Outcome.ok { TclRenderer.new 0 with
              controllers_ := (TclRenderer.new 0).controllers_ ++ [c] } := by
  have hf : (TclRenderer.new 0).AddController 8 0 50000 50000 hdrLayout ⟨id, id, id⟩
      = Outcome.fault := rfl
  refine ⟨rfl, rfl, by decide, by decide, hf, ?_⟩
  rintro ⟨c, _, hc⟩
  rw [hf] at hc
  cases hc

/-- C18, amended: AddController aborts (a failed CHECK, nothing is added)
when the controllers are locked or when a controller with the same id
exists; with positive dimensions whose product width * height is below 2^31
(the product is a 32-bit int), unlocked controllers and a new id it appends
exactly one controller, which has that id. So the ids of the controllers
stay pairwise distinct: after every sequence of calls that returns, from a
renderer whose ids are distinct, and in particular from a new renderer,
where the ids are then the ids of the calls in call order. -/
theorem AddController_distinct_ids (SC : Nat) (r : TclRenderer) (id width height : Int)
    (layout : Layout) (gamma : RgbGamma) :
    (r.controllers_locked_ = true →
      r.AddController SC id width height layout gamma = Outcome.fault) ∧
    ((∃ c ∈ r.controllers_, c.id_ = id) →
      r.AddController SC id width height layout gamma = Outcome.fault) ∧
    (r.controllers_locked_ = false → (∀ c ∈ r.controllers_, c.id_ ≠ id) →
      0 < width → 0 < height → width * height < 2 ^ 31 →
      ∃ c : TclController, c.id_ = id ∧
        r.AddController SC id width height layout gamma
          = Outcome.ok { r with controllers_ := r.controllers_ ++ [c] }) ∧
    (∀ (args : List ControllerArgs) (r2 : TclRenderer),
      (r.controllers_.map (fun c => c.id_)).Nodup →
      addControllers SC r args = Outcome.ok r2 →
      (r2.controllers_.map (fun c => c.id_)).Nodup) ∧
    (∀ (now : Nat) (args : List ControllerArgs) (r2 : TclRenderer),
      addControllers SC (TclRenderer.new now) args = Outcome.ok r2 →
      (r2.controllers_.map (fun c => c.id_)).Nodup ∧
      r2.controllers_.map (fun c => c.id_) = args.map (fun a => a.id)) := by
  refine ⟨?_, ?_, ?_, ?_, ?_⟩
  · intro h
    unfold TclRenderer.AddController
    rw [if_pos h]
  · intro h
    unfold TclRenderer.AddController
    by_cases h1 : r.controllers_locked_ = true
    · rw [if_pos h1]
    · rw [if_neg h1, if_pos ((FindControllerLocked_isSome r id).mpr h)]
  · intro h1 h2 hw hh hlt
    refine ⟨TclController.new SC id width height layout gamma, rfl, ?_⟩
    unfold TclRenderer.AddController
    have hf : ¬ ((r.FindControllerLocked id).isSome = true) := by
      intro hs
      obtain ⟨c, hc, hid⟩ := (FindControllerLocked_isSome r id).mp hs
      exact h2 c hc hid
    have hp : ¬ (wrap32 (width * height) < 0) := by
      have := Int.mul_pos hw hh
      have hlt2 : width * height < 2147483648 := by simpa using hlt
      rw [wrap32_of_range _ (by omega) hlt2]
      omega
    rw [if_neg (by simp [h1]), if_neg hf, if_neg hp]
  · intro args r2 hn h
    exact (addControllers_ids SC args r r2 h hn).2
  · intro now args r2 h
    obtain ⟨e, n⟩ := addControllers_ids SC args (TclRenderer.new now) r2 h List.nodup_nil
    exact ⟨n, by simpa [TclRenderer.new] using e⟩

/-- A first controller with id 0 and a 4 x 4 image is added to a new
renderer; a second call with id 0 aborts. -/
theorem AddController_distinct_ids_witness :
    ((TclRenderer.new 0).controllers_locked_ = false ∧
      (∀ c ∈ (TclRenderer.new 0).controllers_, c.id_ ≠ 0) ∧ (4 : Int) * 4 < 2 ^ 31) ∧
    (∃ c : TclController, c.id_ = 0 ∧
      (TclRenderer.new 0).AddController 8 0 4 4 hdrLayout ⟨id, id, id⟩
        = Outcome.ok { TclRenderer.new 0 with
            controllers_ := (TclRenderer.new 0).controllers_ ++ [c] }) ∧
    (addControllers 8 (TclRenderer.new 0)
      [⟨0, 4, 4, hdrLayout, ⟨id, id, id⟩⟩, ⟨0, 4, 4, hdrLayout, ⟨id, id, id⟩⟩]).isFault = true :=
  ⟨⟨rfl, fun c hc => by simp [TclRenderer.new] at hc, by decide⟩,
   (AddController_distinct_ids 8 (TclRenderer.new 0) 0 4 4 hdrLayout ⟨id, id, id⟩).2.2.1 rfl
     (fun c hc => by simp [TclRenderer.new] at hc) (by decide) (by decide) (by decide),
   by decide⟩

/-- C19, counterexample: on a new renderer AddController with width 0 and
height 0, with width 5 and height 0, and with width -2 and height -3 does
not abort: the controller is added with those dimensions. -/
theorem AddController_accepts_bad_dimensions :
    (((TclRenderer.new 0).AddController 8 0 0 0 hdrLayout ⟨id, id, id⟩).value?.map
      (fun r => r.controllers_.map (fun c => (c.id_, c.width_, c.height_))))
      = some [(0, 0, 0)] ∧
    (((TclRenderer.new 0).AddController 8 1 5 0 hdrLayout ⟨id, id, id⟩).value?.map
      (fun r => r.controllers_.map (fun c => (c.id_, c.width_, c.height_))))
      = some [(1, 5, 0)] ∧
    (((TclRenderer.new 0).AddController 8 2 (-2) (-3) hdrLayout ⟨id, id, id⟩).value?.map
      (fun r => r.controllers_.map (fun c => (c.id_, c.width_, c.height_))))
      = some [(2, -2, -3)] := by
  decide

/-- C19, amended: AddController makes no test of the dimensions. Called with
width <= 0 or height <= 0, unlocked controllers and a new id, it appends the
controller whenever the product width * height, computed as a 32-bit int, is
not negative (so with width 0 or height 0, and with two negative dimensions
whose product is below 2^31), and no LED of that controller has a pixel
coordinate; it ends abnormally, adding no controller, exactly when that
32-bit product is negative, and then in the array allocation of the
constructor, not in an assertion. While the exact product lies between -2^31
and 2^31 - 1 the 32-bit product is the exact product. -/
theorem AddController_dimensions (SC : Nat) (r : TclRenderer) (id width height : Int)
    (layout : Layout) (gamma : RgbGamma)
    (hunlocked : r.controllers_locked_ = false)
    (hnew : ∀ c ∈ r.controllers_, c.id_ ≠ id)
    (hbad : width ≤ 0 ∨ height ≤ 0) :
    (wrap32 (width * height) < 0 →
      r.AddController SC id width height layout gamma = Outcome.fault) ∧
    (0 ≤ wrap32 (width * height) →
      r.AddController SC id width height layout gamma
        = Outcome.ok { r with controllers_ :=
            r.controllers_ ++ [TclController.new SC id width height layout gamma] }) ∧
    (∀ s k, (TclController.new SC id width height layout gamma).layout_.coords_ s k = []) ∧
    (-(2 ^ 31) ≤ width * height → width * height < 2 ^ 31 →
      wrap32 (width * height) = width * height) := by
  have hf : ¬ ((r.FindControllerLocked id).isSome = true) := by
    intro hs
    obtain ⟨c, hc, hid⟩ := (FindControllerLocked_isSome r id).mp hs
    exact hnew c hc hid
  have hl : ¬ (r.controllers_locked_ = true) := by simp [hunlocked]
  refine ⟨?_, ?_, ?_, ?_⟩
  · intro hp
    unfold TclRenderer.AddController
    rw [if_neg hl, if_neg hf, if_pos hp]
  · intro hp
    unfold TclRenderer.AddController
    rw [if_neg hl, if_neg hf, if_neg (by omega)]
  · intro s k
    show (PopulateLayoutMap SC width height LayoutMap.new layout).coords_ s k = []
    obtain ⟨h1, _, h3⟩ := PopulateLayoutMap_coords SC width height layout
    by_cases hc : s < SC ∧ k < layout.lengths_ s
    · apply List.eq_nil_iff_forall_not_mem.mpr
      intro p hp
      have hin := ((h3 s k hc.1 hc.2 p).mp hp).2.1
      unfold inImage at hin
      omega
    · exact h1 s k hc
  · intro h1 h2
    exact wrap32_of_range _ (by simpa using h1) (by simpa using h2)

/-- A controller with width 0 and height 0 is added to a new renderer, and
none of its LEDs has a pixel coordinate; with width -50000 and height -50000
the 32-bit product is negative and the call ends abnormally. -/
theorem AddController_dimensions_witness :
    ((TclRenderer.new 0).controllers_locked_ = false ∧
      (∀ c ∈ (TclRenderer.new 0).controllers_, c.id_ ≠ 0) ∧ ((0 : Int) ≤ 0 ∨ (0 : Int) ≤ 0)) ∧
    (TclRenderer.new 0).AddController 8 0 0 0 hdrLayout ⟨id, id, id⟩
      = Outcome.ok { TclRenderer.new 0 with controllers_ :=
          (TclRenderer.new 0).controllers_ ++ [TclController.new 8 0 0 0 hdrLayout ⟨id, id, id⟩] } ∧
    (∀ s k, (TclController.new 8 0 0 0 hdrLayout ⟨id, id, id⟩).layout_.coords_ s k = []) ∧
    (TclRenderer.new 0).AddController 8 0 (-50000) (-50000) hdrLayout ⟨id, id, id⟩
      = Outcome.fault :=
  ⟨⟨rfl, fun c hc => by simp [TclRenderer.new] at hc, Or.inl (by decide)⟩,
   (AddController_dimensions 8 (TclRenderer.new 0) 0 0 0 hdrLayout ⟨id, id, id⟩ rfl
     (fun c hc => by simp [TclRenderer.new] at hc) (Or.inl (by decide))).2.1 (by decide),
   (AddController_dimensions 8 (TclRenderer.new 0) 0 0 0 hdrLayout ⟨id, id, id⟩ rfl
     (fun c hc => by simp [TclRenderer.new] at hc) (Or.inl (by decide))).2.2.1,
   (AddController_dimensions 8 (TclRenderer.new 0) 0 (-50000) (-50000) hdrLayout ⟨id, id, id⟩ rfl
     (fun c hc => by simp [TclRenderer.new] at hc) (Or.inl (by decide))).1 (by decide)⟩

/-! ## Building a layout -/

theorem Layout.AddCoord_full (SC SL : Nat) (layout : Layout) (s : Nat) (x y : Int)
    (hs : s < SC) (hfull : layout.lengths_ s = SL) :
    layout.AddCoord SC SL (s : Int) x y = Outcome.ok layout := by
  unfold Layout.AddCoord
  rw [if_neg (by simp only [not_not]; omega)]
  simp only [Int.toNat_ofNat]
  rw [if_pos hfull]

theorem Layout.AddCoord_room (SC SL : Nat) (layout : Layout) (s : Nat) (x y : Int)
    (hs : s < SC) (hroom : layout.lengths_ s ≠ SL) :
    layout.AddCoord SC SL (s : Int) x y
      = Outcome.ok
          { lengths_ := fun s2 => if s2 = s then layout.lengths_ s + 1 else layout.lengths_ s2,
            x_ := fun s2 k => if s2 = s ∧ k = layout.lengths_ s then x else layout.x_ s2 k,
            y_ := fun s2 k => if s2 = s ∧ k = layout.lengths_ s then y else layout.y_ s2 k } := by
  unfold Layout.AddCoord
  rw [if_neg (by simp only [not_not]; omega)]
  simp only [Int.toNat_ofNat]
  rw [if_neg hroom]

theorem Layout.AddCoord_fault (SC SL : Nat) (layout : Layout) (strand_id x y : Int)
    (h : strand_id < 0 ∨ (SC : Int) ≤ strand_id) :
    layout.AddCoord SC SL strand_id x y = Outcome.fault := by
  unfold Layout.AddCoord
  rw [if_pos (by omega)]

theorem addCoords_append (SC SL : Nat) :
    ∀ (a b : List CoordArgs) (layout : Layout),
      addCoords SC SL layout (a ++ b)
        = (addCoords SC SL layout a).bind (fun l2 => addCoords SC SL l2 b) := by
  intro a
  induction a with
  | nil => intro b layout; rfl
  | cons c rest ih =>
    intro b layout
    simp only [List.cons_append, addCoords]
    cases layout.AddCoord SC SL c.strand_id c.x c.y with
    | ok l1 => simp only [Outcome.bind]; exact ih b l1
    | null => rfl
    | fault => rfl

/-- A sequence of calls with a strand id outside the range aborts. -/
theorem addCoords_in_range (SC SL : Nat) :
    ∀ (calls : List CoordArgs) (layout l2 : Layout),
      addCoords SC SL layout calls = Outcome.ok l2 →
      ∀ a ∈ calls, 0 ≤ a.strand_id ∧ a.strand_id < (SC : Int) := by
  intro calls
  induction calls with
  | nil => intro layout l2 _ a ha; cases ha
  | cons c rest ih =>
    intro layout l2 h a ha
    unfold addCoords at h
    by_cases hc : c.strand_id < 0 ∨ (SC : Int) ≤ c.strand_id
    · rw [Layout.AddCoord_fault SC SL layout c.strand_id c.x c.y hc] at h
      cases h
    · cases h1 : layout.AddCoord SC SL c.strand_id c.x c.y with
      | null => rw [h1] at h; cases h
      | fault => rw [h1] at h; cases h
      | ok l1 =>
        rw [h1] at h
        simp only [Outcome.bind] at h
        rcases List.mem_cons.mp ha with e | hr
        · rw [e]; omega
        · exact ih l1 l2 h a hr

/-- The layout after a sequence of calls on `Layout()`: the length of a
strand is the number of calls for it, capped at `STRAND_LENGTH`, and entry
`k` of the strand holds the coordinates of call number `k` for that strand. -/
theorem addCoords_spec (SC SL : Nat) (calls : List CoordArgs) :
    ∀ (l2 : Layout), addCoords SC SL Layout.new calls = Outcome.ok l2 →
      ∀ s : Nat,
        l2.lengths_ s = min SL ((calls.filter (fun a => a.strand_id = (s : Int))).length) ∧
        ∀ k, k < l2.lengths_ s →
          ((calls.filter (fun a => a.strand_id = (s : Int))).map (fun a => (a.x, a.y)))[k]?
            = some (l2.x_ s k, l2.y_ s k) := by
  induction calls using List.reverseRecOn with
  | nil =>
    intro l2 h s
    simp only [addCoords, Outcome.ok.injEq] at h
    subst h
    simp [Layout.new]
  | append_singleton rest c ih =>
    intro l2 h s
    rw [addCoords_append] at h
    cases h1 : addCoords SC SL Layout.new rest with
    | null => rw [h1] at h; cases h
    | fault => rw [h1] at h; cases h
    | ok l1 =>
      rw [h1] at h
      simp only [Outcome.bind, addCoords] at h
      have hr : 0 ≤ c.strand_id ∧ c.strand_id < (SC : Int) := by
        by_contra hc
        rw [Layout.AddCoord_fault SC SL l1 c.strand_id c.x c.y (by omega)] at h
        cases h
      obtain ⟨t, ht⟩ : ∃ t : Nat, c.strand_id = (t : Int) := ⟨c.strand_id.toNat, by omega⟩
      have htS : t < SC := by omega
      rw [ht] at h
      have ih1 := ih l1 h1
      simp only [List.filter_append, List.filter_cons, List.filter_nil, List.length_append,
        List.map_append, ht, Nat.cast_inj, decide_eq_true_eq]
      by_cases hfull : l1.lengths_ t = SL
      · rw [Layout.AddCoord_full SC SL l1 t c.x c.y htS hfull] at h
        simp only [Outcome.bind, Outcome.ok.injEq] at h
        subst h
        obtain ⟨e1, e2⟩ := ih1 s
        by_cases hst : t = s
        · subst hst
          simp only [if_true, List.length_cons, List.length_nil]
          refine ⟨by omega, ?_⟩
          intro k hk
          rw [List.getElem?_append_left (by simp only [List.length_map]; omega)]
          exact e2 k hk
        · simp only [if_neg hst, List.length_nil, Nat.add_zero, List.map_nil, List.append_nil]
          exact ⟨e1, e2⟩
      · rw [Layout.AddCoord_room SC SL l1 t c.x c.y htS hfull] at h
        simp only [Outcome.bind, Outcome.ok.injEq] at h
        subst h
        obtain ⟨e1, e2⟩ := ih1 s
        by_cases hst : t = s
        · subst hst
          simp only [if_true, List.length_cons, List.length_nil, true_and]
          have hlen : l1.lengths_ t
              = (rest.filter (fun a => decide (a.strand_id = (t : Int)))).length := by omega
          refine ⟨by omega, ?_⟩
          intro k hk
          by_cases hkl : k = l1.lengths_ t
          · rw [if_pos hkl, if_pos hkl, hkl, hlen]
            rw [List.getElem?_append_right (by simp only [List.length_map]; omega)]
            simp
          · rw [if_neg hkl, if_neg hkl]
            rw [List.getElem?_append_left (by simp only [List.length_map]; omega)]
            exact e2 k (by omega)
        · have hst2 : ¬ (s = t) := fun e => hst e.symm
          have hst3 : ∀ k, ¬ (s = t ∧ k = l1.lengths_ t) := fun k hk => hst2 hk.1
          simp only [if_neg hst, if_neg hst2, if_neg (hst3 _), List.length_nil, Nat.add_zero,
            List.map_nil, List.append_nil]
          exact ⟨e1, e2⟩

theorem Layout.AddCoord_bound (SC SL : Nat) (layout l2 : Layout) (strand_id x y : Int)
    (hb : ∀ s, layout.lengths_ s ≤ SL)
    (h : layout.AddCoord SC SL strand_id x y = Outcome.ok l2) :
    ∀ s, l2.lengths_ s ≤ SL := by
  by_cases hc : strand_id < 0 ∨ (SC : Int) ≤ strand_id
  · rw [Layout.AddCoord_fault SC SL layout strand_id x y hc] at h
    cases h
  · obtain ⟨t, ht⟩ : ∃ t : Nat, strand_id = (t : Int) := ⟨strand_id.toNat, by omega⟩
    rw [ht] at h
    by_cases hfull : layout.lengths_ t = SL
    · rw [Layout.AddCoord_full SC SL layout t x y (by omega) hfull] at h
      simp only [Outcome.ok.injEq] at h
      subst h
      exact hb
    · rw [Layout.AddCoord_room SC SL layout t x y (by omega) hfull] at h
      simp only [Outcome.ok.injEq] at h
      subst h
      intro s
      simp only
      have := hb t
      have := hb s
      split_ifs <;> omega

theorem addCoords_bound (SC SL : Nat) :
    ∀ (calls : List CoordArgs) (layout l2 : Layout), (∀ s, layout.lengths_ s ≤ SL) →
      addCoords SC SL layout calls = Outcome.ok l2 → ∀ s, l2.lengths_ s ≤ SL := by
  intro calls
  induction calls with
  | nil =>
    intro layout l2 hb h
    simp only [addCoords, Outcome.ok.injEq] at h
    subst h
    exact hb
  | cons c rest ih =>
    intro layout l2 hb h
    unfold addCoords at h
    cases h1 : layout.AddCoord SC SL c.strand_id c.x c.y with
    | null => rw [h1] at h; cases h
    | fault => rw [h1] at h; cases h
    | ok l1 =>
      rw [h1] at h
      simp only [Outcome.bind] at h
      exact ih l1 l2 (Layout.AddCoord_bound SC SL layout l1 c.strand_id c.x c.y hb h1) h

theorem addCoords_total (SC SL : Nat) :
    ∀ (calls : List CoordArgs) (layout : Layout),
      (∀ a ∈ calls, 0 ≤ a.strand_id ∧ a.strand_id < (SC : Int)) →
      ∃ l2, addCoords SC SL layout calls = Outcome.ok l2 := by
  intro calls
  induction calls with
  | nil => intro layout _; exact ⟨layout, rfl⟩
  | cons c rest ih =>
    intro layout hr
    have hc := hr c (List.mem_cons_self c rest)
    obtain ⟨t, ht⟩ : ∃ t : Nat, c.strand_id = (t : Int) := ⟨c.strand_id.toNat, by omega⟩
    unfold addCoords
    rw [ht]
    by_cases hfull : layout.lengths_ t = SL
    · rw [Layout.AddCoord_full SC SL layout t c.x c.y (by omega) hfull]
      exact ih layout (fun a ha => hr a (List.mem_cons_of_mem c ha))
    · rw [Layout.AddCoord_room SC SL layout t c.x c.y (by omega) hfull]
      exact ih _ (fun a ha => hr a (List.mem_cons_of_mem c ha))

/-- C20: a call of Layout::AddCoord with a strand id outside
[0, STRAND_COUNT) aborts; a call on a full strand changes nothing; a call on
a strand s that is not full stores (x, y) at index lengths_[s], adds one to
that length and changes no other entry. Every sequence of calls with strand
ids in range returns and keeps every length <= STRAND_LENGTH when the lengths
were so before; on Layout() the length of a strand is then the number of
calls for it, capped at STRAND_LENGTH, and entry k of the strand holds the
coordinates of call number k for that strand, in call order. -/
theorem Layout_AddCoord_lengths (SC SL : Nat) (layout : Layout) (strand_id x y : Int) :
    ((strand_id < 0 ∨ (SC : Int) ≤ strand_id) →
      layout.AddCoord SC SL strand_id x y = Outcome.fault) ∧
    (∀ s : Nat, strand_id = (s : Int) → s < SC → layout.lengths_ s = SL →
      layout.AddCoord SC SL strand_id x y = Outcome.ok layout) ∧
    (∀ s : Nat, strand_id = (s : Int) → s < SC → layout.lengths_ s ≠ SL →
      ∃ l2 : Layout, layout.AddCoord SC SL strand_id x y = Outcome.ok l2 ∧
        l2.lengths_ s = layout.lengths_ s + 1 ∧
        l2.x_ s (layout.lengths_ s) = x ∧ l2.y_ s (layout.lengths_ s) = y ∧
        (∀ s2, s2 ≠ s → l2.lengths_ s2 = layout.lengths_ s2) ∧
        (∀ s2 k, ¬ (s2 = s ∧ k = layout.lengths_ s) →
          l2.x_ s2 k = layout.x_ s2 k ∧ l2.y_ s2 k = layout.y_ s2 k)) ∧
    (∀ calls : List CoordArgs, (∀ a ∈ calls, 0 ≤ a.strand_id ∧ a.strand_id < (SC : Int)) →
      ∃ l2, addCoords SC SL layout calls = Outcome.ok l2) ∧
    (∀ (calls : List CoordArgs) (l2 : Layout), (∀ s, layout.lengths_ s ≤ SL) →
      addCoords SC SL layout calls = Outcome.ok l2 → ∀ s, l2.lengths_ s ≤ SL) ∧
    (∀ (calls : List CoordArgs) (l2 : Layout),
      addCoords SC SL Layout.new calls = Outcome.ok l2 →
      (∀ a ∈ calls, 0 ≤ a.strand_id ∧ a.strand_id < (SC : Int)) ∧
      ∀ s : Nat,
        l2.lengths_ s ≤ SL ∧
        l2.lengths_ s = min SL ((calls.filter (fun a => a.strand_id = (s : Int))).length) ∧
        ∀ k, k < l2.lengths_ s →
          ((calls.filter (fun a => a.strand_id = (s : Int))).map (fun a => (a.x, a.y)))[k]?
            = some (l2.x_ s k, l2.y_ s k)) := by
  refine ⟨?_, ?_, ?_, ?_, ?_, ?_⟩
  · exact Layout.AddCoord_fault SC SL layout strand_id x y
  · intro s hs hlt hfull
    rw [hs]
    exact Layout.AddCoord_full SC SL layout s x y hlt hfull
  · intro s hs hlt hroom
    rw [hs]
    refine ⟨_, Layout.AddCoord_room SC SL layout s x y hlt hroom, ?_, ?_, ?_, ?_, ?_⟩
    · simp
    · simp
    · simp
    · intro s2 h2
      simp [h2]
    · intro s2 k h2
      simp [h2]
  · intro calls hr
    exact addCoords_total SC SL calls layout hr
  · intro calls l2 hb h
    exact addCoords_bound SC SL calls layout l2 hb h
  · intro calls l2 h
    refine ⟨addCoords_in_range SC SL calls Layout.new l2 h, ?_⟩
    intro s
    obtain ⟨e1, e2⟩ := addCoords_spec SC SL calls l2 h s
    exact ⟨by rw [e1]; exact Nat.min_le_left _ _, e1, e2⟩

/-- Three calls for strand 0 with room for two LEDs: the third call changes
nothing, and a call for strand 8 of 8 aborts. -/
theorem Layout_AddCoord_lengths_witness :
    ((addCoords 8 2 Layout.new [⟨0, 5, 6⟩, ⟨0, 7, 8⟩, ⟨0, 9, 10⟩]).value?.map
      (fun l => (l.lengths_ 0, l.x_ 0 0, l.y_ 0 0, l.x_ 0 1, l.y_ 0 1, l.lengths_ 1)))
      = some (2, 5, 6, 7, 8, 0) ∧
    Layout.new.AddCoord 8 2 8 1 1 = Outcome.fault ∧
    ∃ l2 : Layout, Layout.new.AddCoord 8 2 0 5 6 = Outcome.ok l2 ∧
      l2.lengths_ 0 = Layout.new.lengths_ 0 + 1 ∧
      l2.x_ 0 (Layout.new.lengths_ 0) = 5 ∧ l2.y_ 0 (Layout.new.lengths_ 0) = 6 ∧
      (∀ s2, s2 ≠ 0 → l2.lengths_ s2 = Layout.new.lengths_ s2) ∧
      (∀ s2 k, ¬ (s2 = 0 ∧ k = Layout.new.lengths_ 0) →
        l2.x_ s2 k = Layout.new.x_ s2 k ∧ l2.y_ s2 k = Layout.new.y_ s2 k) :=
  ⟨by decide,
   (Layout_AddCoord_lengths 8 2 Layout.new 8 1 1).1 (Or.inr (by decide)),
   (Layout_AddCoord_lengths 8 2 Layout.new 0 5 6).2.2.1 0 rfl (by decide) (by decide)⟩

/-! ## The pixels of an LED -/

theorem and_255_of_le (x : Nat) (h : x ≤ 255) : x &&& 0xFF = x := by
  have e := Nat.and_pow_two_sub_one_eq_mod x 8
  norm_num at e
  rw [e]
  omega

theorem ledBody_fault (c : TclController) (image : RgbaImage) (s k : Nat) :
    PopulateStrandsColors.ledBody c image s k Outcome.fault = Outcome.fault := rfl

set_option maxRecDepth 100000 in
/-- C24: the controller `darkLedController` (two LEDs configured at pixel
(0,0) of a 1 x 1 image) has a configured LED, strand 0 LED 1, with an empty
coordinate list; on a 1 x 1 image PopulateStrandsColors and with it
ConvertImageToStrands end in the division by zero `r / coord_count` instead
of giving that LED the colour black. -/
theorem ConvertImageToStrands_empty_coords_fault :
    (1 < darkLedController.layout_.lengths_ 0 ∧ darkLedController.layout_.coords_ 0 1 = []) ∧
    (darkLedController.PopulateStrandsColors 8 Strands.new ⟨[1, 2, 3, 255], 1, 1⟩).isFault
      = true ∧
    (darkLedController.ConvertImageToStrands 8 plainExternal ⟨[1, 2, 3, 255], 1, 1⟩).isFault
      = true := by
  decide

/-! ## The ranges of PerformHdr -/

/-- The running minima and maxima of `PerformHdr` for a configured LED are
the minimum and maximum over its siblings, bracket the L and S bytes of the
LED itself and are bytes. -/
theorem PerformHdr_range_bounds (SC : Nat) (c : TclController) (layout : Layout)
    (strands : Strands) (s k : Nat)
    (hlayout : c.layout_ = PopulateLayoutMap SC c.width_ c.height_ LayoutMap.new layout)
    (hbytes : ∀ s i, strands.colors s i < 256)
    (hs : s < SC) (hk : k < layout.lengths_ s) :
    (IsMinOver (siblingL strands) (c.layout_.hdr_siblings_ s k)
        (PerformHdr.range c.layout_ strands s k).l_min ∧
      IsMaxOver (siblingL strands) (c.layout_.hdr_siblings_ s k)
        (PerformHdr.range c.layout_ strands s k).l_max ∧
      IsMinOver (siblingS strands) (c.layout_.hdr_siblings_ s k)
        (PerformHdr.range c.layout_ strands s k).s_min ∧
      IsMaxOver (siblingS strands) (c.layout_.hdr_siblings_ s k)
        (PerformHdr.range c.layout_ strands s k).s_max) ∧
    ((PerformHdr.range c.layout_ strands s k).l_min ≤ strands.colors s (k * 4 + 1) ∧
      strands.colors s (k * 4 + 1) ≤ (PerformHdr.range c.layout_ strands s k).l_max ∧
      (PerformHdr.range c.layout_ strands s k).l_max < 256) ∧
    ((PerformHdr.range c.layout_ strands s k).s_min ≤ strands.colors s (k * 4 + 2) ∧
      strands.colors s (k * 4 + 2) ≤ (PerformHdr.range c.layout_ strands s k).s_max ∧
      (PerformHdr.range c.layout_ strands s k).s_max < 256) := by
  have hself : (⟨s, k⟩ : HdrSibling) ∈ c.layout_.hdr_siblings_ s k := by
    rw [hlayout]
    exact PopulateLayoutMap_self_sibling SC c.width_ c.height_ layout s k hs hk
  rcases hdr_range_fold strands hbytes (c.layout_.hdr_siblings_ s k) with ⟨hnil, _⟩ | hr
  · rw [hnil] at hself; cases hself
  obtain ⟨m1, m2, m3, m4⟩ := hr
  have hrange : PerformHdr.range c.layout_ strands s k
      = (c.layout_.hdr_siblings_ s k).foldl (PerformHdr.siblingStep strands)
          { l_min := 255, l_max := 0, s_min := 255, s_max := 0 } := rfl
  rw [← hrange] at m1 m2 m3 m4
  refine ⟨⟨m1, m2, m3, m4⟩, ⟨m1.2 _ hself, m2.2 _ hself, ?_⟩, ⟨m3.2 _ hself, m4.2 _ hself, ?_⟩⟩
  · obtain ⟨a, _, ha⟩ := m2.1
    rw [← ha]; exact hbytes _ _
  · obtain ⟨a, _, ha⟩ := m4.1
    rw [← ha]; exact hbytes _ _

/-- The L and S bytes that `PerformHdr` stores for a configured LED. -/
theorem PerformHdr_LS (SC : Nat) (c : TclController) (layout : Layout)
    (strands : Strands) (s k : Nat)
    (hlayout : c.layout_ = PopulateLayoutMap SC c.width_ c.height_ LayoutMap.new layout)
    (hs : s < SC) (hk : k < layout.lengths_ s) :
    (c.PerformHdr SC strands).colors s (k * 4 + 1)
      = (if c.hdr_mode_ = HdrMode.HDR_LSAT ∨ c.hdr_mode_ = HdrMode.HDR_LUMINANCE then
          EXTEND256 (strands.colors s (k * 4 + 1))
            (PerformHdr.range c.layout_ strands s k).l_min
            (PerformHdr.range c.layout_ strands s k).l_max % 256
        else strands.colors s (k * 4 + 1)) ∧
    (c.PerformHdr SC strands).colors s (k * 4 + 2)
      = (if c.hdr_mode_ = HdrMode.HDR_LSAT ∨ c.hdr_mode_ = HdrMode.HDR_SATURATION then
          EXTEND256 (strands.colors s (k * 4 + 2))
            (PerformHdr.range c.layout_ strands s k).s_min
            (PerformHdr.range c.layout_ strands s k).s_max % 256
        else strands.colors s (k * 4 + 2)) := by
  have hlen : c.layout_.lengths_ s = layout.lengths_ s := by
    rw [hlayout, PopulateLayoutMap_lengths, if_pos hs]
  by_cases hmode : c.hdr_mode_ = HdrMode.HDR_NONE
  · have hid : c.PerformHdr SC strands = strands := by
      unfold TclController.PerformHdr; rw [if_pos hmode]
    rw [hid, hmode]
    simp
  · have hk2 : k < c.layout_.lengths_ s := by rw [hlen]; exact hk
    have g1 := PerformHdr_colors SC c strands hmode s k 1 hs hk2 (by norm_num)
    have g2 := PerformHdr_colors SC c strands hmode s k 2 hs hk2 (by norm_num)
    rw [g1, g2]
    unfold PerformHdr.record
    simp only [List.getD_cons_succ, List.getD_cons_zero]
    exact ⟨trivial, trivial⟩

/-- The macro `EXTEND256` on a value between its bounds: the `uint32_t`
subtraction is the true difference, the quotient is a byte that the mask
leaves as it is, and equal bounds return the value. -/
theorem EXTEND256_in_range (v lo hi : Nat) (h1 : lo ≤ v) (h2 : v ≤ hi) (h3 : hi < 256) :
    (v + 2 ^ 32 - lo) % 2 ^ 32 = v - lo ∧
    (hi ≠ lo →
      255 * (v - lo) / (hi - lo) ≤ 255 ∧
      (255 * (v - lo) / (hi - lo)) &&& 0xFF = 255 * (v - lo) / (hi - lo) ∧
      EXTEND256 v lo hi = 255 * (v - lo) / (hi - lo)) ∧
    (hi = lo → EXTEND256 v lo hi % 256 = v) := by
  have e1 : (v + 2 ^ 32 - lo) % 2 ^ 32 = v - lo := by omega
  refine ⟨e1, ?_, ?_⟩
  · intro hne
    have hq : 255 * (v - lo) / (hi - lo) ≤ 255 := by
      apply Nat.div_le_of_le_mul
      rw [Nat.mul_comm (hi - lo) 255]
      exact Nat.mul_le_mul_left 255 (by omega)
    refine ⟨hq, and_255_of_le _ hq, ?_⟩
    have h := EXTEND256_eq v lo hi h1 h2 h3
    unfold extend256 at h
    rw [if_neg hne, and_255_of_le _ hq] at h
    have hlt : EXTEND256 v lo hi < 256 := by
      unfold EXTEND256
      rw [if_neg hne]
      have e := Nat.and_pow_two_sub_one_eq_mod
        (255 * ((v + 2 ^ 32 - lo) % 2 ^ 32) % 2 ^ 32 / ((hi + 2 ^ 32 - lo) % 2 ^ 32)) 8
      norm_num at e ⊢
      rw [e]
      omega
    rw [Nat.mod_eq_of_lt hlt] at h
    exact h
  · intro he
    unfold EXTEND256
    rw [if_pos he]
    omega

/-- C28: in PerformHdr, for a controller whose layout map was built by
PopulateLayoutMap and a buffer of bytes, the L and S bytes of every
configured LED lie between the minimum and the maximum over its HDR
siblings, because the LED is one of them. So in EXTEND256 the uint32_t
subtraction v - lo is the true difference (no underflow), the quotient
255 * (v - lo) / (hi - lo) lies in 0..255 and the & 0xFF mask leaves it as it
is, and an LED whose siblings all have its L value (its S value) keeps that
byte unchanged. -/
theorem PerformHdr_no_underflow (STRAND_COUNT : Nat) (c : TclController) (layout : Layout)
    (strands : Strands) (s k : Nat)
    (hlayout : c.layout_
      = PopulateLayoutMap STRAND_COUNT c.width_ c.height_ LayoutMap.new layout)
    (hbytes : ∀ s i, strands.colors s i < 256)
    (hs : s < STRAND_COUNT) (hk : k < layout.lengths_ s) :
    (⟨s, k⟩ : HdrSibling) ∈ c.layout_.hdr_siblings_ s k ∧
    ((PerformHdr.range c.layout_ strands s k).l_min ≤ strands.colors s (k * 4 + 1) ∧
      strands.colors s (k * 4 + 1) ≤ (PerformHdr.range c.layout_ strands s k).l_max ∧
      (PerformHdr.range c.layout_ strands s k).s_min ≤ strands.colors s (k * 4 + 2) ∧
      strands.colors s (k * 4 + 2) ≤ (PerformHdr.range c.layout_ strands s k).s_max) ∧
    ((strands.colors s (k * 4 + 1) + 2 ^ 32 - (PerformHdr.range c.layout_ strands s k).l_min)
        % 2 ^ 32
        = strands.colors s (k * 4 + 1) - (PerformHdr.range c.layout_ strands s k).l_min ∧
      (strands.colors s (k * 4 + 2) + 2 ^ 32 - (PerformHdr.range c.layout_ strands s k).s_min)
        % 2 ^ 32
        = strands.colors s (k * 4 + 2) - (PerformHdr.range c.layout_ strands s k).s_min) ∧
    ((PerformHdr.range c.layout_ strands s k).l_max
        ≠ (PerformHdr.range c.layout_ strands s k).l_min →
      255 * (strands.colors s (k * 4 + 1) - (PerformHdr.range c.layout_ strands s k).l_min)
          / ((PerformHdr.range c.layout_ strands s k).l_max
              - (PerformHdr.range c.layout_ strands s k).l_min) ≤ 255 ∧
      EXTEND256 (strands.colors s (k * 4 + 1)) (PerformHdr.range c.layout_ strands s k).l_min
          (PerformHdr.range c.layout_ strands s k).l_max
        = 255 * (strands.colors s (k * 4 + 1) - (PerformHdr.range c.layout_ strands s k).l_min)
          / ((PerformHdr.range c.layout_ strands s k).l_max
              - (PerformHdr.range c.layout_ strands s k).l_min)) ∧
    ((PerformHdr.range c.layout_ strands s k).s_max
        ≠ (PerformHdr.range c.layout_ strands s k).s_min →
      255 * (strands.colors s (k * 4 + 2) - (PerformHdr.range c.layout_ strands s k).s_min)
          / ((PerformHdr.range c.layout_ strands s k).s_max
              - (PerformHdr.range c.layout_ strands s k).s_min) ≤ 255 ∧
      EXTEND256 (strands.colors s (k * 4 + 2)) (PerformHdr.range c.layout_ strands s k).s_min
          (PerformHdr.range c.layout_ strands s k).s_max
        = 255 * (strands.colors s (k * 4 + 2) - (PerformHdr.range c.layout_ strands s k).s_min)
          / ((PerformHdr.range c.layout_ strands s k).s_max
              - (PerformHdr.range c.layout_ strands s k).s_min)) ∧
    (∀ q : Nat, q ≤ 255 → q &&& 0xFF = q) ∧
    ((∀ a ∈ c.layout_.hdr_siblings_ s k, siblingL strands a = strands.colors s (k * 4 + 1)) →
      (c.PerformHdr STRAND_COUNT strands).colors s (k * 4 + 1) = strands.colors s (k * 4 + 1)) ∧
    ((∀ a ∈ c.layout_.hdr_siblings_ s k, siblingS strands a = strands.colors s (k * 4 + 2)) →
      (c.PerformHdr STRAND_COUNT strands).colors s (k * 4 + 2)
        = strands.colors s (k * 4 + 2)) := by
  obtain ⟨⟨m1, m2, m3, m4⟩, ⟨b1, b2, u2⟩, ⟨b3, b4, u4⟩⟩ :=
    PerformHdr_range_bounds STRAND_COUNT c layout strands s k hlayout hbytes hs hk
  obtain ⟨eL, qL, sL⟩ := EXTEND256_in_range _ _ _ b1 b2 u2
  obtain ⟨eS, qS, sS⟩ := EXTEND256_in_range _ _ _ b3 b4 u4
  obtain ⟨gL, gS⟩ := PerformHdr_LS STRAND_COUNT c layout strands s k hlayout hs hk
  have hself : (⟨s, k⟩ : HdrSibling) ∈ c.layout_.hdr_siblings_ s k := by
    rw [hlayout]
    exact PopulateLayoutMap_self_sibling STRAND_COUNT c.width_ c.height_ layout s k hs hk
  refine ⟨hself, ⟨b1, b2, b3, b4⟩, ⟨eL, eS⟩, ?_, ?_, and_255_of_le, ?_, ?_⟩
  · intro hne
    exact ⟨(qL hne).1, (qL hne).2.2⟩
  · intro hne
    exact ⟨(qS hne).1, (qS hne).2.2⟩
  · intro hall
    rw [gL]
    split_ifs
    · apply sL
      obtain ⟨a1, ha1, e1⟩ := m1.1
      obtain ⟨a2, ha2, e2⟩ := m2.1
      rw [← e1, ← e2, hall a1 ha1, hall a2 ha2]
    · rfl
  · intro hall
    rw [gS]
    split_ifs
    · apply sS
      obtain ⟨a1, ha1, e1⟩ := m3.1
      obtain ⟨a2, ha2, e2⟩ := m4.1
      rw [← e1, ← e2, hall a1 ha1, hall a2 ha2]
    · rfl

theorem hdrStrands_bytes : ∀ s i, hdrStrands.colors s i < 256 := by
  intro s i
  unfold hdrStrands
  simp only
  split
  · by_cases hi : i < 8
    · interval_cases i <;> simp
    · rw [List.getD_eq_default _ _ (by simp; omega)]; norm_num
  · norm_num

set_option maxRecDepth 100000 in
/-- In the scenario of two mutually sibling LEDs with L = S = 100 and
L = S = 200, the bytes of LED 1 lie between the minima and maxima over its
siblings; the ranges are 100..200. -/
theorem PerformHdr_no_underflow_witness :
    ((hdrController HdrMode.HDR_LSAT).layout_
        = PopulateLayoutMap 8 (hdrController HdrMode.HDR_LSAT).width_
            (hdrController HdrMode.HDR_LSAT).height_ LayoutMap.new hdrLayout ∧
      1 < hdrLayout.lengths_ 0 ∧
      PerformHdr.range (hdrController HdrMode.HDR_LSAT).layout_ hdrStrands 0 1
        = { l_min := 100, l_max := 200, s_min := 100, s_max := 200 }) ∧
    ((PerformHdr.range (hdrController HdrMode.HDR_LSAT).layout_ hdrStrands 0 1).l_min
        ≤ hdrStrands.colors 0 (1 * 4 + 1) ∧
      hdrStrands.colors 0 (1 * 4 + 1)
        ≤ (PerformHdr.range (hdrController HdrMode.HDR_LSAT).layout_ hdrStrands 0 1).l_max ∧
      (PerformHdr.range (hdrController HdrMode.HDR_LSAT).layout_ hdrStrands 0 1).s_min
        ≤ hdrStrands.colors 0 (1 * 4 + 2) ∧
      hdrStrands.colors 0 (1 * 4 + 2)
        ≤ (PerformHdr.range (hdrController HdrMode.HDR_LSAT).layout_ hdrStrands 0 1).s_max) :=
  ⟨⟨rfl, by decide, by decide⟩,
   (PerformHdr_no_underflow 8 (hdrController HdrMode.HDR_LSAT) hdrLayout hdrStrands 0 1 rfl
     hdrStrands_bytes (by decide) (by decide)).2.1⟩

/-! ## Decoding the frame -/

/-- Bit `s` of a bit-plane sum tells whether strand `s` contributed. -/
theorem planeSum_testBit (strands : Strands) (k c b : Nat) :
    ∀ (n s : Nat), s < n →
      (planeSum n strands k c b).testBit s
        = decide (k < strands.lengths s ∧ (strands.colors s (k * 4 + c)).testBit b = true) := by
  intro n
  induction n with
  | zero => intro s hs; omega
  | succ m ih =>
    intro s hs
    have hlt := planeSum_lt m strands k c b
    have hsucc : planeSum (m + 1) strands k c b
        = planeSum m strands k c b + planeTerm strands k c b m := by
      unfold planeSum
      rw [Finset.sum_range_succ]
    rw [hsucc]
    by_cases hterm : k < strands.lengths m ∧ (strands.colors m (k * 4 + c)).testBit b = true
    · have ht : planeTerm strands k c b m = 2 ^ m := by
        unfold planeTerm; rw [if_pos hterm]
      rw [ht]
      by_cases hsm : s = m
      · subst hsm
        rw [Nat.add_comm, Nat.testBit_two_pow_add_eq, Nat.testBit_lt_two_pow hlt]
        simp [hterm]
      · have hs2 : s < m := by omega
        have e : planeSum m strands k c b
            = (planeSum m strands k c b + 2 ^ m) % 2 ^ m := by
          rw [Nat.add_mod_right, Nat.mod_eq_of_lt hlt]
        rw [← ih s hs2]
        conv_rhs => rw [e]
        rw [Nat.testBit_mod_two_pow]
        simp [hs2]
    · have ht : planeTerm strands k c b m = 0 := by
        unfold planeTerm; rw [if_neg hterm]
      rw [ht, Nat.add_zero]
      by_cases hsm : s = m
      · subst hsm
        rw [Nat.testBit_lt_two_pow hlt]
        simp [hterm]
      · exact ih s (by omega)

/-- Bytes with the same eight low bits are equal. -/
theorem byte_eq_of_testBit (x y : Nat) (hx : x < 256) (hy : y < 256)
    (h : ∀ b, b < 8 → x.testBit b = y.testBit b) : x = y := by
  apply Nat.eq_of_testBit_eq
  intro i
  by_cases hi : i < 8
  · exact h i hi
  · have h8 : (256 : Nat) ≤ 2 ^ i := by
      calc (256 : Nat) = 2 ^ 8 := by norm_num
        _ ≤ 2 ^ i := Nat.pow_le_pow_right (by norm_num) (by omega)
    rw [Nat.testBit_lt_two_pow (by omega), Nat.testBit_lt_two_pow (by omega)]

/-- A frame byte gives back its bit-plane sum when there are at most eight
strands. -/
theorem frame_byte_decode (SC SL : Nat) (strands : Strands) (hSC : SC ≤ 8) (k j i : Nat)
    (hk : k < SL) (hj : j < 3) (hi : i < 8) :
    ((ConvertStrandsToFrame SC SL strands).getD (k * 24 + j * 8 + i) 0 + 256 - 0x2C) % 256
      = planeSum SC strands k (2 - j) (7 - i) := by
  rw [List.getD_eq_getElem?_getD, frame_getElem SC SL strands k j i hk hj hi]
  simp only [Option.getD_some]
  have hlt := planeSum_lt SC strands k (2 - j) (7 - i)
  have h8 : 2 ^ SC ≤ 256 := by
    calc 2 ^ SC ≤ 2 ^ 8 := Nat.pow_le_pow_right (by norm_num) hSC
      _ = 256 := by norm_num
  omega

/-- C29: with at most eight strands, strand lengths within STRAND_LENGTH and
colour bytes, the frame determines the R, G and B bytes of every LED: bit
`bit` of record byte c of LED k of strand s is bit s of the frame byte at
k*24 + (2-c)*8 + (7-bit) minus 0x2C (modulo 256). So two strand sets with the
same lengths and equal frames have the same R, G and B bytes for every LED
k < lengths[s] of every strand s. -/
theorem ConvertStrandsToFrame_decodes (STRAND_COUNT STRAND_LENGTH : Nat) (a : Strands)
    (hcount : STRAND_COUNT ≤ 8)
    (hlen : ∀ s, s < STRAND_COUNT → a.lengths s ≤ STRAND_LENGTH)
    (hbytes : ∀ s i, a.colors s i < 256) :
    (∀ s k c bit, s < STRAND_COUNT → k < a.lengths s → c < 3 → bit < 8 →
      (a.colors s (k * 4 + c)).testBit bit
        = (((ConvertStrandsToFrame STRAND_COUNT STRAND_LENGTH a).getD
              (k * 24 + (2 - c) * 8 + (7 - bit)) 0 + 256 - 0x2C) % 256).testBit s) ∧
    (∀ b : Strands, b.lengths = a.lengths → (∀ s i, b.colors s i < 256) →
      ConvertStrandsToFrame STRAND_COUNT STRAND_LENGTH a
        = ConvertStrandsToFrame STRAND_COUNT STRAND_LENGTH b →
      ∀ s k c, s < STRAND_COUNT → k < a.lengths s → c < 3 →
        a.colors s (k * 4 + c) = b.colors s (k * 4 + c)) := by
  have hdec : ∀ (x : Strands), (∀ s, s < STRAND_COUNT → x.lengths s ≤ STRAND_LENGTH) →
      ∀ s k c bit, s < STRAND_COUNT → k < x.lengths s → c < 3 → bit < 8 →
      (x.colors s (k * 4 + c)).testBit bit
        = (((ConvertStrandsToFrame STRAND_COUNT STRAND_LENGTH x).getD
              (k * 24 + (2 - c) * 8 + (7 - bit)) 0 + 256 - 0x2C) % 256).testBit s := by
    intro x hxlen s k c bit hs hk hc hbit
    have hkl : k < STRAND_LENGTH := Nat.lt_of_lt_of_le hk (hxlen s hs)
    rw [frame_byte_decode STRAND_COUNT STRAND_LENGTH x hcount k (2 - c) (7 - bit) hkl
      (by omega) (by omega)]
    have e1 : 2 - (2 - c) = c := by omega
    have e2 : 7 - (7 - bit) = bit := by omega
    rw [e1, e2, planeSum_testBit x k c bit STRAND_COUNT s hs]
    simp [hk]
  refine ⟨hdec a hlen, ?_⟩
  intro b hlb hbb hframe s k c hs hk hc
  apply byte_eq_of_testBit _ _ (hbytes _ _) (hbb _ _)
  intro bit hbit
  rw [hdec a hlen s k c bit hs hk hc hbit,
    hdec b (by rw [hlb]; exact hlen) s k c bit hs (by rw [hlb]; exact hk) hc hbit, hframe]

/-- The strand set of the single-strand scenario: bit 7 of the R byte of its
only LED is read back from bit 0 of frame byte 16. -/
theorem ConvertStrandsToFrame_decodes_witness :
    ((1 : Nat) ≤ 8 ∧ (∀ s, s < 1 → scenarioStrands.lengths s ≤ 1) ∧
      (∀ s i, scenarioStrands.colors s i < 256)) ∧
    (scenarioStrands.colors 0 (0 * 4 + 0)).testBit 7
      = (((ConvertStrandsToFrame 1 1 scenarioStrands).getD (0 * 24 + (2 - 0) * 8 + (7 - 7)) 0
            + 256 - 0x2C) % 256).testBit 0 :=
  have hl : ∀ s, s < 1 → scenarioStrands.lengths s ≤ 1 := by
    intro s hs
    unfold scenarioStrands
    simp only
    split <;> omega
  have hb : ∀ s i, scenarioStrands.colors s i < 256 := by
    intro s i
    unfold scenarioStrands
    simp only
    split_ifs <;> norm_num
  ⟨⟨by decide, hl, hb⟩,
   (ConvertStrandsToFrame_decodes 1 1 scenarioStrands (by decide) hl hb).1 0 0 0 7
     (by decide) (by decide) (by decide) (by decide)⟩

/-! ## Kinect: the depth clamp -/

theorem clampDepth_range (v : Nat) : 500 ≤ clampDepth v ∧ clampDepth v ≤ 3000 := by
  unfold clampDepth
  split_ifs <;> omega

/-- The body of the loop of `ClampDepthDataLocked` writes the clamped value. -/
theorem clampBody_eq (i : Nat) (data : List Nat) :
    (if data.getD i 0 < 500 then data.set i 500
      else if data.getD i 0 > 3000 then data.set i 3000 else data)
      = data.set i (clampDepth (data.getD i 0)) := by
  unfold clampDepth
  by_cases h1 : data.getD i 0 < 500
  · rw [if_pos h1, if_pos h1]
  · rw [if_neg h1, if_neg h1]
    by_cases h2 : data.getD i 0 > 3000
    · rw [if_pos h2, if_pos h2]
    · rw [if_neg h2, if_neg h2]
      by_cases hi : i < data.length
      · rw [List.getD_eq_getElem?_getD, List.getElem?_eq_getElem hi]
        simp only [Option.getD_some]
        apply List.ext_getElem?
        intro j
        rw [List.getElem?_set]
        by_cases hij : i = j
        · subst hij
          simp [hi]
        · rw [if_neg hij]
      · rw [List.set_eq_of_length_le (by omega)]

/-- The matrices that `ConnectDevices` creates agree in size. -/
theorem ConnectDevices_mats (k k2 : KinectRangeImpl) (conn : Connection)
    (h : k.ConnectDevices conn = Outcome.ok k2) (hnew : k2.devices_ ≠ k.devices_) :
    k2.devices_ = k.devices_ ++ [conn.device] ∧ k2.width_ > 0 ∧ k2.height_ > 0 ∧
    k2.depth_data_orig_ = Mat.create16UC1 k2.height_ (k2.width_ * conn.device_count) ∧
    k2.depth_data_blur_ = Mat.create16UC1 k2.height_ (k2.width_ * conn.device_count) ∧
    k2.video_data_ = Mat.create8UC3 k2.height_ (k2.width_ * conn.device_count) := by
  unfold KinectRangeImpl.ConnectDevices at h
  simp only at h
  by_cases h1 : conn.open_ok = false
  · rw [if_pos h1] at h
    simp only [Outcome.ok.injEq] at h
    rw [h] at hnew; exact absurd rfl hnew
  · rw [if_neg h1] at h
    cases hc : conn.connected with
    | none =>
      rw [hc] at h
      simp only [Outcome.ok.injEq] at h
      rw [h] at hnew; exact absurd rfl hnew
    | some ok =>
      rw [hc] at h
      cases ok with
      | false =>
        simp only [Outcome.ok.injEq] at h
        rw [h] at hnew; exact absurd rfl hnew
      | true =>
        simp only at h
        by_cases h2 : conn.video_info.enabled = true ∧ conn.depth_info.enabled = true ∧
            ¬ (conn.video_info.width = conn.depth_info.width ∧
                conn.video_info.height = conn.depth_info.height)
        · rw [if_pos h2] at h; cases h
        · rw [if_neg h2] at h
          generalize (if conn.video_info.enabled = true then conn.video_info.width
            else if conn.depth_info.enabled = true then conn.depth_info.width
            else k.width_) = w at h
          generalize (if conn.video_info.enabled = true then conn.video_info.height
            else if conn.depth_info.enabled = true then conn.depth_info.height
            else k.height_) = ht at h
          by_cases h3 : ¬ (w > 0 ∧ ht > 0)
          · rw [if_pos h3] at h; cases h
          · rw [if_neg h3] at h
            simp only [Outcome.ok.injEq] at h
            rw [← h]
            simp only [not_not] at h3
            exact ⟨rfl, h3.1, h3.2, rfl, rfl, rfl⟩

/-- C21: on the matrices that ConnectDevices creates (depth elements of two
bytes, as many video elements as depth values), ClampDepthDataLocked returns
and leaves every element of depth_data_orig in [500, 3000]: a value below 500
becomes 500, a value above 3000 becomes 3000, a value in the range is
unchanged; nothing else changes. -/
theorem ClampDepthDataLocked_range (k : KinectRangeImpl) :
    (∀ (k0 : KinectRangeImpl) (conn : Connection),
      k0.ConnectDevices conn = Outcome.ok k → k.devices_ ≠ k0.devices_ →
      k.depth_data_orig_.elemSize = 2 ∧
      k.video_data_.total = k.depth_data_orig_.data.length) ∧
    (k.depth_data_orig_.elemSize = 2 →
      k.video_data_.total = k.depth_data_orig_.data.length →
      k.video_data_.total < 2 ^ 32 →
      ∃ k2, k.ClampDepthDataLocked = Outcome.ok k2 ∧
        k2 = { k with depth_data_orig_ :=
                { k.depth_data_orig_ with data := k2.depth_data_orig_.data } } ∧
        k2.depth_data_orig_.data.length = k.depth_data_orig_.data.length ∧
        (∀ v ∈ k2.depth_data_orig_.data, 500 ≤ v ∧ v ≤ 3000) ∧
        (∀ i v : Nat, k.depth_data_orig_.data[i]? = some v →
          k2.depth_data_orig_.data[i]?
            = some (if v < 500 then 500 else if v > 3000 then 3000 else v))) := by
  refine ⟨?_, ?_⟩
  · intro k0 conn h hnew
    obtain ⟨_, _, _, e1, _, e2⟩ := ConnectDevices_mats k0 k conn h hnew
    rw [e1, e2]
    simp [Mat.create16UC1, Mat.create8UC3, Mat.total]
  · intro helem htotal _
    have hloop : forLoop k.video_data_.total (fun i data =>
          let distance := data.getD i 0
          if distance < 500 then data.set i 500
          else if distance > 3000 then data.set i 3000
          else data) k.depth_data_orig_.data
        = forLoop k.video_data_.total
            (fun i result => result.set i (clampDepth (result.getD i 0)))
            k.depth_data_orig_.data := by
      congr 1
      funext i data
      exact clampBody_eq i data
    have hget : ∀ i : Nat, (forLoop k.video_data_.total
          (fun i result => result.set i (clampDepth (result.getD i 0)))
          k.depth_data_orig_.data)[i]? = k.depth_data_orig_.data[i]?.map clampDepth := by
      intro i
      rw [offsetLoop_getElem]
      by_cases hi : i < k.video_data_.total
      · rw [if_pos hi]
      · rw [if_neg hi, List.getElem?_eq_none (by omega)]
        rfl
    obtain ⟨d, hd⟩ : ∃ d : List Nat, d = forLoop k.video_data_.total (fun i data =>
          let distance := data.getD i 0
          if distance < 500 then data.set i 500
          else if distance > 3000 then data.set i 3000
          else data) k.depth_data_orig_.data := ⟨_, rfl⟩
    have hres : k.ClampDepthDataLocked
        = Outcome.ok { k with depth_data_orig_ := { k.depth_data_orig_ with data := d } } := by
      unfold KinectRangeImpl.ClampDepthDataLocked
      rw [if_neg (by simp [helem]), hd]
    rw [hloop] at hd
    refine ⟨_, hres, rfl, ?_, ?_, ?_⟩
    · show d.length = _
      rw [hd, offsetLoop_length]
    · intro v hv
      have hv2 : v ∈ d := hv
      rw [hd] at hv2
      obtain ⟨i, hi⟩ := List.getElem?_of_mem hv2
      rw [hget i] at hi
      cases ho : k.depth_data_orig_.data[i]? with
      | none => rw [ho] at hi; cases hi
      | some u =>
        rw [ho] at hi
        simp only [Option.map_some', Option.some.injEq] at hi
        rw [← hi]
        exact clampDepth_range u
    · intro i v hv
      show d[i]? = _
      rw [hd, hget i, hv]
      rfl

/-- Depth values 0, 499, 500, 1200, 3000, 3001, 65535, 2000 are clamped to
500, 500, 500, 1200, 3000, 3000, 3000, 2000. -/
theorem ClampDepthDataLocked_range_witness :
    (depthKinect.depth_data_orig_.elemSize = 2 ∧
      depthKinect.video_data_.total = depthKinect.depth_data_orig_.data.length ∧
      depthKinect.video_data_.total < 2 ^ 32) ∧
    (depthKinect.ClampDepthDataLocked.value?.map (fun k => k.depth_data_orig_.data))
      = some [500, 500, 500, 1200, 3000, 3000, 3000, 2000] ∧
    ∃ k2, depthKinect.ClampDepthDataLocked = Outcome.ok k2 ∧
      k2 = { depthKinect with depth_data_orig_ :=
              { depthKinect.depth_data_orig_ with data := k2.depth_data_orig_.data } } ∧
      k2.depth_data_orig_.data.length = depthKinect.depth_data_orig_.data.length ∧
      (∀ v ∈ k2.depth_data_orig_.data, 500 ≤ v ∧ v ≤ 3000) ∧
      (∀ i v : Nat, depthKinect.depth_data_orig_.data[i]? = some v →
        k2.depth_data_orig_.data[i]?
          = some (if v < 500 then 500 else if v > 3000 then 3000 else v)) :=
  ⟨⟨rfl, by decide, by decide⟩, by decide,
   (ClampDepthDataLocked_range depthKinect).2 rfl (by decide) (by decide)⟩

/-! ## Kinect: the person coordinate -/

theorem poll_flags (w : Int) (n : Nat) (answers : Device → DevicePoll) :
    ∀ (devices : List Device) (a b : Bool) (d v : List Nat),
      (devices.foldl (fun (acc : Bool × Bool × List Nat × List Nat) device =>
          (acc.1 || (answers device).has_depth, acc.2.1 || (answers device).has_video,
            (answers device).depth (w * n * 2) acc.2.2.1,
            (answers device).video (w * n * 3) acc.2.2.2)) (a, b, d, v)).1
        = (a || devices.any (fun device => (answers device).has_depth)) ∧
      (devices.foldl (fun (acc : Bool × Bool × List Nat × List Nat) device =>
          (acc.1 || (answers device).has_depth, acc.2.1 || (answers device).has_video,
            (answers device).depth (w * n * 2) acc.2.2.1,
            (answers device).video (w * n * 3) acc.2.2.2)) (a, b, d, v)).2.1
        = (b || devices.any (fun device => (answers device).has_video)) := by
  intro devices
  induction devices with
  | nil => intro a b d v; simp
  | cons x rest ih =>
    intro a b d v
    simp only [List.foldl_cons, List.any_cons]
    obtain ⟨h1, h2⟩ := ih (a || (answers x).has_depth) (b || (answers x).has_video)
      ((answers x).depth (w * n * 2) d) ((answers x).video (w * n * 3) v)
    rw [h1, h2]
    simp [Bool.or_assoc]

/-- The update flags of a tick: whether some device reported depth data and
whether some device reported video data. -/
theorem MergeImages_poll_flags (k : KinectRangeImpl) (answers : Device → DevicePoll) :
    (MergeImages.poll k answers).1 = k.devices_.any (fun device => (answers device).has_depth) ∧
    (MergeImages.poll k answers).2.1
      = k.devices_.any (fun device => (answers device).has_video) := by
  unfold MergeImages.poll
  obtain ⟨h1, h2⟩ := poll_flags k.width_ k.devices_.length answers k.devices_ false false
    k.depth_data_orig_.data k.video_data_.data
  exact ⟨by simpa using h1, by simpa using h2⟩

/-- `ContrastDepthLocked` changes only the depth matrices. -/
theorem ContrastDepthLocked_fields (ext : KinectExternal) (k k2 : KinectRangeImpl)
    (h : k.ContrastDepthLocked ext = Outcome.ok k2) :
    k2.circles_ = k.circles_ ∧ k2.has_new_depth_image_ = k.has_new_depth_image_ ∧
    k2.has_new_video_image_ = k.has_new_video_image_ ∧ k2.width_ = k.width_ := by
  unfold KinectRangeImpl.ContrastDepthLocked KinectRangeImpl.ClampDepthDataLocked at h
  by_cases he : k.depth_data_orig_.elemSize ≠ 2
  · rw [if_pos he] at h
    cases h
  · rw [if_neg he] at h
    simp only [Outcome.ok.injEq] at h
    rw [← h]
    exact ⟨rfl, rfl, rfl, rfl⟩

/-- The flags and the circles after a tick that returns. -/
theorem MergeImages_fields (ext : KinectExternal) (answers : Device → DevicePoll)
    (k k2 : KinectRangeImpl) (h : k.MergeImages ext answers = Outcome.ok k2) :
    k2.has_new_depth_image_ = (k.has_new_depth_image_ || (MergeImages.poll k answers).1) ∧
    k2.has_new_video_image_ = (k.has_new_video_image_ || (MergeImages.poll k answers).2.1) ∧
    ((MergeImages.poll k answers).1 = false → k2.circles_ = []) ∧
    k2.width_ = k.width_ := by
  unfold KinectRangeImpl.MergeImages at h
  simp only at h
  generalize MergeImages.poll k answers = polled at h ⊢
  obtain ⟨hd, hv, dd, vd⟩ := polled
  simp only at h ⊢
  cases hd with
  | false =>
    simp only [Bool.false_eq_true, if_false] at h
    cases hv with
    | false =>
      simp only [Bool.false_eq_true, if_false, Outcome.ok.injEq] at h
      rw [← h]
      simp
    | true =>
      simp only [if_true, Outcome.ok.injEq] at h
      rw [← h]
      simp
  | true =>
    simp only [if_true] at h
    generalize hk1 : ({ k with
      depth_data_orig_ := { k.depth_data_orig_ with data := dd },
      video_data_ := { k.video_data_ with data := vd },
      circles_ := [] } : KinectRangeImpl) = k1 at h
    have hf := ContrastDepthLocked_fields ext k1
    cases hc : k1.ContrastDepthLocked ext with
    | null => rw [hc] at h; cases h
    | fault => rw [hc] at h; cases h
    | ok k3 =>
      rw [hc] at h
      obtain ⟨_, _, f3, f4⟩ := hf k3 hc
      have e3 : k1.has_new_video_image_ = k.has_new_video_image_ := by rw [← hk1]
      have e4 : k1.width_ = k.width_ := by rw [← hk1]
      cases hv with
      | false =>
        simp only [Bool.false_eq_true, if_false, Outcome.ok.injEq] at h
        rw [← h]
        simp [KinectRangeImpl.FindContoursLocked, f3, f4, e3, e4]
      | true =>
        simp only [if_true, Outcome.ok.injEq] at h
        rw [← h]
        simp [KinectRangeImpl.FindContoursLocked, f4, e4]

/-- A tick without a depth update returns. -/
theorem MergeImages_no_depth (ext : KinectExternal) (answers : Device → DevicePoll)
    (k : KinectRangeImpl) (hno : (MergeImages.poll k answers).1 = false) :
    ∃ k2, k.MergeImages ext answers = Outcome.ok k2 := by
  unfold KinectRangeImpl.MergeImages
  simp only
  rw [hno]
  simp only [Bool.false_eq_true, if_false]
  split_ifs
  · exact ⟨_, rfl⟩
  · exact ⟨_, rfl⟩

/-- The circles of the previous tick play no part in a tick. -/
theorem MergeImages_clears (ext : KinectExternal) (answers : Device → DevicePoll)
    (k : KinectRangeImpl) :
    k.MergeImages ext answers
      = ({ k with circles_ := [] } : KinectRangeImpl).MergeImages ext answers := by
  unfold KinectRangeImpl.MergeImages
  rfl

theorem ConnectDevices_flags (k k2 : KinectRangeImpl) (conn : Connection)
    (h : k.ConnectDevices conn = Outcome.ok k2) :
    k2.has_new_depth_image_ = k.has_new_depth_image_ ∧
    k2.has_new_video_image_ = k.has_new_video_image_ := by
  by_cases hnew : k2.devices_ = k.devices_
  · unfold KinectRangeImpl.ConnectDevices at h
    simp only at h
    by_cases h1 : conn.open_ok = false
    · rw [if_pos h1] at h
      simp only [Outcome.ok.injEq] at h
      rw [h]; exact ⟨rfl, rfl⟩
    · rw [if_neg h1] at h
      cases hc : conn.connected with
      | none =>
        rw [hc] at h
        simp only [Outcome.ok.injEq] at h
        rw [h]; exact ⟨rfl, rfl⟩
      | some ok =>
        rw [hc] at h
        cases ok with
        | false =>
          simp only [Outcome.ok.injEq] at h
          rw [h]; exact ⟨rfl, rfl⟩
        | true =>
          simp only at h
          split_ifs at h <;> simp only [Outcome.ok.injEq] at h <;> rw [← h] <;>
            exact ⟨rfl, rfl⟩
  · unfold KinectRangeImpl.ConnectDevices at h
    simp only at h
    split at h
    · simp only [Outcome.ok.injEq] at h
      rw [h]; exact ⟨rfl, rfl⟩
    · split at h
      · simp only [Outcome.ok.injEq] at h
        rw [h]; exact ⟨rfl, rfl⟩
      · simp only [Outcome.ok.injEq] at h
        rw [h]; exact ⟨rfl, rfl⟩
      · split_ifs at h <;> simp only [Outcome.ok.injEq] at h <;> rw [← h] <;>
          exact ⟨rfl, rfl⟩

/-- C30: MergeImages empties circles on every tick, so the circles of the
previous tick play no part in it. On a tick in which no device reports a
depth update the call returns with circles empty, GetPersonCoordX is -1 and
has_new_depth_image keeps its previous value. On every tick that returns,
has_new_depth_image and has_new_video_image are their previous values or'ed
with the update flags of the tick: MergeImages sets them and never clears
them, and the other operations (the two GetAndClear calls,
ClampDepthDataLocked, ConnectDevices) never set them. -/
theorem MergeImages_tick (ext : KinectExternal) (answers : Device → DevicePoll)
    (k : KinectRangeImpl) :
    k.MergeImages ext answers
      = ({ k with circles_ := [] } : KinectRangeImpl).MergeImages ext answers ∧
    ((∀ d ∈ k.devices_, (answers d).has_depth = false) →
      ∃ k2, k.MergeImages ext answers = Outcome.ok k2 ∧ k2.circles_ = [] ∧
        k2.GetPersonCoordX = -1 ∧ k2.has_new_depth_image_ = k.has_new_depth_image_) ∧
    (∀ k2, k.MergeImages ext answers = Outcome.ok k2 →
      k2.has_new_depth_image_
        = (k.has_new_depth_image_ || k.devices_.any (fun d => (answers d).has_depth)) ∧
      k2.has_new_video_image_
        = (k.has_new_video_image_ || k.devices_.any (fun d => (answers d).has_video)) ∧
      (k.has_new_depth_image_ = true → k2.has_new_depth_image_ = true) ∧
      (k.has_new_video_image_ = true → k2.has_new_video_image_ = true)) ∧
    (∀ heap : Nat → Nat,
      ((k.GetAndClearLastVideoImage heap).2.has_new_video_image_ = false ∨
        (k.GetAndClearLastVideoImage heap).2.has_new_video_image_ = k.has_new_video_image_) ∧
      (k.GetAndClearLastVideoImage heap).2.has_new_depth_image_ = k.has_new_depth_image_) ∧
    (((k.GetAndClearLastDepthColorImage ext).2.has_new_depth_image_ = false ∨
        (k.GetAndClearLastDepthColorImage ext).2.has_new_depth_image_
          = k.has_new_depth_image_) ∧
      (k.GetAndClearLastDepthColorImage ext).2.has_new_video_image_ = k.has_new_video_image_) ∧
    (∀ k2, k.ClampDepthDataLocked = Outcome.ok k2 →
      k2.has_new_depth_image_ = k.has_new_depth_image_ ∧
      k2.has_new_video_image_ = k.has_new_video_image_) ∧
    (∀ conn k2, k.ConnectDevices conn = Outcome.ok k2 →
      k2.has_new_depth_image_ = k.has_new_depth_image_ ∧
      k2.has_new_video_image_ = k.has_new_video_image_) := by
  obtain ⟨p1, p2⟩ := MergeImages_poll_flags k answers
  refine ⟨MergeImages_clears ext answers k, ?_, ?_, ?_, ?_, ?_, ?_⟩
  · intro hno
    have hfalse : (MergeImages.poll k answers).1 = false := by
      rw [p1]
      simp only [List.any_eq_false, Bool.not_eq_true]
      exact hno
    obtain ⟨k2, hk2⟩ := MergeImages_no_depth ext answers k hfalse
    obtain ⟨f1, _, f3, _⟩ := MergeImages_fields ext answers k k2 hk2
    refine ⟨k2, hk2, f3 hfalse, ?_, ?_⟩
    · unfold KinectRangeImpl.GetPersonCoordX
      rw [f3 hfalse]
    · rw [f1, hfalse, Bool.or_false]
  · intro k2 hk2
    obtain ⟨f1, f2, _, _⟩ := MergeImages_fields ext answers k k2 hk2
    rw [p1] at f1
    rw [p2] at f2
    refine ⟨f1, f2, ?_, ?_⟩
    · intro ht; rw [f1, ht]; rfl
    · intro ht; rw [f2, ht]; rfl
  · intro heap
    unfold KinectRangeImpl.GetAndClearLastVideoImage
    split_ifs
    · exact ⟨Or.inr rfl, rfl⟩
    · exact ⟨Or.inl rfl, rfl⟩
  · unfold KinectRangeImpl.GetAndClearLastDepthColorImage
    split_ifs
    · exact ⟨Or.inr rfl, rfl⟩
    · exact ⟨Or.inl rfl, rfl⟩
  · intro k2 h
    unfold KinectRangeImpl.ClampDepthDataLocked at h
    split_ifs at h
    simp only [Outcome.ok.injEq] at h
    rw [← h]
    exact ⟨rfl, rfl⟩
  · intro conn k2 h
    exact ConnectDevices_flags k k2 conn h

/-- A person was detected on the previous tick; on a tick in which the device
reports nothing the circles are gone and GetPersonCoordX is -1, while
has_new_depth_image stays true. -/
theorem MergeImages_tick_witness :
    (personKinect.GetPersonCoordX = 3 / 4 ∧
      ∀ d ∈ personKinect.devices_, (silentDevices d).has_depth = false) ∧
    ∃ k2, personKinect.MergeImages plainKinectExternal silentDevices = Outcome.ok k2 ∧
      k2.circles_ = [] ∧ k2.GetPersonCoordX = -1 ∧
      k2.has_new_depth_image_ = personKinect.has_new_depth_image_ :=
  ⟨⟨by simp only [KinectRangeImpl.GetPersonCoordX, personKinect, depthKinect]; norm_num,
    fun _ _ => rfl⟩,
   (MergeImages_tick plainKinectExternal silentDevices personKinect).2.1 (fun _ _ => rfl)⟩

/-! ## Kinect: the video image -/

/-- C23: a 2 x 1 video image with the pixels (1, 2, 3) and (4, 5, 6) is
pending. GetAndClearLastVideoImage returns 8 bytes and clears
has_new_video_image; the RGB bytes are copied and the alpha byte of pixel 0
(byte 3) is 0, but the alpha byte of pixel 1 (byte 7) is never written: it
is whatever the fresh buffer held (170 in one run, 85 in another), because
the source writes `dst_row[3]` for every x. -/
theorem GetAndClearLastVideoImage_alpha_not_set :
    (videoKinect.has_new_video_image_ = true ∧ videoKinect.GetWidth = 2 ∧
      videoKinect.GetHeight = 1) ∧
    (videoKinect.GetAndClearLastVideoImage (fun _ => 170)).1
      = some [1, 2, 3, 0, 4, 5, 6, 170] ∧
    (videoKinect.GetAndClearLastVideoImage (fun _ => 85)).1
      = some [1, 2, 3, 0, 4, 5, 6, 85] ∧
    (videoKinect.GetAndClearLastVideoImage (fun _ => 170)).2.has_new_video_image_ = false ∧
    (({ videoKinect with has_new_video_image_ := false } :
        KinectRangeImpl).GetAndClearLastVideoImage (fun _ => 170)).1 = none := by
  decide

end DfPlayer
